import Mathlib

/-!
# LibOSDP peripheral-device role: decoding commands and building replies

A shallow embedding of `src/osdp_pd.c` (with the enums of `include/osdp.h`).
Byte arrays are lists of naturals read with `rd` and written with `wr`;
pointers to command objects are indices into the command slab; a C `int`
is an `Int`.  The declarations of `osdp_common.h`, the secure-channel
routines of `osdp_sc.c` and the packet layer `osdp_phy.c` are not translated:
their constants are the fields of `Consts`, their routines the fields of
`ScOps`, and the packet layout is passed to `pd_build_reply` as the data
offset and the position of the secure-channel block.
-/

namespace Osdp

/-! ## Byte arrays -/

/-- Read of `buf[i]`; a cell that was never written reads as 0. -/
def rd : List Nat → Nat → Nat
  | [], _ => 0
  | h :: _, 0 => h
  | _ :: t, i + 1 => rd t i

/-- Write `buf[i] = v`. -/
def wr : List Nat → Nat → Nat → List Nat
  | [], 0, v => [v]
  | [], i + 1, v => 0 :: wr [] i v
  | _ :: t, 0, v => v :: t
  | h :: t, i + 1, v => h :: wr t i v

/-- The loop `for (i = 0; i < n; i++) dst[d + i] = src[s + i];`, which is also
what `memcpy(dst + d, src + s, n)` does. -/
def copy_bytes (dst : List Nat) (d : Nat) (src : List Nat) (s : Nat) : Nat → List Nat
  | 0 => dst
  | n + 1 => copy_bytes (wr dst d (rd src s)) (d + 1) src (s + 1) n

/-! ## Constants -/

/-- Modelled from the spec: the command and reply codes, the secure-channel
block types and the flag masks that `osdp_pd.c` takes from `osdp_common.h`,
which is not translated.  They are parameters of the model. -/
structure Consts where
  CMD_POLL : Nat
  CMD_LSTAT : Nat
  CMD_ISTAT : Nat
  CMD_OSTAT : Nat
  CMD_RSTAT : Nat
  CMD_ID : Nat
  CMD_CAP : Nat
  CMD_OUT : Nat
  CMD_LED : Nat
  CMD_BUZ : Nat
  CMD_TEXT : Nat
  CMD_COMSET : Nat
  CMD_KEYSET : Nat
  CMD_CHLNG : Nat
  CMD_SCRYPT : Nat
  REPLY_ACK : Nat
  REPLY_NAK : Nat
  REPLY_PDID : Nat
  REPLY_PDCAP : Nat
  REPLY_LSTATR : Nat
  REPLY_ISTATR : Nat
  REPLY_OSTATR : Nat
  REPLY_RSTATR : Nat
  REPLY_COM : Nat
  REPLY_CCRYPT : Nat
  REPLY_RMAC_I : Nat
  SCS_12 : Nat
  SCS_14 : Nat
  SCS_16 : Nat
  SCS_18 : Nat
  PD_FLAG_TAMPER : Nat
  PD_FLAG_POWER : Nat
  PD_FLAG_R_TAMPER : Nat
  PD_FLAG_SC_USE_SCBKD : Nat
  PD_FLAG_SC_ACTIVE : Nat
  PD_FLAG_INSTALL_MODE : Nat
  PD_FLAG_PD_MODE : Nat

/-- The `case` labels of the switch in `pd_decode_command`. -/
def Consts.cmd_labels (K : Consts) : List Nat :=
  [K.CMD_POLL, K.CMD_LSTAT, K.CMD_ISTAT, K.CMD_OSTAT, K.CMD_RSTAT, K.CMD_ID, K.CMD_CAP,
   K.CMD_OUT, K.CMD_LED, K.CMD_BUZ, K.CMD_TEXT, K.CMD_COMSET, K.CMD_KEYSET, K.CMD_CHLNG,
   K.CMD_SCRYPT]

/-- The `case` labels of the switch in `pd_build_reply`. -/
def Consts.reply_labels (K : Consts) : List Nat :=
  [K.REPLY_ACK, K.REPLY_PDID, K.REPLY_PDCAP, K.REPLY_LSTATR, K.REPLY_RSTATR, K.REPLY_COM,
   K.REPLY_NAK, K.REPLY_CCRYPT, K.REPLY_RMAC_I]

/-- The reply codes that `pd_decode_command` assigns. -/
def Consts.reply_ids (K : Consts) : List Nat :=
  [K.REPLY_ACK, K.REPLY_NAK, K.REPLY_PDID, K.REPLY_PDCAP, K.REPLY_LSTATR, K.REPLY_ISTATR,
   K.REPLY_OSTATR, K.REPLY_RSTATR, K.REPLY_COM, K.REPLY_CCRYPT, K.REPLY_RMAC_I]

/-- The flag masks used by the PD role. -/
def Consts.flag_masks (K : Consts) : List Nat :=
  [K.PD_FLAG_TAMPER, K.PD_FLAG_POWER, K.PD_FLAG_R_TAMPER, K.PD_FLAG_SC_USE_SCBKD,
   K.PD_FLAG_SC_ACTIVE, K.PD_FLAG_INSTALL_MODE, K.PD_FLAG_PD_MODE]

/-- What any C compilation of `osdp_pd.c` needs of the constants, and what the
code relies on: the labels of each switch are pairwise distinct, and so are
the reply codes; every code is a byte, no reply code is 0 (0 marks "no reply
chosen yet"), and the flag masks are non-zero 32-bit masks without a common
bit. -/
structure Consts.WF (K : Consts) : Prop where
  cmds_nodup : K.cmd_labels.Nodup
  replies_nodup : K.reply_labels.Nodup
  reply_ids_nodup : K.reply_ids.Nodup
  cmds_byte : ∀ c ∈ K.cmd_labels, c < 256
  replies_byte : ∀ r ∈ K.reply_ids, 0 < r ∧ r < 256
  scs_order : K.SCS_12 ≤ K.SCS_14 ∧ K.SCS_14 < K.SCS_16 ∧ K.SCS_14 < K.SCS_18 ∧ K.SCS_18 < 256
  flags_pos : ∀ f ∈ K.flag_masks, 0 < f ∧ f < 2 ^ 32
  flags_disjoint : K.flag_masks.Pairwise (fun a b => a &&& b = 0)

/-- The values of the OSDP standard (POLL = 0x60, ID = 0x61, ACK = 0x40, ...),
used wherever a concrete instance of the constants is evaluated. -/
def std : Consts where
  CMD_POLL := 0x60
  CMD_ID := 0x61
  CMD_CAP := 0x62
  CMD_LSTAT := 0x64
  CMD_ISTAT := 0x65
  CMD_OSTAT := 0x66
  CMD_RSTAT := 0x67
  CMD_OUT := 0x68
  CMD_LED := 0x69
  CMD_BUZ := 0x6A
  CMD_TEXT := 0x6B
  CMD_COMSET := 0x6E
  CMD_KEYSET := 0x75
  CMD_CHLNG := 0x76
  CMD_SCRYPT := 0x77
  REPLY_ACK := 0x40
  REPLY_NAK := 0x41
  REPLY_PDID := 0x45
  REPLY_PDCAP := 0x46
  REPLY_LSTATR := 0x48
  REPLY_ISTATR := 0x49
  REPLY_OSTATR := 0x4A
  REPLY_RSTATR := 0x4B
  REPLY_COM := 0x54
  REPLY_CCRYPT := 0x76
  REPLY_RMAC_I := 0x78
  SCS_12 := 0x12
  SCS_14 := 0x14
  SCS_16 := 0x16
  SCS_18 := 0x18
  PD_FLAG_TAMPER := 0x00000002
  PD_FLAG_POWER := 0x00000004
  PD_FLAG_R_TAMPER := 0x00000008
  PD_FLAG_SC_USE_SCBKD := 0x00000080
  PD_FLAG_SC_ACTIVE := 0x00000100
  PD_FLAG_INSTALL_MODE := 0x40000000
  PD_FLAG_PD_MODE := 0x80000000

/-- NAK reason `OSDP_PD_NAK_CMD_UNKNOWN` of `enum osdp_pd_nak_code_e`. -/
def OSDP_PD_NAK_CMD_UNKNOWN : Nat := 3

/-- NAK reason `OSDP_PD_NAK_SC_UNSUP` of `enum osdp_pd_nak_code_e`. -/
def OSDP_PD_NAK_SC_UNSUP : Nat := 5

/-- NAK reason `OSDP_PD_NAK_SC_COND` of `enum osdp_pd_nak_code_e`. -/
def OSDP_PD_NAK_SC_COND : Nat := 6

/-- NAK reason `OSDP_PD_NAK_RECORD` of `enum osdp_pd_nak_code_e`. -/
def OSDP_PD_NAK_RECORD : Nat := 9

/-- Command id `OSDP_CMD_OUTPUT` of `enum osdp_cmd_e`. -/
def OSDP_CMD_OUTPUT : Nat := 1

/-- Command id `OSDP_CMD_LED` of `enum osdp_cmd_e`. -/
def OSDP_CMD_LED : Nat := 2

/-- Command id `OSDP_CMD_BUZZER` of `enum osdp_cmd_e`. -/
def OSDP_CMD_BUZZER : Nat := 3

/-- Command id `OSDP_CMD_TEXT` of `enum osdp_cmd_e`. -/
def OSDP_CMD_TEXT : Nat := 4

/-- Command id `OSDP_CMD_KEYSET` of `enum osdp_cmd_e`. -/
def OSDP_CMD_KEYSET : Nat := 5

/-- Command id `OSDP_CMD_COMSET` of `enum osdp_cmd_e`. -/
def OSDP_CMD_COMSET : Nat := 6

/-- Capability code of communication security in
`enum osdp_pd_cap_function_code_e`. -/
def CAP_COMMUNICATION_SECURITY : Nat := 9

/-- The sentinel closing `enum osdp_pd_cap_function_code_e`. -/
def CAP_SENTINEL : Nat := 15

/-! ## Data model -/

/-- Modelled from the spec: the flag macro `ISSET_FLAG(p, f)` of
`osdp_common.h`, that is `((p)->flags & (f)) == (f)`. -/
def ISSET_FLAG (flags f : Nat) : Bool := (flags &&& f) == f

/-- Modelled from the spec: the flag macro `SET_FLAG(p, f)` of
`osdp_common.h`, that is `(p)->flags |= (f)`. -/
def SET_FLAG (flags f : Nat) : Nat := flags ||| f

/-- Modelled from the spec: the flag macro `CLEAR_FLAG(p, f)` of
`osdp_common.h`, that is `(p)->flags &= ~(f)` on the 32-bit flag word. -/
def CLEAR_FLAG (flags f : Nat) : Nat := flags &&& (0xFFFFFFFF ^^^ f)

/-- The value of a C condition stored into a byte. -/
def bool_byte (b : Bool) : Nat := if b then 1 else 0

/-- Output command record, `cmd->output`. -/
structure osdp_cmd_output where
  output_no : Nat
  control_code : Nat
  tmr_count : Nat
  deriving DecidableEq

/-- One half (temporary or permanent) of the LED command record. -/
structure osdp_cmd_led_params where
  control_code : Nat
  on_count : Nat
  off_count : Nat
  on_color : Nat
  off_color : Nat
  timer : Nat
  deriving DecidableEq

/-- LED command record, `cmd->led`. -/
structure osdp_cmd_led where
  reader : Nat
  led_number : Nat
  temporary : osdp_cmd_led_params
  permanent : osdp_cmd_led_params
  deriving DecidableEq

/-- Buzzer command record, `cmd->buzzer`. -/
structure osdp_cmd_buzzer where
  reader : Nat
  tone_code : Nat
  on_count : Nat
  off_count : Nat
  rep_count : Nat
  deriving DecidableEq

/-- Text command record, `cmd->text`; `data` has `OSDP_CMD_TEXT_MAX_LEN` cells. -/
structure osdp_cmd_text where
  reader : Nat
  cmd : Nat
  temp_time : Nat
  offset_row : Nat
  offset_col : Nat
  length : Nat
  data : List Nat
  deriving DecidableEq

/-- Comset command record, `cmd->comset`. -/
structure osdp_cmd_comset where
  addr : Nat
  baud : Nat
  deriving DecidableEq

/-- Keyset command record, `cmd->keyset`; `data` has
`OSDP_CMD_KEYSET_KEY_MAX_LEN` cells. -/
structure osdp_cmd_keyset where
  key_type : Nat
  len : Nat
  data : List Nat
  deriving DecidableEq

/-- A command object, `struct osdp_cmd`, as `osdp_pd.c` uses it: the queue
link `__next` (an index into the slab), the id, and the members of the union.
The members are kept side by side: the code reads only the member it wrote. -/
structure osdp_cmd where
  next : Option Nat
  id : Nat
  cmd_bytes : List Nat
  output : osdp_cmd_output
  led : osdp_cmd_led
  buzzer : osdp_cmd_buzzer
  text : osdp_cmd_text
  comset : osdp_cmd_comset
  keyset : osdp_cmd_keyset
  deriving DecidableEq

/-- One block of the command slab. -/
structure osdp_slab_blk where
  in_use : Bool
  data : osdp_cmd
  deriving DecidableEq

/-- Modelled from the spec: the command slab of `struct osdp` ("queued command
objects are allocated from a bounded slab ... and returned on dequeue"), a
fixed array of blocks. The allocator itself is not translated. -/
structure osdp_slab where
  blks : List osdp_slab_blk
  deriving DecidableEq

/-- The command queue of a PD: `front` and `back` point into the slab. -/
structure osdp_cmd_queue where
  front : Option Nat
  back : Option Nat
  deriving DecidableEq

/-- The secure-channel block `pd->sc`. -/
structure osdp_secure_channel where
  scbk : List Nat
  s_enc : List Nat
  s_mac1 : List Nat
  s_mac2 : List Nat
  r_mac : List Nat
  c_mac : List Nat
  cp_random : List Nat
  pd_random : List Nat
  pd_client_uid : List Nat
  cp_cryptogram : List Nat
  pd_cryptogram : List Nat
  deriving DecidableEq

/-- One entry of the capability table, `struct pd_cap`. -/
structure pd_cap where
  function_code : Nat
  compliance_level : Nat
  num_items : Nat
  deriving DecidableEq

/-- The identity record, `struct pd_id`. -/
structure pd_id where
  version : Int
  model : Int
  vendor_code : Nat
  serial_number : Nat
  firmware_version : Nat
  deriving DecidableEq

/-- The channel record; the callbacks are opaque handles, `flush` may be NULL. -/
structure osdp_channel where
  data : Nat
  id : Int
  recv : Nat
  send : Nat
  flush : Option Nat
  deriving DecidableEq

/-- The states of the PD state machine. -/
inductive pd_state where
  | PD_STATE_IDLE
  | PD_STATE_SEND_REPLY
  | PD_STATE_ERR
  deriving DecidableEq

/-- The PD record, `struct osdp_pd`, with the fields `osdp_pd.c` touches. -/
structure osdp_pd where
  offset : Int
  baud_rate : Int
  address : Int
  flags : Nat
  seq_number : Int
  state : pd_state
  tstamp : Int
  rx_buf : List Nat
  rx_buf_len : Int
  cmd_id : Nat
  reply_id : Nat
  id : pd_id
  cap : List pd_cap
  sc : osdp_secure_channel
  queue : osdp_cmd_queue
  channel : osdp_channel
  deriving DecidableEq

/-- Modelled from the spec: the routines of the secure-channel engine
(`osdp_sc.c`, not translated) that the PD role calls. Each receives
the PD record; `osdp_verify_cp_cryptogram` returns 0 when the CP cryptogram
verifies. -/
structure ScOps where
  osdp_sc_init : osdp_pd → osdp_pd
  osdp_compute_session_keys : osdp_pd → osdp_pd
  osdp_compute_pd_cryptogram : osdp_pd → osdp_pd
  osdp_compute_rmac_i : osdp_pd → osdp_pd
  osdp_verify_cp_cryptogram : osdp_pd → Int

/-- The entry `pd->cap[i]`. -/
def cap_at (cap : List pd_cap) (i : Nat) : pd_cap :=
  cap.getD i ⟨0, 0, 0⟩

/-! ## The command slab and the queue -/

/-- Index of the first free block. -/
def slab_find_free : List osdp_slab_blk → Option Nat
  | [] => none
  | b :: t => if b.in_use then (slab_find_free t).map (· + 1) else some 0

/-- Apply `f` to block `i`. -/
def slab_modify (s : osdp_slab) (i : Nat) (f : osdp_slab_blk → osdp_slab_blk) : osdp_slab :=
  ⟨s.blks.modify f i⟩

/-- Apply `f` to the command object held in block `i` (a write through the
pointer `cmd`). -/
def slab_update (s : osdp_slab) (i : Nat) (f : osdp_cmd → osdp_cmd) : osdp_slab :=
  slab_modify s i (fun b => { b with data := f b.data })

/-- Modelled from the spec: `osdp_slab_alloc`, which hands out a free block of
the bounded slab and marks it used, or returns NULL when none is free. -/
def osdp_slab_alloc (s : osdp_slab) : Option (Nat × osdp_slab) :=
  match slab_find_free s.blks with
  | none => none
  | some i => some (i, slab_modify s i (fun b => { b with in_use := true }))

/-- Modelled from the spec: `osdp_slab_free`, which returns a block to the slab. -/
def osdp_slab_free (s : osdp_slab) (i : Nat) : osdp_slab :=
  slab_modify s i (fun b => { b with in_use := false })

/-- Translation of `pd_enqueue_command`; `none` is the failure of
`assert(q->back)`. -/
def pd_enqueue_command (pd : osdp_pd) (s : osdp_slab) (cmd : Nat) :
    Option (osdp_pd × osdp_slab) :=
  let s1 := slab_update s cmd (fun c => { c with next := none })
  match pd.queue.front with
  | none => some ({ pd with queue := { front := some cmd, back := some cmd } }, s1)
  | some _ =>
    match pd.queue.back with
    | none => none
    | some b =>
      some ({ pd with queue := { pd.queue with back := some cmd } },
            slab_update s1 b (fun c => { c with next := some cmd }))

/-! ## pd_decode_command -/

/-- The variables of `pd_decode_command` when its switch is left: the PD
record, the slab, the reply record and the locals `ret` and `pos`. -/
structure decode_state where
  pd : osdp_pd
  slab : osdp_slab
  reply : osdp_cmd
  ret : Int
  pos : Nat
  deriving DecidableEq

/-- The two statements `reply->id = id; ret = 0;`. -/
def reply_ok (st : decode_state) (id : Nat) : decode_state :=
  { st with reply := { st.reply with id := id }, ret := 0 }

/-- The two statements `reply->id = REPLY_NAK; reply->cmd_bytes[0] = code;`. -/
def reply_nak (K : Consts) (r : osdp_cmd) (code : Nat) : osdp_cmd :=
  { r with id := K.REPLY_NAK, cmd_bytes := wr r.cmd_bytes 0 code }

/-- The statements `pd_enqueue_command(pd, cmd); reply->id = id; ret = 0;`
closing the cases that hand a command to the application. -/
def enqueue_reply (st : decode_state) (cmd : Nat) (id : Nat) : Option decode_state :=
  match pd_enqueue_command st.pd st.slab cmd with
  | none => none
  | some (pd1, s1) => some (reply_ok { st with pd := pd1, slab := s1 } id)

/-- The writes of case `CMD_OUT` into the command object; `p` is `pos`. -/
def fill_out (buf : List Nat) (p : Nat) (c : osdp_cmd) : osdp_cmd :=
  { c with
    id := OSDP_CMD_OUTPUT
    output :=
      { output_no := rd buf p
        control_code := rd buf (p + 1)
        tmr_count := (rd buf (p + 2) ||| (rd buf (p + 3) <<< 8)) % 2 ^ 16 } }

/-- Case `CMD_OUT`. -/
def decode_out (K : Consts) (st : decode_state) (buf : List Nat) (len : Int) :
    Option decode_state :=
  if len ≠ 4 then some st
  else
    match osdp_slab_alloc st.slab with
    | none => some st
    | some (cmd, s1) =>
      enqueue_reply { st with slab := slab_update s1 cmd (fill_out buf st.pos), pos := st.pos + 4 }
        cmd K.REPLY_OSTATR

/-- The writes of case `CMD_LED` into the command object; `p` is `pos`. -/
def fill_led (buf : List Nat) (p : Nat) (c : osdp_cmd) : osdp_cmd :=
  { c with
    id := OSDP_CMD_LED
    led :=
      { reader := rd buf p
        led_number := rd buf (p + 1)
        temporary :=
          { control_code := rd buf (p + 2)
            on_count := rd buf (p + 3)
            off_count := rd buf (p + 4)
            on_color := rd buf (p + 5)
            off_color := rd buf (p + 6)
            timer := (rd buf (p + 7) ||| (rd buf (p + 8) <<< 8)) % 2 ^ 16 }
        permanent :=
          { c.led.permanent with
            control_code := rd buf (p + 9)
            on_count := rd buf (p + 10)
            off_count := rd buf (p + 11)
            on_color := rd buf (p + 12)
            off_color := rd buf (p + 13) } } }

/-- Case `CMD_LED`. -/
def decode_led (K : Consts) (st : decode_state) (buf : List Nat) (len : Int) :
    Option decode_state :=
  if len ≠ 14 then some st
  else
    match osdp_slab_alloc st.slab with
    | none => some st
    | some (cmd, s1) =>
      enqueue_reply { st with slab := slab_update s1 cmd (fill_led buf st.pos), pos := st.pos + 14 }
        cmd K.REPLY_ACK

/-- The writes of case `CMD_BUZ` into the command object; `p` is `pos`. -/
def fill_buz (buf : List Nat) (p : Nat) (c : osdp_cmd) : osdp_cmd :=
  { c with
    id := OSDP_CMD_BUZZER
    buzzer :=
      { reader := rd buf p
        tone_code := rd buf (p + 1)
        on_count := rd buf (p + 2)
        off_count := rd buf (p + 3)
        rep_count := rd buf (p + 4) } }

/-- Case `CMD_BUZ`. -/
def decode_buz (K : Consts) (st : decode_state) (buf : List Nat) (len : Int) :
    Option decode_state :=
  if len ≠ 5 then some st
  else
    match osdp_slab_alloc st.slab with
    | none => some st
    | some (cmd, s1) =>
      enqueue_reply { st with slab := slab_update s1 cmd (fill_buz buf st.pos), pos := st.pos + 5 }
        cmd K.REPLY_ACK

/-- The writes of case `CMD_TEXT` into the command object up to the check of
the text length; `p` is `pos`. -/
def fill_text_head (buf : List Nat) (p : Nat) (c : osdp_cmd) : osdp_cmd :=
  { c with
    id := OSDP_CMD_TEXT
    text :=
      { c.text with
        reader := rd buf p
        cmd := rd buf (p + 1)
        temp_time := rd buf (p + 2)
        offset_row := rd buf (p + 3)
        offset_col := rd buf (p + 4)
        length := rd buf (p + 5) } }

/-- The loop of case `CMD_TEXT` that copies `cmd->text.length` bytes of text. -/
def fill_text_data (buf : List Nat) (p : Nat) (c : osdp_cmd) : osdp_cmd :=
  { c with text := { c.text with data := copy_bytes c.text.data 0 buf (p + 6) c.text.length } }

/-- Case `CMD_TEXT`. -/
def decode_text (K : Consts) (st : decode_state) (buf : List Nat) (len : Int) :
    Option decode_state :=
  if len < 7 then some st
  else
    match osdp_slab_alloc st.slab with
    | none => some st
    | some (cmd, s1) =>
      let s2 := slab_update s1 cmd (fill_text_head buf st.pos)
      if rd buf (st.pos + 5) > 32 then some { st with slab := s2, pos := st.pos + 6 }
      else
        enqueue_reply
          { st with
            slab := slab_update s2 cmd (fill_text_data buf st.pos)
            pos := st.pos + 6 + rd buf (st.pos + 5) }
          cmd K.REPLY_ACK

/-- The writes of case `CMD_COMSET` into the command object; `p` is `pos`. -/
def fill_comset (buf : List Nat) (p : Nat) (c : osdp_cmd) : osdp_cmd :=
  { c with
    id := OSDP_CMD_COMSET
    comset :=
      { addr := rd buf p
        baud := (rd buf (p + 1) ||| (rd buf (p + 2) <<< 8) ||| (rd buf (p + 3) <<< 16)
                  ||| (rd buf (p + 4) <<< 24)) % 2 ^ 32 } }

/-- Case `CMD_COMSET`. -/
def decode_comset (K : Consts) (st : decode_state) (buf : List Nat) (len : Int) :
    Option decode_state :=
  if len ≠ 5 then some st
  else
    match osdp_slab_alloc st.slab with
    | none => some st
    | some (cmd, s1) =>
      enqueue_reply
        { st with slab := slab_update s1 cmd (fill_comset buf st.pos), pos := st.pos + 5 }
        cmd K.REPLY_COM

/-- The writes of case `CMD_KEYSET` into the command object; `p` is `pos`. -/
def fill_keyset (buf : List Nat) (p : Nat) (c : osdp_cmd) : osdp_cmd :=
  { c with
    id := OSDP_CMD_KEYSET
    keyset :=
      { key_type := rd buf p
        len := rd buf (p + 1)
        data := copy_bytes c.keyset.data 0 buf (p + 2) 16 } }

/-- The statement `memcpy(pd->sc.scbk, buf + pos, 16)` of case `CMD_KEYSET`,
`pos` standing behind the two bytes of key type and key length. -/
def store_scbk (pd : osdp_pd) (buf : List Nat) (p : Nat) : osdp_pd :=
  { pd with sc := { pd.sc with scbk := copy_bytes pd.sc.scbk 0 buf (p + 2) 16 } }

/-- The two statements `CLEAR_FLAG(pd, PD_FLAG_SC_USE_SCBKD);
CLEAR_FLAG(pd, PD_FLAG_INSTALL_MODE);` of case `CMD_KEYSET`. -/
def clear_key_flags (K : Consts) (pd : osdp_pd) : osdp_pd :=
  { pd with flags :=
      CLEAR_FLAG (CLEAR_FLAG pd.flags K.PD_FLAG_SC_USE_SCBKD) K.PD_FLAG_INSTALL_MODE }

/-- Case `CMD_KEYSET`. -/
def decode_keyset (K : Consts) (st : decode_state) (buf : List Nat) (len : Int) :
    Option decode_state :=
  if len ≠ 18 then some st
  else if ISSET_FLAG st.pd.flags K.PD_FLAG_SC_ACTIVE = false then
    some { st with reply := reply_nak K st.reply OSDP_PD_NAK_SC_COND }
  else if rd buf st.pos ≠ 1 ∨ rd buf (st.pos + 1) ≠ 16 then some st
  else
    match osdp_slab_alloc st.slab with
    | none => some st
    | some (cmd, s1) =>
      match pd_enqueue_command (store_scbk st.pd buf st.pos)
          (slab_update s1 cmd (fill_keyset buf st.pos)) cmd with
      | none => none
      | some (pd2, s3) =>
        some (reply_ok { st with pd := clear_key_flags K pd2, slab := s3, pos := st.pos + 2 }
          K.REPLY_ACK)

/-- Case `CMD_CHLNG`. -/
def decode_chlng (K : Consts) (ops : ScOps) (st : decode_state) (buf : List Nat) (len : Int) :
    decode_state :=
  if (cap_at st.pd.cap CAP_COMMUNICATION_SECURITY).compliance_level = 0 then
    { st with reply := reply_nak K st.reply OSDP_PD_NAK_SC_UNSUP }
  else if len ≠ 8 then st
  else
    let pd1 := ops.osdp_sc_init st.pd
    let pd2 := { pd1 with flags := CLEAR_FLAG pd1.flags K.PD_FLAG_SC_ACTIVE }
    let pd3 := { pd2 with sc := { pd2.sc with
                  cp_random := copy_bytes pd2.sc.cp_random 0 buf st.pos 8 } }
    reply_ok { st with pd := pd3, pos := st.pos + 8 } K.REPLY_CCRYPT

/-- Case `CMD_SCRYPT`. -/
def decode_scrypt (K : Consts) (st : decode_state) (buf : List Nat) (len : Int) :
    decode_state :=
  if len ≠ 16 then st
  else
    let pd1 := { st.pd with sc := { st.pd.sc with
                  cp_cryptogram := copy_bytes st.pd.sc.cp_cryptogram 0 buf st.pos 16 } }
    reply_ok { st with pd := pd1, pos := st.pos + 16 } K.REPLY_RMAC_I

/-- The switch on `pd->cmd_id`; `len` is the payload length (after `len--`). -/
def decode_switch (K : Consts) (ops : ScOps) (st : decode_state) (buf : List Nat) (len : Int) :
    Option decode_state :=
  let c := st.pd.cmd_id
  if c = K.CMD_POLL then some (reply_ok st K.REPLY_ACK)
  else if c = K.CMD_LSTAT then some (reply_ok st K.REPLY_LSTATR)
  else if c = K.CMD_ISTAT then some (reply_ok st K.REPLY_ISTATR)
  else if c = K.CMD_OSTAT then some (reply_ok st K.REPLY_OSTATR)
  else if c = K.CMD_RSTAT then some (reply_ok st K.REPLY_RSTATR)
  else if c = K.CMD_ID then some (reply_ok { st with pos := st.pos + 1 } K.REPLY_PDID)
  else if c = K.CMD_CAP then some (reply_ok { st with pos := st.pos + 1 } K.REPLY_PDCAP)
  else if c = K.CMD_OUT then decode_out K st buf len
  else if c = K.CMD_LED then decode_led K st buf len
  else if c = K.CMD_BUZ then decode_buz K st buf len
  else if c = K.CMD_TEXT then decode_text K st buf len
  else if c = K.CMD_COMSET then decode_comset K st buf len
  else if c = K.CMD_KEYSET then decode_keyset K st buf len
  else if c = K.CMD_CHLNG then some (decode_chlng K ops st buf len)
  else if c = K.CMD_SCRYPT then some (decode_scrypt K st buf len)
  else some st

/-- The statements after the switch: the fallback NAK and `pd->reply_id`. -/
def decode_finish (K : Consts) (st : decode_state) : decode_state :=
  let r := if st.ret ≠ 0 ∧ st.reply.id = 0 then reply_nak K st.reply OSDP_PD_NAK_RECORD
           else st.reply
  { st with reply := r, pd := { st.pd with reply_id := r.id } }

/-- The statements before the switch: `reply->id = 0; pd->cmd_id = buf[pos++];`
with `ret = -1` and `pos = 0` from the declarations. -/
def decode_init (pd : osdp_pd) (slab : osdp_slab) (reply : osdp_cmd) (buf : List Nat) :
    decode_state where
  pd := { pd with cmd_id := rd buf 0 }
  slab := slab
  reply := { reply with id := 0 }
  ret := -1
  pos := 1

/-- Translation of `pd_decode_command(pd, reply, buf, len)`; the switch sees
`len - 1`, the length of the payload. The result is `none` only if the
assertion in `pd_enqueue_command` fails. -/
def pd_decode_command (K : Consts) (ops : ScOps) (pd : osdp_pd) (slab : osdp_slab)
    (reply : osdp_cmd) (buf : List Nat) (len : Int) : Option decode_state :=
  (decode_switch K ops (decode_init pd slab reply buf) buf (len - 1)).map (decode_finish K)

/-! ## pd_build_reply -/

/-- Translation of `osdp_fill_random` of `crypto/openssl.c`: its body is
compiled out (`#if 0`), so the buffer is returned as it was. -/
def osdp_fill_random (buf : List Nat) (_len : Int) : List Nat := buf

/-- Translation of `osdp_encrypt(key, iv, data, data_len)` of
`crypto/openssl.c`, its result being the buffer `data`: the body is compiled
out (`#if 0`), so no argument is read and nothing is written. `iv` is `none`
for a NULL pointer. -/
def osdp_encrypt (_key : List Nat) (_iv : Option (List Nat)) (data : List Nat)
    (_data_len : Int) : List Nat := data

/-- Translation of `osdp_decrypt(key, iv, data, data_len)` of
`crypto/openssl.c`, whose body is compiled out as well. -/
def osdp_decrypt (_key : List Nat) (_iv : Option (List Nat)) (data : List Nat)
    (_data_len : Int) : List Nat := data

/-- Modelled from the spec: the macro `BYTE_n(x)` of `osdp_common.h`, byte `n`
of `x` counted from the least significant one. -/
def BYTE (n : Nat) (x : Int) : Nat := ((x / 2 ^ (8 * n)) % 256).toNat

/-- A C value stored into a `uint8_t` cell. -/
def to_u8 (x : Int) : Nat := (x % 256).toNat

/-- The variables of `pd_build_reply` when its switch is left: the PD record,
the packet buffer, the local `len`, and whether the case returned -1. -/
structure build_case where
  pd : osdp_pd
  buf : List Nat
  len : Nat
  fail : Bool
  deriving DecidableEq

/-- The result of `pd_build_reply`: the PD record, the packet buffer and the
returned value. -/
structure build_state where
  pd : osdp_pd
  buf : List Nat
  ret : Int
  deriving DecidableEq

/-- The loop `for (i = 0; i < n; i++) buf[len++] = src[i];` of the reply
cases, `buf` being the packet buffer advanced by `d`. -/
def put_bytes (buf : List Nat) (d len : Nat) (src : List Nat) (n : Nat) : List Nat :=
  copy_bytes buf (d + len) src 0 n

/-- The loop of case `REPLY_PDCAP` from index `i` for `n` more rounds; the
result is the buffer, `len`, and whether the loop returned -1. -/
def pdcap_loop (cap : List pd_cap) (d : Nat) :
    Nat → Nat → List Nat → Nat → Int → List Nat × Nat × Bool
  | 0, _, buf, len, _ => (buf, len, false)
  | n + 1, i, buf, len, max_len =>
    if (cap_at cap i).function_code ≠ i then pdcap_loop cap d n (i + 1) buf len max_len
    else if max_len < 3 then (buf, len, true)
    else
      let b1 := wr buf (d + len) i
      let b2 := wr b1 (d + len + 1) (cap_at cap i).compliance_level
      let b3 := wr b2 (d + len + 2) (cap_at cap i).num_items
      pdcap_loop cap d n (i + 1) b3 (len + 3) (max_len - 3)

/-- Case `REPLY_PDID`. -/
def build_pdid (pd : osdp_pd) (buf : List Nat) (max_len : Int) (d : Nat) : build_case :=
  if max_len < 12 then ⟨pd, buf, 1, true⟩
  else
    let b := wr buf (d + 1) (BYTE 0 pd.id.vendor_code)
    let b := wr b (d + 2) (BYTE 1 pd.id.vendor_code)
    let b := wr b (d + 3) (BYTE 2 pd.id.vendor_code)
    let b := wr b (d + 4) (to_u8 pd.id.model)
    let b := wr b (d + 5) (to_u8 pd.id.version)
    let b := wr b (d + 6) (BYTE 0 pd.id.serial_number)
    let b := wr b (d + 7) (BYTE 1 pd.id.serial_number)
    let b := wr b (d + 8) (BYTE 2 pd.id.serial_number)
    let b := wr b (d + 9) (BYTE 3 pd.id.serial_number)
    let b := wr b (d + 10) (BYTE 3 pd.id.firmware_version)
    let b := wr b (d + 11) (BYTE 2 pd.id.firmware_version)
    let b := wr b (d + 12) (BYTE 1 pd.id.firmware_version)
    ⟨pd, b, 13, false⟩

/-- Case `REPLY_PDCAP`. -/
def build_pdcap (pd : osdp_pd) (buf : List Nat) (max_len : Int) (d : Nat) : build_case :=
  let r := pdcap_loop pd.cap d CAP_SENTINEL 0 buf 1 max_len
  ⟨pd, r.1, r.2.1, r.2.2⟩

/-- Case `REPLY_LSTATR`. -/
def build_lstatr (K : Consts) (pd : osdp_pd) (buf : List Nat) (max_len : Int) (d : Nat) :
    build_case :=
  if max_len < 2 then ⟨pd, buf, 1, true⟩
  else
    let b := wr buf (d + 1) (bool_byte (ISSET_FLAG pd.flags K.PD_FLAG_TAMPER))
    let b := wr b (d + 2) (bool_byte (ISSET_FLAG pd.flags K.PD_FLAG_POWER))
    ⟨pd, b, 3, false⟩

/-- Case `REPLY_RSTATR`. -/
def build_rstatr (K : Consts) (pd : osdp_pd) (buf : List Nat) (max_len : Int) (d : Nat) :
    build_case :=
  if max_len < 1 then ⟨pd, buf, 1, true⟩
  else ⟨pd, wr buf (d + 1) (bool_byte (ISSET_FLAG pd.flags K.PD_FLAG_R_TAMPER)), 2, false⟩

/-- Case `REPLY_COM`. -/
def build_com (pd : osdp_pd) (buf : List Nat) (max_len : Int) (d : Nat) : build_case :=
  if max_len < 5 then ⟨pd, buf, 1, true⟩
  else
    let b := wr buf (d + 1) (to_u8 pd.address)
    let b := wr b (d + 2) (BYTE 0 pd.baud_rate)
    let b := wr b (d + 3) (BYTE 1 pd.baud_rate)
    let b := wr b (d + 4) (BYTE 2 pd.baud_rate)
    let b := wr b (d + 5) (BYTE 3 pd.baud_rate)
    ⟨pd, b, 6, false⟩

/-- Case `REPLY_NAK`. -/
def build_nak (pd : osdp_pd) (reply : osdp_cmd) (buf : List Nat) (max_len : Int) (d : Nat) :
    build_case :=
  if max_len < 1 then ⟨pd, buf, 1, true⟩
  else ⟨pd, wr buf (d + 1) (rd reply.cmd_bytes 0), 2, false⟩

/-- Case `REPLY_CCRYPT`; `smb` is the position of the secure-channel block in
the packet buffer, `none` for NULL. -/
def build_ccrypt (K : Consts) (ops : ScOps) (pd : osdp_pd) (buf : List Nat) (max_len : Int)
    (d : Nat) (smb : Option Nat) : build_case :=
  match smb with
  | none => ⟨pd, buf, 1, false⟩
  | some m =>
    if max_len < 32 then ⟨pd, buf, 1, true⟩
    else
      let pd1 := { pd with sc := { pd.sc with pd_random := osdp_fill_random pd.sc.pd_random 8 } }
      let pd2 := ops.osdp_compute_session_keys pd1
      let pd3 := ops.osdp_compute_pd_cryptogram pd2
      let b := put_bytes buf d 1 pd3.sc.pd_client_uid 8
      let b := put_bytes b d 9 pd3.sc.pd_random 8
      let b := put_bytes b d 17 pd3.sc.pd_cryptogram 16
      let b := wr b m 3
      let b := wr b (m + 1) K.SCS_12
      let b := wr b (m + 2) (if ISSET_FLAG pd3.flags K.PD_FLAG_SC_USE_SCBKD then 0 else 1)
      ⟨pd3, b, 33, false⟩

/-- Case `REPLY_RMAC_I`. -/
def build_rmac_i (K : Consts) (ops : ScOps) (pd : osdp_pd) (buf : List Nat) (max_len : Int)
    (d : Nat) (smb : Option Nat) : build_case :=
  match smb with
  | none => ⟨pd, buf, 1, false⟩
  | some m =>
    if max_len < 16 then ⟨pd, buf, 1, true⟩
    else
      let pd1 := ops.osdp_compute_rmac_i pd
      let b := put_bytes buf d 1 pd1.sc.r_mac 16
      let b := wr b m 3
      let b := wr b (m + 1) K.SCS_14
      let b := wr b (m + 2) (if ops.osdp_verify_cp_cryptogram pd1 = 0 then 0x01 else 0x00)
      let pd2 := { pd1 with flags := SET_FLAG pd1.flags K.PD_FLAG_SC_ACTIVE }
      ⟨pd2, b, 17, false⟩

/-- The switch on `reply->id`, entered with `len = 1`. -/
def build_switch (K : Consts) (ops : ScOps) (pd : osdp_pd) (reply : osdp_cmd) (buf : List Nat)
    (max_len : Int) (d : Nat) (smb : Option Nat) : build_case :=
  let r := reply.id
  if r = K.REPLY_ACK then ⟨pd, buf, 1, false⟩
  else if r = K.REPLY_PDID then build_pdid pd buf max_len d
  else if r = K.REPLY_PDCAP then build_pdcap pd buf max_len d
  else if r = K.REPLY_LSTATR then build_lstatr K pd buf max_len d
  else if r = K.REPLY_RSTATR then build_rstatr K pd buf max_len d
  else if r = K.REPLY_COM then build_com pd buf max_len d
  else if r = K.REPLY_NAK then build_nak pd reply buf max_len d
  else if r = K.REPLY_CCRYPT then build_ccrypt K ops pd buf max_len d smb
  else if r = K.REPLY_RMAC_I then build_rmac_i K ops pd buf max_len d smb
  else ⟨pd, buf, 1, false⟩

/-- The statement after the switch that rewrites the secure-channel block of
a reply sent while the secure channel is active. -/
def build_scb_fix (K : Consts) (pd : osdp_pd) (buf : List Nat) (len : Nat) (smb : Option Nat) :
    List Nat :=
  match smb with
  | none => buf
  | some m =>
    if rd buf (m + 1) > K.SCS_14 ∧ ISSET_FLAG pd.flags K.PD_FLAG_SC_ACTIVE = true then
      wr (wr buf m 2) (m + 1) (if len > 1 then K.SCS_18 else K.SCS_16)
    else buf

/-- The statements of `pd_build_reply` after its switch: a case that failed
returns -1; otherwise the secure-channel block is adjusted, the fallback for
`len == 0` is applied, and `len` is returned. -/
def build_finish (K : Consts) (c : build_case) (data_off : Nat) (smb : Option Nat) :
    build_state :=
  if c.fail then ⟨c.pd, c.buf, -1⟩
  else
    let b := build_scb_fix K c.pd c.buf c.len smb
    if c.len = 0 then
      ⟨c.pd, wr (wr b data_off K.REPLY_NAK) (data_off + 1) OSDP_PD_NAK_SC_UNSUP, 2⟩
    else ⟨c.pd, b, c.len⟩

/-- Translation of `pd_build_reply(pd, reply, buf, max_len)`. The two calls
into the packet layer are its last two arguments: `data_off` is the value of
`phy_packet_get_data_offset(pd, buf)` and `smb` that of
`phy_packet_get_smb(pd, buf)` (the position of the secure-channel block in
`buf`, `none` for NULL). The cell at `data_off` receives `reply->id` as it is:
the code narrows the `int` to a byte there, which makes a difference only for
an id of 256 or more, and `pd_decode_command` sets none. -/
def pd_build_reply (K : Consts) (ops : ScOps) (pd : osdp_pd) (reply : osdp_cmd)
    (buf : List Nat) (max_len : Int) (data_off : Nat) (smb : Option Nat) : build_state :=
  if max_len - (data_off + 1) < 0 then ⟨pd, buf, -1⟩
  else
    build_finish K
      (build_switch K ops pd reply (wr buf data_off reply.id) (max_len - (data_off + 1))
        data_off smb)
      data_off smb

/-! ## osdp_pd_get_cmd and osdp_pd_set_attributes -/

/-- Translation of `osdp_pd_get_cmd(ctx, cmd)`: the returned value, the PD
record, the slab and the caller's struct `cmd`. The result is `none` if
`front` points outside the slab. -/
def osdp_pd_get_cmd (pd : osdp_pd) (s : osdp_slab) (cmd : osdp_cmd) :
    Option (Int × osdp_pd × osdp_slab × osdp_cmd) :=
  match pd.queue.front with
  | none => some (-1, pd, s, cmd)
  | some f =>
    match s.blks[f]? with
    | none => none
    | some b =>
      some (0, { pd with queue := { pd.queue with front := b.data.next } },
            osdp_slab_free s f, b.data)

/-- The loop of `osdp_pd_set_attributes` over the array `cap`: it stops at the
first entry whose function code is 0 or is not below `CAP_SENTINEL`. The
result is `none` if the array ends before such an entry is met. -/
def set_caps : List pd_cap → List pd_cap → Option (List pd_cap)
  | _, [] => none
  | table, e :: rest =>
    if e.function_code > 0 then
      if e.function_code ≥ CAP_SENTINEL then some table
      else set_caps (table.set e.function_code e) rest
    else some table

/-- Translation of `osdp_pd_set_attributes(pd, cap, id)`; `cap` is `none` for
a NULL pointer. -/
def osdp_pd_set_attributes (pd : osdp_pd) (cap : Option (List pd_cap)) (id : pd_id) :
    Option osdp_pd :=
  match cap with
  | none => some { pd with id := id }
  | some arr => (set_caps pd.cap arr).map (fun t => { pd with cap := t, id := id })

/-- The capability table after the entries `pre` have been installed one
after the other, each in the slot of its function code. -/
def install_caps (table : List pd_cap) (pre : List pd_cap) : List pd_cap :=
  pre.foldl (fun tb e => tb.set e.function_code e) table

/-! ## The state machine: pd_send_reply, pd_receve_packet, pd_state_update -/

/-- Modelled from the spec: the routines of the packet layer (`osdp_phy.c`,
not translated) that the PD role calls. The buffer they work on is always
`pd->rx_buf`, so each receives the PD record and returns it with its result;
the integer arguments are the ones of the C calls (reply id, length, limit). -/
structure PhyOps where
  phy_build_packet_head : osdp_pd → Nat → Int → Int × osdp_pd
  phy_build_packet_tail : osdp_pd → Int → Int → Int × osdp_pd
  phy_decode_packet : osdp_pd → Int → Int × osdp_pd
  phy_packet_get_data_offset : osdp_pd → Nat
  phy_packet_get_smb : osdp_pd → Option Nat

/-- Modelled from the spec: what surrounds the PD during one call of
`pd_state_update`. `RX_BUF_SIZE` is `sizeof(pd->rx_buf)` and
`OSDP_RESP_TOUT_MS` the timeout of `osdp_common.h`; `millis_now` and
`millis_since` are the clock; `recv` and `send` are the behaviour of the
callbacks `pd->channel.recv` and `pd->channel.send`, called with
`pd->channel.data`: `recv` is given the limit and returns its result with the
bytes it delivers, `send` is given the buffer and the length. -/
structure Host where
  RX_BUF_SIZE : Int
  OSDP_RESP_TOUT_MS : Int
  millis_now : Int
  millis_since : Int → Int
  recv : Nat → Int → Int × List Nat
  send : Nat → List Nat → Int → Int

/-- A call of one of the channel callbacks, with its arguments. -/
inductive chan_event where
  | recv (max_len : Int)
  | send (buf : List Nat) (len : Int)
  | flush
  deriving DecidableEq

/-- The statement `if (pd->channel.flush) pd->channel.flush(pd->channel.data);`. -/
def flush_events (pd : osdp_pd) : List chan_event :=
  if pd.channel.flush.isSome then [chan_event.flush] else []

/-- Translation of `pd_send_reply(pd, reply)`: the returned value, the PD
record and the channel calls made. The bytes `pd_build_reply` writes go into
`pd->rx_buf`. -/
def pd_send_reply (K : Consts) (ops : ScOps) (phy : PhyOps) (host : Host) (pd : osdp_pd)
    (reply : osdp_cmd) : Int × osdp_pd × List chan_event :=
  let h := phy.phy_build_packet_head pd reply.id host.RX_BUF_SIZE
  if h.1 < 0 then (-1, h.2, [])
  else
    let r := pd_build_reply K ops h.2 reply h.2.rx_buf host.RX_BUF_SIZE
      (phy.phy_packet_get_data_offset h.2) (phy.phy_packet_get_smb h.2)
    let pd2 := { r.pd with rx_buf := r.buf }
    if r.ret ≤ 0 then (-1, pd2, [])
    else
      let t := phy.phy_build_packet_tail pd2 (h.1 + r.ret) host.RX_BUF_SIZE
      if t.1 < 0 then (-1, t.2, [])
      else
        let ret := host.send t.2.channel.data t.2.rx_buf t.1
        (if ret = t.1 then 0 else -1, t.2, [chan_event.send t.2.rx_buf t.1])

/-- Translation of `pd_receve_packet(pd)`: the returned value, the PD record
and the channel calls made. The bytes `recv` delivers are stored behind the
`rx_buf_len` bytes already held. -/
def pd_receve_packet (phy : PhyOps) (host : Host) (pd : osdp_pd) :
    Int × osdp_pd × List chan_event :=
  let new_packet := pd.rx_buf_len = 0
  let max_len := host.RX_BUF_SIZE - pd.rx_buf_len
  let r := host.recv pd.channel.data max_len
  if r.1 ≤ 0 then (1, pd, [chan_event.recv max_len])
  else
    let pd1 := { pd with rx_buf := copy_bytes pd.rx_buf pd.rx_buf_len.toNat r.2 0 r.1.toNat }
    let pd2 := if new_packet then { pd1 with tstamp := host.millis_now } else pd1
    let pd3 := { pd2 with rx_buf_len := pd2.rx_buf_len + r.1 }
    let d := phy.phy_decode_packet pd3 pd3.rx_buf_len
    if d.1 < 0 then
      if d.1 = -1 then
        (-1, { d.2 with rx_buf_len := 0 }, chan_event.recv max_len :: flush_events d.2)
      else if d.1 = -2 then (1, d.2, [chan_event.recv max_len])
      else if d.1 = -3 ∨ d.1 = -4 then
        (1, { d.2 with rx_buf_len := 0 }, chan_event.recv max_len :: flush_events d.2)
      else (-1, d.2, [chan_event.recv max_len])
    else (0, { d.2 with rx_buf_len := d.1 }, [chan_event.recv max_len])

/-- The case `PD_STATE_SEND_REPLY` of `pd_state_update`, entered with the
channel calls `evs` already made. -/
def send_reply_case (K : Consts) (ops : ScOps) (phy : PhyOps) (host : Host) (pd : osdp_pd)
    (slab : osdp_slab) (reply : osdp_cmd) (evs : List chan_event) :
    osdp_pd × osdp_slab × List chan_event :=
  let r := pd_send_reply K ops phy host pd reply
  if r.1 = -1 then ({ r.2.1 with state := pd_state.PD_STATE_ERR }, slab, evs ++ r.2.2)
  else ({ r.2.1 with rx_buf_len := 0, state := pd_state.PD_STATE_IDLE }, slab, evs ++ r.2.2)

/-- Translation of `pd_state_update(pd)`: the PD record, the slab and the
channel calls made, in order. `reply0` is what the uninitialised local `reply`
holds; the result is `none` if `pd_decode_command` fails an assertion. -/
def pd_state_update (K : Consts) (ops : ScOps) (phy : PhyOps) (host : Host) (pd : osdp_pd)
    (slab : osdp_slab) (reply0 : osdp_cmd) : Option (osdp_pd × osdp_slab × List chan_event) :=
  match pd.state with
  | pd_state.PD_STATE_IDLE =>
    let r := pd_receve_packet phy host pd
    if r.1 < 0 ∨ (r.2.1.rx_buf_len > 0 ∧
        host.millis_since r.2.1.tstamp > host.OSDP_RESP_TOUT_MS) then
      some ({ r.2.1 with state := pd_state.PD_STATE_ERR }, slab, r.2.2)
    else if r.1 = 1 then some (r.2.1, slab, r.2.2)
    else
      match pd_decode_command K ops r.2.1 slab reply0 r.2.1.rx_buf r.2.1.rx_buf_len with
      | none => none
      | some st =>
        some (send_reply_case K ops phy host
          { st.pd with state := pd_state.PD_STATE_SEND_REPLY } st.slab st.reply r.2.2)
  | pd_state.PD_STATE_SEND_REPLY => some (send_reply_case K ops phy host pd slab reply0 [])
  | pd_state.PD_STATE_ERR =>
    some ({ pd with flags := CLEAR_FLAG pd.flags K.PD_FLAG_SC_ACTIVE, rx_buf_len := 0,
                    state := pd_state.PD_STATE_IDLE }, slab, [])

/-! ## The channel calls of one call, and the steps of pd_send_reply -/

/-- The number of calls of `recv` among the channel calls `evs`. -/
def count_recv : List chan_event → Nat
  | [] => 0
  | chan_event.recv _ :: t => count_recv t + 1
  | _ :: t => count_recv t

/-- The number of calls of `send` among the channel calls `evs`. -/
def count_send : List chan_event → Nat
  | [] => 0
  | chan_event.send _ _ :: t => count_send t + 1
  | _ :: t => count_send t

/-- The number of calls of `flush` among the channel calls `evs`. -/
def count_flush : List chan_event → Nat
  | [] => 0
  | chan_event.flush :: t => count_flush t + 1
  | _ :: t => count_flush t

/-- The PD record that `pd_receve_packet` passes to `phy_decode_packet` once
`recv` has delivered bytes: they are stored behind the `rx_buf_len` bytes
held, `tstamp` is set if none were held, and `rx_buf_len` grows by the result
of `recv`. -/
def received (host : Host) (pd : osdp_pd) : osdp_pd :=
  { pd with
    rx_buf := copy_bytes pd.rx_buf pd.rx_buf_len.toNat
      (host.recv pd.channel.data (host.RX_BUF_SIZE - pd.rx_buf_len)).2 0
      (host.recv pd.channel.data (host.RX_BUF_SIZE - pd.rx_buf_len)).1.toNat
    tstamp := if pd.rx_buf_len = 0 then host.millis_now else pd.tstamp
    rx_buf_len := pd.rx_buf_len + (host.recv pd.channel.data (host.RX_BUF_SIZE - pd.rx_buf_len)).1 }

/-- The call of `phy_build_packet_head` in `pd_send_reply`. -/
def send_head (phy : PhyOps) (host : Host) (pd : osdp_pd) (reply : osdp_cmd) : Int × osdp_pd :=
  phy.phy_build_packet_head pd reply.id host.RX_BUF_SIZE

/-- The call of `pd_build_reply` in `pd_send_reply`. -/
def send_body (K : Consts) (ops : ScOps) (phy : PhyOps) (host : Host) (pd : osdp_pd)
    (reply : osdp_cmd) : build_state :=
  pd_build_reply K ops (send_head phy host pd reply).2 reply
    (send_head phy host pd reply).2.rx_buf host.RX_BUF_SIZE
    (phy.phy_packet_get_data_offset (send_head phy host pd reply).2)
    (phy.phy_packet_get_smb (send_head phy host pd reply).2)

/-- The call of `phy_build_packet_tail` in `pd_send_reply`. -/
def send_tail (K : Consts) (ops : ScOps) (phy : PhyOps) (host : Host) (pd : osdp_pd)
    (reply : osdp_cmd) : Int × osdp_pd :=
  phy.phy_build_packet_tail
    { (send_body K ops phy host pd reply).pd with rx_buf := (send_body K ops phy host pd reply).buf }
    ((send_head phy host pd reply).1 + (send_body K ops phy host pd reply).ret) host.RX_BUF_SIZE

/-- The value `pd->channel.send` returns in `pd_send_reply`. -/
def send_result (K : Consts) (ops : ScOps) (phy : PhyOps) (host : Host) (pd : osdp_pd)
    (reply : osdp_cmd) : Int :=
  host.send (send_tail K ops phy host pd reply).2.channel.data
    (send_tail K ops phy host pd reply).2.rx_buf (send_tail K ops phy host pd reply).1

/-! ## Sequences of calls, and what the absent layers leave alone -/

/-- A sequence of calls of `pd_state_update` (of `osdp_pd_refresh`), each with
the host it meets and the contents of its local `reply`. -/
def run_calls (K : Consts) (ops : ScOps) (phy : PhyOps) :
    List (Host × osdp_cmd) → osdp_pd × osdp_slab → Option (osdp_pd × osdp_slab)
  | [], st => some st
  | c :: rest, st =>
    match pd_state_update K ops phy c.1 st.1 st.2 c.2 with
    | none => none
    | some r => run_calls K ops phy rest (r.1, r.2.1)

/-- The packet layer does not write `pd->rx_buf_len`. -/
def PhyOps.keeps_rx_len (phy : PhyOps) : Prop :=
  (∀ p id m, (phy.phy_build_packet_head p id m).2.rx_buf_len = p.rx_buf_len) ∧
  (∀ p l m, (phy.phy_build_packet_tail p l m).2.rx_buf_len = p.rx_buf_len) ∧
  (∀ p l, (phy.phy_decode_packet p l).2.rx_buf_len = p.rx_buf_len)

/-- The secure-channel routines do not write `pd->rx_buf_len`. -/
def ScOps.keeps_rx_len (ops : ScOps) : Prop :=
  (∀ p, (ops.osdp_sc_init p).rx_buf_len = p.rx_buf_len) ∧
  (∀ p, (ops.osdp_compute_session_keys p).rx_buf_len = p.rx_buf_len) ∧
  (∀ p, (ops.osdp_compute_pd_cryptogram p).rx_buf_len = p.rx_buf_len) ∧
  (∀ p, (ops.osdp_compute_rmac_i p).rx_buf_len = p.rx_buf_len)

/-- The receive buffer of `size` bytes holds `rx_buf_len` of them. -/
def rx_len_ok (size : Int) (pd : osdp_pd) : Prop :=
  0 ≤ pd.rx_buf_len ∧ pd.rx_buf_len ≤ size

instance rx_len_ok_decidable (size : Int) (pd : osdp_pd) : Decidable (rx_len_ok size pd) :=
  inferInstanceAs (Decidable (0 ≤ pd.rx_buf_len ∧ pd.rx_buf_len ≤ size))

/-! ## The contents of the queue -/

/-- The block at index `i` of the slab, if the slab has one. -/
def blk (s : osdp_slab) (i : Nat) : Option osdp_slab_blk := s.blks[i]?

/-- The chain of `__next` links that starts at pointer `p` runs through
exactly the blocks `l`, all of them in use, and ends in NULL. -/
def linked (s : osdp_slab) : List Nat → Option Nat → Bool
  | [], p => p.isNone
  | i :: t, p =>
    p == some i &&
      match blk s i with
      | none => false
      | some b => b.in_use && linked s t b.data.next

/-- The queue `q` holds exactly the blocks `l`, oldest first: `front` starts
the chain through `l`, and `back` is its last block when there is one. -/
def is_queue (s : osdp_slab) (q : osdp_cmd_queue) (l : List Nat) : Prop :=
  linked s l q.front = true ∧ (l ≠ [] → q.back = l.getLast?)

/-- A command object without its queue link. -/
def payload (c : osdp_cmd) : osdp_cmd := { c with next := none }

/-- The commands held in the blocks `l`, in that order. -/
def queue_cmds (s : osdp_slab) (l : List Nat) : List osdp_cmd :=
  l.filterMap (fun i => (blk s i).map (fun b => payload b.data))

/-- The number of blocks in use. -/
def slab_used (s : osdp_slab) : Nat := (s.blks.filter (fun b => b.in_use)).length

/-! ## The queue as a FIFO -/

/-- One use of the command queue: the PD enqueues the command `c` (in a block
taken from the slab, as `pd_decode_command` does), or the application calls
`osdp_pd_get_cmd` with a struct that holds `dst`. -/
inductive queue_op where
  | enq (c : osdp_cmd)
  | get (dst : osdp_cmd)
  deriving DecidableEq

/-- What a use of the queue shows to its caller: the command was stored, no
block was free, or `osdp_pd_get_cmd` returned `ret` with `cmd` in the caller's
struct. -/
inductive queue_obs where
  | stored
  | no_block
  | got (ret : Int) (cmd : osdp_cmd)
  deriving DecidableEq

/-- An observation without the queue link of the command it shows. -/
def strip_link : queue_obs → queue_obs
  | queue_obs.got r c => queue_obs.got r (payload c)
  | o => o

/-- One use of the queue on the code: `enq c` runs `osdp_slab_alloc`, writes
`c` into the block and calls `pd_enqueue_command`; `get dst` calls
`osdp_pd_get_cmd`. -/
def queue_step (st : osdp_pd × osdp_slab) : queue_op → Option ((osdp_pd × osdp_slab) × queue_obs)
  | queue_op.enq c =>
    match osdp_slab_alloc st.2 with
    | none => some (st, queue_obs.no_block)
    | some (j, s1) =>
      (pd_enqueue_command st.1 (slab_update s1 j (fun _ => c)) j).map
        (fun r => (r, queue_obs.stored))
  | queue_op.get dst =>
    (osdp_pd_get_cmd st.1 st.2 dst).map (fun r => ((r.2.1, r.2.2.1), queue_obs.got r.1 r.2.2.2))

/-- A sequence of uses of the queue on the code, with what each one showed. -/
def queue_run (st : osdp_pd × osdp_slab) :
    List queue_op → Option ((osdp_pd × osdp_slab) × List queue_obs)
  | [] => some (st, [])
  | o :: rest =>
    match queue_step st o with
    | none => none
    | some (st1, ob) => (queue_run st1 rest).map (fun r => (r.1, ob :: r.2))

/-- One use of a bounded list queue holding at most `bound` commands: enqueue
appends at the tail unless the queue is full, get removes the head, and on an
empty queue returns -1 and leaves the caller's struct as it was. -/
def fifo_step (bound : Nat) (q : List osdp_cmd) : queue_op → List osdp_cmd × queue_obs
  | queue_op.enq c =>
    if q.length < bound then (q ++ [payload c], queue_obs.stored) else (q, queue_obs.no_block)
  | queue_op.get dst =>
    match q with
    | [] => ([], queue_obs.got (-1) dst)
    | c :: t => (t, queue_obs.got 0 c)

/-- A sequence of uses of the bounded list queue. -/
def fifo_run (bound : Nat) (q : List osdp_cmd) : List queue_op → List osdp_cmd × List queue_obs
  | [] => (q, [])
  | o :: rest =>
    ((fifo_run bound (fifo_step bound q o).1 rest).1,
     (fifo_step bound q o).2 :: (fifo_run bound (fifo_step bound q o).1 rest).2)

/-- The state `st` of the code holds the list queue `q`: the queue record
runs through blocks `l` whose commands are `q`, the slab has `bound` blocks,
and a block is in use exactly when it is in the queue. -/
def queue_inv (bound : Nat) (st : osdp_pd × osdp_slab) (q : List osdp_cmd) : Prop :=
  ∃ l, is_queue st.2 st.1.queue l ∧ queue_cmds st.2 l = q ∧ st.2.blks.length = bound ∧
    ∀ i b, blk st.2 i = some b → (b.in_use = true ↔ i ∈ l)

/-! ## The ways pd_decode_command can end -/

/-- The commands that hand a command object to the application, each with the
reply it is answered with when it is accepted. -/
def Consts.enqueuing (K : Consts) : List (Nat × Nat) :=
  [(K.CMD_OUT, K.REPLY_OSTATR), (K.CMD_LED, K.REPLY_ACK), (K.CMD_BUZ, K.REPLY_ACK),
   (K.CMD_TEXT, K.REPLY_ACK), (K.CMD_COMSET, K.REPLY_COM), (K.CMD_KEYSET, K.REPLY_ACK)]

/-- The other commands, each with the reply it is answered with when it is
accepted. -/
def Consts.answering (K : Consts) : List (Nat × Nat) :=
  [(K.CMD_POLL, K.REPLY_ACK), (K.CMD_LSTAT, K.REPLY_LSTATR), (K.CMD_ISTAT, K.REPLY_ISTATR),
   (K.CMD_OSTAT, K.REPLY_OSTATR), (K.CMD_RSTAT, K.REPLY_RSTATR), (K.CMD_ID, K.REPLY_PDID),
   (K.CMD_CAP, K.REPLY_PDCAP), (K.CMD_CHLNG, K.REPLY_CCRYPT), (K.CMD_SCRYPT, K.REPLY_RMAC_I)]

/-- The reply designated for each command. -/
def Consts.designated (K : Consts) : List (Nat × Nat) := K.answering ++ K.enqueuing

/-- The decoding was refused: the reply is REPLY_NAK, only `cmd_id` and
`reply_id` of the PD record changed, and the queue holds the same commands
in the same blocks `l`. -/
def refused (K : Consts) (pd : osdp_pd) (slab : osdp_slab) (buf : List Nat) (l : List Nat)
    (st : decode_state) : Prop :=
  st.reply.id = K.REPLY_NAK ∧
  st.pd = { pd with cmd_id := rd buf 0, reply_id := K.REPLY_NAK } ∧
  is_queue st.slab pd.queue l ∧ queue_cmds st.slab l = queue_cmds slab l

/-- The decoding handed a command to the application: the reply is the one
designated for the command, and the queue holds the former commands followed
by exactly one new command, in a block `j` that was free. -/
def enqueued (K : Consts) (slab : osdp_slab) (buf : List Nat) (l : List Nat)
    (st : decode_state) : Prop :=
  (rd buf 0, st.reply.id) ∈ K.enqueuing ∧
  ∃ j cmd, (∃ s1, osdp_slab_alloc slab = some (j, s1)) ∧
    is_queue st.slab st.pd.queue (l ++ [j]) ∧
    queue_cmds st.slab (l ++ [j]) = queue_cmds slab l ++ [cmd]

/-- The decoding chose a reply without touching the slab. -/
def answered (K : Consts) (slab : osdp_slab) (buf : List Nat) (st : decode_state) : Prop :=
  (rd buf 0, st.reply.id) ∈ K.answering ∧ st.slab = slab

/-- What holds of every result of `pd_decode_command`: `cmd_id` is the command
byte (as `osdp_sc_init` leaves it, in the case that calls it), `reply_id` is
the reply code, and the decoding refused, enqueued or answered. -/
def outcome (K : Consts) (ops : ScOps) (pd : osdp_pd) (slab : osdp_slab) (buf : List Nat)
    (l : List Nat) (st : decode_state) : Prop :=
  (st.pd.cmd_id = rd buf 0 ∨
    st.pd.cmd_id = (ops.osdp_sc_init { pd with cmd_id := rd buf 0 }).cmd_id) ∧
  st.pd.reply_id = st.reply.id ∧
  (refused K pd slab buf l st ∨ enqueued K slab buf l st ∨ answered K slab buf st)

/-! ## Bounds of pd_build_reply -/

/-- The buffer `b` differs from `b0` at most in the cells `lo .. hi - 1` and
in the three cells of the secure-channel block at `smb`. -/
def written_within (b b0 : List Nat) (lo hi : Int) (smb : Option Nat) : Prop :=
  ∀ j : Nat, ¬ (lo ≤ (j : Int) ∧ (j : Int) < hi) →
    (∀ m, smb = some m → j ≠ m ∧ j ≠ m + 1 ∧ j ≠ m + 2) → rd b j = rd b0 j

/-- A case of the switch of `pd_build_reply` stayed within its bounds, `max1`
being the room behind the reply code at the data offset `d`: it wrote within
that room, and unless it failed it left `len` between 1 and `max1 + 1` and
wrote within the first `len` cells at `d`. -/
def case_in_bounds (c : build_case) (b0 : List Nat) (max1 : Int) (d : Nat)
    (smb : Option Nat) : Prop :=
  written_within c.buf b0 d (d + 1 + max1) smb ∧
  (c.fail = false →
    1 ≤ c.len ∧ (c.len : Int) ≤ max1 + 1 ∧ written_within c.buf b0 d (d + c.len) smb)

/-! ## Sample states -/

/-- A command object with all fields zero. -/
def cmd_zero : osdp_cmd where
  next := none
  id := 0
  cmd_bytes := List.replicate 32 0
  output := ⟨0, 0, 0⟩
  led := ⟨0, 0, ⟨0, 0, 0, 0, 0, 0⟩, ⟨0, 0, 0, 0, 0, 0⟩⟩
  buzzer := ⟨0, 0, 0, 0, 0⟩
  text := ⟨0, 0, 0, 0, 0, 0, List.replicate 32 0⟩
  comset := ⟨0, 0⟩
  keyset := ⟨0, 0, List.replicate 32 0⟩

/-- A slab of four free blocks. -/
def slab_sample : osdp_slab := ⟨List.replicate 4 ⟨false, cmd_zero⟩⟩

/-- A slab whose four blocks are all in use. -/
def slab_full : osdp_slab := ⟨List.replicate 4 ⟨true, cmd_zero⟩⟩

/-- A secure-channel block with SCBK 00 .. 00 01 and everything else zero. -/
def sc_sample : osdp_secure_channel where
  scbk := [0, 0, 0, 0, 0, 0, 0, 0, 0, 0, 0, 0, 0, 0, 0, 1]
  s_enc := List.replicate 16 0
  s_mac1 := List.replicate 16 0
  s_mac2 := List.replicate 16 0
  r_mac := List.replicate 16 0
  c_mac := List.replicate 16 0
  cp_random := List.replicate 8 0
  pd_random := [8, 9, 10, 11, 12, 13, 14, 15]
  pd_client_uid := List.replicate 8 0
  cp_cryptogram := List.replicate 16 0
  pd_cryptogram := List.replicate 16 0

/-- A capability table with communication security at compliance level 1. -/
def cap_sample : List pd_cap :=
  (List.replicate 9 ⟨0, 0, 0⟩) ++ [⟨9, 1, 1⟩] ++ List.replicate 5 ⟨0, 0, 0⟩

/-- A PD at address 0 in PD mode, idle, with an empty queue and no secure
channel; its identity is that of the ID exchange scenario of the spec. -/
def pd_sample : osdp_pd where
  offset := 0
  baud_rate := 9600
  address := 0
  flags := 0x80000000
  seq_number := -1
  state := pd_state.PD_STATE_IDLE
  tstamp := 0
  rx_buf := []
  rx_buf_len := 0
  cmd_id := 0
  reply_id := 0
  id := ⟨0x02, 0x01, 0xC3B2A1, 0x12345678, 0x030201⟩
  cap := cap_sample
  sc := sc_sample
  queue := ⟨none, none⟩
  channel := ⟨0, 0, 0, 0, none⟩

/-- The sample PD with the secure channel active on SCBK-D in install mode. -/
def pd_secure : osdp_pd := { pd_sample with flags := 0xC0000180 }

/-- The sample PD without the communication-security capability. -/
def pd_nosc : osdp_pd := { pd_sample with cap := List.replicate 15 ⟨0, 0, 0⟩ }

/-- Secure-channel routines that change nothing and accept every cryptogram. -/
def ops_accept : ScOps where
  osdp_sc_init := id
  osdp_compute_session_keys := id
  osdp_compute_pd_cryptogram := id
  osdp_compute_rmac_i := id
  osdp_verify_cp_cryptogram := fun _ => 0

/-- Secure-channel routines that change nothing and reject every cryptogram. -/
def ops_reject : ScOps where
  osdp_sc_init := id
  osdp_compute_session_keys := id
  osdp_compute_pd_cryptogram := id
  osdp_compute_rmac_i := id
  osdp_verify_cp_cryptogram := fun _ => -1

/-- A KEYSET command: key type 1, key length 16, key 0xA0 .. 0xAF. -/
def keyset_cmd : List Nat :=
  [0x75, 1, 16, 0xA0, 0xA1, 0xA2, 0xA3, 0xA4, 0xA5, 0xA6, 0xA7,
   0xA8, 0xA9, 0xAA, 0xAB, 0xAC, 0xAD, 0xAE, 0xAF]

/-- The sample slab after its first block has been handed out. -/
def slab_one_used : osdp_slab := ⟨⟨true, cmd_zero⟩ :: List.replicate 3 ⟨false, cmd_zero⟩⟩

/-- An SCRYPT command carrying the cryptogram 0xC0 .. 0xCF. -/
def scrypt_cmd : List Nat :=
  [0x77, 0xC0, 0xC1, 0xC2, 0xC3, 0xC4, 0xC5, 0xC6, 0xC7,
   0xC8, 0xC9, 0xCA, 0xCB, 0xCC, 0xCD, 0xCE, 0xCF]

/-- A packet buffer of 64 bytes holding a reply header with a secure-channel
block of three bytes at offset 5, so that the data starts at offset 8. -/
def pkt_sample : List Nat :=
  [0xFF, 0x80, 0x00, 0x00, 0x0C, 0x03, 0x00, 0x00] ++ List.replicate 56 0

/-- A CHLNG command carrying the CP random 00 01 .. 07. -/
def chlng_cmd : List Nat := [0x76, 0, 1, 2, 3, 4, 5, 6, 7]

/-- A reply record with the given reply code. -/
def reply_with (id : Nat) : osdp_cmd := { cmd_zero with id := id }

/-- A command byte that `pd_decode_command` has no case for (0x80 is the
manufacturer-specific command of the OSDP standard), without payload. -/
def unknown_cmd : List Nat := [0x80]

/-- A POLL command followed by five payload bytes. -/
def poll_long : List Nat := [0x60, 1, 2, 3, 4, 5]

/-- An ID command without its reply-type byte. -/
def id_short : List Nat := [0x61]

/-- An OUT command with three payload bytes instead of four. -/
def out_short : List Nat := [0x68, 0, 1, 2]

/-- A TEXT command of seven payload bytes that declares 32 bytes of text:
one byte of text was received, the bytes behind it are left over from an
earlier packet. -/
def text_overlong : List Nat :=
  [0x6B, 0, 1, 0, 0, 0, 32, 0x41] ++ List.replicate 40 0x53

/-- A TEXT command of seven payload bytes that declares 33 bytes of text. -/
def text_too_long : List Nat := [0x6B, 0, 1, 0, 0, 0, 33, 0x41]

/-- A PD record as `calloc` leaves it. -/
def pd_zero : osdp_pd where
  offset := 0
  baud_rate := 0
  address := 0
  flags := 0
  seq_number := 0
  state := pd_state.PD_STATE_IDLE
  tstamp := 0
  rx_buf := []
  rx_buf_len := 0
  cmd_id := 0
  reply_id := 0
  id := ⟨0, 0, 0, 0, 0⟩
  cap := List.replicate 15 ⟨0, 0, 0⟩
  sc := ⟨[], [], [], [], [], [], [], [], [], [], []⟩
  queue := ⟨none, none⟩
  channel := ⟨0, 0, 0, 0, none⟩

/-- A capability array with the single capability communication security
(code 9, compliance level 1, one item), closed by the terminator { -1, 0, 0 }. -/
def caps_one : List pd_cap := [⟨9, 1, 1⟩, ⟨255, 0, 0⟩]

/-- An OUT command: output 1, control code 2, timer 0x0403. -/
def out_cmd : List Nat := [0x68, 1, 2, 3, 4]

/-- A POLL command. -/
def poll_cmd : List Nat := [0x60]

/-- A command object with the id `k` and nothing else. -/
def cmd_with (k : Nat) : osdp_cmd := { cmd_zero with id := k }

/-- Eleven uses of the queue: on a slab of four blocks the sixth finds no
block free, and the last finds the queue empty. -/
def queue_trace : List queue_op :=
  [queue_op.enq (cmd_with 1), queue_op.enq (cmd_with 2), queue_op.get cmd_zero,
   queue_op.enq (cmd_with 3), queue_op.enq (cmd_with 4), queue_op.enq (cmd_with 5),
   queue_op.enq (cmd_with 6), queue_op.get cmd_zero, queue_op.get cmd_zero,
   queue_op.get cmd_zero, queue_op.get cmd_zero, queue_op.get (cmd_with 9)]

/-- A packet layer with a five-byte header, no secure-channel block and a
two-byte trailer, which takes every received buffer for a complete packet. -/
def phy_sample : PhyOps where
  phy_build_packet_head := fun pd _ _ => (5, pd)
  phy_build_packet_tail := fun pd len _ => (len + 2, pd)
  phy_decode_packet := fun pd len => (len, pd)
  phy_packet_get_data_offset := fun _ => 5
  phy_packet_get_smb := fun _ => none

/-- A host with a 256-byte receive buffer and a 200 ms timeout, whose channel
delivers nothing and sends everything, at a clock that stands still. -/
def host_sample : Host where
  RX_BUF_SIZE := 256
  OSDP_RESP_TOUT_MS := 200
  millis_now := 0
  millis_since := fun _ => 0
  recv := fun _ _ => (0, [])
  send := fun _ _ len => len

/-- The secure sample PD in the error state, with five bytes received. -/
def pd_err : osdp_pd :=
  { pd_secure with state := pd_state.PD_STATE_ERR, rx_buf_len := 5, rx_buf := [0x53, 0, 8, 0, 4] }

/-! ## osdp_pd_setup -/

/-- The PD description `osdp_pd_info_t` as `osdp_pd_setup` reads it; `cap` is
`none` for a NULL pointer. -/
structure osdp_pd_info_t where
  baud_rate : Int
  address : Int
  flags : Int
  id : pd_id
  cap : Option (List pd_cap)
  channel : osdp_channel
  deriving DecidableEq

/-- Modelled from the spec: what the allocations in `osdp_pd_setup` return:
whether each `calloc` succeeds, and the slab that `osdp_slab_init` hands out
(`none` for NULL). -/
structure setup_mem where
  ctx_ok : Bool
  slab : Option osdp_slab
  cp_ok : Bool
  pd_ok : Bool
  deriving DecidableEq

/-- The assignments of `osdp_pd_setup` to the zeroed PD record up to the call
of `osdp_pd_set_attributes`; `scbk` is `none` for a NULL pointer. The flag
word holds `info->flags` as a 32-bit value. -/
def setup_fields (K : Consts) (info : osdp_pd_info_t) (scbk : Option (List Nat)) : osdp_pd :=
  let pd : osdp_pd :=
    { pd_zero with
      offset := 0
      baud_rate := info.baud_rate
      address := info.address
      flags := (info.flags % 2 ^ 32).toNat
      seq_number := -1
      channel := info.channel }
  match scbk with
  | none => { pd with flags := SET_FLAG pd.flags K.PD_FLAG_INSTALL_MODE }
  | some key => { pd with sc := { pd.sc with scbk := copy_bytes pd.sc.scbk 0 key 0 16 } }

/-- Translation of `osdp_pd_setup(info, scbk)`: `some none` is the result NULL
(an allocation failed), `some (some (pd, slab))` a context with its PD record
and command slab; the result is `none` if the capability array has no
terminator. -/
def osdp_pd_setup (K : Consts) (mem : setup_mem) (info : osdp_pd_info_t)
    (scbk : Option (List Nat)) : Option (Option (osdp_pd × osdp_slab)) :=
  if mem.ctx_ok = false then some none
  else
    match mem.slab with
    | none => some none
    | some slab =>
      if mem.cp_ok = false then some none
      else if mem.pd_ok = false then some none
      else
        (osdp_pd_set_attributes (setup_fields K info scbk) info.cap info.id).map
          (fun p => some ({ p with flags := SET_FLAG p.flags K.PD_FLAG_PD_MODE }, slab))

/-! ## Sample hosts and descriptions -/

/-- The sample PD in state PD_STATE_SEND_REPLY. -/
def pd_send : osdp_pd := { pd_sample with state := pd_state.PD_STATE_SEND_REPLY }

/-- The secure sample PD in the error state, holding session keys. -/
def pd_keyed : osdp_pd :=
  { pd_err with
    sc := { sc_sample with
            s_enc := List.replicate 16 0xA1
            s_mac1 := List.replicate 16 0xB2
            s_mac2 := List.replicate 16 0xC3 } }

/-- The sample PD with a flush callback, holding two received bytes. -/
def pd_part : osdp_pd :=
  { pd_secure with rx_buf := [0x53, 0x00], rx_buf_len := 2, tstamp := 40,
                   channel := ⟨0, 0, 0, 0, some 1⟩ }

/-- A host whose channel delivers the single byte 0x60, a POLL command for
the sample packet layer. -/
def host_poll : Host := { host_sample with recv := fun _ _ => (1, [0x60]) }

/-- A host whose channel delivers three bytes. -/
def host_part : Host := { host_sample with recv := fun _ _ => (3, [0x08, 0x00, 0x04]) }

/-- A host whose channel sends one byte less than it is given. -/
def host_short : Host := { host_sample with send := fun _ _ len => len - 1 }

/-- A host at which every time stamp is a second old. -/
def host_late : Host := { host_sample with millis_since := fun _ => 1000 }

/-- A packet layer for which every received buffer is incomplete. -/
def phy_more : PhyOps := { phy_sample with phy_decode_packet := fun pd _ => (-2, pd) }

/-- A packet layer that discards every received buffer. -/
def phy_soft : PhyOps := { phy_sample with phy_decode_packet := fun pd _ => (-3, pd) }

/-- Every allocation succeeds; the slab has four free blocks. -/
def mem_sample : setup_mem := ⟨true, some slab_sample, true, true⟩

/-- A base key of 16 bytes followed by two more bytes of the caller's buffer. -/
def key_sample : List Nat :=
  [0x30, 0x31, 0x32, 0x33, 0x34, 0x35, 0x36, 0x37, 0x38, 0x39, 0x3A, 0x3B, 0x3C, 0x3D, 0x3E,
   0x3F, 0xEE, 0xEE]

/-- A PD description: address 0x85, 115200 baud, the capability array
`caps_one`. -/
def info_sample : osdp_pd_info_t where
  baud_rate := 115200
  address := 0x85
  flags := 0x00010000
  id := ⟨0x02, 0x01, 0xC3B2A1, 0x12345678, 0x030201⟩
  cap := some caps_one
  channel := ⟨7, 1, 2, 3, none⟩

/-- The sample PD at address 0x65 with 115200 baud. -/
def pd_com : osdp_pd := { pd_sample with address := 0x65, baud_rate := 115200 }

/-- A COMSET command whose payload is the COM record of `pd_com`. -/
def comset_cmd : List Nat := [0x6E, 0x65, 0x00, 0xC2, 0x01, 0x00]

/-- A packet whose secure-channel block {2, 0x15, 0} sits at 5, in front of
the data at 8. -/
def pkt_secure : List Nat := [0x53, 0x00, 0x0B, 0x00, 0x0E, 0x02, 0x15, 0x00] ++ List.replicate 24 0

/-- Three calls: a POLL arrives, nothing arrives, a POLL arrives on a channel
that sends short. -/
def calls_sample : List (Host × osdp_cmd) :=
  [(host_poll, cmd_zero), (host_sample, cmd_zero),
   ({ host_poll with send := fun _ _ len => len - 1 }, cmd_zero)]

/-- A host whose channel delivers the byte 0x60 whenever it is given room for
one. -/
def host_fit : Host :=
  { host_sample with recv := fun _ m => if 1 ≤ m then (1, [0x60]) else (0, []) }

/-- Three calls: a POLL arrives, nothing arrives, a POLL arrives. -/
def calls_fit : List (Host × osdp_cmd) :=
  [(host_fit, cmd_zero), (host_sample, cmd_zero), (host_fit, cmd_zero)]

/-- The sample PD with 256 bytes held in its 256-byte receive buffer. -/
def pd_filled : osdp_pd := { pd_sample with rx_buf := List.replicate 256 0x53, rx_buf_len := 256 }

/-! ## Byte arrays: reading after writing -/

theorem rd_wr_same (buf : List Nat) (i v : Nat) : rd (wr buf i v) i = v := by
  induction buf generalizing i with
  | nil =>
    induction i with
    | zero => rfl
    | succ n ih => simpa [wr, rd] using ih
  | cons h t ih =>
    cases i with
    | zero => rfl
    | succ n => simpa [wr, rd] using ih n

theorem rd_nil (j : Nat) : rd [] j = 0 := by
  cases j <;> rfl

theorem rd_wr_other (buf : List Nat) (i j v : Nat) (h : j ≠ i) :
    rd (wr buf i v) j = rd buf j := by
  induction buf generalizing i j with
  | nil =>
    induction i generalizing j with
    | zero =>
      cases j with
      | zero => exact absurd rfl h
      | succ m => simp [wr, rd, rd_nil]
    | succ n ih =>
      cases j with
      | zero => simp [wr, rd]
      | succ m =>
        have hm : m ≠ n := fun e => h (by rw [e])
        simpa [wr, rd, rd_nil] using ih m hm
  | cons a t ih =>
    cases i with
    | zero =>
      cases j with
      | zero => exact absurd rfl h
      | succ m => simp [wr, rd]
    | succ n =>
      cases j with
      | zero => simp [wr, rd]
      | succ m =>
        have hm : m ≠ n := fun e => h (by rw [e])
        simpa [wr, rd] using ih n m hm

theorem rd_copy_bytes (dst : List Nat) (d : Nat) (src : List Nat) (s n j : Nat) :
    rd (copy_bytes dst d src s n) j =
      if d ≤ j ∧ j < d + n then rd src (s + (j - d)) else rd dst j := by
  induction n generalizing dst d s with
  | zero =>
    rw [copy_bytes, if_neg (by omega)]
  | succ n ih =>
    rw [copy_bytes, ih]
    by_cases h1 : d + 1 ≤ j ∧ j < d + 1 + n
    · have h2 : d ≤ j ∧ j < d + (n + 1) := by omega
      rw [if_pos h1, if_pos h2]
      congr 1
      omega
    · rw [if_neg h1]
      by_cases h3 : j = d
      · subst h3
        rw [rd_wr_same, if_pos (by omega)]
        simp
      · rw [rd_wr_other _ _ _ _ h3, if_neg (by omega)]

/-! ## The switch of pd_decode_command, case by case -/

theorem switch_poll (K : Consts) (hK : K.WF) (ops : ScOps) (st : decode_state)
    (buf : List Nat) (len : Int) (h : st.pd.cmd_id = K.CMD_POLL) :
    decode_switch K ops st buf len = some (reply_ok st K.REPLY_ACK) := by
  have hn := hK.cmds_nodup
  simp only [Consts.cmd_labels, List.nodup_cons, List.mem_cons, List.mem_singleton,
    not_or] at hn
  unfold decode_switch
  simp only [h]
  simp only [eq_comm (a := K.CMD_POLL), hn, if_false, if_true]

theorem switch_lstat (K : Consts) (hK : K.WF) (ops : ScOps) (st : decode_state)
    (buf : List Nat) (len : Int) (h : st.pd.cmd_id = K.CMD_LSTAT) :
    decode_switch K ops st buf len = some (reply_ok st K.REPLY_LSTATR) := by
  have hn := hK.cmds_nodup
  simp only [Consts.cmd_labels, List.nodup_cons, List.mem_cons, List.mem_singleton,
    not_or] at hn
  unfold decode_switch
  simp only [h]
  simp only [eq_comm (a := K.CMD_LSTAT), hn, if_false, if_true]

theorem switch_istat (K : Consts) (hK : K.WF) (ops : ScOps) (st : decode_state)
    (buf : List Nat) (len : Int) (h : st.pd.cmd_id = K.CMD_ISTAT) :
    decode_switch K ops st buf len = some (reply_ok st K.REPLY_ISTATR) := by
  have hn := hK.cmds_nodup
  simp only [Consts.cmd_labels, List.nodup_cons, List.mem_cons, List.mem_singleton,
    not_or] at hn
  unfold decode_switch
  simp only [h]
  simp only [eq_comm (a := K.CMD_ISTAT), hn, if_false, if_true]

theorem switch_ostat (K : Consts) (hK : K.WF) (ops : ScOps) (st : decode_state)
    (buf : List Nat) (len : Int) (h : st.pd.cmd_id = K.CMD_OSTAT) :
    decode_switch K ops st buf len = some (reply_ok st K.REPLY_OSTATR) := by
  have hn := hK.cmds_nodup
  simp only [Consts.cmd_labels, List.nodup_cons, List.mem_cons, List.mem_singleton,
    not_or] at hn
  unfold decode_switch
  simp only [h]
  simp only [eq_comm (a := K.CMD_OSTAT), hn, if_false, if_true]

theorem switch_rstat (K : Consts) (hK : K.WF) (ops : ScOps) (st : decode_state)
    (buf : List Nat) (len : Int) (h : st.pd.cmd_id = K.CMD_RSTAT) :
    decode_switch K ops st buf len = some (reply_ok st K.REPLY_RSTATR) := by
  have hn := hK.cmds_nodup
  simp only [Consts.cmd_labels, List.nodup_cons, List.mem_cons, List.mem_singleton,
    not_or] at hn
  unfold decode_switch
  simp only [h]
  simp only [eq_comm (a := K.CMD_RSTAT), hn, if_false, if_true]

theorem switch_id (K : Consts) (hK : K.WF) (ops : ScOps) (st : decode_state)
    (buf : List Nat) (len : Int) (h : st.pd.cmd_id = K.CMD_ID) :
    decode_switch K ops st buf len = some (reply_ok { st with pos := st.pos + 1 } K.REPLY_PDID) := by
  have hn := hK.cmds_nodup
  simp only [Consts.cmd_labels, List.nodup_cons, List.mem_cons, List.mem_singleton,
    not_or] at hn
  unfold decode_switch
  simp only [h]
  simp only [eq_comm (a := K.CMD_ID), hn, if_false, if_true]

theorem switch_cap (K : Consts) (hK : K.WF) (ops : ScOps) (st : decode_state)
    (buf : List Nat) (len : Int) (h : st.pd.cmd_id = K.CMD_CAP) :
    decode_switch K ops st buf len = some (reply_ok { st with pos := st.pos + 1 } K.REPLY_PDCAP) := by
  have hn := hK.cmds_nodup
  simp only [Consts.cmd_labels, List.nodup_cons, List.mem_cons, List.mem_singleton,
    not_or] at hn
  unfold decode_switch
  simp only [h]
  simp only [eq_comm (a := K.CMD_CAP), hn, if_false, if_true]

theorem switch_out (K : Consts) (hK : K.WF) (ops : ScOps) (st : decode_state)
    (buf : List Nat) (len : Int) (h : st.pd.cmd_id = K.CMD_OUT) :
    decode_switch K ops st buf len = decode_out K st buf len := by
  have hn := hK.cmds_nodup
  simp only [Consts.cmd_labels, List.nodup_cons, List.mem_cons, List.mem_singleton,
    not_or] at hn
  unfold decode_switch
  simp only [h]
  simp only [eq_comm (a := K.CMD_OUT), hn, if_false, if_true]

theorem switch_led (K : Consts) (hK : K.WF) (ops : ScOps) (st : decode_state)
    (buf : List Nat) (len : Int) (h : st.pd.cmd_id = K.CMD_LED) :
    decode_switch K ops st buf len = decode_led K st buf len := by
  have hn := hK.cmds_nodup
  simp only [Consts.cmd_labels, List.nodup_cons, List.mem_cons, List.mem_singleton,
    not_or] at hn
  unfold decode_switch
  simp only [h]
  simp only [eq_comm (a := K.CMD_LED), hn, if_false, if_true]

theorem switch_buz (K : Consts) (hK : K.WF) (ops : ScOps) (st : decode_state)
    (buf : List Nat) (len : Int) (h : st.pd.cmd_id = K.CMD_BUZ) :
    decode_switch K ops st buf len = decode_buz K st buf len := by
  have hn := hK.cmds_nodup
  simp only [Consts.cmd_labels, List.nodup_cons, List.mem_cons, List.mem_singleton,
    not_or] at hn
  unfold decode_switch
  simp only [h]
  simp only [eq_comm (a := K.CMD_BUZ), hn, if_false, if_true]

theorem switch_text (K : Consts) (hK : K.WF) (ops : ScOps) (st : decode_state)
    (buf : List Nat) (len : Int) (h : st.pd.cmd_id = K.CMD_TEXT) :
    decode_switch K ops st buf len = decode_text K st buf len := by
  have hn := hK.cmds_nodup
  simp only [Consts.cmd_labels, List.nodup_cons, List.mem_cons, List.mem_singleton,
    not_or] at hn
  unfold decode_switch
  simp only [h]
  simp only [eq_comm (a := K.CMD_TEXT), hn, if_false, if_true]

theorem switch_comset (K : Consts) (hK : K.WF) (ops : ScOps) (st : decode_state)
    (buf : List Nat) (len : Int) (h : st.pd.cmd_id = K.CMD_COMSET) :
    decode_switch K ops st buf len = decode_comset K st buf len := by
  have hn := hK.cmds_nodup
  simp only [Consts.cmd_labels, List.nodup_cons, List.mem_cons, List.mem_singleton,
    not_or] at hn
  unfold decode_switch
  simp only [h]
  simp only [eq_comm (a := K.CMD_COMSET), hn, if_false, if_true]

theorem switch_keyset (K : Consts) (hK : K.WF) (ops : ScOps) (st : decode_state)
    (buf : List Nat) (len : Int) (h : st.pd.cmd_id = K.CMD_KEYSET) :
    decode_switch K ops st buf len = decode_keyset K st buf len := by
  have hn := hK.cmds_nodup
  simp only [Consts.cmd_labels, List.nodup_cons, List.mem_cons, List.mem_singleton,
    not_or] at hn
  unfold decode_switch
  simp only [h]
  simp only [eq_comm (a := K.CMD_KEYSET), hn, if_false, if_true]

theorem switch_chlng (K : Consts) (hK : K.WF) (ops : ScOps) (st : decode_state)
    (buf : List Nat) (len : Int) (h : st.pd.cmd_id = K.CMD_CHLNG) :
    decode_switch K ops st buf len = some (decode_chlng K ops st buf len) := by
  have hn := hK.cmds_nodup
  simp only [Consts.cmd_labels, List.nodup_cons, List.mem_cons, List.mem_singleton,
    not_or] at hn
  unfold decode_switch
  simp only [h]
  simp only [eq_comm (a := K.CMD_CHLNG), hn, if_false, if_true]

theorem switch_scrypt (K : Consts) (hK : K.WF) (ops : ScOps) (st : decode_state)
    (buf : List Nat) (len : Int) (h : st.pd.cmd_id = K.CMD_SCRYPT) :
    decode_switch K ops st buf len = some (decode_scrypt K st buf len) := by
  have hn := hK.cmds_nodup
  simp only [Consts.cmd_labels, List.nodup_cons, List.mem_cons, List.mem_singleton,
    not_or] at hn
  unfold decode_switch
  simp only [h]
  simp only [eq_comm (a := K.CMD_SCRYPT), hn, if_false, if_true]

theorem switch_default (K : Consts) (ops : ScOps) (st : decode_state)
    (buf : List Nat) (len : Int) (h : st.pd.cmd_id ∉ K.cmd_labels) :
    decode_switch K ops st buf len = some st := by
  simp only [Consts.cmd_labels, List.mem_cons, List.mem_singleton, not_or, List.not_mem_nil,
    or_false] at h
  unfold decode_switch
  simp only [h, if_false]

/-! ## The switch of pd_build_reply, case by case -/

theorem build_switch_ack (K : Consts) (hK : K.WF) (ops : ScOps) (pd : osdp_pd)
    (reply : osdp_cmd) (buf : List Nat) (max_len : Int) (d : Nat) (smb : Option Nat)
    (h : reply.id = K.REPLY_ACK) :
    build_switch K ops pd reply buf max_len d smb = ⟨pd, buf, 1, false⟩ := by
  have hn := hK.replies_nodup
  simp only [Consts.reply_labels, List.nodup_cons, List.mem_cons, List.mem_singleton,
    not_or] at hn
  unfold build_switch
  simp only [h]
  simp only [eq_comm (a := K.REPLY_ACK), hn, if_false, if_true]

theorem build_switch_pdid (K : Consts) (hK : K.WF) (ops : ScOps) (pd : osdp_pd)
    (reply : osdp_cmd) (buf : List Nat) (max_len : Int) (d : Nat) (smb : Option Nat)
    (h : reply.id = K.REPLY_PDID) :
    build_switch K ops pd reply buf max_len d smb = build_pdid pd buf max_len d := by
  have hn := hK.replies_nodup
  simp only [Consts.reply_labels, List.nodup_cons, List.mem_cons, List.mem_singleton,
    not_or] at hn
  unfold build_switch
  simp only [h]
  simp only [eq_comm (a := K.REPLY_PDID), hn, if_false, if_true]

theorem build_switch_pdcap (K : Consts) (hK : K.WF) (ops : ScOps) (pd : osdp_pd)
    (reply : osdp_cmd) (buf : List Nat) (max_len : Int) (d : Nat) (smb : Option Nat)
    (h : reply.id = K.REPLY_PDCAP) :
    build_switch K ops pd reply buf max_len d smb = build_pdcap pd buf max_len d := by
  have hn := hK.replies_nodup
  simp only [Consts.reply_labels, List.nodup_cons, List.mem_cons, List.mem_singleton,
    not_or] at hn
  unfold build_switch
  simp only [h]
  simp only [eq_comm (a := K.REPLY_PDCAP), hn, if_false, if_true]

theorem build_switch_lstatr (K : Consts) (hK : K.WF) (ops : ScOps) (pd : osdp_pd)
    (reply : osdp_cmd) (buf : List Nat) (max_len : Int) (d : Nat) (smb : Option Nat)
    (h : reply.id = K.REPLY_LSTATR) :
    build_switch K ops pd reply buf max_len d smb = build_lstatr K pd buf max_len d := by
  have hn := hK.replies_nodup
  simp only [Consts.reply_labels, List.nodup_cons, List.mem_cons, List.mem_singleton,
    not_or] at hn
  unfold build_switch
  simp only [h]
  simp only [eq_comm (a := K.REPLY_LSTATR), hn, if_false, if_true]

theorem build_switch_rstatr (K : Consts) (hK : K.WF) (ops : ScOps) (pd : osdp_pd)
    (reply : osdp_cmd) (buf : List Nat) (max_len : Int) (d : Nat) (smb : Option Nat)
    (h : reply.id = K.REPLY_RSTATR) :
    build_switch K ops pd reply buf max_len d smb = build_rstatr K pd buf max_len d := by
  have hn := hK.replies_nodup
  simp only [Consts.reply_labels, List.nodup_cons, List.mem_cons, List.mem_singleton,
    not_or] at hn
  unfold build_switch
  simp only [h]
  simp only [eq_comm (a := K.REPLY_RSTATR), hn, if_false, if_true]

theorem build_switch_com (K : Consts) (hK : K.WF) (ops : ScOps) (pd : osdp_pd)
    (reply : osdp_cmd) (buf : List Nat) (max_len : Int) (d : Nat) (smb : Option Nat)
    (h : reply.id = K.REPLY_COM) :
    build_switch K ops pd reply buf max_len d smb = build_com pd buf max_len d := by
  have hn := hK.replies_nodup
  simp only [Consts.reply_labels, List.nodup_cons, List.mem_cons, List.mem_singleton,
    not_or] at hn
  unfold build_switch
  simp only [h]
  simp only [eq_comm (a := K.REPLY_COM), hn, if_false, if_true]

theorem build_switch_nak (K : Consts) (hK : K.WF) (ops : ScOps) (pd : osdp_pd)
    (reply : osdp_cmd) (buf : List Nat) (max_len : Int) (d : Nat) (smb : Option Nat)
    (h : reply.id = K.REPLY_NAK) :
    build_switch K ops pd reply buf max_len d smb = build_nak pd reply buf max_len d := by
  have hn := hK.replies_nodup
  simp only [Consts.reply_labels, List.nodup_cons, List.mem_cons, List.mem_singleton,
    not_or] at hn
  unfold build_switch
  simp only [h]
  simp only [eq_comm (a := K.REPLY_NAK), hn, if_false, if_true]

theorem build_switch_ccrypt (K : Consts) (hK : K.WF) (ops : ScOps) (pd : osdp_pd)
    (reply : osdp_cmd) (buf : List Nat) (max_len : Int) (d : Nat) (smb : Option Nat)
    (h : reply.id = K.REPLY_CCRYPT) :
    build_switch K ops pd reply buf max_len d smb = build_ccrypt K ops pd buf max_len d smb := by
  have hn := hK.replies_nodup
  simp only [Consts.reply_labels, List.nodup_cons, List.mem_cons, List.mem_singleton,
    not_or] at hn
  unfold build_switch
  simp only [h]
  simp only [eq_comm (a := K.REPLY_CCRYPT), hn, if_false, if_true]

theorem build_switch_rmac_i (K : Consts) (hK : K.WF) (ops : ScOps) (pd : osdp_pd)
    (reply : osdp_cmd) (buf : List Nat) (max_len : Int) (d : Nat) (smb : Option Nat)
    (h : reply.id = K.REPLY_RMAC_I) :
    build_switch K ops pd reply buf max_len d smb = build_rmac_i K ops pd buf max_len d smb := by
  have hn := hK.replies_nodup
  simp only [Consts.reply_labels, List.nodup_cons, List.mem_cons, List.mem_singleton,
    not_or] at hn
  unfold build_switch
  simp only [h]
  simp only [eq_comm (a := K.REPLY_RMAC_I), hn, if_false, if_true]

theorem build_switch_default (K : Consts) (ops : ScOps) (pd : osdp_pd)
    (reply : osdp_cmd) (buf : List Nat) (max_len : Int) (d : Nat) (smb : Option Nat)
    (h : reply.id ∉ K.reply_labels) :
    build_switch K ops pd reply buf max_len d smb = ⟨pd, buf, 1, false⟩ := by
  simp only [Consts.reply_labels, List.mem_cons, List.mem_singleton, not_or, List.not_mem_nil,
    or_false] at h
  unfold build_switch
  simp only [h, if_false]

/-- The standard constants are well formed. -/
theorem std_wf : std.WF where
  cmds_nodup := by decide
  replies_nodup := by decide
  reply_ids_nodup := by decide
  cmds_byte := by decide
  replies_byte := by decide
  scs_order := by decide
  flags_pos := by decide
  flags_disjoint := by decide

/-! ## The slab and the queue -/

theorem blk_slab_modify (s : osdp_slab) (i j : Nat) (f : osdp_slab_blk → osdp_slab_blk) :
    blk (slab_modify s i f) j = (blk s j).map (fun b => if i = j then f b else b) := by
  simp [blk, slab_modify, List.getElem?_modify]

theorem blk_slab_modify_ne (s : osdp_slab) (i j : Nat) (f : osdp_slab_blk → osdp_slab_blk)
    (h : i ≠ j) : blk (slab_modify s i f) j = blk s j := by
  rw [blk_slab_modify]
  cases blk s j <;> simp [h]

theorem blk_slab_update_ne (s : osdp_slab) (i j : Nat) (f : osdp_cmd → osdp_cmd)
    (h : i ≠ j) : blk (slab_update s i f) j = blk s j :=
  blk_slab_modify_ne s i j _ h

theorem blk_slab_update_eq (s : osdp_slab) (i : Nat) (f : osdp_cmd → osdp_cmd)
    (b : osdp_slab_blk) (h : blk s i = some b) :
    blk (slab_update s i f) i = some { b with data := f b.data } := by
  simp [slab_update, blk_slab_modify, h]

theorem slab_find_free_spec (bs : List osdp_slab_blk) (i : Nat)
    (h : slab_find_free bs = some i) : ∃ b, bs[i]? = some b ∧ b.in_use = false := by
  induction bs generalizing i with
  | nil => simp [slab_find_free] at h
  | cons a t ih =>
    by_cases ha : a.in_use = true
    · simp only [slab_find_free, ha, if_true, Option.map_eq_some'] at h
      obtain ⟨k, hk, rfl⟩ := h
      simpa using ih k hk
    · simp only [slab_find_free, ha] at h
      simp only [Bool.false_eq_true, if_false, Option.some.injEq] at h
      subst h
      exact ⟨a, by simp, by simpa using ha⟩

theorem osdp_slab_alloc_spec (s s1 : osdp_slab) (j : Nat)
    (h : osdp_slab_alloc s = some (j, s1)) :
    (∃ b, blk s j = some b ∧ b.in_use = false) ∧
      s1 = slab_modify s j (fun b => { b with in_use := true }) := by
  unfold osdp_slab_alloc at h
  cases hf : slab_find_free s.blks with
  | none => simp [hf] at h
  | some i =>
    simp only [hf, Option.some.injEq, Prod.mk.injEq] at h
    obtain ⟨rfl, rfl⟩ := h
    exact ⟨slab_find_free_spec s.blks i hf, rfl⟩

theorem linked_cons_eq (s : osdp_slab) (i : Nat) (t : List Nat) (p : Option Nat) :
    linked s (i :: t) p =
      (p == some i &&
        match blk s i with
        | none => false
        | some b => b.in_use && linked s t b.data.next) := by
  rw [linked]

theorem linked_cons (s : osdp_slab) (i : Nat) (t : List Nat) (p : Option Nat) :
    linked s (i :: t) p = true ↔
      p = some i ∧ ∃ b, blk s i = some b ∧ b.in_use = true ∧ linked s t b.data.next = true := by
  rw [linked_cons_eq]
  cases hb : blk s i with
  | none => simp
  | some b => simp

theorem linked_nil (s : osdp_slab) (p : Option Nat) : linked s [] p = true ↔ p = none := by
  cases p <;> simp [linked]

theorem linked_congr (s s1 : osdp_slab) (l : List Nat) (p : Option Nat)
    (h : ∀ i ∈ l, blk s1 i = blk s i) : linked s1 l p = linked s l p := by
  induction l generalizing p with
  | nil => simp [linked]
  | cons i t ih =>
    have hi : blk s1 i = blk s i := h i (List.mem_cons_self i t)
    have ht : ∀ q, linked s1 t q = linked s t q :=
      fun q => ih q (fun k hk => h k (List.mem_cons_of_mem i hk))
    rw [linked_cons_eq, linked_cons_eq, hi]
    cases blk s i with
    | none => rfl
    | some b => simp [ht]

theorem linked_in_use (s : osdp_slab) (l : List Nat) (p : Option Nat)
    (h : linked s l p = true) : ∀ i ∈ l, ∃ b, blk s i = some b ∧ b.in_use = true := by
  induction l generalizing p with
  | nil => intro i hi; cases hi
  | cons a t ih =>
    obtain ⟨_, b, hb, hu, ht⟩ := (linked_cons s a t p).mp h
    intro i hi
    rcases List.mem_cons.mp hi with rfl | hi
    · exact ⟨b, hb, hu⟩
    · exact ih _ ht i hi

theorem linked_unique (s : osdp_slab) (l l1 : List Nat) (p : Option Nat)
    (h : linked s l p = true) (h1 : linked s l1 p = true) : l = l1 := by
  induction l generalizing l1 p with
  | nil =>
    cases l1 with
    | nil => rfl
    | cons a t =>
      have hp := (linked_nil s p).mp h
      have := ((linked_cons s a t p).mp h1).1
      rw [hp] at this
      cases this
  | cons i t ih =>
    obtain ⟨hp, b, hb, _, ht⟩ := (linked_cons s i t p).mp h
    cases l1 with
    | nil =>
      have := (linked_nil s p).mp h1
      rw [hp] at this
      cases this
    | cons a t1 =>
      obtain ⟨hp1, b1, hb1, _, ht1⟩ := (linked_cons s a t1 p).mp h1
      rw [hp] at hp1
      cases hp1
      rw [hb] at hb1
      cases hb1
      rw [ih t1 _ ht ht1]

theorem linked_suffix (s : osdp_slab) (l1 : List Nat) (i : Nat) (t : List Nat) (p : Option Nat)
    (h : linked s (l1 ++ i :: t) p = true) : linked s (i :: t) (some i) = true := by
  induction l1 generalizing p with
  | nil =>
    have h0 : linked s (i :: t) p = true := h
    obtain ⟨hp, _⟩ := (linked_cons s i t p).mp h0
    rw [← hp]
    exact h0
  | cons a t1 ih =>
    have h0 : linked s (a :: (t1 ++ i :: t)) p = true := h
    obtain ⟨_, b, _, _, ht⟩ := (linked_cons s a _ p).mp h0
    exact ih _ ht

theorem linked_nodup (s : osdp_slab) (l : List Nat) (p : Option Nat)
    (h : linked s l p = true) : l.Nodup := by
  induction l generalizing p with
  | nil => exact List.nodup_nil
  | cons i t ih =>
    obtain ⟨hp, b, hb, hu, ht⟩ := (linked_cons s i t p).mp h
    refine List.nodup_cons.mpr ⟨?_, ih _ ht⟩
    intro hi
    obtain ⟨l1, t2, rfl⟩ := List.append_of_mem hi
    have h2 : linked s (i :: t2) (some i) = true := linked_suffix s l1 i t2 _ ht
    have h3 : linked s (i :: (l1 ++ i :: t2)) (some i) = true := by
      rw [← hp]
      exact h
    have := linked_unique s _ _ _ h2 h3
    have hlen := congrArg List.length this
    simp at hlen
    omega

theorem linked_append (s : osdp_slab) (l : List Nat) (last j : Nat) (p : Option Nat)
    (bj : osdp_slab_blk) (hl : linked s l p = true) (hlast : l.getLast? = some last)
    (hj : j ∉ l) (hbj : blk s j = some bj) (hu : bj.in_use = true) :
    linked (slab_update (slab_update s j (fun c => { c with next := none })) last
      (fun c => { c with next := some j })) (l ++ [j]) p = true := by
  have hnd := linked_nodup s l p hl
  have hjl : j ≠ last := by
    intro e
    exact hj (e ▸ List.mem_of_getLast?_eq_some hlast)
  induction l generalizing p with
  | nil => simp at hlast
  | cons i t ih =>
    obtain ⟨hp, b, hb, hbu, ht⟩ := (linked_cons s i t p).mp hl
    have hij : j ≠ i := fun e => hj (e ▸ List.mem_cons_self i t)
    cases t with
    | nil =>
      have hi : i = last := by simpa using hlast
      subst hi
      have h1 : blk (slab_update (slab_update s j (fun c => { c with next := none })) i
          (fun c => { c with next := some j })) i
          = some { b with data := { b.data with next := some j } } :=
        blk_slab_update_eq _ i _ b (by rw [blk_slab_update_ne _ _ _ _ hij]; exact hb)
      have h2 : blk (slab_update (slab_update s j (fun c => { c with next := none })) i
          (fun c => { c with next := some j })) j
          = some { bj with data := { bj.data with next := none } } := by
        rw [blk_slab_update_ne _ _ _ _ (Ne.symm hij)]
        exact blk_slab_update_eq _ j _ bj hbj
      show linked _ [i, j] p = true
      rw [linked_cons]
      refine ⟨hp, _, h1, hbu, ?_⟩
      rw [linked_cons]
      exact ⟨rfl, _, h2, hu, rfl⟩
    | cons i2 t2 =>
      have hlast2 : (i2 :: t2).getLast? = some last := by
        simpa [List.getLast?_cons_cons] using hlast
      have hil : i ≠ last := by
        intro e
        have hm : last ∈ i2 :: t2 := List.mem_of_getLast?_eq_some hlast2
        exact (List.nodup_cons.mp hnd).1 (e ▸ hm)
      have h1 : blk (slab_update (slab_update s j (fun c => { c with next := none })) last
          (fun c => { c with next := some j })) i = some b := by
        rw [blk_slab_update_ne _ _ _ _ (Ne.symm hil), blk_slab_update_ne _ _ _ _ hij]
        exact hb
      show linked _ (i :: ((i2 :: t2) ++ [j])) p = true
      rw [linked_cons]
      refine ⟨hp, b, h1, hbu, ?_⟩
      exact ih _ ht hlast2 (fun hm => hj (List.mem_cons_of_mem i hm))
        (List.nodup_cons.mp hnd).2

theorem payload_blk_update (s : osdp_slab) (i k : Nat) (f : osdp_cmd → osdp_cmd)
    (hf : ∀ c, payload (f c) = payload c) :
    (blk (slab_update s i f) k).map (fun b => payload b.data)
      = (blk s k).map (fun b => payload b.data) := by
  simp only [slab_update, blk_slab_modify]
  cases blk s k with
  | none => rfl
  | some b =>
    by_cases h : i = k
    · simp [h, hf]
    · simp [h]

theorem queue_cmds_congr (s s1 : osdp_slab) (l : List Nat)
    (h : ∀ i ∈ l, (blk s1 i).map (fun b => payload b.data)
      = (blk s i).map (fun b => payload b.data)) :
    queue_cmds s1 l = queue_cmds s l := by
  unfold queue_cmds
  induction l with
  | nil => rfl
  | cons a t ih =>
    simp only [List.filterMap_cons, h a (List.mem_cons_self a t)]
    rw [ih (fun k hk => h k (List.mem_cons_of_mem a hk))]

/-- Enqueueing block `j` (in use, not in the queue) onto a queue holding the
blocks `l` succeeds and yields the queue holding `l ++ [j]`; only the queue
record of the PD changes, and no command loses or changes its contents. -/
theorem pd_enqueue_command_spec (pd : osdp_pd) (s : osdp_slab) (l : List Nat) (j : Nat)
    (bj : osdp_slab_blk) (hq : is_queue s pd.queue l) (hj : j ∉ l)
    (hbj : blk s j = some bj) (hu : bj.in_use = true) :
    ∃ q s1, pd_enqueue_command pd s j = some ({ pd with queue := q }, s1) ∧
      is_queue s1 q (l ++ [j]) ∧
      (∀ k, (blk s1 k).map (fun b => payload b.data)
        = (blk s k).map (fun b => payload b.data)) ∧
      (∀ k, (blk s1 k).map (fun b => b.in_use) = (blk s k).map (fun b => b.in_use)) := by
  obtain ⟨hl, hback⟩ := hq
  have hj1 : blk (slab_update s j (fun c => { c with next := none })) j
      = some { bj with data := { bj.data with next := none } } :=
    blk_slab_update_eq _ j _ bj hbj
  cases l with
  | nil =>
    have hf : pd.queue.front = none := (linked_nil s _).mp hl
    refine ⟨⟨some j, some j⟩, slab_update s j (fun c => { c with next := none }), ?_, ?_, ?_, ?_⟩
    · simp [pd_enqueue_command, hf]
    · refine ⟨?_, fun _ => rfl⟩
      show linked _ [j] (some j) = true
      rw [linked_cons]
      exact ⟨rfl, _, hj1, hu, rfl⟩
    · intro k
      exact payload_blk_update s j k (fun c => { c with next := none }) (fun c => rfl)
    · intro k
      simp only [slab_update, blk_slab_modify]
      cases blk s k with
      | none => rfl
      | some b => by_cases h : j = k <;> simp [h]
  | cons i t =>
    obtain ⟨hp, b, hb, hbu, ht⟩ := (linked_cons s i t _).mp hl
    have hb2 := hback (List.cons_ne_nil i t)
    obtain ⟨last, hlast⟩ : ∃ last, (i :: t).getLast? = some last :=
      ⟨(i :: t).getLast (List.cons_ne_nil i t), List.getLast?_eq_getLast _ _⟩
    rw [hlast] at hb2
    refine ⟨⟨pd.queue.front, some j⟩,
      slab_update (slab_update s j (fun c => { c with next := none })) last
        (fun c => { c with next := some j }), ?_, ?_, ?_, ?_⟩
    · simp [pd_enqueue_command, hp, hb2]
    · refine ⟨linked_append s (i :: t) last j _ bj hl hlast hj hbj hu, fun _ => ?_⟩
      exact (List.getLast?_concat (i :: t)).symm
    · intro k
      exact (payload_blk_update _ last k (fun c => { c with next := some j })
        (fun c => rfl)).trans
        (payload_blk_update s j k (fun c => { c with next := none }) (fun c => rfl))
    · intro k
      simp only [slab_update, blk_slab_modify]
      cases blk s k with
      | none => rfl
      | some b => by_cases h : j = k <;> by_cases h2 : last = k <;> simp [h, h2]

/-! ## Flags -/

theorem isset_iff (x f : Nat) :
    ISSET_FLAG x f = true ↔ ∀ n, f.testBit n = true → x.testBit n = true := by
  unfold ISSET_FLAG
  rw [beq_iff_eq]
  constructor
  · intro h n hn
    have := congrArg (fun y => Nat.testBit y n) h
    simp only [Nat.testBit_and, hn, Bool.and_true] at this
    exact this
  · intro h
    apply Nat.eq_of_testBit_eq
    intro n
    rw [Nat.testBit_and]
    cases hf : f.testBit n with
    | false => simp
    | true => simp [h n hf]

theorem testBit_clear (x f n : Nat) (hx : x < 2 ^ 32) :
    (CLEAR_FLAG x f).testBit n = (x.testBit n && !f.testBit n) := by
  unfold CLEAR_FLAG
  have h32 : (0xFFFFFFFF : Nat) = 2 ^ 32 - 1 := by norm_num
  rw [Nat.testBit_and, Nat.testBit_xor, h32, Nat.testBit_two_pow_sub_one]
  by_cases hn : n < 32
  · simp [hn]
  · have hxn : x.testBit n = false :=
      Nat.testBit_lt_two_pow (lt_of_lt_of_le hx (Nat.pow_le_pow_right (by norm_num) (by omega)))
    simp [hxn]

theorem clear_lt (x f : Nat) (hx : x < 2 ^ 32) : CLEAR_FLAG x f < 2 ^ 32 := by
  unfold CLEAR_FLAG
  exact lt_of_le_of_lt Nat.and_le_left hx

theorem isset_clear_same (x f : Nat) (hf : 0 < f) (hf2 : f < 2 ^ 32) :
    ISSET_FLAG (CLEAR_FLAG x f) f = false := by
  cases h : ISSET_FLAG (CLEAR_FLAG x f) f with
  | false => rfl
  | true =>
    obtain ⟨n, hn⟩ := Nat.ne_zero_implies_bit_true (Nat.pos_iff_ne_zero.mp hf)
    have hn32 : n < 32 := by
      by_contra hge
      have : f.testBit n = false :=
        Nat.testBit_lt_two_pow (lt_of_lt_of_le hf2 (Nat.pow_le_pow_right (by norm_num) (by omega)))
      rw [this] at hn
      cases hn
    have h32 : (0xFFFFFFFF : Nat) = 2 ^ 32 - 1 := by norm_num
    have := (isset_iff _ _).mp h n hn
    unfold CLEAR_FLAG at this
    rw [Nat.testBit_and, Nat.testBit_xor, h32, Nat.testBit_two_pow_sub_one, hn] at this
    simp [hn32] at this

theorem isset_set_same (x f : Nat) : ISSET_FLAG (SET_FLAG x f) f = true := by
  rw [isset_iff]
  intro n hn
  simp [SET_FLAG, hn]

theorem disjoint_bit (a b n : Nat) (h : a &&& b = 0) (ha : a.testBit n = true) :
    b.testBit n = false := by
  have := congrArg (fun y => Nat.testBit y n) h
  simpa [ha] using this

theorem isset_clear_other (x f g : Nat) (hx : x < 2 ^ 32) (h : g &&& f = 0) :
    ISSET_FLAG (CLEAR_FLAG x f) g = ISSET_FLAG x g := by
  rw [Bool.eq_iff_iff, isset_iff, isset_iff]
  constructor
  · intro hc n hn
    have := hc n hn
    rw [testBit_clear x f n hx] at this
    simp only [Bool.and_eq_true] at this
    exact this.1
  · intro hc n hn
    rw [testBit_clear x f n hx, hc n hn, disjoint_bit g f n h hn]
    rfl

/-! ## KEYSET -/

/-- C1: a CMD_KEYSET with an 18-byte payload decoded while the secure-active
flag is clear is answered REPLY_NAK with reason OSDP_PD_NAK_SC_COND; the
secure-channel block (the stored SCBK with it), the flags, the command queue
and the slab behind it are as they were. -/
theorem keyset_sc_inactive_nak (K : Consts) (hK : K.WF) (ops : ScOps) (pd : osdp_pd)
    (slab : osdp_slab) (reply : osdp_cmd) (buf : List Nat)
    (hcmd : rd buf 0 = K.CMD_KEYSET)
    (hsc : ISSET_FLAG pd.flags K.PD_FLAG_SC_ACTIVE = false) :
    ∃ st, pd_decode_command K ops pd slab reply buf 19 = some st ∧
      st.reply.id = K.REPLY_NAK ∧ rd st.reply.cmd_bytes 0 = OSDP_PD_NAK_SC_COND ∧
      st.pd.reply_id = K.REPLY_NAK ∧
      st.pd.sc = pd.sc ∧ st.pd.flags = pd.flags ∧ st.pd.queue = pd.queue ∧
      st.slab = slab := by
  have hnak : K.REPLY_NAK ≠ 0 :=
    Nat.pos_iff_ne_zero.mp (hK.replies_byte K.REPLY_NAK (by simp [Consts.reply_ids])).1
  unfold pd_decode_command
  rw [switch_keyset K hK ops _ buf _ hcmd]
  simp [decode_keyset, decode_init, hsc, decode_finish, reply_nak, rd_wr_same, hnak]

/-- C1 at the sample PD (secure channel inactive) and the sample KEYSET. -/
theorem keyset_sc_inactive_nak_witness :
    rd keyset_cmd 0 = std.CMD_KEYSET ∧
    ISSET_FLAG pd_sample.flags std.PD_FLAG_SC_ACTIVE = false ∧
    ∃ st, pd_decode_command std ops_accept pd_sample slab_sample cmd_zero keyset_cmd 19
        = some st ∧
      st.reply.id = std.REPLY_NAK ∧ rd st.reply.cmd_bytes 0 = OSDP_PD_NAK_SC_COND ∧
      st.pd.reply_id = std.REPLY_NAK ∧
      st.pd.sc = pd_sample.sc ∧ st.pd.flags = pd_sample.flags ∧
      st.pd.queue = pd_sample.queue ∧ st.slab = slab_sample :=
  ⟨by decide, by decide,
   keyset_sc_inactive_nak std std_wf ops_accept pd_sample slab_sample cmd_zero keyset_cmd
     (by decide) (by decide)⟩

theorem decode_init_pos (pd : osdp_pd) (slab : osdp_slab) (reply : osdp_cmd) (buf : List Nat) :
    (decode_init pd slab reply buf).pos = 1 := rfl

theorem decode_init_slab (pd : osdp_pd) (slab : osdp_slab) (reply : osdp_cmd) (buf : List Nat) :
    (decode_init pd slab reply buf).slab = slab := rfl

theorem decode_init_ret (pd : osdp_pd) (slab : osdp_slab) (reply : osdp_cmd) (buf : List Nat) :
    (decode_init pd slab reply buf).ret = -1 := rfl

theorem decode_init_reply (pd : osdp_pd) (slab : osdp_slab) (reply : osdp_cmd)
    (buf : List Nat) : (decode_init pd slab reply buf).reply = { reply with id := 0 } := rfl

theorem decode_init_pd (pd : osdp_pd) (slab : osdp_slab) (reply : osdp_cmd) (buf : List Nat) :
    (decode_init pd slab reply buf).pd = { pd with cmd_id := rd buf 0 } := rfl

/-- A block handed out by the allocator is in use afterwards, keeps its
contents, and was in no queue. -/
theorem alloc_fresh (s s1 : osdp_slab) (j : Nat) (q : osdp_cmd_queue) (l : List Nat)
    (f : osdp_cmd → osdp_cmd)
    (halloc : osdp_slab_alloc s = some (j, s1)) (hq : is_queue s q l) :
    j ∉ l ∧ (∃ b, blk (slab_update s1 j f) j = some ⟨true, f b⟩ ∧ blk s j = some ⟨false, b⟩) ∧
      is_queue (slab_update s1 j f) q l ∧
      queue_cmds (slab_update s1 j f) l = queue_cmds s l := by
  obtain ⟨⟨bj, hbj, hfree⟩, hs1⟩ := osdp_slab_alloc_spec s s1 j halloc
  have hjl : j ∉ l := by
    intro hm
    obtain ⟨b, hb, hu⟩ := linked_in_use s l _ hq.1 j hm
    rw [hbj] at hb
    cases hb
    rw [hfree] at hu
    cases hu
  have hbj1 : blk s1 j = some { bj with in_use := true } := by
    rw [hs1]
    simp [blk_slab_modify, hbj]
  have hother : ∀ i ∈ l, blk (slab_update s1 j f) i = blk s i := by
    intro i hi
    have hij : j ≠ i := fun e => hjl (e ▸ hi)
    rw [blk_slab_update_ne _ _ _ _ hij, hs1, blk_slab_modify_ne _ _ _ _ hij]
  refine ⟨hjl, ⟨bj.data, ?_, ?_⟩, ⟨?_, hq.2⟩, ?_⟩
  · exact blk_slab_update_eq _ j _ _ hbj1
  · rw [hbj]
    cases bj
    simp only at hfree
    simp [hfree]
  · rw [linked_congr s _ l _ hother]
    exact hq.1
  · exact queue_cmds_congr s _ l (fun i hi => by rw [hother i hi])

theorem queue_cmds_append (s : osdp_slab) (l : List Nat) (j : Nat) (b : osdp_slab_blk)
    (h : blk s j = some b) : queue_cmds s (l ++ [j]) = queue_cmds s l ++ [payload b.data] := by
  simp [queue_cmds, List.filterMap_append, h]

/-- The commands of the queue after `pd_enqueue_command`: the former ones
followed by the command written into the new block. -/
theorem enqueue_cmds (s s2 s3 : osdp_slab) (l : List Nat) (j : Nat) (c : osdp_cmd)
    (hj : blk s2 j = some ⟨true, c⟩)
    (h2 : queue_cmds s2 l = queue_cmds s l)
    (hpay : ∀ k, (blk s3 k).map (fun b => payload b.data)
      = (blk s2 k).map (fun b => payload b.data)) :
    queue_cmds s3 (l ++ [j]) = queue_cmds s l ++ [payload c] := by
  have h3 : queue_cmds s3 l = queue_cmds s2 l := queue_cmds_congr s2 s3 l (fun k _ => hpay k)
  have hj3 := hpay j
  rw [hj] at hj3
  cases hb : blk s3 j with
  | none => simp [hb] at hj3
  | some b3 =>
    rw [hb] at hj3
    simp only [Option.map_some', Option.some.injEq] at hj3
    rw [queue_cmds_append s3 l j b3 hb, h3, h2, hj3]

/-- C2: a CMD_KEYSET with an 18-byte payload, key type 1 and key length 16,
decoded while secure-active is set, with a free slab block `j` and a queue
holding the blocks `l`: the reply is REPLY_ACK; the stored SCBK is payload
bytes 2..17; using-SCBK-D and install-mode are clear and every flag bit
outside these two masks, secure-active among them, is as before; the queue
holds `l ++ [j]`, its commands being the former ones followed by exactly one
command with id OSDP_CMD_KEYSET, key type 1, length 16 and the same 16 key
bytes. -/
theorem keyset_accepted (K : Consts) (hK : K.WF) (ops : ScOps) (pd : osdp_pd)
    (slab s1 : osdp_slab) (reply : osdp_cmd) (buf : List Nat) (l : List Nat) (j : Nat)
    (hcmd : rd buf 0 = K.CMD_KEYSET) (htype : rd buf 1 = 1) (hklen : rd buf 2 = 16)
    (hsc : ISSET_FLAG pd.flags K.PD_FLAG_SC_ACTIVE = true)
    (hflags : pd.flags < 2 ^ 32)
    (hq : is_queue slab pd.queue l)
    (halloc : osdp_slab_alloc slab = some (j, s1)) :
    ∃ st c, pd_decode_command K ops pd slab reply buf 19 = some st ∧
      st.reply.id = K.REPLY_ACK ∧ st.pd.reply_id = K.REPLY_ACK ∧
      (∀ i, i < 16 → rd st.pd.sc.scbk i = rd buf (3 + i)) ∧
      ISSET_FLAG st.pd.flags K.PD_FLAG_SC_USE_SCBKD = false ∧
      ISSET_FLAG st.pd.flags K.PD_FLAG_INSTALL_MODE = false ∧
      ISSET_FLAG st.pd.flags K.PD_FLAG_SC_ACTIVE = true ∧
      (∀ n, K.PD_FLAG_SC_USE_SCBKD.testBit n = false →
        K.PD_FLAG_INSTALL_MODE.testBit n = false →
        st.pd.flags.testBit n = pd.flags.testBit n) ∧
      is_queue st.slab st.pd.queue (l ++ [j]) ∧
      queue_cmds st.slab (l ++ [j]) = queue_cmds slab l ++ [c] ∧
      c.id = OSDP_CMD_KEYSET ∧ c.keyset.key_type = 1 ∧ c.keyset.len = 16 ∧
      (∀ i, i < 16 → rd c.keyset.data i = rd buf (3 + i)) := by
  have hack : K.REPLY_ACK ≠ 0 :=
    Nat.pos_iff_ne_zero.mp (hK.replies_byte K.REPLY_ACK (by simp [Consts.reply_ids])).1
  have hpos := hK.flags_pos
  have hdis := hK.flags_disjoint
  simp only [Consts.flag_masks, List.mem_cons, List.mem_singleton, forall_eq_or_imp,
    forall_eq, List.not_mem_nil, false_implies, implies_true, and_true] at hpos
  simp only [Consts.flag_masks, List.pairwise_cons, List.mem_cons, List.mem_singleton,
    forall_eq_or_imp, forall_eq, List.not_mem_nil, false_implies, implies_true, and_true,
    List.Pairwise.nil] at hdis
  obtain ⟨hjl, ⟨b, hbj2, -⟩, hq2, hc2⟩ :=
    alloc_fresh slab s1 j pd.queue l (fill_keyset buf 1) halloc hq
  obtain ⟨q, s3, henq, hq3, hpay, -⟩ :=
    pd_enqueue_command_spec (store_scbk (decode_init pd slab reply buf).pd buf 1)
      (slab_update s1 j (fill_keyset buf 1)) l j _ hq2 hjl hbj2 rfl
  have h18 : ¬ ((19 : Int) - 1 ≠ 18) := by norm_num
  have hdk : decode_keyset K (decode_init pd slab reply buf) buf (19 - 1)
      = some (reply_ok
          { decode_init pd slab reply buf with
            pd := clear_key_flags K
              { store_scbk (decode_init pd slab reply buf).pd buf 1 with queue := q }
            slab := s3
            pos := 1 + 2 } K.REPLY_ACK) := by
    unfold decode_keyset
    rw [if_neg h18, if_neg (by simp [decode_init_pd, hsc]),
      if_neg (by simp [decode_init_pos, htype, hklen])]
    simp only [decode_init_pos, decode_init_slab, halloc, henq]
  unfold pd_decode_command
  rw [switch_keyset K hK ops _ buf _ hcmd, hdk]
  have hf1 := clear_lt pd.flags K.PD_FLAG_SC_USE_SCBKD hflags
  have hSA : K.PD_FLAG_SC_ACTIVE &&& K.PD_FLAG_SC_USE_SCBKD = 0 := by
    rw [Nat.land_comm]
    exact hdis.2.2.2.1.1
  have hSI : K.PD_FLAG_SC_USE_SCBKD &&& K.PD_FLAG_INSTALL_MODE = 0 := hdis.2.2.2.1.2.1
  have hAI : K.PD_FLAG_SC_ACTIVE &&& K.PD_FLAG_INSTALL_MODE = 0 := hdis.2.2.2.2.1.1
  have hflg : ∀ st : decode_state,
      (decode_finish K (reply_ok st K.REPLY_ACK)).pd.flags = st.pd.flags := fun _ => rfl
  refine ⟨_, payload (fill_keyset buf 1 b), rfl, ?_, ?_, ?_, ?_, ?_, ?_, ?_, hq3, ?_, rfl, htype,
    hklen, ?_⟩
  · simp [decode_finish, reply_ok, hack]
  · simp [decode_finish, reply_ok, hack]
  · intro i hi
    simp only [decode_finish, reply_ok, clear_key_flags, store_scbk, decode_init_pd,
      rd_copy_bytes]
    rw [if_pos (by omega)]
    exact congrArg (rd buf) (by omega)
  · rw [hflg]
    show ISSET_FLAG (CLEAR_FLAG (CLEAR_FLAG pd.flags _) _) _ = false
    rw [isset_clear_other _ _ _ hf1 hSI]
    exact isset_clear_same pd.flags _ hpos.2.2.2.1.1 hpos.2.2.2.1.2
  · rw [hflg]
    exact isset_clear_same _ _ hpos.2.2.2.2.2.1.1 hpos.2.2.2.2.2.1.2
  · rw [hflg]
    show ISSET_FLAG (CLEAR_FLAG (CLEAR_FLAG pd.flags _) _) _ = true
    rw [isset_clear_other _ _ _ hf1 hAI, isset_clear_other _ _ _ hflags hSA, hsc]
  · intro n h1 h2
    rw [hflg]
    show (CLEAR_FLAG (CLEAR_FLAG pd.flags _) _).testBit n = _
    rw [testBit_clear _ _ _ hf1, testBit_clear _ _ _ hflags, h1, h2]
    simp
  · exact enqueue_cmds slab _ s3 l j _ hbj2 hc2 hpay
  · intro i hi
    simp only [payload, fill_keyset, rd_copy_bytes]
    rw [if_pos (by omega)]
    exact congrArg (rd buf) (by omega)

/-- C2 at the sample PD with the secure channel active on SCBK-D in install
mode, an empty queue, and the sample KEYSET. -/
theorem keyset_accepted_witness :
    (rd keyset_cmd 0 = std.CMD_KEYSET ∧ rd keyset_cmd 1 = 1 ∧ rd keyset_cmd 2 = 16 ∧
      ISSET_FLAG pd_secure.flags std.PD_FLAG_SC_ACTIVE = true ∧ pd_secure.flags < 2 ^ 32 ∧
      is_queue slab_sample pd_secure.queue [] ∧
      osdp_slab_alloc slab_sample = some (0, slab_one_used)) ∧
    ∃ st c, pd_decode_command std ops_accept pd_secure slab_sample cmd_zero keyset_cmd 19
        = some st ∧
      st.reply.id = std.REPLY_ACK ∧ st.pd.reply_id = std.REPLY_ACK ∧
      (∀ i, i < 16 → rd st.pd.sc.scbk i = rd keyset_cmd (3 + i)) ∧
      ISSET_FLAG st.pd.flags std.PD_FLAG_SC_USE_SCBKD = false ∧
      ISSET_FLAG st.pd.flags std.PD_FLAG_INSTALL_MODE = false ∧
      ISSET_FLAG st.pd.flags std.PD_FLAG_SC_ACTIVE = true ∧
      (∀ n, std.PD_FLAG_SC_USE_SCBKD.testBit n = false →
        std.PD_FLAG_INSTALL_MODE.testBit n = false →
        st.pd.flags.testBit n = pd_secure.flags.testBit n) ∧
      is_queue st.slab st.pd.queue ([] ++ [0]) ∧
      queue_cmds st.slab ([] ++ [0]) = queue_cmds slab_sample [] ++ [c] ∧
      c.id = OSDP_CMD_KEYSET ∧ c.keyset.key_type = 1 ∧ c.keyset.len = 16 ∧
      (∀ i, i < 16 → rd c.keyset.data i = rd keyset_cmd (3 + i)) :=
  ⟨⟨by decide, by decide, by decide, by decide, by decide, ⟨rfl, fun h => absurd rfl h⟩,
     by decide⟩,
   keyset_accepted std std_wf ops_accept pd_secure slab_sample slab_one_used cmd_zero keyset_cmd
     [] 0 (by decide) (by decide) (by decide) (by decide) (by decide)
     ⟨rfl, fun h => absurd rfl h⟩ (by decide)⟩

/-! ## SCRYPT and the RMAC_I reply -/

theorem rd_put_bytes (buf : List Nat) (d len : Nat) (src : List Nat) (n j : Nat) :
    rd (put_bytes buf d len src n) j =
      if d + len ≤ j ∧ j < d + len + n then rd src (j - (d + len)) else rd buf j := by
  unfold put_bytes
  rw [rd_copy_bytes]
  simp

theorem build_finish_ok (K : Consts) (pd : osdp_pd) (b : List Nat) (n d : Nat)
    (smb : Option Nat) :
    build_finish K ⟨pd, b, n + 1, false⟩ d smb
      = ⟨pd, build_scb_fix K pd b (n + 1) smb, (n + 1 : Nat)⟩ := by
  simp [build_finish]

theorem build_finish_fail (K : Consts) (pd : osdp_pd) (b : List Nat) (n d : Nat)
    (smb : Option Nat) : build_finish K ⟨pd, b, n, true⟩ d smb = ⟨pd, b, -1⟩ := by
  simp [build_finish]

theorem build_scb_fix_keep (K : Consts) (pd : osdp_pd) (b : List Nat) (n m : Nat)
    (h : rd b (m + 1) ≤ K.SCS_14) : build_scb_fix K pd b n (some m) = b := by
  simp only [build_scb_fix]
  rw [if_neg (fun hc => absurd hc.1 (Nat.not_lt.mpr h))]

theorem build_scb_fix_none (K : Consts) (pd : osdp_pd) (b : List Nat) (n : Nat) :
    build_scb_fix K pd b n none = b := rfl

/-- The RMAC_I reply built into a packet with a secure-channel block at `m`
in front of the data at `d`, with room for 16 bytes behind the reply code. -/
theorem build_rmac_i_spec (K : Consts) (hK : K.WF) (ops : ScOps) (pd : osdp_pd)
    (reply : osdp_cmd) (buf : List Nat) (max_len : Int) (d m : Nat)
    (hid : reply.id = K.REPLY_RMAC_I) (hsp : (d : Int) + 17 ≤ max_len) (hm : m + 3 ≤ d) :
    (pd_build_reply K ops pd reply buf max_len d (some m)).ret = 17 ∧
    (pd_build_reply K ops pd reply buf max_len d (some m)).pd
      = { ops.osdp_compute_rmac_i pd with
          flags := SET_FLAG (ops.osdp_compute_rmac_i pd).flags K.PD_FLAG_SC_ACTIVE } ∧
    rd (pd_build_reply K ops pd reply buf max_len d (some m)).buf d = K.REPLY_RMAC_I ∧
    (∀ i, i < 16 → rd (pd_build_reply K ops pd reply buf max_len d (some m)).buf (d + 1 + i)
      = rd (ops.osdp_compute_rmac_i pd).sc.r_mac i) ∧
    rd (pd_build_reply K ops pd reply buf max_len d (some m)).buf m = 3 ∧
    rd (pd_build_reply K ops pd reply buf max_len d (some m)).buf (m + 1) = K.SCS_14 ∧
    rd (pd_build_reply K ops pd reply buf max_len d (some m)).buf (m + 2)
      = (if ops.osdp_verify_cp_cryptogram (ops.osdp_compute_rmac_i pd) = 0 then 1 else 0) := by
  have h1 : ¬ (max_len - ((d : Int) + 1) < 0) := by omega
  have h2 : ¬ (max_len - ((d : Int) + 1) < 16) := by omega
  have hb : pd_build_reply K ops pd reply buf max_len d (some m)
      = ⟨{ ops.osdp_compute_rmac_i pd with
            flags := SET_FLAG (ops.osdp_compute_rmac_i pd).flags K.PD_FLAG_SC_ACTIVE },
          wr (wr (wr (put_bytes (wr buf d reply.id) d 1 (ops.osdp_compute_rmac_i pd).sc.r_mac 16)
            m 3) (m + 1) K.SCS_14) (m + 2)
            (if ops.osdp_verify_cp_cryptogram (ops.osdp_compute_rmac_i pd) = 0 then 1 else 0),
          17⟩ := by
    unfold pd_build_reply
    rw [if_neg h1, build_switch_rmac_i K hK ops pd reply _ _ d (some m) hid]
    unfold build_rmac_i
    simp only [if_neg h2]
    rw [build_finish_ok K _ _ 16 d (some m), build_scb_fix_keep]
    · rfl
    · rw [rd_wr_other _ _ _ _ (by omega), rd_wr_same]
  rw [hb]
  have e1 : d ≠ m + 2 := by omega
  have e2 : d ≠ m + 1 := by omega
  have e3 : d ≠ m := by omega
  refine ⟨rfl, rfl, ?_, ?_, ?_, ?_, ?_⟩
  · simp only []
    rw [rd_wr_other _ _ _ _ e1, rd_wr_other _ _ _ _ e2,
      rd_wr_other _ _ _ _ e3, rd_put_bytes, if_neg (by omega), rd_wr_same, hid]
  · intro i hi
    have f1 : d + 1 + i ≠ m + 2 := by omega
    have f2 : d + 1 + i ≠ m + 1 := by omega
    have f3 : d + 1 + i ≠ m := by omega
    simp only []
    rw [rd_wr_other _ _ _ _ f1, rd_wr_other _ _ _ _ f2,
      rd_wr_other _ _ _ _ f3, rd_put_bytes, if_pos (by omega)]
    exact congrArg (rd _) (by omega)
  · have g1 : m ≠ m + 2 := by omega
    have g2 : m ≠ m + 1 := by omega
    simp only []
    rw [rd_wr_other _ _ _ _ g1, rd_wr_other _ _ _ _ g2, rd_wr_same]
  · have g1 : m + 1 ≠ m + 2 := by omega
    simp only []
    rw [rd_wr_other _ _ _ _ g1, rd_wr_same]
  · simp only []
    rw [rd_wr_same]

/-- What `pd_decode_command` does with a CMD_SCRYPT of 16 payload bytes: it
stores them as the CP cryptogram and chooses REPLY_RMAC_I, nothing else. -/
theorem decode_scrypt_spec (K : Consts) (hK : K.WF) (ops : ScOps) (pd : osdp_pd)
    (slab : osdp_slab) (reply : osdp_cmd) (buf : List Nat)
    (hcmd : rd buf 0 = K.CMD_SCRYPT) :
    pd_decode_command K ops pd slab reply buf 17 =
      some
        { pd := { pd with
                  cmd_id := rd buf 0
                  reply_id := K.REPLY_RMAC_I
                  sc := { pd.sc with
                          cp_cryptogram := copy_bytes pd.sc.cp_cryptogram 0 buf 1 16 } }
          slab := slab
          reply := { reply with id := K.REPLY_RMAC_I }
          ret := 0
          pos := 17 } := by
  have hne : K.REPLY_RMAC_I ≠ 0 :=
    Nat.pos_iff_ne_zero.mp (hK.replies_byte K.REPLY_RMAC_I (by simp [Consts.reply_ids])).1
  unfold pd_decode_command
  rw [switch_scrypt K hK ops _ buf _ hcmd]
  simp [decode_scrypt, decode_init, decode_finish, reply_ok]

/-- C3, as the code has it: a CMD_SCRYPT with a 16-byte payload is always
answered REPLY_RMAC_I by `pd_decode_command`; when the CP cryptogram then
fails verification in `pd_build_reply` (packet with a secure-channel block at
`m` in front of the data at `d`, room for 16 bytes), the reply is still the
17-byte RMAC_I record, not a NAK, and the failure is reported in the
secure-channel block, which is {3, SCS_14, 0x00}. -/
theorem scrypt_reject_reports_in_scb (K : Consts) (hK : K.WF) (ops : ScOps) (pd : osdp_pd)
    (slab : osdp_slab) (reply : osdp_cmd) (buf pkt : List Nat) (max_len : Int) (d m : Nat)
    (hcmd : rd buf 0 = K.CMD_SCRYPT) (hsp : (d : Int) + 17 ≤ max_len) (hm : m + 3 ≤ d) :
    ∃ st, pd_decode_command K ops pd slab reply buf 17 = some st ∧
      st.reply.id = K.REPLY_RMAC_I ∧
      (ops.osdp_verify_cp_cryptogram (ops.osdp_compute_rmac_i st.pd) ≠ 0 →
        (pd_build_reply K ops st.pd st.reply pkt max_len d (some m)).ret = 17 ∧
        rd (pd_build_reply K ops st.pd st.reply pkt max_len d (some m)).buf d
          = K.REPLY_RMAC_I ∧
        rd (pd_build_reply K ops st.pd st.reply pkt max_len d (some m)).buf d ≠ K.REPLY_NAK ∧
        rd (pd_build_reply K ops st.pd st.reply pkt max_len d (some m)).buf m = 3 ∧
        rd (pd_build_reply K ops st.pd st.reply pkt max_len d (some m)).buf (m + 1)
          = K.SCS_14 ∧
        rd (pd_build_reply K ops st.pd st.reply pkt max_len d (some m)).buf (m + 2) = 0) := by
  have hn := hK.replies_nodup
  simp only [Consts.reply_labels, List.nodup_cons, List.mem_cons, List.mem_singleton,
    not_or] at hn
  have hne : K.REPLY_RMAC_I ≠ K.REPLY_NAK := fun e => hn.2.2.2.2.2.2.1.2.1 e.symm
  refine ⟨_, decode_scrypt_spec K hK ops pd slab reply buf hcmd, rfl, ?_⟩
  intro hver
  obtain ⟨h1, -, h3, -, h5, h6, h7⟩ :=
    build_rmac_i_spec K hK ops
      { pd with
        cmd_id := rd buf 0
        reply_id := K.REPLY_RMAC_I
        sc := { pd.sc with cp_cryptogram := copy_bytes pd.sc.cp_cryptogram 0 buf 1 16 } }
      { reply with id := K.REPLY_RMAC_I } pkt max_len d m rfl hsp hm
  rw [if_neg hver] at h7
  exact ⟨h1, h3, fun e => hne (h3.symm.trans e), h5, h6, h7⟩

/-- C3 (amended) at the sample PD, with routines that reject every cryptogram. -/
theorem scrypt_reject_reports_in_scb_witness :
    (rd scrypt_cmd 0 = std.CMD_SCRYPT ∧ ((8 : Nat) : Int) + 17 ≤ 64 ∧ 5 + 3 ≤ 8) ∧
    ∃ st, pd_decode_command std ops_reject pd_sample slab_sample cmd_zero scrypt_cmd 17
        = some st ∧
      st.reply.id = std.REPLY_RMAC_I ∧
      ops_reject.osdp_verify_cp_cryptogram (ops_reject.osdp_compute_rmac_i st.pd) ≠ 0 ∧
      (pd_build_reply std ops_reject st.pd st.reply pkt_sample 64 8 (some 5)).ret = 17 ∧
      rd (pd_build_reply std ops_reject st.pd st.reply pkt_sample 64 8 (some 5)).buf 8
        = std.REPLY_RMAC_I ∧
      rd (pd_build_reply std ops_reject st.pd st.reply pkt_sample 64 8 (some 5)).buf 8
        ≠ std.REPLY_NAK ∧
      rd (pd_build_reply std ops_reject st.pd st.reply pkt_sample 64 8 (some 5)).buf 5 = 3 ∧
      rd (pd_build_reply std ops_reject st.pd st.reply pkt_sample 64 8 (some 5)).buf (5 + 1)
        = std.SCS_14 ∧
      rd (pd_build_reply std ops_reject st.pd st.reply pkt_sample 64 8 (some 5)).buf (5 + 2)
        = 0 :=
  ⟨⟨by decide, by decide, by decide⟩,
   match scrypt_reject_reports_in_scb std std_wf ops_reject pd_sample slab_sample cmd_zero
       scrypt_cmd pkt_sample 64 8 5 (by decide) (by decide) (by decide) with
   | ⟨st, h1, h2, h3⟩ =>
     ⟨st, h1, h2, (by decide : (-1 : Int) ≠ 0), h3 (by decide : (-1 : Int) ≠ 0)⟩⟩

/-- C3 fails as stated. The sample PD (secure channel inactive) decodes the
sample SCRYPT and builds the reply while the cryptogram is rejected (the
verification returns -1): `pd_build_reply` returns 17, the reply code is
REPLY_RMAC_I and not REPLY_NAK, and the secure-active flag, clear before, is
set afterwards. -/
theorem scrypt_reject_counterexample :
    (pd_decode_command std ops_reject pd_sample slab_sample cmd_zero scrypt_cmd 17).map
      (fun st =>
        (ops_reject.osdp_verify_cp_cryptogram (ops_reject.osdp_compute_rmac_i st.pd),
         (pd_build_reply std ops_reject st.pd st.reply pkt_sample 64 8 (some 5)).ret,
         rd (pd_build_reply std ops_reject st.pd st.reply pkt_sample 64 8 (some 5)).buf 8,
         decide (std.REPLY_RMAC_I = std.REPLY_NAK),
         ISSET_FLAG pd_sample.flags std.PD_FLAG_SC_ACTIVE,
         ISSET_FLAG
           (pd_build_reply std ops_reject st.pd st.reply pkt_sample 64 8 (some 5)).pd.flags
           std.PD_FLAG_SC_ACTIVE))
      = some (-1, 17, std.REPLY_RMAC_I, false, false, true) := by
  decide

/-- C4: a CMD_SCRYPT with a 16-byte payload stores the 16 payload bytes as
the CP cryptogram; when the cryptogram verifies and the packet has a
secure-channel block (at `m`, in front of the data at `d`) and room for 16
bytes, `pd_build_reply` returns 17, the reply bytes are REPLY_RMAC_I followed
by the 16 bytes of `r_mac` as `osdp_compute_rmac_i` left them, the
secure-channel block is {3, SCS_14, 0x01}, and secure-active is set. -/
theorem scrypt_accept_rmac_i (K : Consts) (hK : K.WF) (ops : ScOps) (pd : osdp_pd)
    (slab : osdp_slab) (reply : osdp_cmd) (buf pkt : List Nat) (max_len : Int) (d m : Nat)
    (hcmd : rd buf 0 = K.CMD_SCRYPT) (hsp : (d : Int) + 17 ≤ max_len) (hm : m + 3 ≤ d) :
    ∃ st, pd_decode_command K ops pd slab reply buf 17 = some st ∧
      (∀ i, i < 16 → rd st.pd.sc.cp_cryptogram i = rd buf (1 + i)) ∧
      (ops.osdp_verify_cp_cryptogram (ops.osdp_compute_rmac_i st.pd) = 0 →
        (pd_build_reply K ops st.pd st.reply pkt max_len d (some m)).ret = 17 ∧
        (pd_build_reply K ops st.pd st.reply pkt max_len d (some m)).pd.sc
          = (ops.osdp_compute_rmac_i st.pd).sc ∧
        rd (pd_build_reply K ops st.pd st.reply pkt max_len d (some m)).buf d
          = K.REPLY_RMAC_I ∧
        (∀ i, i < 16 →
          rd (pd_build_reply K ops st.pd st.reply pkt max_len d (some m)).buf (d + 1 + i)
            = rd (pd_build_reply K ops st.pd st.reply pkt max_len d (some m)).pd.sc.r_mac i) ∧
        rd (pd_build_reply K ops st.pd st.reply pkt max_len d (some m)).buf m = 3 ∧
        rd (pd_build_reply K ops st.pd st.reply pkt max_len d (some m)).buf (m + 1)
          = K.SCS_14 ∧
        rd (pd_build_reply K ops st.pd st.reply pkt max_len d (some m)).buf (m + 2) = 0x01 ∧
        ISSET_FLAG (pd_build_reply K ops st.pd st.reply pkt max_len d (some m)).pd.flags
          K.PD_FLAG_SC_ACTIVE = true) := by
  refine ⟨_, decode_scrypt_spec K hK ops pd slab reply buf hcmd, ?_, ?_⟩
  · intro i hi
    simp only [rd_copy_bytes]
    rw [if_pos (by omega)]
    exact congrArg (rd buf) (by omega)
  · intro hver
    obtain ⟨h1, h2, h3, h4, h5, h6, h7⟩ :=
      build_rmac_i_spec K hK ops
        { pd with
          cmd_id := rd buf 0
          reply_id := K.REPLY_RMAC_I
          sc := { pd.sc with cp_cryptogram := copy_bytes pd.sc.cp_cryptogram 0 buf 1 16 } }
        { reply with id := K.REPLY_RMAC_I } pkt max_len d m rfl hsp hm
    rw [if_pos hver] at h7
    refine ⟨h1, ?_, h3, ?_, h5, h6, h7, ?_⟩
    · rw [h2]
    · intro i hi
      rw [h4 i hi, h2]
    · rw [h2]
      exact isset_set_same _ _

/-- C4 at the sample PD, with routines that accept every cryptogram. -/
theorem scrypt_accept_rmac_i_witness :
    (rd scrypt_cmd 0 = std.CMD_SCRYPT ∧ ((8 : Nat) : Int) + 17 ≤ 64 ∧ 5 + 3 ≤ 8) ∧
    ∃ st, pd_decode_command std ops_accept pd_sample slab_sample cmd_zero scrypt_cmd 17
        = some st ∧
      (∀ i, i < 16 → rd st.pd.sc.cp_cryptogram i = rd scrypt_cmd (1 + i)) ∧
      ops_accept.osdp_verify_cp_cryptogram (ops_accept.osdp_compute_rmac_i st.pd) = 0 ∧
      (pd_build_reply std ops_accept st.pd st.reply pkt_sample 64 8 (some 5)).ret = 17 ∧
      rd (pd_build_reply std ops_accept st.pd st.reply pkt_sample 64 8 (some 5)).buf 8
        = std.REPLY_RMAC_I ∧
      rd (pd_build_reply std ops_accept st.pd st.reply pkt_sample 64 8 (some 5)).buf (5 + 2)
        = 0x01 ∧
      ISSET_FLAG (pd_build_reply std ops_accept st.pd st.reply pkt_sample 64 8 (some 5)).pd.flags
        std.PD_FLAG_SC_ACTIVE = true :=
  ⟨⟨by decide, by decide, by decide⟩,
   match scrypt_accept_rmac_i std std_wf ops_accept pd_sample slab_sample cmd_zero
       scrypt_cmd pkt_sample 64 8 5 (by decide) (by decide) (by decide) with
   | ⟨st, h1, h2, h3⟩ =>
     ⟨st, h1, h2, rfl, (h3 rfl).1, (h3 rfl).2.2.1, (h3 rfl).2.2.2.2.2.2.1,
      (h3 rfl).2.2.2.2.2.2.2⟩⟩

/-! ## CHLNG and the CCRYPT reply -/

/-- C5: a CMD_CHLNG with an 8-byte payload, decoded on a PD whose
communication-security capability has a non-zero compliance level, leaves the
secure-active flag clear and the 8 payload bytes, in order, in
`pd->sc.cp_random`, and is answered REPLY_CCRYPT, whatever the PD record and
its secure-channel state were before. -/
theorem chlng_resets_session (K : Consts) (hK : K.WF) (ops : ScOps) (pd : osdp_pd)
    (slab : osdp_slab) (reply : osdp_cmd) (buf : List Nat)
    (hcmd : rd buf 0 = K.CMD_CHLNG)
    (hcap : (cap_at pd.cap CAP_COMMUNICATION_SECURITY).compliance_level ≠ 0) :
    ∃ st, pd_decode_command K ops pd slab reply buf 9 = some st ∧
      st.reply.id = K.REPLY_CCRYPT ∧ st.pd.reply_id = K.REPLY_CCRYPT ∧
      ISSET_FLAG st.pd.flags K.PD_FLAG_SC_ACTIVE = false ∧
      (∀ i, i < 8 → rd st.pd.sc.cp_random i = rd buf (1 + i)) := by
  have hne : K.REPLY_CCRYPT ≠ 0 :=
    Nat.pos_iff_ne_zero.mp (hK.replies_byte K.REPLY_CCRYPT (by simp [Consts.reply_ids])).1
  have hpos := hK.flags_pos K.PD_FLAG_SC_ACTIVE (by simp [Consts.flag_masks])
  have h8 : ¬ ((9 : Int) - 1 ≠ 8) := by norm_num
  unfold pd_decode_command
  rw [switch_chlng K hK ops _ buf _ hcmd]
  unfold decode_chlng
  rw [if_neg (by simpa [decode_init_pd] using hcap), if_neg h8]
  refine ⟨_, rfl, ?_, ?_, ?_, ?_⟩
  · simp [decode_finish, reply_ok, hne]
  · simp [decode_finish, reply_ok, hne]
  · exact isset_clear_same _ _ hpos.1 hpos.2
  · intro i hi
    simp only [decode_finish, reply_ok, decode_init_pos, rd_copy_bytes]
    rw [if_pos (by omega)]
    exact congrArg (rd buf) (by omega)

/-- C5 at the sample PD with the secure channel active, and the sample CHLNG. -/
theorem chlng_resets_session_witness :
    (rd chlng_cmd 0 = std.CMD_CHLNG ∧
      (cap_at pd_secure.cap CAP_COMMUNICATION_SECURITY).compliance_level ≠ 0) ∧
    ∃ st, pd_decode_command std ops_accept pd_secure slab_sample cmd_zero chlng_cmd 9
        = some st ∧
      st.reply.id = std.REPLY_CCRYPT ∧ st.pd.reply_id = std.REPLY_CCRYPT ∧
      ISSET_FLAG st.pd.flags std.PD_FLAG_SC_ACTIVE = false ∧
      (∀ i, i < 8 → rd st.pd.sc.cp_random i = rd chlng_cmd (1 + i)) :=
  ⟨⟨by decide, by decide⟩,
   chlng_resets_session std std_wf ops_accept pd_secure slab_sample cmd_zero chlng_cmd
     (by decide) (by decide)⟩

/-- C7: a CMD_CHLNG of any length, decoded on a PD whose
communication-security capability has compliance level 0, is answered
REPLY_NAK with reason OSDP_PD_NAK_SC_UNSUP; the secure-channel block
(`cp_random` with it), the flags, the queue and the slab are as they were. -/
theorem chlng_unsupported_nak (K : Consts) (hK : K.WF) (ops : ScOps) (pd : osdp_pd)
    (slab : osdp_slab) (reply : osdp_cmd) (buf : List Nat) (len : Int)
    (hcmd : rd buf 0 = K.CMD_CHLNG)
    (hcap : (cap_at pd.cap CAP_COMMUNICATION_SECURITY).compliance_level = 0) :
    ∃ st, pd_decode_command K ops pd slab reply buf len = some st ∧
      st.reply.id = K.REPLY_NAK ∧ rd st.reply.cmd_bytes 0 = OSDP_PD_NAK_SC_UNSUP ∧
      st.pd.reply_id = K.REPLY_NAK ∧
      st.pd.sc = pd.sc ∧ st.pd.flags = pd.flags ∧ st.pd.queue = pd.queue ∧
      st.slab = slab := by
  have hnak : K.REPLY_NAK ≠ 0 :=
    Nat.pos_iff_ne_zero.mp (hK.replies_byte K.REPLY_NAK (by simp [Consts.reply_ids])).1
  unfold pd_decode_command
  rw [switch_chlng K hK ops _ buf _ hcmd]
  unfold decode_chlng
  rw [if_pos (by simpa [decode_init_pd] using hcap)]
  simp [decode_init, decode_finish, reply_nak, rd_wr_same, hnak]

/-- C7 at the sample PD without the capability, for a CHLNG of 9 bytes. -/
theorem chlng_unsupported_nak_witness :
    (rd chlng_cmd 0 = std.CMD_CHLNG ∧
      (cap_at pd_nosc.cap CAP_COMMUNICATION_SECURITY).compliance_level = 0) ∧
    ∃ st, pd_decode_command std ops_accept pd_nosc slab_sample cmd_zero chlng_cmd 9
        = some st ∧
      st.reply.id = std.REPLY_NAK ∧ rd st.reply.cmd_bytes 0 = OSDP_PD_NAK_SC_UNSUP ∧
      st.pd.reply_id = std.REPLY_NAK ∧
      st.pd.sc = pd_nosc.sc ∧ st.pd.flags = pd_nosc.flags ∧ st.pd.queue = pd_nosc.queue ∧
      st.slab = slab_sample :=
  ⟨⟨by decide, by decide⟩,
   chlng_unsupported_nak std std_wf ops_accept pd_nosc slab_sample cmd_zero chlng_cmd 9
     (by decide) (by decide)⟩

/-- C6: for every PD record, when the packet has a secure-channel block (at
`m`, in front of the data at `d`) and at least 32 bytes of room behind the
reply code, `pd_build_reply` for REPLY_CCRYPT returns 33; the PD record is
the one left by `osdp_fill_random`, `osdp_compute_session_keys` and
`osdp_compute_pd_cryptogram`; the reply bytes are REPLY_CCRYPT, the 8 bytes
of `pd_client_uid`, the 8 bytes of `pd_random` and the 16 bytes of
`pd_cryptogram` of that record; the secure-channel block is {3, SCS_12, b}
with b = 0 if using-SCBK-D is set and b = 1 otherwise. -/
theorem ccrypt_reply (K : Consts) (hK : K.WF) (ops : ScOps) (pd : osdp_pd)
    (reply : osdp_cmd) (buf : List Nat) (max_len : Int) (d m : Nat)
    (hid : reply.id = K.REPLY_CCRYPT) (hsp : (d : Int) + 33 ≤ max_len) (hm : m + 3 ≤ d) :
    (pd_build_reply K ops pd reply buf max_len d (some m)).ret = 33 ∧
    (pd_build_reply K ops pd reply buf max_len d (some m)).pd
      = ops.osdp_compute_pd_cryptogram (ops.osdp_compute_session_keys
          { pd with sc := { pd.sc with pd_random := osdp_fill_random pd.sc.pd_random 8 } }) ∧
    rd (pd_build_reply K ops pd reply buf max_len d (some m)).buf d = K.REPLY_CCRYPT ∧
    (∀ i, i < 8 → rd (pd_build_reply K ops pd reply buf max_len d (some m)).buf (d + 1 + i)
      = rd (pd_build_reply K ops pd reply buf max_len d (some m)).pd.sc.pd_client_uid i) ∧
    (∀ i, i < 8 → rd (pd_build_reply K ops pd reply buf max_len d (some m)).buf (d + 9 + i)
      = rd (pd_build_reply K ops pd reply buf max_len d (some m)).pd.sc.pd_random i) ∧
    (∀ i, i < 16 → rd (pd_build_reply K ops pd reply buf max_len d (some m)).buf (d + 17 + i)
      = rd (pd_build_reply K ops pd reply buf max_len d (some m)).pd.sc.pd_cryptogram i) ∧
    rd (pd_build_reply K ops pd reply buf max_len d (some m)).buf m = 3 ∧
    rd (pd_build_reply K ops pd reply buf max_len d (some m)).buf (m + 1) = K.SCS_12 ∧
    rd (pd_build_reply K ops pd reply buf max_len d (some m)).buf (m + 2)
      = (if ISSET_FLAG (pd_build_reply K ops pd reply buf max_len d (some m)).pd.flags
            K.PD_FLAG_SC_USE_SCBKD = true then 0 else 1) := by
  have h1 : ¬ (max_len - ((d : Int) + 1) < 0) := by omega
  have h2 : ¬ (max_len - ((d : Int) + 1) < 32) := by omega
  have hb : pd_build_reply K ops pd reply buf max_len d (some m)
      = ⟨ops.osdp_compute_pd_cryptogram (ops.osdp_compute_session_keys
            { pd with sc := { pd.sc with pd_random := osdp_fill_random pd.sc.pd_random 8 } }),
          wr (wr (wr
            (put_bytes (put_bytes (put_bytes (wr buf d reply.id) d 1
              (ops.osdp_compute_pd_cryptogram (ops.osdp_compute_session_keys
                { pd with sc := { pd.sc with
                    pd_random := osdp_fill_random pd.sc.pd_random 8 } })).sc.pd_client_uid 8)
              d 9
              (ops.osdp_compute_pd_cryptogram (ops.osdp_compute_session_keys
                { pd with sc := { pd.sc with
                    pd_random := osdp_fill_random pd.sc.pd_random 8 } })).sc.pd_random 8)
              d 17
              (ops.osdp_compute_pd_cryptogram (ops.osdp_compute_session_keys
                { pd with sc := { pd.sc with
                    pd_random := osdp_fill_random pd.sc.pd_random 8 } })).sc.pd_cryptogram 16)
            m 3) (m + 1) K.SCS_12) (m + 2)
            (if ISSET_FLAG (ops.osdp_compute_pd_cryptogram (ops.osdp_compute_session_keys
                { pd with sc := { pd.sc with
                    pd_random := osdp_fill_random pd.sc.pd_random 8 } })).flags
                K.PD_FLAG_SC_USE_SCBKD = true then 0 else 1),
          33⟩ := by
    unfold pd_build_reply
    rw [if_neg h1, build_switch_ccrypt K hK ops pd reply _ _ d (some m) hid]
    unfold build_ccrypt
    simp only [if_neg h2]
    rw [build_finish_ok K _ _ 32 d (some m), build_scb_fix_keep]
    · rfl
    · rw [rd_wr_other _ _ _ _ (by omega), rd_wr_same]
      exact hK.scs_order.1
  rw [hb]
  have e1 : d ≠ m + 2 := by omega
  have e2 : d ≠ m + 1 := by omega
  have e3 : d ≠ m := by omega
  refine ⟨rfl, rfl, ?_, ?_, ?_, ?_, ?_, ?_, ?_⟩
  · simp only []
    rw [rd_wr_other _ _ _ _ e1, rd_wr_other _ _ _ _ e2, rd_wr_other _ _ _ _ e3,
      rd_put_bytes, if_neg (by omega), rd_put_bytes, if_neg (by omega),
      rd_put_bytes, if_neg (by omega), rd_wr_same, hid]
  · intro i hi
    have f1 : d + 1 + i ≠ m + 2 := by omega
    have f2 : d + 1 + i ≠ m + 1 := by omega
    have f3 : d + 1 + i ≠ m := by omega
    simp only []
    rw [rd_wr_other _ _ _ _ f1, rd_wr_other _ _ _ _ f2, rd_wr_other _ _ _ _ f3,
      rd_put_bytes, if_neg (by omega), rd_put_bytes, if_neg (by omega),
      rd_put_bytes, if_pos (by omega)]
    exact congrArg (rd _) (by omega)
  · intro i hi
    have f1 : d + 9 + i ≠ m + 2 := by omega
    have f2 : d + 9 + i ≠ m + 1 := by omega
    have f3 : d + 9 + i ≠ m := by omega
    simp only []
    rw [rd_wr_other _ _ _ _ f1, rd_wr_other _ _ _ _ f2, rd_wr_other _ _ _ _ f3,
      rd_put_bytes, if_neg (by omega), rd_put_bytes, if_pos (by omega)]
    exact congrArg (rd _) (by omega)
  · intro i hi
    have f1 : d + 17 + i ≠ m + 2 := by omega
    have f2 : d + 17 + i ≠ m + 1 := by omega
    have f3 : d + 17 + i ≠ m := by omega
    simp only []
    rw [rd_wr_other _ _ _ _ f1, rd_wr_other _ _ _ _ f2, rd_wr_other _ _ _ _ f3,
      rd_put_bytes, if_pos (by omega)]
    exact congrArg (rd _) (by omega)
  · have g1 : m ≠ m + 2 := by omega
    have g2 : m ≠ m + 1 := by omega
    simp only []
    rw [rd_wr_other _ _ _ _ g1, rd_wr_other _ _ _ _ g2, rd_wr_same]
  · have g1 : m + 1 ≠ m + 2 := by omega
    simp only []
    rw [rd_wr_other _ _ _ _ g1, rd_wr_same]
  · simp only []
    rw [rd_wr_same]

/-- C6 at the sample PD with the secure channel on SCBK-D: the reply carries
the client uid, the PD random 08 .. 0F and the cryptogram, and the
secure-channel block is {3, SCS_12, 0}. -/
theorem ccrypt_reply_witness :
    ((reply_with std.REPLY_CCRYPT).id = std.REPLY_CCRYPT ∧ ((8 : Nat) : Int) + 33 ≤ 64 ∧
      5 + 3 ≤ 8) ∧
    (pd_build_reply std ops_accept pd_secure (reply_with std.REPLY_CCRYPT) pkt_sample 64 8
      (some 5)).ret = 33 ∧
    rd (pd_build_reply std ops_accept pd_secure (reply_with std.REPLY_CCRYPT) pkt_sample 64 8
      (some 5)).buf 8 = std.REPLY_CCRYPT ∧
    rd (pd_build_reply std ops_accept pd_secure (reply_with std.REPLY_CCRYPT) pkt_sample 64 8
      (some 5)).buf 5 = 3 ∧
    rd (pd_build_reply std ops_accept pd_secure (reply_with std.REPLY_CCRYPT) pkt_sample 64 8
      (some 5)).buf (5 + 1) = std.SCS_12 ∧
    rd (pd_build_reply std ops_accept pd_secure (reply_with std.REPLY_CCRYPT) pkt_sample 64 8
      (some 5)).buf (5 + 2)
      = (if ISSET_FLAG (pd_build_reply std ops_accept pd_secure (reply_with std.REPLY_CCRYPT)
            pkt_sample 64 8 (some 5)).pd.flags std.PD_FLAG_SC_USE_SCBKD = true then 0 else 1) :=
  ⟨⟨by decide, by decide, by decide⟩,
   (ccrypt_reply std std_wf ops_accept pd_secure (reply_with std.REPLY_CCRYPT) pkt_sample 64
      8 5 (by decide) (by decide) (by decide)).1,
   (ccrypt_reply std std_wf ops_accept pd_secure (reply_with std.REPLY_CCRYPT) pkt_sample 64
      8 5 (by decide) (by decide) (by decide)).2.2.1,
   (ccrypt_reply std std_wf ops_accept pd_secure (reply_with std.REPLY_CCRYPT) pkt_sample 64
      8 5 (by decide) (by decide) (by decide)).2.2.2.2.2.2.1,
   (ccrypt_reply std std_wf ops_accept pd_secure (reply_with std.REPLY_CCRYPT) pkt_sample 64
      8 5 (by decide) (by decide) (by decide)).2.2.2.2.2.2.2.1,
   (ccrypt_reply std std_wf ops_accept pd_secure (reply_with std.REPLY_CCRYPT) pkt_sample 64
      8 5 (by decide) (by decide) (by decide)).2.2.2.2.2.2.2.2⟩

/-! ## Unknown commands and length checks -/

/-- A command byte without a case in the switch is answered REPLY_NAK with
reason OSDP_PD_NAK_RECORD, for every payload; nothing else changes. -/
theorem unknown_cmd_reply (K : Consts) (ops : ScOps) (pd : osdp_pd)
    (slab : osdp_slab) (reply : osdp_cmd) (buf : List Nat) (len : Int)
    (hcmd : rd buf 0 ∉ K.cmd_labels) :
    pd_decode_command K ops pd slab reply buf len =
      some
        { pd := { pd with cmd_id := rd buf 0, reply_id := K.REPLY_NAK }
          slab := slab
          reply := reply_nak K { reply with id := 0 } OSDP_PD_NAK_RECORD
          ret := -1
          pos := 1 } := by
  unfold pd_decode_command
  rw [switch_default K ops _ buf _ hcmd]
  simp [decode_init, decode_finish, reply_nak]

/-- C8 fails on the code. The sample PD decodes the command byte 0x80, for
which the switch has no case: the reply is REPLY_NAK, but its reason byte is
OSDP_PD_NAK_RECORD (9), not OSDP_PD_NAK_CMD_UNKNOWN (3). -/
theorem unknown_cmd_nak_reason :
    (pd_decode_command std ops_accept pd_sample slab_sample cmd_zero unknown_cmd 1).map
      (fun st => (decide (st.pd.cmd_id ∈ std.cmd_labels), st.reply.id,
        rd st.reply.cmd_bytes 0, decide (rd st.reply.cmd_bytes 0 = OSDP_PD_NAK_CMD_UNKNOWN)))
      = some (false, std.REPLY_NAK, OSDP_PD_NAK_RECORD, false) := by
  decide

/-- The result of `pd_decode_command` when the switch changed nothing: the
fallback NAK with reason OSDP_PD_NAK_RECORD. -/
theorem decode_untouched (K : Consts) (pd : osdp_pd) (slab : osdp_slab) (reply : osdp_cmd)
    (buf : List Nat) :
    decode_finish K (decode_init pd slab reply buf) =
      { pd := { pd with cmd_id := rd buf 0, reply_id := K.REPLY_NAK }
        slab := slab
        reply := reply_nak K { reply with id := 0 } OSDP_PD_NAK_RECORD
        ret := -1
        pos := 1 } := by
  simp [decode_init, decode_finish, reply_nak]

/-- C9: a command whose payload length fails its length check (OUT ≠ 4,
LED ≠ 14, BUZ ≠ 5, COMSET ≠ 5, KEYSET ≠ 18, SCRYPT ≠ 16, CHLNG ≠ 8 on a PD
with non-zero communication-security compliance level, TEXT < 7) is answered
REPLY_NAK with reason OSDP_PD_NAK_RECORD; no slab block is taken and nothing
is enqueued: of the PD record only `cmd_id` and `reply_id` change. -/
theorem bad_length_nak_record (K : Consts) (hK : K.WF) (ops : ScOps) (pd : osdp_pd)
    (slab : osdp_slab) (reply : osdp_cmd) (buf : List Nat) (len : Int)
    (h : (rd buf 0 = K.CMD_OUT ∧ len - 1 ≠ 4) ∨ (rd buf 0 = K.CMD_LED ∧ len - 1 ≠ 14) ∨
      (rd buf 0 = K.CMD_BUZ ∧ len - 1 ≠ 5) ∨ (rd buf 0 = K.CMD_COMSET ∧ len - 1 ≠ 5) ∨
      (rd buf 0 = K.CMD_KEYSET ∧ len - 1 ≠ 18) ∨ (rd buf 0 = K.CMD_SCRYPT ∧ len - 1 ≠ 16) ∨
      (rd buf 0 = K.CMD_CHLNG ∧ len - 1 ≠ 8 ∧
        (cap_at pd.cap CAP_COMMUNICATION_SECURITY).compliance_level ≠ 0) ∨
      (rd buf 0 = K.CMD_TEXT ∧ len - 1 < 7)) :
    ∃ st, pd_decode_command K ops pd slab reply buf len = some st ∧
      st.reply.id = K.REPLY_NAK ∧ rd st.reply.cmd_bytes 0 = OSDP_PD_NAK_RECORD ∧
      st.pd = { pd with cmd_id := rd buf 0, reply_id := K.REPLY_NAK } ∧
      st.pd.queue = pd.queue ∧ st.slab = slab := by
  have key : pd_decode_command K ops pd slab reply buf len
      = some (decode_finish K (decode_init pd slab reply buf)) := by
    unfold pd_decode_command
    rcases h with ⟨hc, hl⟩ | ⟨hc, hl⟩ | ⟨hc, hl⟩ | ⟨hc, hl⟩ | ⟨hc, hl⟩ | ⟨hc, hl⟩ |
      ⟨hc, hl, hcap⟩ | ⟨hc, hl⟩
    · rw [switch_out K hK ops _ buf _ hc, decode_out, if_pos hl]
      rfl
    · rw [switch_led K hK ops _ buf _ hc, decode_led, if_pos hl]
      rfl
    · rw [switch_buz K hK ops _ buf _ hc, decode_buz, if_pos hl]
      rfl
    · rw [switch_comset K hK ops _ buf _ hc, decode_comset, if_pos hl]
      rfl
    · rw [switch_keyset K hK ops _ buf _ hc, decode_keyset, if_pos hl]
      rfl
    · rw [switch_scrypt K hK ops _ buf _ hc, decode_scrypt, if_pos hl]
      rfl
    · rw [switch_chlng K hK ops _ buf _ hc, decode_chlng,
        if_neg (by simpa [decode_init_pd] using hcap), if_pos hl]
      rfl
    · rw [switch_text K hK ops _ buf _ hc, decode_text, if_pos hl]
      rfl
  rw [key, decode_untouched]
  exact ⟨_, rfl, rfl, rd_wr_same _ _ _, rfl, rfl, rfl⟩

/-- C9 at the sample PD, for an OUT command with three payload bytes. -/
theorem bad_length_nak_record_witness :
    (rd out_short 0 = std.CMD_OUT ∧ (4 : Int) - 1 ≠ 4) ∧
    ∃ st, pd_decode_command std ops_accept pd_sample slab_sample cmd_zero out_short 4
        = some st ∧
      st.reply.id = std.REPLY_NAK ∧ rd st.reply.cmd_bytes 0 = OSDP_PD_NAK_RECORD ∧
      st.pd = { pd_sample with cmd_id := rd out_short 0, reply_id := std.REPLY_NAK } ∧
      st.pd.queue = pd_sample.queue ∧ st.slab = slab_sample :=
  ⟨⟨by decide, by decide⟩,
   bad_length_nak_record std std_wf ops_accept pd_sample slab_sample cmd_zero out_short 4
     (Or.inl ⟨by decide, by decide⟩)⟩

/-- C10 fails as stated. The sample PD decodes a POLL with five payload bytes
and an ID without its payload byte: the replies are REPLY_ACK and REPLY_PDID,
not REPLY_NAK. -/
theorem no_operand_length_counterexample :
    ((pd_decode_command std ops_accept pd_sample slab_sample cmd_zero poll_long 6).map
        (fun st => (st.reply.id, decide (st.reply.id = std.REPLY_NAK))),
     (pd_decode_command std ops_accept pd_sample slab_sample cmd_zero id_short 1).map
        (fun st => (st.reply.id, decide (st.reply.id = std.REPLY_NAK))))
      = (some (std.REPLY_ACK, false), some (std.REPLY_PDID, false)) := by
  decide

/-- C10, as the code has it: for POLL, LSTAT, ISTAT, OSTAT, RSTAT, ID and CAP
`pd_decode_command` checks no length: for every length the reply is the one
designated for the command (ACK, LSTATR, ISTATR, OSTATR, RSTATR, PDID, PDCAP),
which is not REPLY_NAK, and nothing but `cmd_id` and `reply_id` changes in
the PD record. -/
theorem no_operand_any_length (K : Consts) (hK : K.WF) (ops : ScOps) (pd : osdp_pd)
    (slab : osdp_slab) (reply : osdp_cmd) (buf : List Nat) (len : Int) (c r : Nat)
    (hcr : (c, r) ∈ [(K.CMD_POLL, K.REPLY_ACK), (K.CMD_LSTAT, K.REPLY_LSTATR),
      (K.CMD_ISTAT, K.REPLY_ISTATR), (K.CMD_OSTAT, K.REPLY_OSTATR),
      (K.CMD_RSTAT, K.REPLY_RSTATR), (K.CMD_ID, K.REPLY_PDID), (K.CMD_CAP, K.REPLY_PDCAP)])
    (hcmd : rd buf 0 = c) :
    ∃ st, pd_decode_command K ops pd slab reply buf len = some st ∧
      st.reply.id = r ∧ r ≠ K.REPLY_NAK ∧ st.ret = 0 ∧
      st.pd = { pd with cmd_id := c, reply_id := r } ∧ st.slab = slab := by
  have hn := hK.reply_ids_nodup
  simp only [Consts.reply_ids, List.nodup_cons, List.mem_cons, List.mem_singleton,
    not_or] at hn
  have hz := hK.replies_byte
  simp only [Consts.reply_ids, List.mem_cons, List.mem_singleton, forall_eq_or_imp,
    forall_eq, List.not_mem_nil, false_implies, implies_true, and_true] at hz
  simp only [List.mem_cons, List.mem_singleton, Prod.mk.injEq, List.not_mem_nil,
    or_false] at hcr
  unfold pd_decode_command
  rcases hcr with ⟨rfl, rfl⟩ | ⟨rfl, rfl⟩ | ⟨rfl, rfl⟩ | ⟨rfl, rfl⟩ | ⟨rfl, rfl⟩ |
    ⟨rfl, rfl⟩ | ⟨rfl, rfl⟩
  · rw [switch_poll K hK ops _ buf _ hcmd]
    refine ⟨_, rfl, ?_, hn.1.1, rfl, ?_, rfl⟩ <;>
      simp [decode_finish, reply_ok, decode_init, hcmd]
  · rw [switch_lstat K hK ops _ buf _ hcmd]
    refine ⟨_, rfl, ?_, fun e => hn.2.1.2.2.1 e.symm, rfl, ?_, rfl⟩ <;>
      simp [decode_finish, reply_ok, decode_init, hcmd]
  · rw [switch_istat K hK ops _ buf _ hcmd]
    refine ⟨_, rfl, ?_, fun e => hn.2.1.2.2.2.1 e.symm, rfl, ?_, rfl⟩ <;>
      simp [decode_finish, reply_ok, decode_init, hcmd]
  · rw [switch_ostat K hK ops _ buf _ hcmd]
    refine ⟨_, rfl, ?_, fun e => hn.2.1.2.2.2.2.1 e.symm, rfl, ?_, rfl⟩ <;>
      simp [decode_finish, reply_ok, decode_init, hcmd]
  · rw [switch_rstat K hK ops _ buf _ hcmd]
    refine ⟨_, rfl, ?_, fun e => hn.2.1.2.2.2.2.2.1 e.symm, rfl, ?_, rfl⟩ <;>
      simp [decode_finish, reply_ok, decode_init, hcmd]
  · rw [switch_id K hK ops _ buf _ hcmd]
    refine ⟨_, rfl, ?_, fun e => hn.2.1.1 e.symm, rfl, ?_, rfl⟩ <;>
      simp [decode_finish, reply_ok, decode_init, hcmd]
  · rw [switch_cap K hK ops _ buf _ hcmd]
    refine ⟨_, rfl, ?_, fun e => hn.2.1.2.1 e.symm, rfl, ?_, rfl⟩ <;>
      simp [decode_finish, reply_ok, decode_init, hcmd]

/-- C10 (amended) at the sample PD, for a POLL with five payload bytes. -/
theorem no_operand_any_length_witness :
    ((std.CMD_POLL, std.REPLY_ACK) ∈ [(std.CMD_POLL, std.REPLY_ACK),
        (std.CMD_LSTAT, std.REPLY_LSTATR), (std.CMD_ISTAT, std.REPLY_ISTATR),
        (std.CMD_OSTAT, std.REPLY_OSTATR), (std.CMD_RSTAT, std.REPLY_RSTATR),
        (std.CMD_ID, std.REPLY_PDID), (std.CMD_CAP, std.REPLY_PDCAP)] ∧
      rd poll_long 0 = std.CMD_POLL) ∧
    ∃ st, pd_decode_command std ops_accept pd_sample slab_sample cmd_zero poll_long 6
        = some st ∧
      st.reply.id = std.REPLY_ACK ∧ std.REPLY_ACK ≠ std.REPLY_NAK ∧ st.ret = 0 ∧
      st.pd = { pd_sample with cmd_id := std.CMD_POLL, reply_id := std.REPLY_ACK } ∧
      st.slab = slab_sample :=
  ⟨⟨by decide, by decide⟩,
   no_operand_any_length std std_wf ops_accept pd_sample slab_sample cmd_zero poll_long 6
     std.CMD_POLL std.REPLY_ACK (by decide) (by decide)⟩

/-! ## TEXT, PDID and PDCAP at concrete inputs -/

/-- C11 fails on the code. The sample PD decodes a TEXT command of 7 payload
bytes (`len` 8 with the command byte) whose length byte declares 32 bytes of
text: the command is accepted (REPLY_ACK, one command enqueued, in block 0)
although 6 + 32 > 7; `pos` ends at 39, so bytes 8 .. 38 behind the received
packet were read, and the second byte of the delivered text is the stale
0x53 found there. -/
theorem text_reads_past_payload :
    (pd_decode_command std ops_accept pd_sample slab_sample cmd_zero text_overlong 8).map
        (fun st => (st.reply.id, st.pd.queue.front, st.pd.queue.back, st.pos))
      = some (std.REPLY_ACK, some 0, some 0, 39) ∧
    (pd_decode_command std ops_accept pd_sample slab_sample cmd_zero text_overlong 8).map
        (fun st => (st.slab.blks[0]?).map (fun b => (b.data.id, b.data.text.length,
          rd b.data.text.data 0, rd b.data.text.data 1)))
      = some (some (OSDP_CMD_TEXT, 32, 0x41, 0x53)) := by
  decide

/-- C15 fails on the code. The sample PD has vendor code 0xC3B2A1, model 1,
version 2, serial number 0x12345678 and the 3-byte firmware version 0x030201:
`pd_build_reply` for REPLY_PDID returns 13 and the first ten bytes are as
claimed, but the last three are 00 03 02 (bytes 3, 2 and 1 of
`firmware_version`), not 03 02 01. -/
theorem pdid_firmware_bytes :
    ((pd_build_reply std ops_accept pd_sample (reply_with std.REPLY_PDID) pkt_sample 64 5
        none).ret,
     (List.range 13).map (fun i =>
        rd (pd_build_reply std ops_accept pd_sample (reply_with std.REPLY_PDID) pkt_sample 64 5
          none).buf (5 + i)))
      = (13, [0x45, 0xA1, 0xB2, 0xC3, 0x01, 0x02, 0x78, 0x56, 0x34, 0x12, 0x00, 0x03, 0x02]) := by
  decide

/-- C16 fails on the code. A zeroed PD record on which
`osdp_pd_set_attributes` installs the single capability { 9, 1, 1 } answers
REPLY_PDCAP with 7 bytes, not 4: the triple { 0, 0, 0 } of the never installed
slot 0 precedes the installed one. -/
theorem pdcap_emits_slot_zero :
    (osdp_pd_set_attributes pd_zero (some caps_one) pd_sample.id).map
      (fun pd =>
        ((pd_build_reply std ops_accept pd (reply_with std.REPLY_PDCAP) pkt_sample 64 5
            none).ret,
         (List.range 7).map (fun i =>
            rd (pd_build_reply std ops_accept pd (reply_with std.REPLY_PDCAP) pkt_sample 64 5
              none).buf (5 + i))))
      = some (7, [0x46, 0, 0, 0, 9, 1, 1]) := by
  decide

/-! ## Slab ownership -/

/-- C18 fails on the code. The sample PD (empty queue, no slab block in use)
decodes a TEXT command of 7 payload bytes whose length byte is 33: the reply
is REPLY_NAK with reason OSDP_PD_NAK_RECORD and the queue stays empty, but one
slab block remains in use; `osdp_pd_get_cmd` then finds the queue empty
(returns -1) and the block is still in use. -/
theorem text_too_long_leaks_block :
    slab_used slab_sample = 0 ∧
    (pd_decode_command std ops_accept pd_sample slab_sample cmd_zero text_too_long 8).map
        (fun st => (st.reply.id, rd st.reply.cmd_bytes 0, st.pd.queue.front, slab_used st.slab))
      = some (std.REPLY_NAK, OSDP_PD_NAK_RECORD, none, 1) ∧
    ((pd_decode_command std ops_accept pd_sample slab_sample cmd_zero text_too_long 8).bind
        (fun st => osdp_pd_get_cmd st.pd st.slab cmd_zero)).map
        (fun r => (r.1, r.2.1.queue.front, slab_used r.2.2.1))
      = some (-1, none, 1) := by
  decide

/-- C19: when `osdp_slab_alloc` fails, an OUT, LED, BUZ or COMSET command of
the right length, a TEXT command of at least 7 payload bytes, and a KEYSET
command of 18 payload bytes received with secure-active set are answered
REPLY_NAK with reason OSDP_PD_NAK_RECORD; nothing is enqueued and the slab is
as it was; of the PD record only `cmd_id` and `reply_id` change, so for
KEYSET the SCBK and the using-SCBK-D and install-mode flags are unchanged. -/
theorem slab_exhausted_nak (K : Consts) (hK : K.WF) (ops : ScOps) (pd : osdp_pd)
    (slab : osdp_slab) (reply : osdp_cmd) (buf : List Nat) (len : Int)
    (halloc : osdp_slab_alloc slab = none)
    (h : (rd buf 0 = K.CMD_OUT ∧ len - 1 = 4) ∨ (rd buf 0 = K.CMD_LED ∧ len - 1 = 14) ∨
      (rd buf 0 = K.CMD_BUZ ∧ len - 1 = 5) ∨ (rd buf 0 = K.CMD_TEXT ∧ 7 ≤ len - 1) ∨
      (rd buf 0 = K.CMD_COMSET ∧ len - 1 = 5) ∨
      (rd buf 0 = K.CMD_KEYSET ∧ len - 1 = 18 ∧
        ISSET_FLAG pd.flags K.PD_FLAG_SC_ACTIVE = true)) :
    ∃ st, pd_decode_command K ops pd slab reply buf len = some st ∧
      st.reply.id = K.REPLY_NAK ∧ rd st.reply.cmd_bytes 0 = OSDP_PD_NAK_RECORD ∧
      st.pd = { pd with cmd_id := rd buf 0, reply_id := K.REPLY_NAK } ∧
      st.pd.queue = pd.queue ∧ st.pd.sc.scbk = pd.sc.scbk ∧ st.pd.flags = pd.flags ∧
      st.slab = slab := by
  have key : pd_decode_command K ops pd slab reply buf len
      = some (decode_finish K (decode_init pd slab reply buf)) := by
    unfold pd_decode_command
    rcases h with ⟨hc, hl⟩ | ⟨hc, hl⟩ | ⟨hc, hl⟩ | ⟨hc, hl⟩ | ⟨hc, hl⟩ | ⟨hc, hl, hsc⟩
    · rw [switch_out K hK ops _ buf _ hc, decode_out, if_neg (not_not.mpr hl)]
      simp only [decode_init_slab, halloc]
      rfl
    · rw [switch_led K hK ops _ buf _ hc, decode_led, if_neg (not_not.mpr hl)]
      simp only [decode_init_slab, halloc]
      rfl
    · rw [switch_buz K hK ops _ buf _ hc, decode_buz, if_neg (not_not.mpr hl)]
      simp only [decode_init_slab, halloc]
      rfl
    · rw [switch_text K hK ops _ buf _ hc, decode_text, if_neg (not_lt.mpr hl)]
      simp only [decode_init_slab, halloc]
      rfl
    · rw [switch_comset K hK ops _ buf _ hc, decode_comset, if_neg (not_not.mpr hl)]
      simp only [decode_init_slab, halloc]
      rfl
    · rw [switch_keyset K hK ops _ buf _ hc, decode_keyset, if_neg (not_not.mpr hl),
        if_neg (by simp [decode_init_pd, hsc])]
      by_cases hk : rd buf (decode_init pd slab reply buf).pos ≠ 1 ∨
          rd buf ((decode_init pd slab reply buf).pos + 1) ≠ 16
      · rw [if_pos hk]
        rfl
      · rw [if_neg hk]
        simp only [decode_init_slab, halloc]
        rfl
  rw [key, decode_untouched]
  exact ⟨_, rfl, rfl, rd_wr_same _ _ _, rfl, rfl, rfl, rfl, rfl⟩

/-- C19 at the sample PD with a slab whose blocks are all in use, for the
sample OUT command. -/
theorem slab_exhausted_nak_witness :
    (osdp_slab_alloc slab_full = none ∧ rd out_cmd 0 = std.CMD_OUT ∧ (5 : Int) - 1 = 4) ∧
    ∃ st, pd_decode_command std ops_accept pd_sample slab_full cmd_zero out_cmd 5 = some st ∧
      st.reply.id = std.REPLY_NAK ∧ rd st.reply.cmd_bytes 0 = OSDP_PD_NAK_RECORD ∧
      st.pd = { pd_sample with cmd_id := rd out_cmd 0, reply_id := std.REPLY_NAK } ∧
      st.pd.queue = pd_sample.queue ∧ st.pd.sc.scbk = pd_sample.sc.scbk ∧
      st.pd.flags = pd_sample.flags ∧ st.slab = slab_full :=
  ⟨⟨by decide, by decide, by decide⟩,
   slab_exhausted_nak std std_wf ops_accept pd_sample slab_full cmd_zero out_cmd 5
     (by decide) (Or.inl ⟨by decide, by decide⟩)⟩

/-! ## Every way pd_decode_command can end -/

theorem reply_pos (K : Consts) (hK : K.WF) (r : Nat) (h : r ∈ K.reply_ids) : r ≠ 0 :=
  Nat.pos_iff_ne_zero.mp (hK.replies_byte r h).1

theorem decode_finish_ok (K : Consts) (st : decode_state) (r : Nat) (hr : r ≠ 0) :
    decode_finish K (reply_ok st r) =
      { pd := { st.pd with reply_id := r }
        slab := st.slab
        reply := { st.reply with id := r }
        ret := 0
        pos := st.pos } := by
  simp [decode_finish, reply_ok, hr]

theorem outcome_untouched (K : Consts) (ops : ScOps) (pd : osdp_pd) (slab : osdp_slab)
    (reply : osdp_cmd) (buf : List Nat) (l : List Nat) (hq : is_queue slab pd.queue l) :
    outcome K ops pd slab buf l (decode_finish K (decode_init pd slab reply buf)) := by
  rw [decode_untouched]
  exact ⟨Or.inl rfl, rfl, Or.inl ⟨rfl, rfl, hq, rfl⟩⟩

/-- A case that set REPLY_NAK with its own reason and changed nothing else. -/
theorem outcome_nak (K : Consts) (hK : K.WF) (ops : ScOps) (pd : osdp_pd) (slab : osdp_slab)
    (reply : osdp_cmd) (buf : List Nat) (l : List Nat) (code : Nat)
    (hq : is_queue slab pd.queue l) :
    outcome K ops pd slab buf l
      (decode_finish K
        { decode_init pd slab reply buf with
          reply := reply_nak K (decode_init pd slab reply buf).reply code }) := by
  have hnak := reply_pos K hK K.REPLY_NAK (by simp [Consts.reply_ids])
  have he : decode_finish K
      { decode_init pd slab reply buf with
        reply := reply_nak K (decode_init pd slab reply buf).reply code }
      = { pd := { pd with cmd_id := rd buf 0, reply_id := K.REPLY_NAK }
          slab := slab
          reply := reply_nak K { reply with id := 0 } code
          ret := -1
          pos := 1 } := by
    simp [decode_init, decode_finish, reply_nak, hnak]
  rw [he]
  exact ⟨Or.inl rfl, rfl, Or.inl ⟨rfl, rfl, hq, rfl⟩⟩

/-- A case that left the switch without a reply after a block had been handed
out and written to. -/
theorem outcome_leak (K : Consts) (ops : ScOps) (pd : osdp_pd) (slab s1 : osdp_slab)
    (reply : osdp_cmd) (buf : List Nat) (l : List Nat) (j p : Nat) (f : osdp_cmd → osdp_cmd)
    (hq : is_queue slab pd.queue l) (halloc : osdp_slab_alloc slab = some (j, s1)) :
    outcome K ops pd slab buf l
      (decode_finish K
        { decode_init pd slab reply buf with slab := slab_update s1 j f, pos := p }) := by
  obtain ⟨-, -, hq2, hc2⟩ := alloc_fresh slab s1 j pd.queue l f halloc hq
  have he : decode_finish K
      { decode_init pd slab reply buf with slab := slab_update s1 j f, pos := p }
      = { pd := { pd with cmd_id := rd buf 0, reply_id := K.REPLY_NAK }
          slab := slab_update s1 j f
          reply := reply_nak K { reply with id := 0 } OSDP_PD_NAK_RECORD
          ret := -1
          pos := p } := by
    simp [decode_init, decode_finish, reply_nak]
  rw [he]
  exact ⟨Or.inl rfl, rfl, Or.inl ⟨rfl, rfl, hq2, hc2⟩⟩

/-- A case that chose its reply and changed at most `pos`. -/
theorem outcome_answer (K : Consts) (ops : ScOps) (pd : osdp_pd) (slab : osdp_slab)
    (reply : osdp_cmd) (buf : List Nat) (l : List Nat) (p r : Nat)
    (hr : (rd buf 0, r) ∈ K.answering) (hr0 : r ≠ 0) :
    outcome K ops pd slab buf l
      (decode_finish K (reply_ok { decode_init pd slab reply buf with pos := p } r)) := by
  rw [decode_finish_ok K _ r hr0]
  exact ⟨Or.inl rfl, rfl, Or.inr (Or.inr ⟨hr, rfl⟩)⟩

/-- The tail shared by the cases that enqueue: block `j` has been handed out
and filled by `f`, and `enqueue_reply` closes the case. -/
theorem outcome_enqueue (K : Consts) (ops : ScOps) (pd : osdp_pd) (slab s1 : osdp_slab)
    (reply : osdp_cmd) (buf : List Nat) (l : List Nat) (j p r : Nat)
    (f : osdp_cmd → osdp_cmd)
    (hq : is_queue slab pd.queue l) (halloc : osdp_slab_alloc slab = some (j, s1))
    (hr : (rd buf 0, r) ∈ K.enqueuing) (hr0 : r ≠ 0) :
    ∃ st, (enqueue_reply
        { decode_init pd slab reply buf with slab := slab_update s1 j f, pos := p } j r).map
        (decode_finish K) = some st ∧ outcome K ops pd slab buf l st := by
  obtain ⟨hjl, ⟨b, hbj2, -⟩, hq2, hc2⟩ := alloc_fresh slab s1 j pd.queue l f halloc hq
  obtain ⟨q, s3, henq, hq3, hpay, -⟩ :=
    pd_enqueue_command_spec (decode_init pd slab reply buf).pd (slab_update s1 j f) l j _
      hq2 hjl hbj2 rfl
  have he : enqueue_reply
      { decode_init pd slab reply buf with slab := slab_update s1 j f, pos := p } j r
      = some (reply_ok
          { decode_init pd slab reply buf with
            pd := { (decode_init pd slab reply buf).pd with queue := q }
            slab := s3
            pos := p } r) := by
    unfold enqueue_reply
    simp only [henq]
  rw [he, Option.map_some', decode_finish_ok K _ r hr0]
  refine ⟨_, rfl, Or.inl rfl, rfl,
    Or.inr (Or.inl ⟨hr, j, payload (f b), ⟨s1, halloc⟩, hq3, ?_⟩)⟩
  exact enqueue_cmds slab _ s3 l j _ hbj2 hc2 hpay

theorem outcome_out (K : Consts) (hK : K.WF) (ops : ScOps) (pd : osdp_pd)
    (slab : osdp_slab) (reply : osdp_cmd) (buf : List Nat) (len : Int) (l : List Nat)
    (hq : is_queue slab pd.queue l) (hc : rd buf 0 = K.CMD_OUT) :
    ∃ st, pd_decode_command K ops pd slab reply buf len = some st ∧
      outcome K ops pd slab buf l st := by
  have hr0 := reply_pos K hK K.REPLY_OSTATR (by simp [Consts.reply_ids])
  unfold pd_decode_command
  rw [switch_out K hK ops _ buf _ hc]
  unfold decode_out
  by_cases hl : len - 1 ≠ 4
  · rw [if_pos hl]
    exact ⟨_, rfl, outcome_untouched K ops pd slab reply buf l hq⟩
  · rw [if_neg hl]
    cases halloc : osdp_slab_alloc slab with
    | none =>
      simp only [decode_init_slab, halloc]
      exact ⟨_, rfl, outcome_untouched K ops pd slab reply buf l hq⟩
    | some a =>
      obtain ⟨j, s1⟩ := a
      simp only [decode_init_slab, halloc]
      exact outcome_enqueue K ops pd slab s1 reply buf l j _ _ _ hq halloc
        (by simp [Consts.enqueuing, hc]) hr0

theorem outcome_led (K : Consts) (hK : K.WF) (ops : ScOps) (pd : osdp_pd)
    (slab : osdp_slab) (reply : osdp_cmd) (buf : List Nat) (len : Int) (l : List Nat)
    (hq : is_queue slab pd.queue l) (hc : rd buf 0 = K.CMD_LED) :
    ∃ st, pd_decode_command K ops pd slab reply buf len = some st ∧
      outcome K ops pd slab buf l st := by
  have hr0 := reply_pos K hK K.REPLY_ACK (by simp [Consts.reply_ids])
  unfold pd_decode_command
  rw [switch_led K hK ops _ buf _ hc]
  unfold decode_led
  by_cases hl : len - 1 ≠ 14
  · rw [if_pos hl]
    exact ⟨_, rfl, outcome_untouched K ops pd slab reply buf l hq⟩
  · rw [if_neg hl]
    cases halloc : osdp_slab_alloc slab with
    | none =>
      simp only [decode_init_slab, halloc]
      exact ⟨_, rfl, outcome_untouched K ops pd slab reply buf l hq⟩
    | some a =>
      obtain ⟨j, s1⟩ := a
      simp only [decode_init_slab, halloc]
      exact outcome_enqueue K ops pd slab s1 reply buf l j _ _ _ hq halloc
        (by simp [Consts.enqueuing, hc]) hr0

theorem outcome_buz (K : Consts) (hK : K.WF) (ops : ScOps) (pd : osdp_pd)
    (slab : osdp_slab) (reply : osdp_cmd) (buf : List Nat) (len : Int) (l : List Nat)
    (hq : is_queue slab pd.queue l) (hc : rd buf 0 = K.CMD_BUZ) :
    ∃ st, pd_decode_command K ops pd slab reply buf len = some st ∧
      outcome K ops pd slab buf l st := by
  have hr0 := reply_pos K hK K.REPLY_ACK (by simp [Consts.reply_ids])
  unfold pd_decode_command
  rw [switch_buz K hK ops _ buf _ hc]
  unfold decode_buz
  by_cases hl : len - 1 ≠ 5
  · rw [if_pos hl]
    exact ⟨_, rfl, outcome_untouched K ops pd slab reply buf l hq⟩
  · rw [if_neg hl]
    cases halloc : osdp_slab_alloc slab with
    | none =>
      simp only [decode_init_slab, halloc]
      exact ⟨_, rfl, outcome_untouched K ops pd slab reply buf l hq⟩
    | some a =>
      obtain ⟨j, s1⟩ := a
      simp only [decode_init_slab, halloc]
      exact outcome_enqueue K ops pd slab s1 reply buf l j _ _ _ hq halloc
        (by simp [Consts.enqueuing, hc]) hr0

theorem outcome_comset (K : Consts) (hK : K.WF) (ops : ScOps) (pd : osdp_pd)
    (slab : osdp_slab) (reply : osdp_cmd) (buf : List Nat) (len : Int) (l : List Nat)
    (hq : is_queue slab pd.queue l) (hc : rd buf 0 = K.CMD_COMSET) :
    ∃ st, pd_decode_command K ops pd slab reply buf len = some st ∧
      outcome K ops pd slab buf l st := by
  have hr0 := reply_pos K hK K.REPLY_COM (by simp [Consts.reply_ids])
  unfold pd_decode_command
  rw [switch_comset K hK ops _ buf _ hc]
  unfold decode_comset
  by_cases hl : len - 1 ≠ 5
  · rw [if_pos hl]
    exact ⟨_, rfl, outcome_untouched K ops pd slab reply buf l hq⟩
  · rw [if_neg hl]
    cases halloc : osdp_slab_alloc slab with
    | none =>
      simp only [decode_init_slab, halloc]
      exact ⟨_, rfl, outcome_untouched K ops pd slab reply buf l hq⟩
    | some a =>
      obtain ⟨j, s1⟩ := a
      simp only [decode_init_slab, halloc]
      exact outcome_enqueue K ops pd slab s1 reply buf l j _ _ _ hq halloc
        (by simp [Consts.enqueuing, hc]) hr0

theorem outcome_poll (K : Consts) (hK : K.WF) (ops : ScOps) (pd : osdp_pd)
    (slab : osdp_slab) (reply : osdp_cmd) (buf : List Nat) (len : Int) (l : List Nat)
    (hc : rd buf 0 = K.CMD_POLL) :
    ∃ st, pd_decode_command K ops pd slab reply buf len = some st ∧
      outcome K ops pd slab buf l st := by
  have hr0 := reply_pos K hK K.REPLY_ACK (by simp [Consts.reply_ids])
  unfold pd_decode_command
  rw [switch_poll K hK ops _ buf _ hc]
  exact ⟨_, rfl, outcome_answer K ops pd slab reply buf l _ _
    (by simp [Consts.answering, hc]) hr0⟩

theorem outcome_lstat (K : Consts) (hK : K.WF) (ops : ScOps) (pd : osdp_pd)
    (slab : osdp_slab) (reply : osdp_cmd) (buf : List Nat) (len : Int) (l : List Nat)
    (hc : rd buf 0 = K.CMD_LSTAT) :
    ∃ st, pd_decode_command K ops pd slab reply buf len = some st ∧
      outcome K ops pd slab buf l st := by
  have hr0 := reply_pos K hK K.REPLY_LSTATR (by simp [Consts.reply_ids])
  unfold pd_decode_command
  rw [switch_lstat K hK ops _ buf _ hc]
  exact ⟨_, rfl, outcome_answer K ops pd slab reply buf l _ _
    (by simp [Consts.answering, hc]) hr0⟩

theorem outcome_istat (K : Consts) (hK : K.WF) (ops : ScOps) (pd : osdp_pd)
    (slab : osdp_slab) (reply : osdp_cmd) (buf : List Nat) (len : Int) (l : List Nat)
    (hc : rd buf 0 = K.CMD_ISTAT) :
    ∃ st, pd_decode_command K ops pd slab reply buf len = some st ∧
      outcome K ops pd slab buf l st := by
  have hr0 := reply_pos K hK K.REPLY_ISTATR (by simp [Consts.reply_ids])
  unfold pd_decode_command
  rw [switch_istat K hK ops _ buf _ hc]
  exact ⟨_, rfl, outcome_answer K ops pd slab reply buf l _ _
    (by simp [Consts.answering, hc]) hr0⟩

theorem outcome_ostat (K : Consts) (hK : K.WF) (ops : ScOps) (pd : osdp_pd)
    (slab : osdp_slab) (reply : osdp_cmd) (buf : List Nat) (len : Int) (l : List Nat)
    (hc : rd buf 0 = K.CMD_OSTAT) :
    ∃ st, pd_decode_command K ops pd slab reply buf len = some st ∧
      outcome K ops pd slab buf l st := by
  have hr0 := reply_pos K hK K.REPLY_OSTATR (by simp [Consts.reply_ids])
  unfold pd_decode_command
  rw [switch_ostat K hK ops _ buf _ hc]
  exact ⟨_, rfl, outcome_answer K ops pd slab reply buf l _ _
    (by simp [Consts.answering, hc]) hr0⟩

theorem outcome_rstat (K : Consts) (hK : K.WF) (ops : ScOps) (pd : osdp_pd)
    (slab : osdp_slab) (reply : osdp_cmd) (buf : List Nat) (len : Int) (l : List Nat)
    (hc : rd buf 0 = K.CMD_RSTAT) :
    ∃ st, pd_decode_command K ops pd slab reply buf len = some st ∧
      outcome K ops pd slab buf l st := by
  have hr0 := reply_pos K hK K.REPLY_RSTATR (by simp [Consts.reply_ids])
  unfold pd_decode_command
  rw [switch_rstat K hK ops _ buf _ hc]
  exact ⟨_, rfl, outcome_answer K ops pd slab reply buf l _ _
    (by simp [Consts.answering, hc]) hr0⟩

theorem outcome_id (K : Consts) (hK : K.WF) (ops : ScOps) (pd : osdp_pd)
    (slab : osdp_slab) (reply : osdp_cmd) (buf : List Nat) (len : Int) (l : List Nat)
    (hc : rd buf 0 = K.CMD_ID) :
    ∃ st, pd_decode_command K ops pd slab reply buf len = some st ∧
      outcome K ops pd slab buf l st := by
  have hr0 := reply_pos K hK K.REPLY_PDID (by simp [Consts.reply_ids])
  unfold pd_decode_command
  rw [switch_id K hK ops _ buf _ hc]
  exact ⟨_, rfl, outcome_answer K ops pd slab reply buf l _ _
    (by simp [Consts.answering, hc]) hr0⟩

theorem outcome_cap (K : Consts) (hK : K.WF) (ops : ScOps) (pd : osdp_pd)
    (slab : osdp_slab) (reply : osdp_cmd) (buf : List Nat) (len : Int) (l : List Nat)
    (hc : rd buf 0 = K.CMD_CAP) :
    ∃ st, pd_decode_command K ops pd slab reply buf len = some st ∧
      outcome K ops pd slab buf l st := by
  have hr0 := reply_pos K hK K.REPLY_PDCAP (by simp [Consts.reply_ids])
  unfold pd_decode_command
  rw [switch_cap K hK ops _ buf _ hc]
  exact ⟨_, rfl, outcome_answer K ops pd slab reply buf l _ _
    (by simp [Consts.answering, hc]) hr0⟩

theorem slab_update_twice (s : osdp_slab) (i : Nat) (f g : osdp_cmd → osdp_cmd) :
    slab_update (slab_update s i f) i g = slab_update s i (fun c => g (f c)) := by
  unfold slab_update slab_modify
  simp only [List.modify_modify_eq]
  rfl

theorem outcome_text (K : Consts) (hK : K.WF) (ops : ScOps) (pd : osdp_pd)
    (slab : osdp_slab) (reply : osdp_cmd) (buf : List Nat) (len : Int) (l : List Nat)
    (hq : is_queue slab pd.queue l) (hc : rd buf 0 = K.CMD_TEXT) :
    ∃ st, pd_decode_command K ops pd slab reply buf len = some st ∧
      outcome K ops pd slab buf l st := by
  have hr0 := reply_pos K hK K.REPLY_ACK (by simp [Consts.reply_ids])
  unfold pd_decode_command
  rw [switch_text K hK ops _ buf _ hc]
  unfold decode_text
  by_cases hl : len - 1 < 7
  · rw [if_pos hl]
    exact ⟨_, rfl, outcome_untouched K ops pd slab reply buf l hq⟩
  · rw [if_neg hl]
    cases halloc : osdp_slab_alloc slab with
    | none =>
      simp only [decode_init_slab, halloc]
      exact ⟨_, rfl, outcome_untouched K ops pd slab reply buf l hq⟩
    | some a =>
      obtain ⟨j, s1⟩ := a
      simp only [decode_init_slab, halloc]
      by_cases hL : rd buf ((decode_init pd slab reply buf).pos + 5) > 32
      · rw [if_pos hL]
        exact ⟨_, rfl, outcome_leak K ops pd slab s1 reply buf l j _ _ hq halloc⟩
      · rw [if_neg hL, slab_update_twice]
        exact outcome_enqueue K ops pd slab s1 reply buf l j _ _ _ hq halloc
          (by simp [Consts.enqueuing, hc]) hr0

theorem outcome_keyset (K : Consts) (hK : K.WF) (ops : ScOps) (pd : osdp_pd)
    (slab : osdp_slab) (reply : osdp_cmd) (buf : List Nat) (len : Int) (l : List Nat)
    (hq : is_queue slab pd.queue l) (hc : rd buf 0 = K.CMD_KEYSET) :
    ∃ st, pd_decode_command K ops pd slab reply buf len = some st ∧
      outcome K ops pd slab buf l st := by
  have hr0 := reply_pos K hK K.REPLY_ACK (by simp [Consts.reply_ids])
  unfold pd_decode_command
  rw [switch_keyset K hK ops _ buf _ hc]
  unfold decode_keyset
  by_cases hl : len - 1 ≠ 18
  · rw [if_pos hl]
    exact ⟨_, rfl, outcome_untouched K ops pd slab reply buf l hq⟩
  · rw [if_neg hl]
    by_cases hsc : ISSET_FLAG (decode_init pd slab reply buf).pd.flags K.PD_FLAG_SC_ACTIVE = false
    · rw [if_pos hsc]
      exact ⟨_, rfl, outcome_nak K hK ops pd slab reply buf l _ hq⟩
    · rw [if_neg hsc]
      by_cases hk : rd buf (decode_init pd slab reply buf).pos ≠ 1 ∨
          rd buf ((decode_init pd slab reply buf).pos + 1) ≠ 16
      · rw [if_pos hk]
        exact ⟨_, rfl, outcome_untouched K ops pd slab reply buf l hq⟩
      · rw [if_neg hk]
        cases halloc : osdp_slab_alloc slab with
        | none =>
          simp only [decode_init_slab, halloc]
          exact ⟨_, rfl, outcome_untouched K ops pd slab reply buf l hq⟩
        | some a =>
          obtain ⟨j, s1⟩ := a
          obtain ⟨hjl, ⟨b, hbj2, -⟩, hq2, hc2⟩ :=
            alloc_fresh slab s1 j pd.queue l
              (fill_keyset buf (decode_init pd slab reply buf).pos) halloc hq
          obtain ⟨q, s3, henq, hq3, hpay, -⟩ :=
            pd_enqueue_command_spec
              (store_scbk (decode_init pd slab reply buf).pd buf
                (decode_init pd slab reply buf).pos)
              (slab_update s1 j (fill_keyset buf (decode_init pd slab reply buf).pos)) l j _
              hq2 hjl hbj2 rfl
          simp only [decode_init_slab, halloc, henq, Option.map_some']
          rw [decode_finish_ok K _ _ hr0]
          refine ⟨_, rfl, Or.inl rfl, rfl,
            Or.inr (Or.inl ⟨by simp [Consts.enqueuing, hc], j,
              payload (fill_keyset buf (decode_init pd slab reply buf).pos b),
              ⟨s1, halloc⟩, hq3, ?_⟩)⟩
          exact enqueue_cmds slab _ s3 l j _ hbj2 hc2 hpay

theorem outcome_chlng (K : Consts) (hK : K.WF) (ops : ScOps) (pd : osdp_pd)
    (slab : osdp_slab) (reply : osdp_cmd) (buf : List Nat) (len : Int) (l : List Nat)
    (hq : is_queue slab pd.queue l) (hc : rd buf 0 = K.CMD_CHLNG) :
    ∃ st, pd_decode_command K ops pd slab reply buf len = some st ∧
      outcome K ops pd slab buf l st := by
  have hr0 := reply_pos K hK K.REPLY_CCRYPT (by simp [Consts.reply_ids])
  unfold pd_decode_command
  rw [switch_chlng K hK ops _ buf _ hc]
  unfold decode_chlng
  by_cases hcap : (cap_at (decode_init pd slab reply buf).pd.cap
      CAP_COMMUNICATION_SECURITY).compliance_level = 0
  · rw [if_pos hcap]
    exact ⟨_, rfl, outcome_nak K hK ops pd slab reply buf l _ hq⟩
  · rw [if_neg hcap]
    by_cases hl : len - 1 ≠ 8
    · rw [if_pos hl]
      exact ⟨_, rfl, outcome_untouched K ops pd slab reply buf l hq⟩
    · rw [if_neg hl]
      refine ⟨_, rfl, ?_⟩
      rw [decode_finish_ok K _ _ hr0]
      exact ⟨Or.inr rfl, rfl, Or.inr (Or.inr ⟨by simp [Consts.answering, hc], rfl⟩)⟩

theorem outcome_scrypt (K : Consts) (hK : K.WF) (ops : ScOps) (pd : osdp_pd)
    (slab : osdp_slab) (reply : osdp_cmd) (buf : List Nat) (len : Int) (l : List Nat)
    (hq : is_queue slab pd.queue l) (hc : rd buf 0 = K.CMD_SCRYPT) :
    ∃ st, pd_decode_command K ops pd slab reply buf len = some st ∧
      outcome K ops pd slab buf l st := by
  have hr0 := reply_pos K hK K.REPLY_RMAC_I (by simp [Consts.reply_ids])
  unfold pd_decode_command
  rw [switch_scrypt K hK ops _ buf _ hc]
  unfold decode_scrypt
  by_cases hl : len - 1 ≠ 16
  · rw [if_pos hl]
    exact ⟨_, rfl, outcome_untouched K ops pd slab reply buf l hq⟩
  · rw [if_neg hl]
    refine ⟨_, rfl, ?_⟩
    rw [decode_finish_ok K _ _ hr0]
    exact ⟨Or.inl rfl, rfl, Or.inr (Or.inr ⟨by simp [Consts.answering, hc], rfl⟩)⟩

/-- Every decoding on a PD whose queue holds the blocks `l` returns, and ends
in one of the three ways. -/
theorem decode_outcome (K : Consts) (hK : K.WF) (ops : ScOps) (pd : osdp_pd)
    (slab : osdp_slab) (reply : osdp_cmd) (buf : List Nat) (len : Int) (l : List Nat)
    (hq : is_queue slab pd.queue l) :
    ∃ st, pd_decode_command K ops pd slab reply buf len = some st ∧
      outcome K ops pd slab buf l st := by
  by_cases hm : rd buf 0 ∈ K.cmd_labels
  · simp only [Consts.cmd_labels, List.mem_cons, List.mem_singleton, List.not_mem_nil,
      or_false] at hm
    rcases hm with h | h | h | h | h | h | h | h | h | h | h | h | h | h | h
    · exact outcome_poll K hK ops pd slab reply buf len l h
    · exact outcome_lstat K hK ops pd slab reply buf len l h
    · exact outcome_istat K hK ops pd slab reply buf len l h
    · exact outcome_ostat K hK ops pd slab reply buf len l h
    · exact outcome_rstat K hK ops pd slab reply buf len l h
    · exact outcome_id K hK ops pd slab reply buf len l h
    · exact outcome_cap K hK ops pd slab reply buf len l h
    · exact outcome_out K hK ops pd slab reply buf len l hq h
    · exact outcome_led K hK ops pd slab reply buf len l hq h
    · exact outcome_buz K hK ops pd slab reply buf len l hq h
    · exact outcome_text K hK ops pd slab reply buf len l hq h
    · exact outcome_comset K hK ops pd slab reply buf len l hq h
    · exact outcome_keyset K hK ops pd slab reply buf len l hq h
    · exact outcome_chlng K hK ops pd slab reply buf len l hq h
    · exact outcome_scrypt K hK ops pd slab reply buf len l hq h
  · refine ⟨_, unknown_cmd_reply K ops pd slab reply buf len hm, ?_⟩
    exact ⟨Or.inl rfl, rfl, Or.inl ⟨rfl, rfl, hq, rfl⟩⟩

theorem enqueuing_ne_nak (K : Consts) (hK : K.WF) (c r : Nat) (h : (c, r) ∈ K.enqueuing) :
    r ≠ K.REPLY_NAK := by
  have hn := hK.reply_ids_nodup
  simp only [Consts.reply_ids, List.nodup_cons, List.mem_cons, List.mem_singleton,
    not_or] at hn
  simp only [Consts.enqueuing, List.mem_cons, List.mem_singleton, Prod.mk.injEq,
    List.not_mem_nil, or_false] at h
  rcases h with ⟨_, rfl⟩ | ⟨_, rfl⟩ | ⟨_, rfl⟩ | h <;> try rcases h with ⟨_, rfl⟩ | ⟨_, rfl⟩ | ⟨_, rfl⟩
  all_goals
    intro e
    simp [e] at hn

theorem answering_ne_nak (K : Consts) (hK : K.WF) (c r : Nat) (h : (c, r) ∈ K.answering) :
    r ≠ K.REPLY_NAK := by
  have hn := hK.reply_ids_nodup
  simp only [Consts.reply_ids, List.nodup_cons, List.mem_cons, List.mem_singleton,
    not_or] at hn
  simp only [Consts.answering, List.mem_cons, List.mem_singleton, Prod.mk.injEq,
    List.not_mem_nil, or_false] at h
  rcases h with ⟨_, rfl⟩ | ⟨_, rfl⟩ | ⟨_, rfl⟩ | h <;>
    try rcases h with ⟨_, rfl⟩ | ⟨_, rfl⟩ | ⟨_, rfl⟩ | h2 <;>
      try rcases h2 with ⟨_, rfl⟩ | ⟨_, rfl⟩ | ⟨_, rfl⟩
  all_goals
    intro e
    simp [e] at hn

theorem answering_not_enqueuing (K : Consts) (hK : K.WF) (c r : Nat)
    (h : (c, r) ∈ K.answering)
    (hc : c ∈ [K.CMD_OUT, K.CMD_LED, K.CMD_BUZ, K.CMD_TEXT, K.CMD_COMSET, K.CMD_KEYSET]) :
    False := by
  have hn := hK.cmds_nodup
  simp only [Consts.cmd_labels, List.nodup_cons, List.mem_cons, List.mem_singleton,
    not_or] at hn
  simp only [Consts.answering, List.mem_cons, List.mem_singleton, Prod.mk.injEq,
    List.not_mem_nil, or_false] at h
  simp only [List.mem_cons, List.mem_singleton, List.not_mem_nil, or_false] at hc
  rcases h with ⟨rfl, _⟩ | ⟨rfl, _⟩ | ⟨rfl, _⟩ | h <;>
    try rcases h with ⟨rfl, _⟩ | ⟨rfl, _⟩ | ⟨rfl, _⟩ | h2 <;>
      try rcases h2 with ⟨rfl, _⟩ | ⟨rfl, _⟩ | ⟨rfl, _⟩
  all_goals
    rcases hc with e | e | e | e | e | e <;> simp [e] at hn

/-! ## Command and reply codes -/

theorem rd_build_scb_fix (K : Consts) (pd : osdp_pd) (b : List Nat) (n j : Nat)
    (smb : Option Nat) (h : ∀ m, smb = some m → j ≠ m ∧ j ≠ m + 1) :
    rd (build_scb_fix K pd b n smb) j = rd b j := by
  cases smb with
  | none => rfl
  | some m =>
    obtain ⟨h1, h2⟩ := h m rfl
    simp only [build_scb_fix]
    split
    · rw [rd_wr_other _ _ _ _ h2, rd_wr_other _ _ _ _ h1]
    · rfl

/-- The reply ACK is the single byte REPLY_ACK. -/
theorem build_ack (K : Consts) (hK : K.WF) (ops : ScOps) (pd : osdp_pd) (reply : osdp_cmd)
    (buf : List Nat) (max_len : Int) (d : Nat) (smb : Option Nat)
    (hid : reply.id = K.REPLY_ACK) (hsp : (d : Int) + 1 ≤ max_len)
    (hm : ∀ m, smb = some m → m + 2 ≤ d) :
    (pd_build_reply K ops pd reply buf max_len d smb).ret = 1 ∧
    (pd_build_reply K ops pd reply buf max_len d smb).pd = pd ∧
    rd (pd_build_reply K ops pd reply buf max_len d smb).buf d = K.REPLY_ACK := by
  have h1 : ¬ (max_len - ((d : Int) + 1) < 0) := by omega
  have hb : pd_build_reply K ops pd reply buf max_len d smb
      = ⟨pd, build_scb_fix K pd (wr buf d reply.id) 1 smb, 1⟩ := by
    unfold pd_build_reply
    rw [if_neg h1, build_switch_ack K hK ops pd reply _ _ d smb hid]
    exact build_finish_ok K pd _ 0 d smb
  rw [hb]
  refine ⟨rfl, rfl, ?_⟩
  simp only []
  rw [rd_build_scb_fix K pd _ 1 d smb (fun m e => by have := hm m e; omega), rd_wr_same, hid]

/-- C13: on a PD whose queue holds the blocks `l`, for every command byte and
payload `pd_decode_command` returns with `pd->cmd_id` the command byte, a
non-zero reply code, `pd->reply_id` equal to it, and the reply code either
REPLY_NAK or the one designated for the command. For POLL the reply is
REPLY_ACK, and `pd_build_reply` then returns 1 with the byte REPLY_ACK at the
data offset (given room for one byte behind a secure-channel block, if any).
`osdp_sc_init` is taken to leave `cmd_id` alone. -/
theorem decode_sets_codes (K : Consts) (hK : K.WF) (ops : ScOps) (pd : osdp_pd)
    (slab : osdp_slab) (reply : osdp_cmd) (buf : List Nat) (len : Int) (l : List Nat)
    (hq : is_queue slab pd.queue l)
    (hinit : ∀ p, (ops.osdp_sc_init p).cmd_id = p.cmd_id) :
    ∃ st, pd_decode_command K ops pd slab reply buf len = some st ∧
      st.pd.cmd_id = rd buf 0 ∧ st.reply.id ≠ 0 ∧ st.pd.reply_id = st.reply.id ∧
      (st.reply.id = K.REPLY_NAK ∨ (rd buf 0, st.reply.id) ∈ K.designated) ∧
      (rd buf 0 = K.CMD_POLL →
        st.reply.id = K.REPLY_ACK ∧
        ∀ (pkt : List Nat) (max_len : Int) (d : Nat) (smb : Option Nat),
          (d : Int) + 1 ≤ max_len → (∀ m, smb = some m → m + 2 ≤ d) →
          (pd_build_reply K ops st.pd st.reply pkt max_len d smb).ret = 1 ∧
          rd (pd_build_reply K ops st.pd st.reply pkt max_len d smb).buf d
            = K.REPLY_ACK) := by
  obtain ⟨st, hd, hcmd, hrid, hcase⟩ := decode_outcome K hK ops pd slab reply buf len l hq
  have hz := hK.replies_byte
  simp only [Consts.reply_ids, List.mem_cons, List.mem_singleton, forall_eq_or_imp,
    forall_eq, List.not_mem_nil, false_implies, implies_true, and_true] at hz
  have hcmd2 : st.pd.cmd_id = rd buf 0 := by
    rcases hcmd with h | h
    · exact h
    · rw [h, hinit]
  have hdes : st.reply.id = K.REPLY_NAK ∨ (rd buf 0, st.reply.id) ∈ K.designated := by
    rcases hcase with ⟨hnak, -⟩ | ⟨hmem, -⟩ | ⟨hmem, -⟩
    · exact Or.inl hnak
    · exact Or.inr (List.mem_append_right _ hmem)
    · exact Or.inr (List.mem_append_left _ hmem)
  have hne : st.reply.id ≠ 0 := by
    rcases hdes with h | h
    · rw [h]
      exact Nat.pos_iff_ne_zero.mp hz.2.1.1
    · simp only [Consts.designated, Consts.answering, Consts.enqueuing, List.cons_append,
        List.nil_append, List.mem_cons, List.mem_singleton, Prod.mk.injEq, List.not_mem_nil,
        or_false] at h
      have hr : ∀ c r : Nat, (rd buf 0 = c ∧ st.reply.id = r) → 0 < r → st.reply.id ≠ 0 :=
        fun c r hcr hpos => by rw [hcr.2]; omega
      rcases h with h | h | h | h2
      · exact hr _ _ h hz.1.1
      · exact hr _ _ h hz.2.2.2.2.1.1
      · exact hr _ _ h hz.2.2.2.2.2.1.1
      rcases h2 with h | h | h | h3
      · exact hr _ _ h hz.2.2.2.2.2.2.1.1
      · exact hr _ _ h hz.2.2.2.2.2.2.2.1.1
      · exact hr _ _ h hz.2.2.1.1
      rcases h3 with h | h | h | h4
      · exact hr _ _ h hz.2.2.2.1.1
      · exact hr _ _ h hz.2.2.2.2.2.2.2.2.2.1.1
      · exact hr _ _ h hz.2.2.2.2.2.2.2.2.2.2.1
      rcases h4 with h | h | h | h5
      · exact hr _ _ h hz.2.2.2.2.2.2.1.1
      · exact hr _ _ h hz.1.1
      · exact hr _ _ h hz.1.1
      rcases h5 with h | h | h
      · exact hr _ _ h hz.1.1
      · exact hr _ _ h hz.2.2.2.2.2.2.2.2.1.1
      · exact hr _ _ h hz.1.1
  refine ⟨st, hd, hcmd2, hne, hrid, hdes, ?_⟩
  intro hpoll
  obtain ⟨st2, hd2, hid2, -, -, -, -, -⟩ :=
    no_operand_any_length K hK ops pd slab reply buf len K.CMD_POLL K.REPLY_ACK
      (List.mem_cons_self _ _) hpoll
  rw [hd] at hd2
  cases hd2
  refine ⟨hid2, ?_⟩
  intro pkt max_len d smb hsp hm
  obtain ⟨h1, -, h3⟩ := build_ack K hK ops st.pd st.reply pkt max_len d smb hid2 hsp hm
  exact ⟨h1, h3⟩

/-- C13 at the sample PD with an empty queue, for a POLL. -/
theorem decode_sets_codes_witness :
    (is_queue slab_sample pd_sample.queue [] ∧
      ∀ p, (ops_accept.osdp_sc_init p).cmd_id = p.cmd_id) ∧
    ∃ st, pd_decode_command std ops_accept pd_sample slab_sample cmd_zero poll_cmd 1 = some st ∧
      st.pd.cmd_id = rd poll_cmd 0 ∧ st.reply.id ≠ 0 ∧ st.pd.reply_id = st.reply.id ∧
      (st.reply.id = std.REPLY_NAK ∨ (rd poll_cmd 0, st.reply.id) ∈ std.designated) ∧
      (rd poll_cmd 0 = std.CMD_POLL →
        st.reply.id = std.REPLY_ACK ∧
        ∀ (pkt : List Nat) (max_len : Int) (d : Nat) (smb : Option Nat),
          (d : Int) + 1 ≤ max_len → (∀ m, smb = some m → m + 2 ≤ d) →
          (pd_build_reply std ops_accept st.pd st.reply pkt max_len d smb).ret = 1 ∧
          rd (pd_build_reply std ops_accept st.pd st.reply pkt max_len d smb).buf d
            = std.REPLY_ACK) :=
  ⟨⟨⟨rfl, fun h => absurd rfl h⟩, fun _ => rfl⟩,
   decode_sets_codes std std_wf ops_accept pd_sample slab_sample cmd_zero poll_cmd 1 []
     ⟨rfl, fun h => absurd rfl h⟩ (fun _ => rfl)⟩

/-! ## pd_build_reply stays within the buffer -/

theorem pdcap_loop_bounds (cap : List pd_cap) (d n i : Nat) (buf : List Nat) (len : Nat)
    (max_len : Int) (h0 : 0 ≤ max_len)
    (hf : (pdcap_loop cap d n i buf len max_len).2.2 = false) :
    len ≤ (pdcap_loop cap d n i buf len max_len).2.1 ∧
    ((pdcap_loop cap d n i buf len max_len).2.1 : Int) - len ≤ max_len ∧
    ∀ j, ¬ (d + len ≤ j ∧ j < d + (pdcap_loop cap d n i buf len max_len).2.1) →
      rd (pdcap_loop cap d n i buf len max_len).1 j = rd buf j := by
  induction n generalizing i buf len max_len with
  | zero =>
    simp only [pdcap_loop]
    exact ⟨le_refl _, by omega, fun _ _ => trivial⟩
  | succ n ih =>
    rw [pdcap_loop] at hf ⊢
    by_cases h1 : (cap_at cap i).function_code ≠ i
    · rw [if_pos h1] at hf ⊢
      exact ih (i + 1) buf len max_len h0 hf
    · rw [if_neg h1] at hf ⊢
      by_cases h2 : max_len < 3
      · rw [if_pos h2] at hf
        cases hf
      · rw [if_neg h2] at hf ⊢
        simp only [] at hf ⊢
        obtain ⟨ha, hb, hc⟩ := ih (i + 1) _ (len + 3) (max_len - 3) (by omega) hf
        refine ⟨by omega, by omega, ?_⟩
        intro j hj
        rw [hc j (by omega)]
        have e1 : j ≠ d + len + 2 := by omega
        have e2 : j ≠ d + len + 1 := by omega
        have e3 : j ≠ d + len := by omega
        rw [rd_wr_other _ _ _ _ e1, rd_wr_other _ _ _ _ e2, rd_wr_other _ _ _ _ e3]

theorem pdcap_loop_full (cap : List pd_cap) (d n i : Nat) (buf : List Nat) (len : Nat)
    (m1 m2 : Int)
    (h1 : (pdcap_loop cap d n i buf len m1).2.2 = false)
    (h2 : (pdcap_loop cap d n i buf len m2).2.2 = false) :
    pdcap_loop cap d n i buf len m1 = pdcap_loop cap d n i buf len m2 := by
  induction n generalizing i buf len m1 m2 with
  | zero => simp only [pdcap_loop]
  | succ n ih =>
    rw [pdcap_loop] at h1 h2 ⊢
    rw [pdcap_loop]
    by_cases hc : (cap_at cap i).function_code ≠ i
    · rw [if_pos hc] at h1 h2 ⊢
      rw [if_pos hc]
      exact ih (i + 1) buf len m1 m2 h1 h2
    · rw [if_neg hc] at h1 h2 ⊢
      rw [if_neg hc]
      by_cases e1 : m1 < 3
      · rw [if_pos e1] at h1
        cases h1
      · by_cases e2 : m2 < 3
        · rw [if_pos e2] at h2
          cases h2
        · rw [if_neg e1] at h1 ⊢
          rw [if_neg e2] at h2 ⊢
          exact ih (i + 1) _ (len + 3) (m1 - 3) (m2 - 3) h1 h2

theorem pdcap_loop_room (cap : List pd_cap) (d n i : Nat) (buf : List Nat) (len : Nat)
    (max_len : Int) (j : Nat)
    (hj : ¬ ((d : Int) + len ≤ j ∧ (j : Int) < d + len + max_len)) :
    rd (pdcap_loop cap d n i buf len max_len).1 j = rd buf j := by
  induction n generalizing i buf len max_len with
  | zero => simp only [pdcap_loop]
  | succ n ih =>
    rw [pdcap_loop]
    by_cases h1 : (cap_at cap i).function_code ≠ i
    · rw [if_pos h1]
      exact ih (i + 1) buf len max_len hj
    · rw [if_neg h1]
      by_cases h2 : max_len < 3
      · rw [if_pos h2]
      · rw [if_neg h2]
        simp only []
        rw [ih (i + 1) _ (len + 3) (max_len - 3) (by push_cast; omega)]
        have e1 : j ≠ d + len + 2 := by omega
        have e2 : j ≠ d + len + 1 := by omega
        have e3 : j ≠ d + len := by omega
        rw [rd_wr_other _ _ _ _ e1, rd_wr_other _ _ _ _ e2, rd_wr_other _ _ _ _ e3]

theorem written_within_refl (b : List Nat) (lo hi : Int) (smb : Option Nat) :
    written_within b b lo hi smb := fun _ _ _ => rfl

theorem written_within_mono (b b0 : List Nat) (lo hi hi2 : Int) (smb : Option Nat)
    (h : hi ≤ hi2) (hw : written_within b b0 lo hi smb) : written_within b b0 lo hi2 smb :=
  fun j hj hs => hw j (fun hc => hj ⟨hc.1, lt_of_lt_of_le hc.2 h⟩) hs

theorem case_in_bounds_ok (pd : osdp_pd) (b b0 : List Nat) (n : Nat) (max1 : Int) (d : Nat)
    (smb : Option Nat) (h1 : 1 ≤ n) (h2 : (n : Int) ≤ max1 + 1)
    (hw : written_within b b0 d (d + n) smb) :
    case_in_bounds ⟨pd, b, n, false⟩ b0 max1 d smb :=
  ⟨written_within_mono b b0 d (d + n) (d + 1 + max1) smb (by omega) hw, fun _ => ⟨h1, h2, hw⟩⟩

theorem case_in_bounds_fail (pd : osdp_pd) (b0 : List Nat) (n : Nat) (max1 : Int) (d : Nat)
    (smb : Option Nat) : case_in_bounds ⟨pd, b0, n, true⟩ b0 max1 d smb :=
  ⟨written_within_refl _ _ _ _, fun hf => Bool.noConfusion hf⟩

theorem build_pdid_in_bounds (pd : osdp_pd) (b0 : List Nat) (max1 : Int) (d : Nat)
    (smb : Option Nat) : case_in_bounds (build_pdid pd b0 max1 d) b0 max1 d smb := by
  unfold build_pdid
  by_cases h : max1 < 12
  · rw [if_pos h]
    exact case_in_bounds_fail pd b0 1 max1 d smb
  · rw [if_neg h]
    refine case_in_bounds_ok pd _ b0 13 max1 d smb (by decide) (by omega) ?_
    intro j hj _
    repeat rw [rd_wr_other _ _ _ _ (by omega)]

theorem build_lstatr_in_bounds (K : Consts) (pd : osdp_pd) (b0 : List Nat) (max1 : Int)
    (d : Nat) (smb : Option Nat) :
    case_in_bounds (build_lstatr K pd b0 max1 d) b0 max1 d smb := by
  unfold build_lstatr
  by_cases h : max1 < 2
  · rw [if_pos h]
    exact case_in_bounds_fail pd b0 1 max1 d smb
  · rw [if_neg h]
    refine case_in_bounds_ok pd _ b0 3 max1 d smb (by decide) (by omega) ?_
    intro j hj _
    repeat rw [rd_wr_other _ _ _ _ (by omega)]

theorem build_rstatr_in_bounds (K : Consts) (pd : osdp_pd) (b0 : List Nat) (max1 : Int)
    (d : Nat) (smb : Option Nat) :
    case_in_bounds (build_rstatr K pd b0 max1 d) b0 max1 d smb := by
  unfold build_rstatr
  by_cases h : max1 < 1
  · rw [if_pos h]
    exact case_in_bounds_fail pd b0 1 max1 d smb
  · rw [if_neg h]
    refine case_in_bounds_ok pd _ b0 2 max1 d smb (by decide) (by omega) ?_
    intro j hj _
    repeat rw [rd_wr_other _ _ _ _ (by omega)]

theorem build_com_in_bounds (pd : osdp_pd) (b0 : List Nat) (max1 : Int) (d : Nat)
    (smb : Option Nat) : case_in_bounds (build_com pd b0 max1 d) b0 max1 d smb := by
  unfold build_com
  by_cases h : max1 < 5
  · rw [if_pos h]
    exact case_in_bounds_fail pd b0 1 max1 d smb
  · rw [if_neg h]
    refine case_in_bounds_ok pd _ b0 6 max1 d smb (by decide) (by omega) ?_
    intro j hj _
    repeat rw [rd_wr_other _ _ _ _ (by omega)]

theorem build_nak_in_bounds (pd : osdp_pd) (reply : osdp_cmd) (b0 : List Nat) (max1 : Int)
    (d : Nat) (smb : Option Nat) :
    case_in_bounds (build_nak pd reply b0 max1 d) b0 max1 d smb := by
  unfold build_nak
  by_cases h : max1 < 1
  · rw [if_pos h]
    exact case_in_bounds_fail pd b0 1 max1 d smb
  · rw [if_neg h]
    refine case_in_bounds_ok pd _ b0 2 max1 d smb (by decide) (by omega) ?_
    intro j hj _
    repeat rw [rd_wr_other _ _ _ _ (by omega)]

theorem build_pdcap_in_bounds (pd : osdp_pd) (b0 : List Nat) (max1 : Int) (d : Nat)
    (smb : Option Nat) (h0 : 0 ≤ max1) :
    case_in_bounds (build_pdcap pd b0 max1 d) b0 max1 d smb := by
  unfold build_pdcap
  refine ⟨?_, ?_⟩
  · intro j hj _
    exact pdcap_loop_room pd.cap d CAP_SENTINEL 0 b0 1 max1 j (by push_cast; omega)
  · intro hf
    obtain ⟨ha, hb, hc⟩ := pdcap_loop_bounds pd.cap d CAP_SENTINEL 0 b0 1 max1 h0 hf
    refine ⟨ha, by simp only []; omega, ?_⟩
    intro j hj _
    exact hc j (by simp only [] at hj; omega)

theorem build_ccrypt_in_bounds (K : Consts) (ops : ScOps) (pd : osdp_pd) (b0 : List Nat)
    (max1 : Int) (d : Nat) (smb : Option Nat) (h0 : 0 ≤ max1) :
    case_in_bounds (build_ccrypt K ops pd b0 max1 d smb) b0 max1 d smb := by
  cases smb with
  | none =>
    exact case_in_bounds_ok pd b0 b0 1 max1 d none (le_refl 1) (by omega)
      (written_within_refl _ _ _ _)
  | some m =>
    unfold build_ccrypt
    by_cases h : max1 < 32
    · simp only [if_pos h]
      exact case_in_bounds_fail pd b0 1 max1 d (some m)
    · simp only [if_neg h]
      refine case_in_bounds_ok _ _ b0 33 max1 d (some m) (by decide) (by omega) ?_
      intro j hj hs
      obtain ⟨e1, e2, e3⟩ := hs m rfl
      rw [rd_wr_other _ _ _ _ e3, rd_wr_other _ _ _ _ e2, rd_wr_other _ _ _ _ e1,
        rd_put_bytes, if_neg (by omega), rd_put_bytes, if_neg (by omega),
        rd_put_bytes, if_neg (by omega)]

theorem build_rmac_i_in_bounds (K : Consts) (ops : ScOps) (pd : osdp_pd) (b0 : List Nat)
    (max1 : Int) (d : Nat) (smb : Option Nat) (h0 : 0 ≤ max1) :
    case_in_bounds (build_rmac_i K ops pd b0 max1 d smb) b0 max1 d smb := by
  cases smb with
  | none =>
    exact case_in_bounds_ok pd b0 b0 1 max1 d none (le_refl 1) (by omega)
      (written_within_refl _ _ _ _)
  | some m =>
    unfold build_rmac_i
    by_cases h : max1 < 16
    · simp only [if_pos h]
      exact case_in_bounds_fail pd b0 1 max1 d (some m)
    · simp only [if_neg h]
      refine case_in_bounds_ok _ _ b0 17 max1 d (some m) (by decide) (by omega) ?_
      intro j hj hs
      obtain ⟨e1, e2, e3⟩ := hs m rfl
      rw [rd_wr_other _ _ _ _ e3, rd_wr_other _ _ _ _ e2, rd_wr_other _ _ _ _ e1,
        rd_put_bytes, if_neg (by omega)]

theorem build_switch_in_bounds (K : Consts) (ops : ScOps) (pd : osdp_pd) (reply : osdp_cmd)
    (b0 : List Nat) (max1 : Int) (d : Nat) (smb : Option Nat) (h0 : 0 ≤ max1) :
    case_in_bounds (build_switch K ops pd reply b0 max1 d smb) b0 max1 d smb := by
  have hack : case_in_bounds ⟨pd, b0, 1, false⟩ b0 max1 d smb :=
    case_in_bounds_ok pd b0 b0 1 max1 d smb (le_refl 1) (by omega)
      (written_within_refl _ _ _ _)
  unfold build_switch
  simp only []
  split_ifs
  · exact hack
  · exact build_pdid_in_bounds pd b0 max1 d smb
  · exact build_pdcap_in_bounds pd b0 max1 d smb h0
  · exact build_lstatr_in_bounds K pd b0 max1 d smb
  · exact build_rstatr_in_bounds K pd b0 max1 d smb
  · exact build_com_in_bounds pd b0 max1 d smb
  · exact build_nak_in_bounds pd reply b0 max1 d smb
  · exact build_ccrypt_in_bounds K ops pd b0 max1 d smb h0
  · exact build_rmac_i_in_bounds K ops pd b0 max1 d smb h0
  · exact hack

theorem guarded_case_full (c1 c2 : Prop) [Decidable c1] [Decidable c2] (x y : build_case)
    (hx : x.fail = true)
    (h1 : (if c1 then x else y).fail = false) (h2 : (if c2 then x else y).fail = false) :
    (if c1 then x else y) = (if c2 then x else y) := by
  by_cases a : c1
  · rw [if_pos a, hx] at h1
    cases h1
  · by_cases b : c2
    · rw [if_pos b, hx] at h2
      cases h2
    · rw [if_neg a, if_neg b]

theorem build_switch_pair (P : build_case → build_case → Prop) (K : Consts) (ops : ScOps)
    (pd : osdp_pd) (reply : osdp_cmd) (b0 : List Nat) (m1 m2 : Int) (d : Nat)
    (smb : Option Nat)
    (hack : P ⟨pd, b0, 1, false⟩ ⟨pd, b0, 1, false⟩)
    (hpdid : P (build_pdid pd b0 m1 d) (build_pdid pd b0 m2 d))
    (hpdcap : P (build_pdcap pd b0 m1 d) (build_pdcap pd b0 m2 d))
    (hlstatr : P (build_lstatr K pd b0 m1 d) (build_lstatr K pd b0 m2 d))
    (hrstatr : P (build_rstatr K pd b0 m1 d) (build_rstatr K pd b0 m2 d))
    (hcom : P (build_com pd b0 m1 d) (build_com pd b0 m2 d))
    (hnak : P (build_nak pd reply b0 m1 d) (build_nak pd reply b0 m2 d))
    (hccrypt : P (build_ccrypt K ops pd b0 m1 d smb) (build_ccrypt K ops pd b0 m2 d smb))
    (hrmac : P (build_rmac_i K ops pd b0 m1 d smb) (build_rmac_i K ops pd b0 m2 d smb)) :
    P (build_switch K ops pd reply b0 m1 d smb) (build_switch K ops pd reply b0 m2 d smb) := by
  unfold build_switch
  simp only []
  by_cases e0 : reply.id = K.REPLY_ACK
  · rw [if_pos e0, if_pos e0]
    exact hack
  rw [if_neg e0, if_neg e0]
  by_cases e1 : reply.id = K.REPLY_PDID
  · rw [if_pos e1, if_pos e1]
    exact hpdid
  rw [if_neg e1, if_neg e1]
  by_cases e2 : reply.id = K.REPLY_PDCAP
  · rw [if_pos e2, if_pos e2]
    exact hpdcap
  rw [if_neg e2, if_neg e2]
  by_cases e3 : reply.id = K.REPLY_LSTATR
  · rw [if_pos e3, if_pos e3]
    exact hlstatr
  rw [if_neg e3, if_neg e3]
  by_cases e4 : reply.id = K.REPLY_RSTATR
  · rw [if_pos e4, if_pos e4]
    exact hrstatr
  rw [if_neg e4, if_neg e4]
  by_cases e5 : reply.id = K.REPLY_COM
  · rw [if_pos e5, if_pos e5]
    exact hcom
  rw [if_neg e5, if_neg e5]
  by_cases e6 : reply.id = K.REPLY_NAK
  · rw [if_pos e6, if_pos e6]
    exact hnak
  rw [if_neg e6, if_neg e6]
  by_cases e7 : reply.id = K.REPLY_CCRYPT
  · rw [if_pos e7, if_pos e7]
    exact hccrypt
  rw [if_neg e7, if_neg e7]
  by_cases e8 : reply.id = K.REPLY_RMAC_I
  · rw [if_pos e8, if_pos e8]
    exact hrmac
  rw [if_neg e8, if_neg e8]
  exact hack

theorem build_switch_full (K : Consts) (ops : ScOps) (pd : osdp_pd) (reply : osdp_cmd)
    (b0 : List Nat) (m1 m2 : Int) (d : Nat) (smb : Option Nat)
    (h1 : (build_switch K ops pd reply b0 m1 d smb).fail = false)
    (h2 : (build_switch K ops pd reply b0 m2 d smb).fail = false) :
    build_switch K ops pd reply b0 m1 d smb = build_switch K ops pd reply b0 m2 d smb := by
  revert h1 h2
  refine build_switch_pair (fun x y => x.fail = false → y.fail = false → x = y)
    K ops pd reply b0 m1 m2 d smb ?_ ?_ ?_ ?_ ?_ ?_ ?_ ?_ ?_
  · exact fun _ _ => rfl
  · exact guarded_case_full _ _ _ _ rfl
  · intro h1 h2
    unfold build_pdcap at h1 h2 ⊢
    rw [pdcap_loop_full pd.cap d CAP_SENTINEL 0 b0 1 m1 m2 h1 h2]
  · exact guarded_case_full _ _ _ _ rfl
  · exact guarded_case_full _ _ _ _ rfl
  · exact guarded_case_full _ _ _ _ rfl
  · exact guarded_case_full _ _ _ _ rfl
  · cases smb with
    | none => exact fun _ _ => rfl
    | some m => exact guarded_case_full _ _ _ _ rfl
  · cases smb with
    | none => exact fun _ _ => rfl
    | some m => exact guarded_case_full _ _ _ _ rfl

theorem written_within_code (b buf : List Nat) (d v : Nat) (hi : Int) (smb : Option Nat)
    (hd : (d : Int) < hi) (hw : written_within b (wr buf d v) d hi smb) :
    written_within b buf d hi smb := by
  intro j hj hs
  have e : j ≠ d := fun e => hj ⟨by omega, by omega⟩
  rw [hw j hj hs, rd_wr_other _ _ _ _ e]

theorem build_finish_ret (K : Consts) (c : build_case) (d : Nat) (smb : Option Nat)
    (hf : c.fail = false) (hl : 1 ≤ c.len) :
    build_finish K c d smb = ⟨c.pd, build_scb_fix K c.pd c.buf c.len smb, c.len⟩ := by
  unfold build_finish
  rw [hf]
  have h0 : ¬ c.len = 0 := by omega
  simp only [h0, if_false, Bool.false_eq_true]

theorem build_finish_failed (K : Consts) (c : build_case) (d : Nat) (smb : Option Nat)
    (hf : c.fail = true) : build_finish K c d smb = ⟨c.pd, c.buf, -1⟩ := by
  unfold build_finish
  rw [hf]
  simp only [if_true]

/-- The two ways `pd_build_reply` returns: with -1, having written within the
buffer, or with the length left by the switch, which did not fail. -/
theorem pd_build_reply_cases (K : Consts) (ops : ScOps) (pd : osdp_pd) (reply : osdp_cmd)
    (buf : List Nat) (max_len : Int) (d : Nat) (smb : Option Nat) :
    ((pd_build_reply K ops pd reply buf max_len d smb).ret = -1 ∧
      written_within (pd_build_reply K ops pd reply buf max_len d smb).buf buf d max_len smb) ∨
    ((build_switch K ops pd reply (wr buf d reply.id) (max_len - (d + 1)) d smb).fail = false ∧
      pd_build_reply K ops pd reply buf max_len d smb
        = build_finish K
            (build_switch K ops pd reply (wr buf d reply.id) (max_len - (d + 1)) d smb) d smb ∧
      (pd_build_reply K ops pd reply buf max_len d smb).ret
        = (build_switch K ops pd reply (wr buf d reply.id) (max_len - (d + 1)) d smb).len ∧
      1 ≤ (pd_build_reply K ops pd reply buf max_len d smb).ret ∧
      (d : Int) + (pd_build_reply K ops pd reply buf max_len d smb).ret ≤ max_len ∧
      written_within (pd_build_reply K ops pd reply buf max_len d smb).buf buf d
        (d + (pd_build_reply K ops pd reply buf max_len d smb).ret) smb) := by
  unfold pd_build_reply
  by_cases h : max_len - ((d : Int) + 1) < 0
  · rw [if_pos h]
    exact Or.inl ⟨rfl, written_within_refl _ _ _ _⟩
  · rw [if_neg h]
    obtain ⟨hw, hc⟩ := build_switch_in_bounds K ops pd reply (wr buf d reply.id)
      (max_len - (d + 1)) d smb (by omega)
    by_cases hf : (build_switch K ops pd reply (wr buf d reply.id)
        (max_len - (d + 1)) d smb).fail = true
    · rw [build_finish_failed K _ d smb hf]
      refine Or.inl ⟨rfl, written_within_code _ buf d reply.id max_len smb (by omega) ?_⟩
      exact written_within_mono _ _ _ _ _ smb (by omega) hw
    · have hf2 := Bool.eq_false_iff.mpr hf
      obtain ⟨h1, h2, h3⟩ := hc hf2
      rw [build_finish_ret K _ d smb hf2 h1]
      refine Or.inr ⟨hf2, rfl, rfl, by simp only []; omega, by simp only []; omega, ?_⟩
      refine written_within_code _ buf d reply.id _ smb (by simp only []; omega) ?_
      intro j hj hs
      rw [rd_build_scb_fix K _ _ _ j smb (fun m e => ⟨(hs m e).1, (hs m e).2.1⟩)]
      exact h3 j hj hs

/-- C14: `pd_build_reply` never writes outside the buffer it was given. For
every reply id, PD record, data offset `d` and limit `max_len`, the buffer it
leaves differs from the one it was given at most in the cells `d .. max_len - 1`
and in the three cells of the secure-channel block; it returns -1 or a length
`n ≥ 1` with `d + n ≤ max_len`, and then only the cells `d .. d + n - 1` (and
the secure-channel block) were written. A reply is never truncated: if under
some limit `room` the reply has length `n`, then under `max_len < d + n` the
function returns -1, and whenever it does not return -1 its result is the one
obtained under `room`. -/
theorem build_reply_within_buffer (K : Consts) (ops : ScOps) (pd : osdp_pd)
    (reply : osdp_cmd) (buf : List Nat) (max_len : Int) (d : Nat) (smb : Option Nat) :
    written_within (pd_build_reply K ops pd reply buf max_len d smb).buf buf d max_len smb ∧
    ((pd_build_reply K ops pd reply buf max_len d smb).ret = -1 ∨
      (1 ≤ (pd_build_reply K ops pd reply buf max_len d smb).ret ∧
       (d : Int) + (pd_build_reply K ops pd reply buf max_len d smb).ret ≤ max_len ∧
       written_within (pd_build_reply K ops pd reply buf max_len d smb).buf buf d
         (d + (pd_build_reply K ops pd reply buf max_len d smb).ret) smb)) ∧
    ∀ room : Int, 0 ≤ (pd_build_reply K ops pd reply buf room d smb).ret →
      (max_len < d + (pd_build_reply K ops pd reply buf room d smb).ret →
        (pd_build_reply K ops pd reply buf max_len d smb).ret = -1) ∧
      (0 ≤ (pd_build_reply K ops pd reply buf max_len d smb).ret →
        pd_build_reply K ops pd reply buf max_len d smb
          = pd_build_reply K ops pd reply buf room d smb) := by
  have hsame : ∀ room : Int, 0 ≤ (pd_build_reply K ops pd reply buf room d smb).ret →
      0 ≤ (pd_build_reply K ops pd reply buf max_len d smb).ret →
      pd_build_reply K ops pd reply buf max_len d smb
        = pd_build_reply K ops pd reply buf room d smb := by
    intro room hr hm
    rcases pd_build_reply_cases K ops pd reply buf max_len d smb with ⟨h, _⟩ | ⟨hf, he, _⟩
    · omega
    · rcases pd_build_reply_cases K ops pd reply buf room d smb with ⟨h, _⟩ | ⟨hf2, he2, _⟩
      · omega
      · rw [he, he2, build_switch_full K ops pd reply _ _ _ d smb hf hf2]
  rcases pd_build_reply_cases K ops pd reply buf max_len d smb with ⟨h, hw⟩ | ⟨_, _, _, h1, h2, hw⟩
  · refine ⟨hw, Or.inl h, fun room _ => ⟨fun _ => h, fun hm => ?_⟩⟩
    omega
  · refine ⟨written_within_mono _ _ _ _ _ smb h2 hw, Or.inr ⟨h1, h2, hw⟩, fun room hr => ?_⟩
    have e := hsame room hr (by omega)
    refine ⟨fun hlt => ?_, fun _ => e⟩
    rw [e] at h2
    omega

/-- The PDID reply, 13 bytes long, is refused in a buffer with room for 12. -/
theorem build_reply_within_buffer_witness :
    (pd_build_reply std ops_accept pd_sample (reply_with 0x45) pkt_sample 64 8 (some 5)).ret = 13 ∧
    (pd_build_reply std ops_accept pd_sample (reply_with 0x45) pkt_sample 20 8 (some 5)).ret
      = -1 :=
  ⟨by decide,
   ((build_reply_within_buffer std ops_accept pd_sample (reply_with 0x45) pkt_sample 20 8
      (some 5)).2.2 64 (by decide)).1 (by decide)⟩

/-! ## The command queue is a FIFO -/

theorem queue_cmds_length (s : osdp_slab) (l : List Nat)
    (h : ∀ i ∈ l, ∃ b, blk s i = some b) : (queue_cmds s l).length = l.length := by
  unfold queue_cmds
  induction l with
  | nil => rfl
  | cons a t ih =>
    obtain ⟨b, hb⟩ := h a (List.mem_cons_self a t)
    simp only [List.filterMap_cons, hb, Option.map_some', List.length_cons]
    rw [ih (fun k hk => h k (List.mem_cons_of_mem a hk))]

theorem slab_find_free_none (bs : List osdp_slab_blk) :
    slab_find_free bs = none ↔ ∀ b ∈ bs, b.in_use = true := by
  induction bs with
  | nil => simp [slab_find_free]
  | cons a t ih =>
    by_cases ha : a.in_use = true
    · simp [slab_find_free, ha, ih]
    · simp [slab_find_free, ha]

theorem blk_lt (s : osdp_slab) (i : Nat) (b : osdp_slab_blk) (h : blk s i = some b) :
    i < s.blks.length := by
  unfold blk at h
  exact (List.getElem?_eq_some_iff.mp h).1

theorem blk_of_lt (s : osdp_slab) (i : Nat) (h : i < s.blks.length) :
    ∃ b, blk s i = some b ∧ b ∈ s.blks :=
  ⟨s.blks[i], List.getElem?_eq_getElem h, List.getElem_mem h⟩

theorem blk_of_mem (s : osdp_slab) (b : osdp_slab_blk) (h : b ∈ s.blks) :
    ∃ i, blk s i = some b := by
  obtain ⟨i, hi, e⟩ := List.getElem_of_mem h
  exact ⟨i, by unfold blk; rw [List.getElem?_eq_getElem hi, e]⟩

theorem nodup_below_length (l : List Nat) (n : Nat) (hnd : l.Nodup) (hlt : ∀ i ∈ l, i < n) :
    l.length ≤ n ∧ (l.length = n → ∀ i, i < n → i ∈ l) := by
  have hsub : l.toFinset ⊆ Finset.range n := by
    intro i hi
    exact Finset.mem_range.mpr (hlt i (List.mem_toFinset.mp hi))
  have hcard : l.toFinset.card = l.length := List.toFinset_card_of_nodup hnd
  have hle := Finset.card_le_card hsub
  rw [hcard, Finset.card_range] at hle
  refine ⟨hle, fun hn i hi => ?_⟩
  have heq : l.toFinset = Finset.range n :=
    Finset.eq_of_subset_of_card_le hsub (by rw [hcard, Finset.card_range, hn])
  exact List.mem_toFinset.mp (heq ▸ Finset.mem_range.mpr hi)

theorem length_le_of_all_below (l : List Nat) (n : Nat) (h : ∀ i, i < n → i ∈ l) :
    n ≤ l.length := by
  have hsub : Finset.range n ⊆ l.toFinset := by
    intro i hi
    exact List.mem_toFinset.mpr (h i (Finset.mem_range.mp hi))
  have hle := Finset.card_le_card hsub
  rw [Finset.card_range] at hle
  exact le_trans hle (List.toFinset_card_le l)

theorem slab_modify_length (s : osdp_slab) (i : Nat) (f : osdp_slab_blk → osdp_slab_blk) :
    (slab_modify s i f).blks.length = s.blks.length := by
  simp [slab_modify]

theorem slab_length_of_blk (a b : osdp_slab)
    (h : ∀ k, (blk a k).map (fun x => x.in_use) = (blk b k).map (fun x => x.in_use)) :
    a.blks.length = b.blks.length := by
  have key : ∀ (x y : osdp_slab),
      (∀ k, (blk x k).map (fun z => z.in_use) = (blk y k).map (fun z => z.in_use)) →
      x.blks.length ≤ y.blks.length := by
    intro x y hxy
    by_contra hlt
    obtain ⟨c, hc, _⟩ := blk_of_lt x y.blks.length (by omega)
    have hn : blk y y.blks.length = none := by
      unfold blk
      exact List.getElem?_eq_none (le_refl _)
    have := hxy y.blks.length
    rw [hc, hn] at this
    cases this
  exact le_antisymm (key a b h) (key b a (fun k => (h k).symm))

/-- On a state that holds the list queue `q`, `osdp_pd_get_cmd` returns -1
and leaves the PD record, the slab and the caller's struct as they were exactly
when `q` is empty; otherwise it returns 0, the caller's struct holds the head
of `q`, and the state holds the tail. -/
theorem get_cmd_spec (n : Nat) (st : osdp_pd × osdp_slab) (q : List osdp_cmd) (dst : osdp_cmd)
    (hinv : queue_inv n st q) :
    (osdp_pd_get_cmd st.1 st.2 dst = some (-1, st.1, st.2, dst) ↔ q = []) ∧
    (∀ c t, q = c :: t → ∃ pd1 s1 cmd,
      osdp_pd_get_cmd st.1 st.2 dst = some (0, pd1, s1, cmd) ∧ payload cmd = c ∧
      queue_inv n (pd1, s1) t ∧ pd1 = { st.1 with queue := pd1.queue }) := by
  obtain ⟨pd, s⟩ := st
  obtain ⟨l, ⟨hl, hback⟩, hq, hlen, huse⟩ := hinv
  simp only [] at hl hback hq hlen huse ⊢
  cases l with
  | nil =>
    have hf : pd.queue.front = none := (linked_nil s _).mp hl
    have hq0 : q = [] := by
      rw [← hq]
      rfl
    have hget : osdp_pd_get_cmd pd s dst = some (-1, pd, s, dst) := by
      simp [osdp_pd_get_cmd, hf]
    refine ⟨⟨fun _ => hq0, fun _ => hget⟩, fun c t e => ?_⟩
    rw [hq0] at e
    cases e
  | cons i t =>
    obtain ⟨hp, b, hb, hu, ht⟩ := (linked_cons s i t _).mp hl
    have hnd := linked_nodup s (i :: t) _ hl
    have hit : i ∉ t := (List.nodup_cons.mp hnd).1
    have hq1 : q = payload b.data :: queue_cmds s t := by
      rw [← hq]
      simp [queue_cmds, hb]
    have hb2 : s.blks[i]? = some b := hb
    have hget : osdp_pd_get_cmd pd s dst
        = some (0, { pd with queue := { pd.queue with front := b.data.next } },
            osdp_slab_free s i, b.data) := by
      simp [osdp_pd_get_cmd, hp, hb2]
    have hother : ∀ k ∈ t, blk (osdp_slab_free s i) k = blk s k := by
      intro k hk
      exact blk_slab_modify_ne s i k _ (fun e => hit (e ▸ hk))
    refine ⟨⟨fun h => ?_, fun h => ?_⟩, fun c t2 e => ?_⟩
    · rw [hget] at h
      cases h
    · rw [hq1] at h
      cases h
    · rw [hq1] at e
      cases e
      refine ⟨_, _, _, hget, rfl, ⟨t, ⟨?_, ?_⟩, ?_, ?_, ?_⟩, rfl⟩
      · simp only []
        rw [linked_congr s _ t _ hother]
        exact ht
      · intro hne
        simp only []
        rw [hback (List.cons_ne_nil i t)]
        cases t with
        | nil => exact absurd rfl hne
        | cons a t3 => exact List.getLast?_cons_cons
      · exact queue_cmds_congr s _ t (fun k hk => by rw [hother k hk])
      · simp only [osdp_slab_free, slab_modify_length]
        exact hlen
      · intro k bk hk
        simp only [] at hk ⊢
        by_cases e : i = k
        · subst e
          have h2 : blk (osdp_slab_free s i) i = some { b with in_use := false } := by
            simp [osdp_slab_free, blk_slab_modify, hb]
          rw [h2] at hk
          cases hk
          exact ⟨fun h => Bool.noConfusion h, fun h => absurd h hit⟩
        · rw [show blk (osdp_slab_free s i) k = blk s k from blk_slab_modify_ne s i k _ e] at hk
          rw [huse k bk hk]
          simp [Ne.symm e]

/-- On a state that holds the list queue `q`, enqueueing `c` finds a free
block exactly when `q` has fewer commands than the slab has blocks, and then
the state holds `q` followed by `c`; otherwise nothing changes. -/
theorem enq_spec (n : Nat) (st : osdp_pd × osdp_slab) (q : List osdp_cmd) (c : osdp_cmd)
    (hinv : queue_inv n st q) :
    ∃ st1, queue_step st (queue_op.enq c) = some (st1, (fifo_step n q (queue_op.enq c)).2) ∧
      queue_inv n st1 (fifo_step n q (queue_op.enq c)).1 ∧
      st1.1 = { st.1 with queue := st1.1.queue } := by
  obtain ⟨pd, s⟩ := st
  have hinv0 := hinv
  obtain ⟨l, hq, hcmds, hlen, huse⟩ := hinv
  simp only [] at hq hcmds hlen huse ⊢
  have hin := linked_in_use s l _ hq.1
  have hql : q.length = l.length := by
    rw [← hcmds]
    exact queue_cmds_length s l (fun k hk => (hin k hk).imp (fun _ h => h.1))
  have hbelow : ∀ k ∈ l, k < n := by
    intro k hk
    obtain ⟨b, hb, _⟩ := hin k hk
    rw [← hlen]
    exact blk_lt s k b hb
  obtain ⟨hle, hall⟩ := nodup_below_length l n (linked_nodup s l _ hq.1) hbelow
  by_cases hlt : q.length < n
  · have hstep : fifo_step n q (queue_op.enq c) = (q ++ [payload c], queue_obs.stored) := by
      simp only [fifo_step, if_pos hlt]
    rw [hstep]
    cases halloc : osdp_slab_alloc s with
    | none =>
      exfalso
      have hfind : slab_find_free s.blks = none := by
        unfold osdp_slab_alloc at halloc
        cases hf : slab_find_free s.blks with
        | none => rfl
        | some k =>
          rw [hf] at halloc
          cases halloc
      have hused := (slab_find_free_none s.blks).mp hfind
      have := length_le_of_all_below l n (fun k hk => by
        obtain ⟨b, hb, hm⟩ := blk_of_lt s k (by omega)
        exact (huse k b hb).mp (hused b hm))
      omega
    | some r =>
      obtain ⟨j, s1⟩ := r
      obtain ⟨hjl, ⟨b0, hb2, hb0⟩, hq2, hc2⟩ := alloc_fresh s s1 j pd.queue l (fun _ => c) halloc hq
      obtain ⟨q3, s3, heq, hq3, hpay, huse3⟩ :=
        pd_enqueue_command_spec pd (slab_update s1 j (fun _ => c)) l j ⟨true, c⟩ hq2 hjl hb2 rfl
      obtain ⟨_, hs1⟩ := osdp_slab_alloc_spec s s1 j halloc
      refine ⟨({ pd with queue := q3 }, s3), ?_, ⟨l ++ [j], hq3, ?_, ?_, ?_⟩, rfl⟩
      · simp only [queue_step, halloc, heq, Option.map_some']
      · simp only []
        rw [enqueue_cmds s (slab_update s1 j (fun _ => c)) s3 l j c hb2 hc2 hpay, hcmds]
      · simp only []
        rw [slab_length_of_blk s3 _ huse3, slab_update, slab_modify_length, hs1,
          slab_modify_length]
        exact hlen
      · intro k b3 hk
        simp only [] at hk
        have h3 := huse3 k
        rw [hk] at h3
        by_cases e : j = k
        · subst e
          rw [hb2] at h3
          simp only [Option.map_some', Option.some.injEq] at h3
          rw [h3]
          simp
        · rw [blk_slab_update_ne _ _ _ _ e, hs1, blk_slab_modify_ne _ _ _ _ e] at h3
          cases hb : blk s k with
          | none =>
            rw [hb] at h3
            cases h3
          | some b =>
            rw [hb] at h3
            simp only [Option.map_some', Option.some.injEq] at h3
            rw [h3, huse k b hb]
            simp [Ne.symm e]
  · have hstep : fifo_step n q (queue_op.enq c) = (q, queue_obs.no_block) := by
      simp only [fifo_step, if_neg hlt]
    rw [hstep]
    have hfull := hall (by omega)
    have hfind : slab_find_free s.blks = none := by
      rw [slab_find_free_none]
      intro b hb
      obtain ⟨k, hk⟩ := blk_of_mem s b hb
      exact (huse k b hk).mpr (hfull k (hlen ▸ blk_lt s k b hk))
    refine ⟨(pd, s), ?_, hinv0, rfl⟩
    simp only [queue_step, osdp_slab_alloc, hfind]

theorem payload_payload (c : osdp_cmd) : payload (payload c) = payload c := rfl

/-- One use of the queue on the code is one use of the bounded list queue. -/
theorem queue_step_refines (n : Nat) (st : osdp_pd × osdp_slab) (q : List osdp_cmd)
    (o : queue_op) (hinv : queue_inv n st q) :
    ∃ st1 ob, queue_step st o = some (st1, ob) ∧
      strip_link ob = strip_link (fifo_step n q o).2 ∧
      queue_inv n st1 (fifo_step n q o).1 ∧ st1.1 = { st.1 with queue := st1.1.queue } := by
  cases o with
  | enq c =>
    obtain ⟨st1, h1, h2, h3⟩ := enq_spec n st q c hinv
    exact ⟨st1, _, h1, rfl, h2, h3⟩
  | get dst =>
    obtain ⟨hiff, hhead⟩ := get_cmd_spec n st q dst hinv
    cases q with
    | nil =>
      have hget := hiff.mpr rfl
      refine ⟨(st.1, st.2), queue_obs.got (-1) dst, ?_, rfl, hinv, rfl⟩
      simp only [queue_step, hget, Option.map_some']
    | cons c t =>
      obtain ⟨pd1, s1, cmd, hget, hc, hinv1, hpd⟩ := hhead c t rfl
      refine ⟨(pd1, s1), queue_obs.got 0 cmd, ?_, ?_, hinv1, hpd⟩
      · simp only [queue_step, hget, Option.map_some']
      · simp only [strip_link, fifo_step]
        rw [← hc, payload_payload]

/-- A sequence of uses of the queue on the code is the same sequence on the
bounded list queue. -/
theorem queue_run_refines (n : Nat) (ops : List queue_op) (st : osdp_pd × osdp_slab)
    (q : List osdp_cmd) (hinv : queue_inv n st q) :
    ∃ st1 obs, queue_run st ops = some (st1, obs) ∧
      obs.map strip_link = (fifo_run n q ops).2.map strip_link ∧
      queue_inv n st1 (fifo_run n q ops).1 ∧ st1.1 = { st.1 with queue := st1.1.queue } := by
  induction ops generalizing st q with
  | nil => exact ⟨st, [], rfl, rfl, hinv, rfl⟩
  | cons o rest ih =>
    obtain ⟨st1, ob, h1, h2, h3, h4⟩ := queue_step_refines n st q o hinv
    obtain ⟨st2, obs, k1, k2, k3, k4⟩ := ih st1 _ h3
    refine ⟨st2, ob :: obs, ?_, ?_, k3, ?_⟩
    · simp only [queue_run, h1, k1, Option.map_some']
    · simp only [fifo_run, List.map_cons, h2, k2]
    · rw [k4, h4]

/-- C17: the PD command queue is a FIFO. Starting from an empty queue
(`front` NULL) over a slab with every block free, every sequence of enqueues
(a block from the slab, filled and passed to `pd_enqueue_command`) and calls
of `osdp_pd_get_cmd` runs to its end, and shows its callers what the same
sequence shows on a list queue, bounded by the number of slab blocks, in which
enqueue appends at the tail and get removes the head; the linked list holds
the commands of that list queue, and of the PD record only the queue changes.
In the state reached, `osdp_pd_get_cmd` returns -1 and leaves the PD record,
the slab and the caller's struct unchanged exactly when the list queue is
empty, and otherwise returns 0 with a copy of its head, the oldest command not
yet returned, and leaves the rest queued. -/
theorem queue_is_fifo (pd0 : osdp_pd) (slab0 : osdp_slab)
    (hempty : pd0.queue.front = none) (hfree : ∀ b ∈ slab0.blks, b.in_use = false)
    (ops : List queue_op) :
    ∃ pd s obs, queue_run (pd0, slab0) ops = some ((pd, s), obs) ∧
      obs.map strip_link = (fifo_run slab0.blks.length [] ops).2.map strip_link ∧
      (∃ l, is_queue s pd.queue l ∧
        queue_cmds s l = (fifo_run slab0.blks.length [] ops).1) ∧
      pd = { pd0 with queue := pd.queue } ∧
      ∀ dst,
        (osdp_pd_get_cmd pd s dst = some (-1, pd, s, dst) ↔
          (fifo_run slab0.blks.length [] ops).1 = []) ∧
        (∀ c t, (fifo_run slab0.blks.length [] ops).1 = c :: t →
          ∃ pd1 s1 cmd, osdp_pd_get_cmd pd s dst = some (0, pd1, s1, cmd) ∧ payload cmd = c ∧
            ∃ l1, is_queue s1 pd1.queue l1 ∧ queue_cmds s1 l1 = t) := by
  have hinit : queue_inv slab0.blks.length (pd0, slab0) [] := by
    refine ⟨[], ⟨?_, fun h => absurd rfl h⟩, rfl, rfl, ?_⟩
    · exact (linked_nil slab0 _).mpr hempty
    · intro i b hb
      have hm : b ∈ slab0.blks := by
        unfold blk at hb
        obtain ⟨hi, e⟩ := List.getElem?_eq_some_iff.mp hb
        exact e ▸ List.getElem_mem hi
      rw [hfree b hm]
      simp
  obtain ⟨⟨pd, s⟩, obs, h1, h2, h3, h4⟩ :=
    queue_run_refines slab0.blks.length ops (pd0, slab0) [] hinit
  refine ⟨pd, s, obs, h1, h2, ?_, h4, fun dst => ?_⟩
  · obtain ⟨l, hl, hc, _⟩ := h3
    exact ⟨l, hl, hc⟩
  · obtain ⟨hiff, hhead⟩ :=
      get_cmd_spec slab0.blks.length (pd, s) _ dst h3
    refine ⟨hiff, fun c t e => ?_⟩
    obtain ⟨pd1, s1, cmd, g1, g2, ⟨l1, k1, k2, _⟩, _⟩ := hhead c t e
    exact ⟨pd1, s1, cmd, g1, g2, l1, k1, k2⟩

/-- The sample trace on the sample PD and a slab of four free blocks: five
commands are offered while one has been taken, the sixth finds no block, and
the commands come out in the order they went in. -/
theorem queue_is_fifo_witness :
    (fifo_run 4 [] queue_trace).2 =
      [queue_obs.stored, queue_obs.stored, queue_obs.got 0 (cmd_with 1), queue_obs.stored,
       queue_obs.stored, queue_obs.stored, queue_obs.no_block, queue_obs.got 0 (cmd_with 2),
       queue_obs.got 0 (cmd_with 3), queue_obs.got 0 (cmd_with 4),
       queue_obs.got 0 (cmd_with 5), queue_obs.got (-1) (cmd_with 9)] ∧
    ∃ pd s obs, queue_run (pd_sample, slab_sample) queue_trace = some ((pd, s), obs) ∧
      obs.map strip_link = (fifo_run 4 [] queue_trace).2.map strip_link ∧
      pd = { pd_sample with queue := pd.queue } :=
  ⟨by decide,
   match queue_is_fifo pd_sample slab_sample rfl (by decide) queue_trace with
   | ⟨pd, s, obs, h1, h2, _, h4, _⟩ => ⟨pd, s, obs, h1, h2, h4⟩⟩

/-! ## The error state -/

/-- C20: from state PD_STATE_ERR one call of `pd_state_update` returns with
state PD_STATE_IDLE, `rx_buf_len` 0 and secure-active clear, having made no
call of `recv`, `send` or `flush`; the slab is as it was, every flag bit
outside the secure-active mask is as it was (so each of the other flags of
the PD role reads as before), and every field of the PD record other than
`flags`, `rx_buf_len` and `state` is unchanged, the SCBK, the session keys,
the command queue, the address and the capabilities among them. The flag word
is taken to be a 32-bit value. -/
theorem err_state_update (K : Consts) (hK : K.WF) (ops : ScOps) (phy : PhyOps) (host : Host)
    (pd : osdp_pd) (slab : osdp_slab) (reply0 : osdp_cmd)
    (hst : pd.state = pd_state.PD_STATE_ERR) (hfl : pd.flags < 2 ^ 32) :
    ∃ pd1, pd_state_update K ops phy host pd slab reply0 = some (pd1, slab, []) ∧
      pd1.state = pd_state.PD_STATE_IDLE ∧ pd1.rx_buf_len = 0 ∧
      ISSET_FLAG pd1.flags K.PD_FLAG_SC_ACTIVE = false ∧
      (∀ n, K.PD_FLAG_SC_ACTIVE.testBit n = false →
        pd1.flags.testBit n = pd.flags.testBit n) ∧
      (∀ f ∈ K.flag_masks, f ≠ K.PD_FLAG_SC_ACTIVE →
        ISSET_FLAG pd1.flags f = ISSET_FLAG pd.flags f) ∧
      pd1 = { pd with flags := pd1.flags, rx_buf_len := 0,
                      state := pd_state.PD_STATE_IDLE } ∧
      pd1.sc = pd.sc ∧ pd1.queue = pd.queue ∧ pd1.address = pd.address ∧ pd1.cap = pd.cap := by
  have hact : K.PD_FLAG_SC_ACTIVE ∈ K.flag_masks := by
    simp [Consts.flag_masks]
  have hsym : Symmetric (fun a b : Nat => a &&& b = 0) := by
    intro a b h
    rw [Nat.land_comm]
    exact h
  refine ⟨{ pd with flags := CLEAR_FLAG pd.flags K.PD_FLAG_SC_ACTIVE, rx_buf_len := 0,
                    state := pd_state.PD_STATE_IDLE }, ?_, rfl, rfl, ?_, ?_, ?_, rfl, rfl, rfl,
    rfl, rfl⟩
  · unfold pd_state_update
    rw [hst]
  · exact isset_clear_same pd.flags _ (hK.flags_pos _ hact).1 (hK.flags_pos _ hact).2
  · intro n hn
    simp only []
    rw [testBit_clear pd.flags _ n hfl, hn]
    simp
  · intro f hf hne
    exact isset_clear_other pd.flags _ f hfl (hK.flags_disjoint.forall hsym hf hact hne)

/-- The secure sample PD in the error state: the call yields the idle state
with secure-active clear, and the flag word keeps its other bits. -/
theorem err_state_update_witness :
    (pd_state_update std ops_accept phy_sample host_sample pd_err slab_sample cmd_zero).map
        (fun r => (r.1.state, r.1.rx_buf_len, r.1.flags, r.2.2))
      = some (pd_state.PD_STATE_IDLE, 0, 0xC0000080, []) ∧
    ∃ pd1, pd_state_update std ops_accept phy_sample host_sample pd_err slab_sample cmd_zero
        = some (pd1, slab_sample, []) ∧
      ISSET_FLAG pd1.flags std.PD_FLAG_SC_ACTIVE = false ∧ pd1.sc = pd_err.sc :=
  ⟨by decide,
   match err_state_update std std_wf ops_accept phy_sample host_sample pd_err slab_sample
     cmd_zero rfl (by decide) with
   | ⟨pd1, h1, _, _, h4, _, _, _, h8, _⟩ => ⟨pd1, h1, h4, h8⟩⟩

/-! ## pd_receve_packet and pd_send_reply, step by step -/

theorem receve_nothing (phy : PhyOps) (host : Host) (pd : osdp_pd)
    (h : (host.recv pd.channel.data (host.RX_BUF_SIZE - pd.rx_buf_len)).1 ≤ 0) :
    pd_receve_packet phy host pd
      = (1, pd, [chan_event.recv (host.RX_BUF_SIZE - pd.rx_buf_len)]) := by
  unfold pd_receve_packet
  simp only []
  rw [if_pos h]

theorem receve_bytes (phy : PhyOps) (host : Host) (pd : osdp_pd)
    (h : 0 < (host.recv pd.channel.data (host.RX_BUF_SIZE - pd.rx_buf_len)).1) :
    pd_receve_packet phy host pd =
      if (phy.phy_decode_packet (received host pd) (received host pd).rx_buf_len).1 < 0 then
        if (phy.phy_decode_packet (received host pd) (received host pd).rx_buf_len).1 = -1 then
          (-1, { (phy.phy_decode_packet (received host pd) (received host pd).rx_buf_len).2 with
                 rx_buf_len := 0 },
           chan_event.recv (host.RX_BUF_SIZE - pd.rx_buf_len) ::
             flush_events (phy.phy_decode_packet (received host pd)
               (received host pd).rx_buf_len).2)
        else if (phy.phy_decode_packet (received host pd) (received host pd).rx_buf_len).1 = -2
        then
          (1, (phy.phy_decode_packet (received host pd) (received host pd).rx_buf_len).2,
           [chan_event.recv (host.RX_BUF_SIZE - pd.rx_buf_len)])
        else if (phy.phy_decode_packet (received host pd) (received host pd).rx_buf_len).1 = -3 ∨
            (phy.phy_decode_packet (received host pd) (received host pd).rx_buf_len).1 = -4 then
          (1, { (phy.phy_decode_packet (received host pd) (received host pd).rx_buf_len).2 with
                rx_buf_len := 0 },
           chan_event.recv (host.RX_BUF_SIZE - pd.rx_buf_len) ::
             flush_events (phy.phy_decode_packet (received host pd)
               (received host pd).rx_buf_len).2)
        else
          (-1, (phy.phy_decode_packet (received host pd) (received host pd).rx_buf_len).2,
           [chan_event.recv (host.RX_BUF_SIZE - pd.rx_buf_len)])
      else
        (0, { (phy.phy_decode_packet (received host pd) (received host pd).rx_buf_len).2 with
              rx_buf_len :=
                (phy.phy_decode_packet (received host pd) (received host pd).rx_buf_len).1 },
         [chan_event.recv (host.RX_BUF_SIZE - pd.rx_buf_len)]) := by
  have hn : ¬ (host.recv pd.channel.data (host.RX_BUF_SIZE - pd.rx_buf_len)).1 ≤ 0 :=
    not_le.mpr h
  by_cases h0 : pd.rx_buf_len = 0
  · simp only [pd_receve_packet, received, if_neg hn, if_pos h0]
  · simp only [pd_receve_packet, received, if_neg hn, if_neg h0]

theorem pd_send_reply_eq (K : Consts) (ops : ScOps) (phy : PhyOps) (host : Host) (pd : osdp_pd)
    (reply : osdp_cmd) :
    pd_send_reply K ops phy host pd reply =
      if (send_head phy host pd reply).1 < 0 then (-1, (send_head phy host pd reply).2, [])
      else if (send_body K ops phy host pd reply).ret ≤ 0 then
        (-1, { (send_body K ops phy host pd reply).pd with
               rx_buf := (send_body K ops phy host pd reply).buf }, [])
      else if (send_tail K ops phy host pd reply).1 < 0 then
        (-1, (send_tail K ops phy host pd reply).2, [])
      else
        (if send_result K ops phy host pd reply = (send_tail K ops phy host pd reply).1 then 0
          else -1,
         (send_tail K ops phy host pd reply).2,
         [chan_event.send (send_tail K ops phy host pd reply).2.rx_buf
           (send_tail K ops phy host pd reply).1]) := rfl

theorem state_update_err (K : Consts) (ops : ScOps) (phy : PhyOps) (host : Host) (pd : osdp_pd)
    (slab : osdp_slab) (reply0 : osdp_cmd) (hst : pd.state = pd_state.PD_STATE_ERR) :
    pd_state_update K ops phy host pd slab reply0
      = some ({ pd with flags := CLEAR_FLAG pd.flags K.PD_FLAG_SC_ACTIVE, rx_buf_len := 0,
                        state := pd_state.PD_STATE_IDLE }, slab, []) := by
  unfold pd_state_update
  rw [hst]

theorem state_update_send (K : Consts) (ops : ScOps) (phy : PhyOps) (host : Host)
    (pd : osdp_pd) (slab : osdp_slab) (reply0 : osdp_cmd)
    (hst : pd.state = pd_state.PD_STATE_SEND_REPLY) :
    pd_state_update K ops phy host pd slab reply0
      = some (send_reply_case K ops phy host pd slab reply0 []) := by
  unfold pd_state_update
  rw [hst]

theorem state_update_idle (K : Consts) (ops : ScOps) (phy : PhyOps) (host : Host)
    (pd : osdp_pd) (slab : osdp_slab) (reply0 : osdp_cmd)
    (hst : pd.state = pd_state.PD_STATE_IDLE) :
    pd_state_update K ops phy host pd slab reply0 =
      if (pd_receve_packet phy host pd).1 < 0 ∨
          ((pd_receve_packet phy host pd).2.1.rx_buf_len > 0 ∧
            host.millis_since (pd_receve_packet phy host pd).2.1.tstamp
              > host.OSDP_RESP_TOUT_MS) then
        some ({ (pd_receve_packet phy host pd).2.1 with state := pd_state.PD_STATE_ERR }, slab,
          (pd_receve_packet phy host pd).2.2)
      else if (pd_receve_packet phy host pd).1 = 1 then
        some ((pd_receve_packet phy host pd).2.1, slab, (pd_receve_packet phy host pd).2.2)
      else
        (pd_decode_command K ops (pd_receve_packet phy host pd).2.1 slab reply0
            (pd_receve_packet phy host pd).2.1.rx_buf
            (pd_receve_packet phy host pd).2.1.rx_buf_len).map
          (fun st => send_reply_case K ops phy host
            { st.pd with state := pd_state.PD_STATE_SEND_REPLY } st.slab st.reply
            (pd_receve_packet phy host pd).2.2) := by
  unfold pd_state_update
  rw [hst]
  simp only []
  split_ifs
  · rfl
  · rfl
  · cases pd_decode_command K ops (pd_receve_packet phy host pd).2.1 slab reply0
      (pd_receve_packet phy host pd).2.1.rx_buf (pd_receve_packet phy host pd).2.1.rx_buf_len
    · rfl
    · rfl

theorem count_recv_append (a b : List chan_event) :
    count_recv (a ++ b) = count_recv a + count_recv b := by
  induction a with
  | nil => simp [count_recv]
  | cons e t ih =>
    cases e with
    | recv m =>
      show count_recv (t ++ b) + 1 = count_recv t + 1 + count_recv b
      rw [ih]
      omega
    | send bf n => exact ih
    | flush => exact ih

theorem count_send_append (a b : List chan_event) :
    count_send (a ++ b) = count_send a + count_send b := by
  induction a with
  | nil => simp [count_send]
  | cons e t ih =>
    cases e with
    | recv m => exact ih
    | send bf n =>
      show count_send (t ++ b) + 1 = count_send t + 1 + count_send b
      rw [ih]
      omega
    | flush => exact ih

theorem flush_events_counts (pd : osdp_pd) :
    count_recv (flush_events pd) = 0 ∧ count_send (flush_events pd) = 0 ∧
    count_flush (flush_events pd) = if pd.channel.flush.isSome then 1 else 0 := by
  unfold flush_events
  by_cases h : pd.channel.flush.isSome = true
  · rw [if_pos h, if_pos h]
    exact ⟨rfl, rfl, rfl⟩
  · rw [if_neg h, if_neg h]
    exact ⟨rfl, rfl, rfl⟩

/-- Every call of `pd_receve_packet` calls `recv` once and `send` never, and
returns 0, 1 or -1; it returns 0 exactly when `recv` delivered bytes and
`phy_decode_packet` accepted the buffer. -/
theorem receve_summary (phy : PhyOps) (host : Host) (pd : osdp_pd) :
    count_recv (pd_receve_packet phy host pd).2.2 = 1 ∧
    count_send (pd_receve_packet phy host pd).2.2 = 0 ∧
    ((pd_receve_packet phy host pd).1 = 0 ∨ (pd_receve_packet phy host pd).1 = 1 ∨
      (pd_receve_packet phy host pd).1 = -1) ∧
    ((pd_receve_packet phy host pd).1 = 0 ↔
      0 < (host.recv pd.channel.data (host.RX_BUF_SIZE - pd.rx_buf_len)).1 ∧
      0 ≤ (phy.phy_decode_packet (received host pd) (received host pd).rx_buf_len).1) := by
  by_cases h : (host.recv pd.channel.data (host.RX_BUF_SIZE - pd.rx_buf_len)).1 ≤ 0
  · rw [receve_nothing phy host pd h]
    refine ⟨rfl, rfl, Or.inr (Or.inl rfl), ?_⟩
    constructor
    · intro e
      simp [count_send] at e
    · intro e
      omega
  · have hpos : 0 < (host.recv pd.channel.data (host.RX_BUF_SIZE - pd.rx_buf_len)).1 := by
      omega
    obtain ⟨f1, f2, _⟩ := flush_events_counts
      (phy.phy_decode_packet (received host pd) (received host pd).rx_buf_len).2
    rw [receve_bytes phy host pd hpos]
    split_ifs with h1 h2 h3 h4
    · refine ⟨?_, ?_, Or.inr (Or.inr rfl), ?_⟩
      · show count_recv (flush_events _) + 1 = 1
        rw [f1]
      · exact f2
      · constructor
        · intro e
          simp [count_send] at e
        · intro e
          omega
    · refine ⟨rfl, rfl, Or.inr (Or.inl rfl), ?_⟩
      constructor
      · intro e
        simp [count_send] at e
      · intro e
        omega
    · refine ⟨?_, ?_, Or.inr (Or.inl rfl), ?_⟩
      · show count_recv (flush_events _) + 1 = 1
        rw [f1]
      · exact f2
      · constructor
        · intro e
          simp [count_send] at e
        · intro e
          omega
    · refine ⟨rfl, rfl, Or.inr (Or.inr rfl), ?_⟩
      constructor
      · intro e
        simp [count_send] at e
      · intro e
        omega
    · refine ⟨rfl, rfl, Or.inl rfl, ?_⟩
      constructor
      · intro _
        exact ⟨hpos, by omega⟩
      · intro _
        rfl

/-- Every call of `pd_send_reply` returns 0 or -1, calls `recv` and `flush`
never and `send` at most once; it returns 0 exactly when the head, the reply
(with a positive length) and the tail were built and `send` returned the
length of the packet, and it calls `send` exactly when the three were built. -/
theorem send_summary (K : Consts) (ops : ScOps) (phy : PhyOps) (host : Host) (pd : osdp_pd)
    (reply : osdp_cmd) :
    ((pd_send_reply K ops phy host pd reply).1 = 0 ∨
      (pd_send_reply K ops phy host pd reply).1 = -1) ∧
    count_recv (pd_send_reply K ops phy host pd reply).2.2 = 0 ∧
    count_flush (pd_send_reply K ops phy host pd reply).2.2 = 0 ∧
    count_send (pd_send_reply K ops phy host pd reply).2.2 ≤ 1 ∧
    ((pd_send_reply K ops phy host pd reply).1 = 0 ↔
      0 ≤ (send_head phy host pd reply).1 ∧ 0 < (send_body K ops phy host pd reply).ret ∧
      0 ≤ (send_tail K ops phy host pd reply).1 ∧
      send_result K ops phy host pd reply = (send_tail K ops phy host pd reply).1) ∧
    (count_send (pd_send_reply K ops phy host pd reply).2.2 = 1 ↔
      0 ≤ (send_head phy host pd reply).1 ∧ 0 < (send_body K ops phy host pd reply).ret ∧
      0 ≤ (send_tail K ops phy host pd reply).1) := by
  rw [pd_send_reply_eq]
  split_ifs with h1 h2 h3 h4
  · refine ⟨Or.inr rfl, rfl, rfl, Nat.zero_le 1, ?_, ?_⟩
    · constructor
      · intro e
        simp [count_send] at e
      · intro e
        omega
    · constructor
      · intro e
        simp [count_send] at e
      · intro e
        omega
  · refine ⟨Or.inr rfl, rfl, rfl, Nat.zero_le 1, ?_, ?_⟩
    · constructor
      · intro e
        simp [count_send] at e
      · intro e
        omega
    · constructor
      · intro e
        simp [count_send] at e
      · intro e
        omega
  · refine ⟨Or.inr rfl, rfl, rfl, Nat.zero_le 1, ?_, ?_⟩
    · constructor
      · intro e
        simp [count_send] at e
      · intro e
        omega
    · constructor
      · intro e
        simp [count_send] at e
      · intro e
        omega
  · refine ⟨Or.inl rfl, rfl, rfl, le_refl 1, ?_, ?_⟩
    · constructor
      · intro _
        exact ⟨by omega, by omega, by omega, h4⟩
      · intro _
        rfl
    · constructor
      · intro _
        exact ⟨by omega, by omega, by omega⟩
      · intro _
        rfl
  · refine ⟨Or.inr rfl, rfl, rfl, le_refl 1, ?_, ?_⟩
    · constructor
      · intro e
        simp [count_send] at e
      · intro e
        exact absurd e.2.2.2 h4
    · constructor
      · intro _
        exact ⟨by omega, by omega, by omega⟩
      · intro _
        rfl

theorem send_reply_case_spec (K : Consts) (ops : ScOps) (phy : PhyOps) (host : Host)
    (pd : osdp_pd) (slab : osdp_slab) (reply : osdp_cmd) (evs : List chan_event) :
    (send_reply_case K ops phy host pd slab reply evs).2.1 = slab ∧
    (send_reply_case K ops phy host pd slab reply evs).2.2
      = evs ++ (pd_send_reply K ops phy host pd reply).2.2 ∧
    ((pd_send_reply K ops phy host pd reply).1 = -1 →
      (send_reply_case K ops phy host pd slab reply evs).1
        = { (pd_send_reply K ops phy host pd reply).2.1 with
            state := pd_state.PD_STATE_ERR }) ∧
    ((pd_send_reply K ops phy host pd reply).1 = 0 →
      (send_reply_case K ops phy host pd slab reply evs).1
        = { (pd_send_reply K ops phy host pd reply).2.1 with
            rx_buf_len := 0, state := pd_state.PD_STATE_IDLE }) := by
  unfold send_reply_case
  simp only []
  by_cases h : (pd_send_reply K ops phy host pd reply).1 = -1
  · rw [if_pos h]
    refine ⟨rfl, rfl, fun _ => rfl, fun e => ?_⟩
    rw [h] at e
    simp at e
  · rw [if_neg h]
    exact ⟨rfl, rfl, fun e => absurd e h, fun _ => rfl⟩

/-! ## The error path and the session keys -/

/-- C21 fails on the code: the secure sample PD in the error state holds the
session keys A1.., B2.., C3..; one call of `pd_state_update` returns it to the
idle state with secure-active clear, and the three keys are as before, not
zero. -/
theorem err_keeps_keys_counterexample :
    (pd_state_update std ops_accept phy_sample host_sample pd_keyed slab_sample cmd_zero).map
        (fun r => (r.1.state, ISSET_FLAG r.1.flags std.PD_FLAG_SC_ACTIVE, r.1.sc.s_enc,
          r.1.sc.s_mac1, r.1.sc.s_mac2))
      = some (pd_state.PD_STATE_IDLE, false, List.replicate 16 0xA1, List.replicate 16 0xB2,
          List.replicate 16 0xC3) := by
  decide

/-- C21, as the code has it: after `pd_state_update` has processed the error
path (state PD_STATE_ERR back to idle) secure-active is clear, and the whole
secure-channel block is as it was: the session keys S-ENC, S-MAC1 and S-MAC2
are left in place, so they are zero afterwards exactly if they were zero
before. -/
theorem err_keeps_keys (K : Consts) (hK : K.WF) (ops : ScOps) (phy : PhyOps) (host : Host)
    (pd : osdp_pd) (slab : osdp_slab) (reply0 : osdp_cmd)
    (hst : pd.state = pd_state.PD_STATE_ERR) :
    ∃ pd1, pd_state_update K ops phy host pd slab reply0 = some (pd1, slab, []) ∧
      pd1.state = pd_state.PD_STATE_IDLE ∧
      ISSET_FLAG pd1.flags K.PD_FLAG_SC_ACTIVE = false ∧
      pd1.sc = pd.sc ∧
      pd1.sc.s_enc = pd.sc.s_enc ∧ pd1.sc.s_mac1 = pd.sc.s_mac1 ∧
      pd1.sc.s_mac2 = pd.sc.s_mac2 ∧
      ((∀ i, i < 16 → rd pd1.sc.s_enc i = 0 ∧ rd pd1.sc.s_mac1 i = 0 ∧ rd pd1.sc.s_mac2 i = 0) ↔
        (∀ i, i < 16 → rd pd.sc.s_enc i = 0 ∧ rd pd.sc.s_mac1 i = 0 ∧ rd pd.sc.s_mac2 i = 0)) := by
  have hact : K.PD_FLAG_SC_ACTIVE ∈ K.flag_masks := by
    simp [Consts.flag_masks]
  refine ⟨_, state_update_err K ops phy host pd slab reply0 hst, rfl, ?_, rfl, rfl, rfl, rfl,
    Iff.rfl⟩
  exact isset_clear_same pd.flags _ (hK.flags_pos _ hact).1 (hK.flags_pos _ hact).2

/-- The keyed sample PD: the error path clears secure-active and leaves the
secure-channel block, whose S-ENC is not zero. -/
theorem err_keeps_keys_witness :
    rd pd_keyed.sc.s_enc 0 = 0xA1 ∧
    ∃ pd1, pd_state_update std ops_accept phy_sample host_sample pd_keyed slab_sample cmd_zero
        = some (pd1, slab_sample, []) ∧
      ISSET_FLAG pd1.flags std.PD_FLAG_SC_ACTIVE = false ∧ pd1.sc = pd_keyed.sc :=
  ⟨by decide,
   match err_keeps_keys std std_wf ops_accept phy_sample host_sample pd_keyed slab_sample
     cmd_zero rfl with
   | ⟨pd1, h1, _, h3, h4, _⟩ => ⟨pd1, h1, h3, h4⟩⟩

/-! ## The channel calls of one call of pd_state_update -/

/-- From the idle state `pd_state_update` returns if the queue record left by
`pd_receve_packet` is well formed; from the other two states it always
returns. -/
theorem state_update_returns (K : Consts) (hK : K.WF) (ops : ScOps) (phy : PhyOps)
    (host : Host) (pd : osdp_pd) (slab : osdp_slab) (reply0 : osdp_cmd)
    (h : pd.state ≠ pd_state.PD_STATE_IDLE ∨
      ∃ l, is_queue slab (pd_receve_packet phy host pd).2.1.queue l) :
    ∃ r, pd_state_update K ops phy host pd slab reply0 = some r := by
  cases hs : pd.state with
  | PD_STATE_ERR => exact ⟨_, state_update_err K ops phy host pd slab reply0 hs⟩
  | PD_STATE_SEND_REPLY => exact ⟨_, state_update_send K ops phy host pd slab reply0 hs⟩
  | PD_STATE_IDLE =>
    rcases h with h | ⟨l, hq⟩
    · exact absurd hs h
    · rw [state_update_idle K ops phy host pd slab reply0 hs]
      split_ifs
      · exact ⟨_, rfl⟩
      · exact ⟨_, rfl⟩
      · obtain ⟨st, hd, _⟩ := decode_outcome K hK ops (pd_receve_packet phy host pd).2.1 slab
          reply0 (pd_receve_packet phy host pd).2.1.rx_buf
          (pd_receve_packet phy host pd).2.1.rx_buf_len l hq
        rw [hd]
        exact ⟨_, rfl⟩

/-- The channel calls of one call of `pd_state_update`, state by state. The
call returns (from the idle state: given a well-formed queue) and calls `recv`
at most once and `send` at most once. In state PD_STATE_ERR it calls nothing.
In state PD_STATE_IDLE it calls `recv` once, and `send` only if in that call
`recv` delivered bytes and `phy_decode_packet` accepted the buffer. Entered in
state PD_STATE_SEND_REPLY it calls no `recv`, and `send` exactly when head,
reply and tail are built. -/
theorem calls_by_state (K : Consts) (hK : K.WF) (ops : ScOps) (phy : PhyOps) (host : Host)
    (pd : osdp_pd) (slab : osdp_slab) (reply0 : osdp_cmd) :
    ((pd.state ≠ pd_state.PD_STATE_IDLE ∨
        ∃ l, is_queue slab (pd_receve_packet phy host pd).2.1.queue l) →
      ∃ r, pd_state_update K ops phy host pd slab reply0 = some r) ∧
    ∀ r, pd_state_update K ops phy host pd slab reply0 = some r →
      count_recv r.2.2 ≤ 1 ∧ count_send r.2.2 ≤ 1 ∧
      (pd.state = pd_state.PD_STATE_ERR → r.2.2 = []) ∧
      (pd.state = pd_state.PD_STATE_IDLE →
        count_recv r.2.2 = 1 ∧
        (count_send r.2.2 = 1 →
          0 < (host.recv pd.channel.data (host.RX_BUF_SIZE - pd.rx_buf_len)).1 ∧
          0 ≤ (phy.phy_decode_packet (received host pd) (received host pd).rx_buf_len).1)) ∧
      (pd.state = pd_state.PD_STATE_SEND_REPLY →
        count_recv r.2.2 = 0 ∧
        (count_send r.2.2 = 1 ↔
          0 ≤ (send_head phy host pd reply0).1 ∧
          0 < (send_body K ops phy host pd reply0).ret ∧
          0 ≤ (send_tail K ops phy host pd reply0).1)) := by
  refine ⟨state_update_returns K hK ops phy host pd slab reply0, fun r hr => ?_⟩
  obtain ⟨v1, v2, v3, v4⟩ := receve_summary phy host pd
  cases hs : pd.state with
  | PD_STATE_ERR =>
    rw [state_update_err K ops phy host pd slab reply0 hs] at hr
    cases hr
    exact ⟨Nat.zero_le 1, Nat.zero_le 1, fun _ => rfl, fun e => pd_state.noConfusion e,
      fun e => pd_state.noConfusion e⟩
  | PD_STATE_SEND_REPLY =>
    rw [state_update_send K ops phy host pd slab reply0 hs] at hr
    cases hr
    obtain ⟨_, c2, _, _⟩ := send_reply_case_spec K ops phy host pd slab reply0 []
    obtain ⟨_, w2, _, w4, _, w6⟩ := send_summary K ops phy host pd reply0
    simp only [c2, List.nil_append]
    exact ⟨by omega, w4, fun e => pd_state.noConfusion e, fun e => pd_state.noConfusion e,
      fun _ => ⟨w2, w6⟩⟩
  | PD_STATE_IDLE =>
    rw [state_update_idle K ops phy host pd slab reply0 hs] at hr
    split_ifs at hr with h1 h2
    · cases hr
      refine ⟨by simp only []; omega, by simp only []; omega, fun e => pd_state.noConfusion e,
        fun _ => ⟨v1, fun e => ?_⟩, fun e => pd_state.noConfusion e⟩
      simp only [] at e
      omega
    · cases hr
      refine ⟨by simp only []; omega, by simp only []; omega, fun e => pd_state.noConfusion e,
        fun _ => ⟨v1, fun e => ?_⟩, fun e => pd_state.noConfusion e⟩
      simp only [] at e
      omega
    · obtain ⟨st, _, rfl⟩ := Option.map_eq_some'.mp hr
      obtain ⟨_, c2, _, _⟩ := send_reply_case_spec K ops phy host
        { st.pd with state := pd_state.PD_STATE_SEND_REPLY } st.slab st.reply
        (pd_receve_packet phy host pd).2.2
      obtain ⟨_, w2, _, w4, _, _⟩ := send_summary K ops phy host
        { st.pd with state := pd_state.PD_STATE_SEND_REPLY } st.reply
      have hzero : (pd_receve_packet phy host pd).1 = 0 := by
        rcases v3 with e | e | e
        · exact e
        · exact absurd e h2
        · exact absurd (Or.inl (by omega)) h1
      rw [c2, count_recv_append, count_send_append, v1, v2, w2]
      exact ⟨le_refl 1, by omega, fun e => pd_state.noConfusion e,
        fun _ => ⟨rfl, fun _ => v4.mp hzero⟩, fun e => pd_state.noConfusion e⟩

/-! ## Incomplete, discarded and stale frames -/

/-- C23: when `recv` delivers n > 0 bytes behind the `rx_buf_len` bytes held
and `phy_decode_packet` reports -2 and leaves the PD record alone,
`pd_receve_packet` returns 1 after the one call of `recv`, without a flush;
`rx_buf_len` is the former value plus n, the bytes held before are in place
and the delivered ones follow them. From the idle state, unless the time
stamp is older than the timeout, `pd_state_update` then returns with the
record left by `pd_receve_packet`, in state PD_STATE_IDLE, the slab as it was
and nothing sent. -/
theorem need_more_keeps_bytes (K : Consts) (ops : ScOps) (phy : PhyOps) (host : Host)
    (pd : osdp_pd) (slab : osdp_slab) (reply0 : osdp_cmd)
    (hlen : 0 ≤ pd.rx_buf_len)
    (hn : 0 < (host.recv pd.channel.data (host.RX_BUF_SIZE - pd.rx_buf_len)).1)
    (hdec : phy.phy_decode_packet (received host pd) (received host pd).rx_buf_len
      = (-2, received host pd)) :
    pd_receve_packet phy host pd
      = (1, received host pd, [chan_event.recv (host.RX_BUF_SIZE - pd.rx_buf_len)]) ∧
    count_flush (pd_receve_packet phy host pd).2.2 = 0 ∧
    (received host pd).rx_buf_len
      = pd.rx_buf_len + (host.recv pd.channel.data (host.RX_BUF_SIZE - pd.rx_buf_len)).1 ∧
    (∀ i : Nat, (i : Int) < pd.rx_buf_len → rd (received host pd).rx_buf i = rd pd.rx_buf i) ∧
    (∀ i : Nat, (i : Int) < (host.recv pd.channel.data (host.RX_BUF_SIZE - pd.rx_buf_len)).1 →
      rd (received host pd).rx_buf (pd.rx_buf_len.toNat + i)
        = rd (host.recv pd.channel.data (host.RX_BUF_SIZE - pd.rx_buf_len)).2 i) ∧
    (pd.state = pd_state.PD_STATE_IDLE →
      ¬ (host.millis_since (received host pd).tstamp > host.OSDP_RESP_TOUT_MS) →
      pd_state_update K ops phy host pd slab reply0
        = some (received host pd, slab,
            [chan_event.recv (host.RX_BUF_SIZE - pd.rx_buf_len)]) ∧
      (received host pd).state = pd_state.PD_STATE_IDLE ∧
      count_send [chan_event.recv (host.RX_BUF_SIZE - pd.rx_buf_len)] = 0) := by
  have hr : pd_receve_packet phy host pd
      = (1, received host pd, [chan_event.recv (host.RX_BUF_SIZE - pd.rx_buf_len)]) := by
    rw [receve_bytes phy host pd hn, hdec]
    simp
  refine ⟨hr, by rw [hr]; rfl, rfl, ?_, ?_, ?_⟩
  · intro i hi
    show rd (copy_bytes _ _ _ _ _) i = _
    rw [rd_copy_bytes, if_neg (by omega)]
  · intro i hi
    show rd (copy_bytes _ _ _ _ _) _ = _
    rw [rd_copy_bytes, if_pos (by omega)]
    exact congrArg (rd _) (by omega)
  · intro hst hto
    rw [state_update_idle K ops phy host pd slab reply0 hst, hr]
    simp only []
    rw [if_neg (fun h => h.elim (fun e => absurd e (by decide)) (fun e => hto e.2)),
      if_pos trivial]
    exact ⟨rfl, hst, rfl⟩

/-- The sample PD holding two bytes receives three more, which the packet
layer finds incomplete: five bytes are held, the first two as before. -/
theorem need_more_keeps_bytes_witness :
    (received host_part pd_part).rx_buf = [0x53, 0x00, 0x08, 0x00, 0x04] ∧
    pd_receve_packet phy_more host_part pd_part
      = (1, received host_part pd_part, [chan_event.recv 254]) ∧
    (received host_part pd_part).rx_buf_len = 2 + 3 :=
  ⟨by decide,
   (need_more_keeps_bytes std ops_accept phy_more host_part pd_part slab_sample cmd_zero
      (by decide) (by decide) rfl).1,
   (need_more_keeps_bytes std ops_accept phy_more host_part pd_part slab_sample cmd_zero
      (by decide) (by decide) rfl).2.2.1⟩

/-- C24: when `recv` has delivered bytes and `phy_decode_packet` reports -3 or
-4, leaving the flags, the state and the channel record alone,
`pd_receve_packet` returns 1 with `rx_buf_len` 0, having called `flush` once
if it is configured and not at all otherwise. From the idle state
`pd_state_update` then returns in state PD_STATE_IDLE with that record, the
slab as it was, nothing sent, and the flag word, secure-active included, as
before. -/
theorem discard_stays_idle (K : Consts) (ops : ScOps) (phy : PhyOps) (host : Host)
    (pd : osdp_pd) (slab : osdp_slab) (reply0 : osdp_cmd)
    (hn : 0 < (host.recv pd.channel.data (host.RX_BUF_SIZE - pd.rx_buf_len)).1)
    (hcode : (phy.phy_decode_packet (received host pd) (received host pd).rx_buf_len).1 = -3 ∨
      (phy.phy_decode_packet (received host pd) (received host pd).rx_buf_len).1 = -4)
    (hflags : (phy.phy_decode_packet (received host pd) (received host pd).rx_buf_len).2.flags
      = pd.flags)
    (hstate : (phy.phy_decode_packet (received host pd) (received host pd).rx_buf_len).2.state
      = pd.state)
    (hchan : (phy.phy_decode_packet (received host pd) (received host pd).rx_buf_len).2.channel
      = pd.channel) :
    pd_receve_packet phy host pd
      = (1, { (phy.phy_decode_packet (received host pd) (received host pd).rx_buf_len).2 with
              rx_buf_len := 0 },
         chan_event.recv (host.RX_BUF_SIZE - pd.rx_buf_len) :: flush_events pd) ∧
    (pd_receve_packet phy host pd).2.1.rx_buf_len = 0 ∧
    count_flush (pd_receve_packet phy host pd).2.2
      = (if pd.channel.flush.isSome then 1 else 0) ∧
    (pd.state = pd_state.PD_STATE_IDLE →
      ∃ pd1, pd_state_update K ops phy host pd slab reply0
          = some (pd1, slab,
              chan_event.recv (host.RX_BUF_SIZE - pd.rx_buf_len) :: flush_events pd) ∧
        pd1 = (pd_receve_packet phy host pd).2.1 ∧
        pd1.state = pd_state.PD_STATE_IDLE ∧ pd1.rx_buf_len = 0 ∧
        count_send (chan_event.recv (host.RX_BUF_SIZE - pd.rx_buf_len) :: flush_events pd) = 0 ∧
        pd1.flags = pd.flags ∧
        ISSET_FLAG pd1.flags K.PD_FLAG_SC_ACTIVE = ISSET_FLAG pd.flags K.PD_FLAG_SC_ACTIVE) := by
  have hfl : flush_events
      (phy.phy_decode_packet (received host pd) (received host pd).rx_buf_len).2
      = flush_events pd := by
    unfold flush_events
    rw [hchan]
  have h1 : (phy.phy_decode_packet (received host pd) (received host pd).rx_buf_len).1 < 0 := by
    omega
  have h2 : ¬ (phy.phy_decode_packet (received host pd) (received host pd).rx_buf_len).1 = -1 := by
    omega
  have h3 : ¬ (phy.phy_decode_packet (received host pd) (received host pd).rx_buf_len).1 = -2 := by
    omega
  have hr : pd_receve_packet phy host pd
      = (1, { (phy.phy_decode_packet (received host pd) (received host pd).rx_buf_len).2 with
              rx_buf_len := 0 },
         chan_event.recv (host.RX_BUF_SIZE - pd.rx_buf_len) :: flush_events pd) := by
    rw [receve_bytes phy host pd hn, if_pos h1, if_neg h2, if_neg h3, if_pos hcode, hfl]
  obtain ⟨_, f2, f3⟩ := flush_events_counts pd
  refine ⟨hr, by rw [hr], ?_, ?_⟩
  · rw [hr]
    exact f3
  · intro hst
    refine ⟨_, ?_, rfl, ?_, ?_, f2, ?_, ?_⟩
    · rw [state_update_idle K ops phy host pd slab reply0 hst, hr]
      simp only []
      rw [if_neg (fun h => h.elim (fun e => absurd e (by decide))
          (fun e => absurd e.1 (by decide))), if_pos trivial]
    · rw [hr]
      simp only []
      rw [hstate, hst]
    · rw [hr]
    · rw [hr]
      exact hflags
    · rw [hr]
      simp only []
      rw [hflags]

/-- The sample PD with a flush callback receives three bytes that the packet
layer discards: the buffer is emptied, the channel flushed once, the PD
stays idle and its flag word is as before. -/
theorem discard_stays_idle_witness :
    (pd_state_update std ops_accept phy_soft host_part pd_part slab_sample cmd_zero).map
        (fun r => (r.1.state, r.1.rx_buf_len, r.1.flags, r.2.2))
      = some (pd_state.PD_STATE_IDLE, 0, 0xC0000180,
          [chan_event.recv 254, chan_event.flush]) ∧
    count_flush (pd_receve_packet phy_soft host_part pd_part).2.2 = 1 :=
  ⟨by decide,
   (discard_stays_idle std ops_accept phy_soft host_part pd_part slab_sample cmd_zero
      (by decide) (Or.inl rfl) rfl rfl rfl).2.2.1⟩

/-- C25: stale partial frames are discarded. In state PD_STATE_IDLE, if after
`pd_receve_packet` the receive buffer is not empty and `pd->tstamp` is older
than OSDP_RESP_TOUT_MS, `pd_state_update` returns in state PD_STATE_ERR with
the record `pd_receve_packet` left, the slab as it was and nothing sent (no
command is decoded). The next call, whatever the channel does, leads to state
PD_STATE_IDLE with `rx_buf_len` 0 and secure-active clear, and calls nothing.
`pd_receve_packet` itself sets `tstamp` only when bytes arrive into an empty
buffer: the record it passes on has the former `tstamp` unless `rx_buf_len`
was 0, and is the former record when `recv` delivers nothing. -/
theorem stale_frame_discarded (K : Consts) (hK : K.WF) (ops : ScOps) (phy : PhyOps)
    (host : Host) (pd : osdp_pd) (slab : osdp_slab) (reply0 : osdp_cmd)
    (hst : pd.state = pd_state.PD_STATE_IDLE)
    (hlen : 0 < (pd_receve_packet phy host pd).2.1.rx_buf_len)
    (hold : host.millis_since (pd_receve_packet phy host pd).2.1.tstamp
      > host.OSDP_RESP_TOUT_MS) :
    pd_state_update K ops phy host pd slab reply0
      = some ({ (pd_receve_packet phy host pd).2.1 with state := pd_state.PD_STATE_ERR }, slab,
          (pd_receve_packet phy host pd).2.2) ∧
    count_send (pd_receve_packet phy host pd).2.2 = 0 ∧
    (∀ (host2 : Host) (reply1 : osdp_cmd),
      ∃ pd2, pd_state_update K ops phy host2
          { (pd_receve_packet phy host pd).2.1 with state := pd_state.PD_STATE_ERR } slab reply1
          = some (pd2, slab, []) ∧
        pd2.state = pd_state.PD_STATE_IDLE ∧ pd2.rx_buf_len = 0 ∧
        ISSET_FLAG pd2.flags K.PD_FLAG_SC_ACTIVE = false) ∧
    (received host pd).tstamp = (if pd.rx_buf_len = 0 then host.millis_now else pd.tstamp) ∧
    ((host.recv pd.channel.data (host.RX_BUF_SIZE - pd.rx_buf_len)).1 ≤ 0 →
      (pd_receve_packet phy host pd).2.1 = pd) := by
  have hact : K.PD_FLAG_SC_ACTIVE ∈ K.flag_masks := by
    simp [Consts.flag_masks]
  refine ⟨?_, (receve_summary phy host pd).2.1, fun host2 reply1 => ?_, rfl, fun h => ?_⟩
  · rw [state_update_idle K ops phy host pd slab reply0 hst, if_pos (Or.inr ⟨hlen, hold⟩)]
  · refine ⟨_, state_update_err K ops phy host2 _ slab reply1 rfl, rfl, rfl, ?_⟩
    exact isset_clear_same _ _ (hK.flags_pos _ hact).1 (hK.flags_pos _ hact).2
  · rw [receve_nothing phy host pd h]

/-- The sample PD holds two bytes stamped a second ago and nothing arrives:
the call ends in the error state without sending, and the next call empties
the buffer and clears secure-active. -/
theorem stale_frame_discarded_witness :
    (pd_state_update std ops_accept phy_sample host_late pd_part slab_sample cmd_zero).map
        (fun r => (r.1.state, r.1.rx_buf_len, r.2.2))
      = some (pd_state.PD_STATE_ERR, 2, [chan_event.recv 254]) ∧
    ∃ pd2, pd_state_update std ops_accept phy_sample host_sample
        { (pd_receve_packet phy_sample host_late pd_part).2.1 with
          state := pd_state.PD_STATE_ERR } slab_sample cmd_zero
        = some (pd2, slab_sample, []) ∧
      pd2.state = pd_state.PD_STATE_IDLE ∧ pd2.rx_buf_len = 0 ∧
      ISSET_FLAG pd2.flags std.PD_FLAG_SC_ACTIVE = false :=
  ⟨by decide,
   (stale_frame_discarded std std_wf ops_accept phy_sample host_late pd_part slab_sample
      cmd_zero rfl (by decide) (by decide)).2.2.1 host_sample cmd_zero⟩

/-! ## pd_send_reply is all or nothing -/

/-- C28: `pd_send_reply` returns 0 or -1; it returns 0 exactly when
`phy_build_packet_head` succeeds, `pd_build_reply` returns a positive length,
`phy_build_packet_tail` succeeds and `send` returns the length of the packet;
a send of any other length gives -1. `pd_state_update`, in the case
PD_STATE_SEND_REPLY (entered directly or from the idle case after a packet was
decoded), then ends in PD_STATE_ERR if `pd_send_reply` returned -1, and
otherwise in PD_STATE_IDLE with `rx_buf_len` 0. -/
theorem send_reply_all_or_nothing (K : Consts) (ops : ScOps) (phy : PhyOps) (host : Host)
    (pd : osdp_pd) (slab : osdp_slab) (reply : osdp_cmd) (evs : List chan_event) :
    ((pd_send_reply K ops phy host pd reply).1 = 0 ∨
      (pd_send_reply K ops phy host pd reply).1 = -1) ∧
    ((pd_send_reply K ops phy host pd reply).1 = 0 ↔
      0 ≤ (send_head phy host pd reply).1 ∧ 0 < (send_body K ops phy host pd reply).ret ∧
      0 ≤ (send_tail K ops phy host pd reply).1 ∧
      send_result K ops phy host pd reply = (send_tail K ops phy host pd reply).1) ∧
    (send_result K ops phy host pd reply ≠ (send_tail K ops phy host pd reply).1 →
      (pd_send_reply K ops phy host pd reply).1 = -1) ∧
    ((pd_send_reply K ops phy host pd reply).1 = -1 →
      (send_reply_case K ops phy host pd slab reply evs).1.state = pd_state.PD_STATE_ERR) ∧
    ((pd_send_reply K ops phy host pd reply).1 = 0 →
      (send_reply_case K ops phy host pd slab reply evs).1.state = pd_state.PD_STATE_IDLE ∧
      (send_reply_case K ops phy host pd slab reply evs).1.rx_buf_len = 0) ∧
    (pd.state = pd_state.PD_STATE_SEND_REPLY →
      pd_state_update K ops phy host pd slab reply
        = some (send_reply_case K ops phy host pd slab reply [])) ∧
    (∀ (pd0 : osdp_pd) (slab0 : osdp_slab) (reply0 : osdp_cmd) (st : decode_state),
      pd0.state = pd_state.PD_STATE_IDLE →
      (pd_receve_packet phy host pd0).1 = 0 →
      ¬ ((pd_receve_packet phy host pd0).2.1.rx_buf_len > 0 ∧
        host.millis_since (pd_receve_packet phy host pd0).2.1.tstamp
          > host.OSDP_RESP_TOUT_MS) →
      pd_decode_command K ops (pd_receve_packet phy host pd0).2.1 slab0 reply0
        (pd_receve_packet phy host pd0).2.1.rx_buf
        (pd_receve_packet phy host pd0).2.1.rx_buf_len = some st →
      pd_state_update K ops phy host pd0 slab0 reply0
        = some (send_reply_case K ops phy host
            { st.pd with state := pd_state.PD_STATE_SEND_REPLY } st.slab st.reply
            (pd_receve_packet phy host pd0).2.2)) := by
  obtain ⟨w1, _, _, _, w5, _⟩ := send_summary K ops phy host pd reply
  obtain ⟨_, _, c3, c4⟩ := send_reply_case_spec K ops phy host pd slab reply evs
  refine ⟨w1, w5, fun hne => ?_, fun h => ?_, fun h => ?_,
    fun h => state_update_send K ops phy host pd slab reply h, ?_⟩
  · rcases w1 with e | e
    · exact absurd (w5.mp e).2.2.2 hne
    · exact e
  · rw [c3 h]
  · rw [c4 h]
    exact ⟨rfl, rfl⟩
  · intro pd0 slab0 reply0 st hst hz hto hd
    rw [state_update_idle K ops phy host pd0 slab0 reply0 hst, hz, hd]
    rw [if_neg (fun h => h.elim (fun e => absurd e (by decide)) (fun e => hto e)),
      if_neg (by decide)]
    rfl

/-- On a channel that sends one byte less than it is given, `pd_send_reply`
returns -1 and the call of `pd_state_update` ends in the error state. -/
theorem send_reply_all_or_nothing_witness :
    (pd_state_update std ops_accept phy_sample host_short pd_send slab_sample
        (reply_with 0x40)).map (fun r => (r.1.state, r.2.2))
      = some (pd_state.PD_STATE_ERR, [chan_event.send [0, 0, 0, 0, 0, 0x40] 8]) ∧
    (pd_send_reply std ops_accept phy_sample host_short pd_send (reply_with 0x40)).1 = -1 :=
  ⟨by decide,
   (send_reply_all_or_nothing std ops_accept phy_sample host_short pd_send slab_sample
      (reply_with 0x40) []).2.2.1 (by decide)⟩

/-! ## osdp_pd_set_attributes -/

theorem install_caps_length (pre table : List pd_cap) :
    (install_caps table pre).length = table.length := by
  unfold install_caps
  induction pre generalizing table with
  | nil => rfl
  | cons e t ih =>
    rw [List.foldl_cons, ih, List.length_set]

theorem install_caps_other (pre table : List pd_cap) (slot : Nat)
    (h : ∀ e ∈ pre, e.function_code ≠ slot) :
    cap_at (install_caps table pre) slot = cap_at table slot := by
  unfold install_caps
  induction pre generalizing table with
  | nil => rfl
  | cons e t ih =>
    rw [List.foldl_cons, ih _ (fun x hx => h x (List.mem_cons_of_mem e hx))]
    unfold cap_at
    rw [List.getD_eq_getElem?_getD, List.getD_eq_getElem?_getD,
      List.getElem?_set_ne (h e (List.mem_cons_self e t))]

theorem install_caps_append (a b table : List pd_cap) :
    install_caps table (a ++ b) = install_caps (install_caps table a) b := by
  unfold install_caps
  rw [List.foldl_append]

theorem install_caps_last (a b table : List pd_cap) (e : pd_cap)
    (hlt : e.function_code < table.length)
    (hb : ∀ x ∈ b, x.function_code ≠ e.function_code) :
    cap_at (install_caps table (a ++ e :: b)) e.function_code = e := by
  rw [install_caps_append]
  have h1 : install_caps (install_caps table a) (e :: b)
      = install_caps ((install_caps table a).set e.function_code e) b := rfl
  rw [h1, install_caps_other b _ _ hb]
  unfold cap_at
  rw [List.getD_eq_getElem?_getD,
    List.getElem?_set_self (by rw [install_caps_length]; exact hlt)]
  rfl

theorem set_caps_stops (pre post table : List pd_cap) (t : pd_cap)
    (hpre : ∀ e ∈ pre, 0 < e.function_code ∧ e.function_code < CAP_SENTINEL)
    (ht : t.function_code = 0 ∨ CAP_SENTINEL ≤ t.function_code) :
    set_caps table (pre ++ t :: post) = some (install_caps table pre) := by
  induction pre generalizing table with
  | nil =>
    show set_caps table (t :: post) = some table
    rw [set_caps]
    rcases ht with h | h
    · rw [if_neg (by omega)]
    · by_cases h0 : t.function_code > 0
      · rw [if_pos h0, if_pos h]
      · rw [if_neg h0]
  | cons e rest ih =>
    obtain ⟨h1, h2⟩ := hpre e (List.mem_cons_self e rest)
    show set_caps table (e :: (rest ++ t :: post)) = _
    rw [set_caps, if_pos h1, if_neg (by omega),
      ih _ (fun x hx => hpre x (List.mem_cons_of_mem e hx))]
    rfl

/-- C29: given a capability array whose entries `pre` have function codes
from 1 to CAP_SENTINEL - 1 and are followed by an entry `t` with function
code 0 or at least CAP_SENTINEL, `osdp_pd_set_attributes` returns, whatever
follows `t`, and changes only `pd->cap` and `pd->id`: the id is the supplied
one, the table has the entries of `pre` installed in order, so that the slot
of a function code holds the last entry of `pre` with that code, and a slot
whose code no entry of `pre` has is unchanged. With `cap` NULL only the id is
copied. -/
theorem set_attributes_installs (pd : osdp_pd) (id : pd_id) (pre post : List pd_cap)
    (t : pd_cap)
    (hlen : pd.cap.length = CAP_SENTINEL)
    (hpre : ∀ e ∈ pre, 0 < e.function_code ∧ e.function_code < CAP_SENTINEL)
    (ht : t.function_code = 0 ∨ CAP_SENTINEL ≤ t.function_code) :
    osdp_pd_set_attributes pd (some (pre ++ t :: post)) id
      = some { pd with cap := install_caps pd.cap pre, id := id } ∧
    (install_caps pd.cap pre).length = CAP_SENTINEL ∧
    (∀ a e b, pre = a ++ e :: b → (∀ x ∈ b, x.function_code ≠ e.function_code) →
      cap_at (install_caps pd.cap pre) e.function_code = e) ∧
    (∀ slot, (∀ e ∈ pre, e.function_code ≠ slot) →
      cap_at (install_caps pd.cap pre) slot = cap_at pd.cap slot) ∧
    osdp_pd_set_attributes pd none id = some { pd with id := id } := by
  refine ⟨?_, ?_, ?_, fun slot h => install_caps_other pre pd.cap slot h, rfl⟩
  · unfold osdp_pd_set_attributes
    simp only [set_caps_stops pre post pd.cap t hpre ht, Option.map_some']
  · rw [install_caps_length, hlen]
  · intro a e b hsplit hb
    subst hsplit
    have he := hpre e (by simp)
    exact install_caps_last a b pd.cap e (by rw [hlen]; exact he.2) hb

/-- A zeroed table and the array {9,1,1}, {4,1,2}, {9,2,3}, {-1,0,0}, {5,5,5}:
slot 9 holds the later entry, slot 4 its entry, slot 5 is unchanged. -/
theorem set_attributes_installs_witness :
    (osdp_pd_set_attributes pd_zero
        (some ([⟨9, 1, 1⟩, ⟨4, 1, 2⟩, ⟨9, 2, 3⟩] ++ ⟨255, 0, 0⟩ :: [⟨5, 5, 5⟩]))
        pd_sample.id).map (fun p => (cap_at p.cap 9, cap_at p.cap 4, cap_at p.cap 5, p.id))
      = some (⟨9, 2, 3⟩, ⟨4, 1, 2⟩, ⟨0, 0, 0⟩, pd_sample.id) ∧
    osdp_pd_set_attributes pd_zero
        (some ([⟨9, 1, 1⟩, ⟨4, 1, 2⟩, ⟨9, 2, 3⟩] ++ ⟨255, 0, 0⟩ :: [⟨5, 5, 5⟩])) pd_sample.id
      = some { pd_zero with
               cap := install_caps pd_zero.cap [⟨9, 1, 1⟩, ⟨4, 1, 2⟩, ⟨9, 2, 3⟩],
               id := pd_sample.id } :=
  ⟨by decide,
   (set_attributes_installs pd_zero pd_sample.id [⟨9, 1, 1⟩, ⟨4, 1, 2⟩, ⟨9, 2, 3⟩]
      [⟨5, 5, 5⟩] ⟨255, 0, 0⟩ (by decide) (by decide) (Or.inr (by decide))).1⟩

/-! ## osdp_pd_setup -/

theorem set_attributes_frame (pd p : osdp_pd) (cap : Option (List pd_cap)) (id : pd_id)
    (h : osdp_pd_set_attributes pd cap id = some p) : p = { pd with cap := p.cap, id := id } := by
  unfold osdp_pd_set_attributes at h
  cases cap with
  | none =>
    simp only [Option.some.injEq] at h
    rw [← h]
  | some arr =>
    simp only [] at h
    obtain ⟨t, _, e⟩ := Option.map_eq_some'.mp h
    rw [← e]

theorem osdp_pd_setup_ok (K : Consts) (mem : setup_mem) (info : osdp_pd_info_t)
    (scbk : Option (List Nat)) (pd : osdp_pd) (slab : osdp_slab)
    (h : osdp_pd_setup K mem info scbk = some (some (pd, slab))) :
    mem.ctx_ok = true ∧ mem.slab = some slab ∧ mem.cp_ok = true ∧ mem.pd_ok = true ∧
    ∃ p, osdp_pd_set_attributes (setup_fields K info scbk) info.cap info.id = some p ∧
      pd = { p with flags := SET_FLAG p.flags K.PD_FLAG_PD_MODE } := by
  unfold osdp_pd_setup at h
  by_cases h1 : mem.ctx_ok = false
  · rw [if_pos h1] at h
    cases h
  · rw [if_neg h1] at h
    cases hs : mem.slab with
    | none =>
      rw [hs] at h
      cases h
    | some sl =>
      rw [hs] at h
      simp only [] at h
      by_cases h2 : mem.cp_ok = false
      · rw [if_pos h2] at h
        cases h
      · rw [if_neg h2] at h
        by_cases h3 : mem.pd_ok = false
        · rw [if_pos h3] at h
          cases h
        · rw [if_neg h3] at h
          obtain ⟨p, hp, e⟩ := Option.map_eq_some'.mp h
          simp only [Option.some.injEq, Prod.mk.injEq] at e
          obtain ⟨e1, e2⟩ := e
          subst e2
          exact ⟨by simpa using h1, rfl, by simpa using h2, by simpa using h3, p, hp, e1.symm⟩

theorem osdp_pd_setup_some (K : Consts) (info : osdp_pd_info_t) (scbk : Option (List Nat))
    (slab : osdp_slab) (p : osdp_pd)
    (h : osdp_pd_set_attributes (setup_fields K info scbk) info.cap info.id = some p) :
    osdp_pd_setup K ⟨true, some slab, true, true⟩ info scbk
      = some (some ({ p with flags := SET_FLAG p.flags K.PD_FLAG_PD_MODE }, slab)) := by
  unfold osdp_pd_setup
  simp [h]

theorem copy_bytes_congr (dst : List Nat) (d : Nat) (src src2 : List Nat) (s n : Nat)
    (h : ∀ i, i < n → rd src2 (s + i) = rd src (s + i)) :
    copy_bytes dst d src2 s n = copy_bytes dst d src s n := by
  induction n generalizing dst d s with
  | zero => rfl
  | succ n ih =>
    have h0 : rd src2 s = rd src s := h 0 (by omega)
    rw [copy_bytes, copy_bytes, h0]
    exact ih _ _ _ (fun i hi => by
      have := h (i + 1) (by omega)
      rw [show s + 1 + i = s + (i + 1) by omega]
      exact this)

theorem setup_fields_scbk (K : Consts) (info : osdp_pd_info_t) (key : List Nat) :
    (setup_fields K info (some key)).sc.scbk = copy_bytes pd_zero.sc.scbk 0 key 0 16 := rfl

theorem setup_fields_flags_key (K : Consts) (info : osdp_pd_info_t) (key : List Nat) :
    (setup_fields K info (some key)).flags = (info.flags % 2 ^ 32).toNat := rfl

theorem setup_fields_flags_null (K : Consts) (info : osdp_pd_info_t) :
    (setup_fields K info none).flags
      = SET_FLAG (info.flags % 2 ^ 32).toNat K.PD_FLAG_INSTALL_MODE := rfl

theorem setup_fields_rest (K : Consts) (info : osdp_pd_info_t) (scbk : Option (List Nat)) :
    (setup_fields K info scbk).address = info.address ∧
    (setup_fields K info scbk).baud_rate = info.baud_rate ∧
    (setup_fields K info scbk).seq_number = -1 ∧
    (setup_fields K info scbk).queue = ⟨none, none⟩ ∧
    (setup_fields K info scbk).rx_buf_len = 0 ∧
    (setup_fields K info scbk).channel = info.channel := by
  cases scbk with
  | none => exact ⟨rfl, rfl, rfl, rfl, rfl, rfl⟩
  | some key => exact ⟨rfl, rfl, rfl, rfl, rfl, rfl⟩

theorem isset_set_more (x f g : Nat) (h : ISSET_FLAG x f = true) :
    ISSET_FLAG (SET_FLAG x g) f = true := by
  rw [isset_iff] at h ⊢
  intro n hn
  unfold SET_FLAG
  rw [Nat.testBit_or, h n hn]
  rfl

/-- C26: if every allocation succeeds and the capability array is NULL or
has a terminator, `osdp_pd_setup` returns a context. In every context it
returns, the address and the baud rate are those of `info`, `seq_number` is
-1, the command queue is empty and `rx_buf_len` is 0. With a key, the stored
SCBK is its first 16 bytes, the result is the same for two buffers that agree
on these bytes, and the flag word is `info->flags` with PD-mode added; with
`scbk` NULL the install-mode flag is added as well. -/
theorem setup_result (K : Consts) (mem : setup_mem) (info : osdp_pd_info_t)
    (scbk : Option (List Nat)) :
    (∀ slab, mem = ⟨true, some slab, true, true⟩ →
      (info.cap = none ∨ ∃ pre t post, info.cap = some (pre ++ t :: post) ∧
        (∀ e ∈ pre, 0 < e.function_code ∧ e.function_code < CAP_SENTINEL) ∧
        (t.function_code = 0 ∨ CAP_SENTINEL ≤ t.function_code)) →
      ∃ pd, osdp_pd_setup K mem info scbk = some (some (pd, slab))) ∧
    (∀ pd slab, osdp_pd_setup K mem info scbk = some (some (pd, slab)) →
      pd.address = info.address ∧ pd.baud_rate = info.baud_rate ∧ pd.seq_number = -1 ∧
      pd.queue = ⟨none, none⟩ ∧ pd.rx_buf_len = 0 ∧ pd.id = info.id ∧
      pd.channel = info.channel ∧
      (∀ key, scbk = some key →
        (∀ i, i < 16 → rd pd.sc.scbk i = rd key i) ∧
        pd.flags = SET_FLAG (info.flags % 2 ^ 32).toNat K.PD_FLAG_PD_MODE ∧
        (∀ key2, (∀ i, i < 16 → rd key2 i = rd key i) →
          osdp_pd_setup K mem info (some key2) = some (some (pd, slab)))) ∧
      (scbk = none →
        pd.flags = SET_FLAG (SET_FLAG (info.flags % 2 ^ 32).toNat K.PD_FLAG_INSTALL_MODE)
          K.PD_FLAG_PD_MODE ∧
        ISSET_FLAG pd.flags K.PD_FLAG_INSTALL_MODE = true) ∧
      ISSET_FLAG pd.flags K.PD_FLAG_PD_MODE = true) := by
  constructor
  · intro slab hmem hcap
    subst hmem
    rcases hcap with hc | ⟨pre, t, post, hc, hpre, ht⟩
    · exact ⟨_, osdp_pd_setup_some K info scbk slab _ (by rw [hc]; rfl)⟩
    · have hs := set_caps_stops pre post (setup_fields K info scbk).cap t hpre ht
      refine ⟨_, osdp_pd_setup_some K info scbk slab
        { setup_fields K info scbk with
          cap := install_caps (setup_fields K info scbk).cap pre, id := info.id } ?_⟩
      rw [hc]
      unfold osdp_pd_set_attributes
      simp only [hs, Option.map_some']
  · intro pd slab h
    obtain ⟨m1, m2, m3, m4, p, hp, hpd⟩ := osdp_pd_setup_ok K mem info scbk pd slab h
    have hf := set_attributes_frame _ p info.cap info.id hp
    obtain ⟨r1, r2, r3, r4, r5, r6⟩ := setup_fields_rest K info scbk
    have haddr : pd.address = info.address := by
      rw [hpd, ← r1, hf]
    have hbaud : pd.baud_rate = info.baud_rate := by
      rw [hpd, ← r2, hf]
    have hseq : pd.seq_number = -1 := by
      rw [hpd, ← r3, hf]
    have hqueue : pd.queue = ⟨none, none⟩ := by
      rw [hpd, ← r4, hf]
    have hrx : pd.rx_buf_len = 0 := by
      rw [hpd, ← r5, hf]
    have hid : pd.id = info.id := by
      rw [hpd, hf]
    have hch : pd.channel = info.channel := by
      rw [hpd, ← r6, hf]
    have hflags : pd.flags = SET_FLAG (setup_fields K info scbk).flags K.PD_FLAG_PD_MODE := by
      rw [hpd, hf]
    have hsc : pd.sc = (setup_fields K info scbk).sc := by
      rw [hpd, hf]
    refine ⟨haddr, hbaud, hseq, hqueue, hrx, hid, hch, ?_, ?_, ?_⟩
    · intro key hk
      subst hk
      refine ⟨fun i hi => ?_, ?_, fun key2 h2 => ?_⟩
      · rw [hsc, setup_fields_scbk, rd_copy_bytes, if_pos (by omega)]
        exact congrArg (rd key) (by omega)
      · rw [hflags, setup_fields_flags_key]
      · have hk : copy_bytes pd_zero.sc.scbk 0 key2 0 16
            = copy_bytes pd_zero.sc.scbk 0 key 0 16 :=
          copy_bytes_congr _ 0 key key2 0 16 (fun i hi => by
            rw [Nat.zero_add]
            exact h2 i hi)
        have hfields : setup_fields K info (some key2) = setup_fields K info (some key) := by
          unfold setup_fields
          simp only [hk]
        rw [← h]
        unfold osdp_pd_setup
        rw [hfields]
    · intro hn
      subst hn
      constructor
      · rw [hflags, setup_fields_flags_null]
      · rw [hflags, setup_fields_flags_null]
        exact isset_set_more _ _ _ (isset_set_same _ _)
    · rw [hflags]
      exact isset_set_same _ _

/-- The sample description with a key: the context holds the first 16 bytes
of the key, the flags of the description with PD-mode, and address 0x85. -/
theorem setup_result_witness :
    (osdp_pd_setup std mem_sample info_sample (some key_sample)).map
        (Option.map (fun r => (r.1.sc.scbk, r.1.flags, r.1.seq_number, r.1.queue.front)))
      = some (some ([0x30, 0x31, 0x32, 0x33, 0x34, 0x35, 0x36, 0x37, 0x38, 0x39, 0x3A, 0x3B,
          0x3C, 0x3D, 0x3E, 0x3F], 0x80010000, -1, none)) ∧
    ∃ pd, osdp_pd_setup std mem_sample info_sample (some key_sample)
      = some (some (pd, slab_sample)) :=
  ⟨by decide,
   (setup_result std mem_sample info_sample (some key_sample)).1 slab_sample rfl
     (Or.inr ⟨[⟨9, 1, 1⟩], ⟨255, 0, 0⟩, [], rfl, by decide, Or.inr (by decide)⟩)⟩

/-- C27 fails on the code: set up from a description with address 0x85, the
PD has the address 0x85, not 0x85 & 0x7F = 5, and it reports 0x85 as its
address in the reply COM. -/
theorem setup_keeps_address_bits :
    info_sample.address = 0x85 ∧ info_sample.address % 128 = 5 ∧
    (osdp_pd_setup std mem_sample info_sample (some key_sample)).map
        (Option.map (fun r => r.1.address)) = some (some 0x85) ∧
    (osdp_pd_setup std mem_sample info_sample (some key_sample)).map
        (Option.map (fun r =>
          rd (pd_build_reply std ops_accept r.1 (reply_with std.REPLY_COM) pkt_sample 64 8
            none).buf 9)) = some (some 0x85) := by
  decide

/-! ## The COM record -/

theorem BYTE_nat (k m : Nat) : BYTE k (m : Int) = m / 2 ^ (8 * k) % 256 := by
  unfold BYTE
  have h : ((m : Int) / 2 ^ (8 * k)) % 256 = ((m / 2 ^ (8 * k) % 256 : Nat) : Int) := by
    push_cast
    rfl
  rw [h, Int.toNat_natCast]

theorem to_u8_nat (m : Nat) : to_u8 (m : Int) = m % 256 := by
  unfold to_u8
  have h : (m : Int) % 256 = ((m % 256 : Nat) : Int) := by
    push_cast
    rfl
  rw [h, Int.toNat_natCast]

theorem bytes_combine (n : Nat) (h : n < 2 ^ 32) :
    (n / 2 ^ (8 * 0) % 256 ||| ((n / 2 ^ (8 * 1) % 256) <<< 8)
      ||| ((n / 2 ^ (8 * 2) % 256) <<< 16) ||| ((n / 2 ^ (8 * 3) % 256) <<< 24)) % 2 ^ 32
      = n := by
  have e1 : n / 2 ^ (8 * 0) % 256 ||| ((n / 2 ^ (8 * 1) % 256) <<< 8)
      = 2 ^ 8 * (n / 2 ^ (8 * 1) % 256) + n / 2 ^ (8 * 0) % 256 := by
    rw [Nat.lor_comm, Nat.shiftLeft_eq, Nat.mul_comm, ← Nat.mul_add_lt_is_or (by omega)]
  have e2 : 2 ^ 8 * (n / 2 ^ (8 * 1) % 256) + n / 2 ^ (8 * 0) % 256
        ||| ((n / 2 ^ (8 * 2) % 256) <<< 16)
      = 2 ^ 16 * (n / 2 ^ (8 * 2) % 256)
        + (2 ^ 8 * (n / 2 ^ (8 * 1) % 256) + n / 2 ^ (8 * 0) % 256) := by
    rw [Nat.lor_comm, Nat.shiftLeft_eq, Nat.mul_comm, ← Nat.mul_add_lt_is_or (by omega)]
  have e3 : 2 ^ 16 * (n / 2 ^ (8 * 2) % 256)
          + (2 ^ 8 * (n / 2 ^ (8 * 1) % 256) + n / 2 ^ (8 * 0) % 256)
        ||| ((n / 2 ^ (8 * 3) % 256) <<< 24)
      = 2 ^ 24 * (n / 2 ^ (8 * 3) % 256)
        + (2 ^ 16 * (n / 2 ^ (8 * 2) % 256)
          + (2 ^ 8 * (n / 2 ^ (8 * 1) % 256) + n / 2 ^ (8 * 0) % 256)) := by
    rw [Nat.lor_comm, Nat.shiftLeft_eq, Nat.mul_comm, ← Nat.mul_add_lt_is_or (by omega)]
  rw [e1, e2, e3]
  norm_num
  omega

/-- The COM reply built into a packet with the data at `d`, a secure-channel
block (if any) in front of it, and room for five bytes behind the reply code:
the address byte and the baud rate, least significant byte first. -/
theorem build_com_spec (K : Consts) (hK : K.WF) (ops : ScOps) (pd : osdp_pd)
    (reply : osdp_cmd) (buf : List Nat) (max_len : Int) (d : Nat) (smb : Option Nat)
    (hid : reply.id = K.REPLY_COM) (hsp : (d : Int) + 6 ≤ max_len)
    (hm : ∀ m, smb = some m → m + 2 ≤ d) :
    (pd_build_reply K ops pd reply buf max_len d smb).ret = 6 ∧
    (pd_build_reply K ops pd reply buf max_len d smb).pd = pd ∧
    rd (pd_build_reply K ops pd reply buf max_len d smb).buf d = K.REPLY_COM ∧
    rd (pd_build_reply K ops pd reply buf max_len d smb).buf (d + 1) = to_u8 pd.address ∧
    (∀ k, k < 4 → rd (pd_build_reply K ops pd reply buf max_len d smb).buf (d + 2 + k)
      = BYTE k pd.baud_rate) := by
  have h1 : ¬ (max_len - ((d : Int) + 1) < 0) := by omega
  have h2 : ¬ (max_len - ((d : Int) + 1) < 5) := by omega
  have hb : pd_build_reply K ops pd reply buf max_len d smb
      = ⟨pd, build_scb_fix K pd
          (wr (wr (wr (wr (wr (wr buf d reply.id) (d + 1) (to_u8 pd.address))
            (d + 2) (BYTE 0 pd.baud_rate)) (d + 3) (BYTE 1 pd.baud_rate))
            (d + 4) (BYTE 2 pd.baud_rate)) (d + 5) (BYTE 3 pd.baud_rate)) 6 smb, 6⟩ := by
    unfold pd_build_reply
    rw [if_neg h1, build_switch_com K hK ops pd reply _ _ d smb hid]
    unfold build_com
    rw [if_neg h2]
    exact build_finish_ok K pd _ 5 d smb
  rw [hb]
  refine ⟨rfl, rfl, ?_, ?_, ?_⟩
  · simp only []
    rw [rd_build_scb_fix K pd _ 6 d smb (fun m e => by have := hm m e; omega)]
    have e5 : d ≠ d + 5 := by omega
    have e4 : d ≠ d + 4 := by omega
    have e3 : d ≠ d + 3 := by omega
    have e2 : d ≠ d + 2 := by omega
    have e1 : d ≠ d + 1 := by omega
    rw [rd_wr_other _ _ _ _ e5, rd_wr_other _ _ _ _ e4, rd_wr_other _ _ _ _ e3,
      rd_wr_other _ _ _ _ e2, rd_wr_other _ _ _ _ e1, rd_wr_same, hid]
  · simp only []
    rw [rd_build_scb_fix K pd _ 6 (d + 1) smb (fun m e => by have := hm m e; omega)]
    have e5 : d + 1 ≠ d + 5 := by omega
    have e4 : d + 1 ≠ d + 4 := by omega
    have e3 : d + 1 ≠ d + 3 := by omega
    have e2 : d + 1 ≠ d + 2 := by omega
    rw [rd_wr_other _ _ _ _ e5, rd_wr_other _ _ _ _ e4, rd_wr_other _ _ _ _ e3,
      rd_wr_other _ _ _ _ e2, rd_wr_same]
  · intro k hk
    simp only []
    rw [rd_build_scb_fix K pd _ 6 (d + 2 + k) smb (fun m e => by have := hm m e; omega)]
    have hcases : k = 0 ∨ k = 1 ∨ k = 2 ∨ k = 3 := by omega
    rcases hcases with rfl | rfl | rfl | rfl
    · have e5 : d + 2 + 0 ≠ d + 5 := by omega
      have e4 : d + 2 + 0 ≠ d + 4 := by omega
      have e3 : d + 2 + 0 ≠ d + 3 := by omega
      rw [rd_wr_other _ _ _ _ e5, rd_wr_other _ _ _ _ e4, rd_wr_other _ _ _ _ e3]
      exact rd_wr_same _ _ _
    · have e5 : d + 2 + 1 ≠ d + 5 := by omega
      have e4 : d + 2 + 1 ≠ d + 4 := by omega
      rw [rd_wr_other _ _ _ _ e5, rd_wr_other _ _ _ _ e4]
      exact rd_wr_same _ _ _
    · have e5 : d + 2 + 2 ≠ d + 5 := by omega
      rw [rd_wr_other _ _ _ _ e5]
      exact rd_wr_same _ _ _
    · exact rd_wr_same _ _ _

/-- A case that enqueues, in full: block `j`, handed out by the allocator and
filled by `f`, is appended to the queue; the reply is `r`, and of the PD
record only `cmd_id`, `reply_id` and the queue record change. -/
theorem enqueue_exact (K : Consts) (pd : osdp_pd) (slab s1 : osdp_slab)
    (reply : osdp_cmd) (buf : List Nat) (l : List Nat) (j p r : Nat)
    (f : osdp_cmd → osdp_cmd)
    (hq : is_queue slab pd.queue l) (halloc : osdp_slab_alloc slab = some (j, s1))
    (hr0 : r ≠ 0) :
    ∃ st b q, (enqueue_reply
        { decode_init pd slab reply buf with slab := slab_update s1 j f, pos := p } j r).map
        (decode_finish K) = some st ∧
      st.reply.id = r ∧
      st.pd = { pd with cmd_id := rd buf 0, reply_id := r, queue := q } ∧
      is_queue st.slab q (l ++ [j]) ∧
      queue_cmds st.slab (l ++ [j]) = queue_cmds slab l ++ [payload (f b)] ∧
      blk slab j = some ⟨false, b⟩ := by
  obtain ⟨hjl, ⟨b, hbj2, hb0⟩, hq2, hc2⟩ := alloc_fresh slab s1 j pd.queue l f halloc hq
  obtain ⟨q, s3, henq, hq3, hpay, _⟩ :=
    pd_enqueue_command_spec (decode_init pd slab reply buf).pd (slab_update s1 j f) l j _
      hq2 hjl hbj2 rfl
  have he : enqueue_reply
      { decode_init pd slab reply buf with slab := slab_update s1 j f, pos := p } j r
      = some (reply_ok
          { decode_init pd slab reply buf with
            pd := { (decode_init pd slab reply buf).pd with queue := q }
            slab := s3
            pos := p } r) := by
    unfold enqueue_reply
    simp only [henq]
  rw [he, Option.map_some', decode_finish_ok K _ r hr0]
  exact ⟨_, b, q, rfl, rfl, rfl, hq3, enqueue_cmds slab _ s3 l j _ hbj2 hc2 hpay, hb0⟩

/-- A COMSET command of five payload bytes, decoded with a free slab block
`j` on a queue holding the blocks `l`: the reply is REPLY_COM and the queue
gains one command with id OSDP_CMD_COMSET, whose address is payload byte 0
and whose baud rate is payload bytes 1..4, least significant first; of the PD
record only `cmd_id`, `reply_id` and the queue record change. -/
theorem decode_comset_spec (K : Consts) (hK : K.WF) (ops : ScOps) (pd : osdp_pd)
    (slab s1 : osdp_slab) (reply : osdp_cmd) (buf : List Nat) (l : List Nat) (j : Nat)
    (hcmd : rd buf 0 = K.CMD_COMSET)
    (hq : is_queue slab pd.queue l) (halloc : osdp_slab_alloc slab = some (j, s1)) :
    ∃ st b q, pd_decode_command K ops pd slab reply buf 6 = some st ∧
      st.reply.id = K.REPLY_COM ∧
      st.pd = { pd with cmd_id := rd buf 0, reply_id := K.REPLY_COM, queue := q } ∧
      is_queue st.slab q (l ++ [j]) ∧
      queue_cmds st.slab (l ++ [j]) = queue_cmds slab l ++ [payload (fill_comset buf 1 b)] ∧
      blk slab j = some ⟨false, b⟩ := by
  have hr0 := reply_pos K hK K.REPLY_COM (by simp [Consts.reply_ids])
  have hl : ¬ ((6 : Int) - 1 ≠ 5) := by decide
  unfold pd_decode_command
  rw [switch_comset K hK ops _ buf _ hcmd]
  unfold decode_comset
  rw [if_neg hl]
  simp only [decode_init_slab, halloc]
  exact enqueue_exact K pd slab s1 reply buf l j _ K.REPLY_COM (fill_comset buf 1) hq halloc hr0

/-- C30: the COM record makes the round trip. For a PD with address `a` below
256 and baud rate `b` below 2^32, `pd_build_reply` for REPLY_COM returns 6
with five data bytes behind the reply code; a CMD_COMSET command whose payload
is these five bytes, decoded by `pd_decode_command` on any PD with a free
slab block and a well-formed queue, is answered REPLY_COM and appends to the
queue one command with id OSDP_CMD_COMSET, `comset.addr = a` and
`comset.baud = b`; the decoding PD keeps its address and baud rate. -/
theorem com_round_trip (K : Consts) (hK : K.WF) (ops : ScOps) (pd : osdp_pd)
    (reply : osdp_cmd) (pkt : List Nat) (max_len : Int) (d : Nat) (smb : Option Nat)
    (a b : Nat) (pd2 : osdp_pd) (slab s1 : osdp_slab) (reply2 : osdp_cmd) (cbuf : List Nat)
    (l : List Nat) (j : Nat)
    (ha : a < 256) (hb : b < 2 ^ 32)
    (haddr : pd.address = a) (hbaud : pd.baud_rate = b)
    (hid : reply.id = K.REPLY_COM) (hsp : (d : Int) + 6 ≤ max_len)
    (hm : ∀ m, smb = some m → m + 2 ≤ d)
    (hcmd : rd cbuf 0 = K.CMD_COMSET)
    (hpay : ∀ i, i < 5 →
      rd cbuf (1 + i) = rd (pd_build_reply K ops pd reply pkt max_len d smb).buf (d + 1 + i))
    (hq : is_queue slab pd2.queue l) (halloc : osdp_slab_alloc slab = some (j, s1)) :
    (pd_build_reply K ops pd reply pkt max_len d smb).ret = 6 ∧
    ∃ st c, pd_decode_command K ops pd2 slab reply2 cbuf 6 = some st ∧
      st.reply.id = K.REPLY_COM ∧
      is_queue st.slab st.pd.queue (l ++ [j]) ∧
      queue_cmds st.slab (l ++ [j]) = queue_cmds slab l ++ [c] ∧
      c.id = OSDP_CMD_COMSET ∧ c.comset.addr = a ∧ c.comset.baud = b ∧
      st.pd.address = pd2.address ∧ st.pd.baud_rate = pd2.baud_rate := by
  obtain ⟨b1, _, _, b4, b5⟩ := build_com_spec K hK ops pd reply pkt max_len d smb hid hsp hm
  obtain ⟨st, blk0, q, hd, hrid, hpd, hqq, hcmds, _⟩ :=
    decode_comset_spec K hK ops pd2 slab s1 reply2 cbuf l j hcmd hq halloc
  have p0 : rd cbuf 1 = a := by
    have := hpay 0 (by decide)
    rw [Nat.add_zero, Nat.add_zero, b4, haddr, to_u8_nat] at this
    rw [this]
    omega
  have p1 : rd cbuf (1 + 1) = b / 2 ^ (8 * 0) % 256 := by
    have := hpay 1 (by decide)
    rw [show d + 1 + 1 = d + 2 + 0 by omega, b5 0 (by decide), hbaud, BYTE_nat] at this
    exact this
  have p2 : rd cbuf (1 + 2) = b / 2 ^ (8 * 1) % 256 := by
    have := hpay 2 (by decide)
    rw [show d + 1 + 2 = d + 2 + 1 by omega, b5 1 (by decide), hbaud, BYTE_nat] at this
    exact this
  have p3 : rd cbuf (1 + 3) = b / 2 ^ (8 * 2) % 256 := by
    have := hpay 3 (by decide)
    rw [show d + 1 + 3 = d + 2 + 2 by omega, b5 2 (by decide), hbaud, BYTE_nat] at this
    exact this
  have p4 : rd cbuf (1 + 4) = b / 2 ^ (8 * 3) % 256 := by
    have := hpay 4 (by decide)
    rw [show d + 1 + 4 = d + 2 + 3 by omega, b5 3 (by decide), hbaud, BYTE_nat] at this
    exact this
  refine ⟨b1, st, payload (fill_comset cbuf 1 blk0), hd, hrid, ?_, hcmds, rfl, p0, ?_, ?_, ?_⟩
  · rw [hpd]
    exact hqq
  · show (rd cbuf (1 + 1) ||| (rd cbuf (1 + 2) <<< 8) ||| (rd cbuf (1 + 3) <<< 16)
        ||| (rd cbuf (1 + 4) <<< 24)) % 2 ^ 32 = b
    rw [p1, p2, p3, p4]
    exact bytes_combine b hb
  · rw [hpd]
  · rw [hpd]

/-- The record of the sample PD at address 0x65 with 115200 baud is
54 65 00 C2 01 00; sent back as a COMSET command it is decoded into a command
with address 0x65 and baud rate 115200. -/
theorem com_round_trip_witness :
    (List.range 6).map
        (fun i => rd (pd_build_reply std ops_accept pd_com (reply_with 0x54) pkt_sample 64 8
          none).buf (8 + i))
      = [0x54, 0x65, 0x00, 0xC2, 0x01, 0x00] ∧
    ∃ st c, pd_decode_command std ops_accept pd_sample slab_sample cmd_zero comset_cmd 6
        = some st ∧
      queue_cmds st.slab ([] ++ [0]) = queue_cmds slab_sample [] ++ [c] ∧
      c.comset.addr = 0x65 ∧ c.comset.baud = 115200 :=
  ⟨by decide,
   match com_round_trip std std_wf ops_accept pd_com (reply_with 0x54) pkt_sample 64 8 none
     0x65 115200 pd_sample slab_sample slab_one_used cmd_zero comset_cmd [] 0
     (by decide) (by decide) rfl rfl rfl (by decide) (fun m e => Option.noConfusion e)
     rfl (by decide) ⟨rfl, fun h => absurd rfl h⟩ (by decide) with
   | ⟨_, st, c, h1, _, _, h4, _, h6, h7, _⟩ => ⟨st, c, h1, h4, h6, h7⟩⟩

/-! ## pd_build_reply: the length, the failures and the secure-channel block -/

theorem build_switch_each (P : build_case → Prop) (K : Consts) (ops : ScOps)
    (pd : osdp_pd) (reply : osdp_cmd) (b0 : List Nat) (m1 : Int) (d : Nat)
    (smb : Option Nat)
    (hack : P ⟨pd, b0, 1, false⟩)
    (hpdid : P (build_pdid pd b0 m1 d))
    (hpdcap : P (build_pdcap pd b0 m1 d))
    (hlstatr : P (build_lstatr K pd b0 m1 d))
    (hrstatr : P (build_rstatr K pd b0 m1 d))
    (hcom : P (build_com pd b0 m1 d))
    (hnak : P (build_nak pd reply b0 m1 d))
    (hccrypt : P (build_ccrypt K ops pd b0 m1 d smb))
    (hrmac : P (build_rmac_i K ops pd b0 m1 d smb)) :
    P (build_switch K ops pd reply b0 m1 d smb) :=
  build_switch_pair (fun x _ => P x) K ops pd reply b0 m1 m1 d smb hack hpdid hpdcap hlstatr
    hrstatr hcom hnak hccrypt hrmac

/-- A case of the switch that fails has not touched the PD record. -/
theorem build_fail_keeps_pd (K : Consts) (ops : ScOps) (pd : osdp_pd) (reply : osdp_cmd)
    (b0 : List Nat) (m1 : Int) (d : Nat) (smb : Option Nat)
    (hf : (build_switch K ops pd reply b0 m1 d smb).fail = true) :
    (build_switch K ops pd reply b0 m1 d smb).pd = pd := by
  revert hf
  refine build_switch_each (fun x => x.fail = true → x.pd = pd) K ops pd reply b0 m1 d smb
    (fun _ => rfl) ?_ (fun _ => rfl) ?_ ?_ ?_ ?_ ?_ ?_
  · unfold build_pdid
    split_ifs
    · exact fun _ => rfl
    · exact fun _ => rfl
  · unfold build_lstatr
    split_ifs
    · exact fun _ => rfl
    · exact fun _ => rfl
  · unfold build_rstatr
    split_ifs
    · exact fun _ => rfl
    · exact fun _ => rfl
  · unfold build_com
    split_ifs
    · exact fun _ => rfl
    · exact fun _ => rfl
  · unfold build_nak
    split_ifs
    · exact fun _ => rfl
    · exact fun _ => rfl
  · cases smb with
    | none => exact fun _ => rfl
    | some m =>
      unfold build_ccrypt
      by_cases h : m1 < 32
      · simp only [if_pos h]
        exact fun _ => trivial
      · simp only [if_neg h]
        exact fun hf => Bool.noConfusion hf
  · cases smb with
    | none => exact fun _ => rfl
    | some m =>
      unfold build_rmac_i
      by_cases h : m1 < 16
      · simp only [if_pos h]
        exact fun _ => trivial
      · simp only [if_neg h]
        exact fun hf => Bool.noConfusion hf

/-- No case of the switch writes the cell of the reply code. -/
theorem build_switch_keeps_code (K : Consts) (ops : ScOps) (pd : osdp_pd) (reply : osdp_cmd)
    (b0 : List Nat) (m1 : Int) (d : Nat) (smb : Option Nat)
    (hs : ∀ m, smb = some m → d ≠ m ∧ d ≠ m + 1 ∧ d ≠ m + 2) :
    rd (build_switch K ops pd reply b0 m1 d smb).buf d = rd b0 d := by
  refine build_switch_each (fun x => rd x.buf d = rd b0 d) K ops pd reply b0 m1 d smb
    rfl ?_ ?_ ?_ ?_ ?_ ?_ ?_ ?_
  · unfold build_pdid
    split_ifs
    · rfl
    · simp only []
      repeat rw [rd_wr_other _ _ _ _ (by omega)]
  · unfold build_pdcap
    exact pdcap_loop_room pd.cap d CAP_SENTINEL 0 b0 1 m1 d (by push_cast; omega)
  · unfold build_lstatr
    split_ifs
    · rfl
    · simp only []
      repeat rw [rd_wr_other _ _ _ _ (by omega)]
  · unfold build_rstatr
    split_ifs
    · rfl
    · simp only []
      repeat rw [rd_wr_other _ _ _ _ (by omega)]
  · unfold build_com
    split_ifs
    · rfl
    · simp only []
      repeat rw [rd_wr_other _ _ _ _ (by omega)]
  · unfold build_nak
    split_ifs
    · rfl
    · simp only []
      repeat rw [rd_wr_other _ _ _ _ (by omega)]
  · cases smb with
    | none => rfl
    | some m =>
      obtain ⟨e1, e2, e3⟩ := hs m rfl
      unfold build_ccrypt
      by_cases h : m1 < 32
      · simp only [if_pos h]
      · simp only [if_neg h]
        rw [rd_wr_other _ _ _ _ e3, rd_wr_other _ _ _ _ e2, rd_wr_other _ _ _ _ e1,
          rd_put_bytes, if_neg (by omega), rd_put_bytes, if_neg (by omega),
          rd_put_bytes, if_neg (by omega)]
  · cases smb with
    | none => rfl
    | some m =>
      obtain ⟨e1, e2, e3⟩ := hs m rfl
      unfold build_rmac_i
      by_cases h : m1 < 16
      · simp only [if_pos h]
      · simp only [if_neg h]
        rw [rd_wr_other _ _ _ _ e3, rd_wr_other _ _ _ _ e2, rd_wr_other _ _ _ _ e1,
          rd_put_bytes, if_neg (by omega)]

/-- C32: `pd_build_reply` never returns 0. For every reply id, PD record and
buffer it returns -1 or a length of at least 1. When it does not return -1,
the switch has left `len` at 1 or more, so the fallback for `len == 0` is not
taken: the result is the PD record and buffer of the switch after the
secure-channel step, with that `len`; and the cell at the data offset holds
the reply id (a byte, with a secure-channel block elsewhere). For
REPLY_CCRYPT and REPLY_RMAC_I on a packet without a secure-channel block, with
room for the reply code, it returns 1 and writes the reply id only: the PD
record, with its flags and its secure-channel data, is as before. -/
theorem build_reply_never_zero (K : Consts) (hK : K.WF) (ops : ScOps) (pd : osdp_pd)
    (reply : osdp_cmd) (buf : List Nat) (max_len : Int) (d : Nat) (smb : Option Nat) :
    ((pd_build_reply K ops pd reply buf max_len d smb).ret = -1 ∨
      1 ≤ (pd_build_reply K ops pd reply buf max_len d smb).ret) ∧
    (pd_build_reply K ops pd reply buf max_len d smb).ret ≠ 0 ∧
    (0 ≤ (pd_build_reply K ops pd reply buf max_len d smb).ret →
      1 ≤ (build_switch K ops pd reply (wr buf d reply.id) (max_len - (d + 1)) d smb).len ∧
      pd_build_reply K ops pd reply buf max_len d smb
        = ⟨(build_switch K ops pd reply (wr buf d reply.id) (max_len - (d + 1)) d smb).pd,
           build_scb_fix K
             (build_switch K ops pd reply (wr buf d reply.id) (max_len - (d + 1)) d smb).pd
             (build_switch K ops pd reply (wr buf d reply.id) (max_len - (d + 1)) d smb).buf
             (build_switch K ops pd reply (wr buf d reply.id) (max_len - (d + 1)) d smb).len
             smb,
           (build_switch K ops pd reply (wr buf d reply.id) (max_len - (d + 1)) d smb).len⟩ ∧
      (reply.id < 256 → (∀ m, smb = some m → d ≠ m ∧ d ≠ m + 1 ∧ d ≠ m + 2) →
        rd (pd_build_reply K ops pd reply buf max_len d smb).buf d = reply.id)) ∧
    ((reply.id = K.REPLY_CCRYPT ∨ reply.id = K.REPLY_RMAC_I) → smb = none →
      (d : Int) + 1 ≤ max_len →
      pd_build_reply K ops pd reply buf max_len d smb = ⟨pd, wr buf d reply.id, 1⟩ ∧
      (pd_build_reply K ops pd reply buf max_len d smb).pd.flags = pd.flags ∧
      (pd_build_reply K ops pd reply buf max_len d smb).pd.sc = pd.sc) := by
  have hmain : (pd_build_reply K ops pd reply buf max_len d smb).ret = -1 ∨
      (1 ≤ (pd_build_reply K ops pd reply buf max_len d smb).ret ∧
        1 ≤ (build_switch K ops pd reply (wr buf d reply.id) (max_len - (d + 1)) d smb).len ∧
        pd_build_reply K ops pd reply buf max_len d smb
          = ⟨(build_switch K ops pd reply (wr buf d reply.id) (max_len - (d + 1)) d smb).pd,
             build_scb_fix K
               (build_switch K ops pd reply (wr buf d reply.id) (max_len - (d + 1)) d smb).pd
               (build_switch K ops pd reply (wr buf d reply.id) (max_len - (d + 1)) d smb).buf
               (build_switch K ops pd reply (wr buf d reply.id) (max_len - (d + 1)) d smb).len
               smb,
             (build_switch K ops pd reply (wr buf d reply.id)
               (max_len - (d + 1)) d smb).len⟩) := by
    rcases pd_build_reply_cases K ops pd reply buf max_len d smb with
      ⟨h, _⟩ | ⟨hf, he, hr, h1, _, _⟩
    · exact Or.inl h
    · have hl : 1 ≤ (build_switch K ops pd reply (wr buf d reply.id)
          (max_len - (d + 1)) d smb).len := by
        rw [hr] at h1
        omega
      exact Or.inr ⟨h1, hl, by rw [he, build_finish_ret K _ d smb hf hl]⟩
  refine ⟨hmain.imp id (fun h => h.1), ?_, fun h0 => ?_, fun hid hsmb hsp => ?_⟩
  · rcases hmain with h | ⟨h, _⟩
    · rw [h]
      decide
    · omega
  · rcases hmain with h | ⟨_, hl, he⟩
    · omega
    · refine ⟨hl, he, fun _ hs => ?_⟩
      rw [he]
      simp only []
      rw [rd_build_scb_fix K _ _ _ d smb (fun m e => ⟨(hs m e).1, (hs m e).2.1⟩),
        build_switch_keeps_code K ops pd reply _ _ d smb hs, rd_wr_same]
  · subst hsmb
    have h1 : ¬ (max_len - ((d : Int) + 1) < 0) := by omega
    have hb : pd_build_reply K ops pd reply buf max_len d none = ⟨pd, wr buf d reply.id, 1⟩ := by
      unfold pd_build_reply
      rw [if_neg h1]
      rcases hid with hid | hid
      · rw [build_switch_ccrypt K hK ops pd reply _ _ d none hid]
        exact build_finish_ok K pd _ 0 d none
      · rw [build_switch_rmac_i K hK ops pd reply _ _ d none hid]
        exact build_finish_ok K pd _ 0 d none
    rw [hb]
    exact ⟨rfl, rfl, rfl⟩

/-- A CCRYPT reply into a packet without a secure-channel block: one byte,
the PD record as before, secure-active still clear. -/
theorem build_reply_never_zero_witness :
    ISSET_FLAG pd_sample.flags std.PD_FLAG_SC_ACTIVE = false ∧
    pd_build_reply std ops_accept pd_sample (reply_with 0x76) pkt_sample 64 8 none
      = ⟨pd_sample, wr pkt_sample 8 0x76, 1⟩ :=
  ⟨by decide,
   ((build_reply_never_zero std std_wf ops_accept pd_sample (reply_with 0x76) pkt_sample 64 8
      none).2.2.2 (Or.inl rfl) rfl (by decide)).1⟩

/-- C33: `pd_build_reply` is atomic on failure with respect to the PD record.
Whenever it returns a negative value, for any reply id, that value is -1 and
the PD record is the one it was given: the flags, secure-active among them,
and the secure-channel data (`pd_random`, the session keys, the cryptograms,
`r_mac`) are unchanged. -/
theorem build_reply_atomic (K : Consts) (ops : ScOps) (pd : osdp_pd) (reply : osdp_cmd)
    (buf : List Nat) (max_len : Int) (d : Nat) (smb : Option Nat)
    (h : (pd_build_reply K ops pd reply buf max_len d smb).ret < 0) :
    (pd_build_reply K ops pd reply buf max_len d smb).ret = -1 ∧
    (pd_build_reply K ops pd reply buf max_len d smb).pd = pd ∧
    (pd_build_reply K ops pd reply buf max_len d smb).pd.flags = pd.flags ∧
    ISSET_FLAG (pd_build_reply K ops pd reply buf max_len d smb).pd.flags K.PD_FLAG_SC_ACTIVE
      = ISSET_FLAG pd.flags K.PD_FLAG_SC_ACTIVE ∧
    (pd_build_reply K ops pd reply buf max_len d smb).pd.sc = pd.sc ∧
    (pd_build_reply K ops pd reply buf max_len d smb).pd.sc.pd_random = pd.sc.pd_random := by
  have hpd : (pd_build_reply K ops pd reply buf max_len d smb).ret = -1 ∧
      (pd_build_reply K ops pd reply buf max_len d smb).pd = pd := by
    revert h
    unfold pd_build_reply
    by_cases h1 : max_len - ((d : Int) + 1) < 0
    · rw [if_pos h1]
      exact fun _ => ⟨rfl, rfl⟩
    · rw [if_neg h1]
      by_cases hf : (build_switch K ops pd reply (wr buf d reply.id)
          (max_len - (d + 1)) d smb).fail = true
      · rw [build_finish_failed K _ d smb hf]
        exact fun _ => ⟨rfl, build_fail_keeps_pd K ops pd reply _ _ d smb hf⟩
      · have hf2 := Bool.eq_false_iff.mpr hf
        obtain ⟨hl, _, _⟩ := (build_switch_in_bounds K ops pd reply (wr buf d reply.id)
          (max_len - (d + 1)) d smb (by omega)).2 hf2
        rw [build_finish_ret K _ d smb hf2 hl]
        intro h
        simp only [] at h
        omega
  obtain ⟨h1, h2⟩ := hpd
  refine ⟨h1, h2, ?_, ?_, ?_, ?_⟩ <;> rw [h2]

/-- A CCRYPT and an RMAC_I reply with a secure-channel block but room for 20
and 10 bytes: both builds fail and return the PD record they were given. -/
theorem build_reply_atomic_witness :
    (pd_build_reply std ops_accept pd_sample (reply_with 0x76) pkt_sample 28 8 (some 5)).ret
      = -1 ∧
    (pd_build_reply std ops_accept pd_sample (reply_with 0x76) pkt_sample 28 8 (some 5)).pd
      = pd_sample ∧
    (pd_build_reply std ops_accept pd_sample (reply_with 0x78) pkt_sample 18 8 (some 5)).pd
      = pd_sample :=
  ⟨(build_reply_atomic std ops_accept pd_sample (reply_with 0x76) pkt_sample 28 8 (some 5)
      (by decide)).1,
   (build_reply_atomic std ops_accept pd_sample (reply_with 0x76) pkt_sample 28 8 (some 5)
      (by decide)).2.1,
   (build_reply_atomic std ops_accept pd_sample (reply_with 0x78) pkt_sample 18 8 (some 5)
      (by decide)).2.1⟩

theorem build_scb_fix_spec (K : Consts) (p : osdp_pd) (b : List Nat) (n m : Nat) :
    (rd b (m + 1) > K.SCS_14 ∧ ISSET_FLAG p.flags K.PD_FLAG_SC_ACTIVE = true →
      build_scb_fix K p b n (some m)
        = wr (wr b m 2) (m + 1) (if n > 1 then K.SCS_18 else K.SCS_16)) ∧
    (¬ (rd b (m + 1) > K.SCS_14 ∧ ISSET_FLAG p.flags K.PD_FLAG_SC_ACTIVE = true) →
      build_scb_fix K p b n (some m) = b) := by
  constructor
  · intro h
    simp only [build_scb_fix]
    rw [if_pos h]
  · intro h
    simp only [build_scb_fix]
    rw [if_neg h]

/-- For a reply other than CCRYPT and RMAC_I the switch does not look at the
secure-channel block. -/
theorem build_switch_plain (K : Consts) (ops : ScOps) (pd : osdp_pd) (reply : osdp_cmd)
    (b0 : List Nat) (m1 : Int) (d : Nat) (smb : Option Nat)
    (hc : reply.id ≠ K.REPLY_CCRYPT) (hr : reply.id ≠ K.REPLY_RMAC_I) :
    build_switch K ops pd reply b0 m1 d smb = build_switch K ops pd reply b0 m1 d none := by
  unfold build_switch
  simp only [hc, hr, if_false]

theorem build_switch_none_pd (K : Consts) (ops : ScOps) (pd : osdp_pd) (reply : osdp_cmd)
    (b0 : List Nat) (m1 : Int) (d : Nat) :
    (build_switch K ops pd reply b0 m1 d none).pd = pd := by
  refine build_switch_each (fun x => x.pd = pd) K ops pd reply b0 m1 d none
    rfl ?_ rfl ?_ ?_ ?_ ?_ rfl rfl
  · unfold build_pdid
    split_ifs <;> rfl
  · unfold build_lstatr
    split_ifs <;> rfl
  · unfold build_rstatr
    split_ifs <;> rfl
  · unfold build_com
    split_ifs <;> rfl
  · unfold build_nak
    split_ifs <;> rfl

theorem build_ccrypt_type (K : Consts) (ops : ScOps) (pd : osdp_pd) (b0 : List Nat)
    (m1 : Int) (d m : Nat) (hf : (build_ccrypt K ops pd b0 m1 d (some m)).fail = false) :
    rd (build_ccrypt K ops pd b0 m1 d (some m)).buf (m + 1) = K.SCS_12 := by
  revert hf
  unfold build_ccrypt
  by_cases h : m1 < 32
  · simp only [if_pos h]
    exact fun hf => Bool.noConfusion hf
  · simp only [if_neg h]
    intro _
    have e : m + 1 ≠ m + 2 := by omega
    rw [rd_wr_other _ _ _ _ e, rd_wr_same]

theorem build_rmac_i_type (K : Consts) (ops : ScOps) (pd : osdp_pd) (b0 : List Nat)
    (m1 : Int) (d m : Nat) (hf : (build_rmac_i K ops pd b0 m1 d (some m)).fail = false) :
    rd (build_rmac_i K ops pd b0 m1 d (some m)).buf (m + 1) = K.SCS_14 := by
  revert hf
  unfold build_rmac_i
  by_cases h : m1 < 16
  · simp only [if_pos h]
    exact fun hf => Bool.noConfusion hf
  · simp only [if_neg h]
    intro _
    have e : m + 1 ≠ m + 2 := by omega
    rw [rd_wr_other _ _ _ _ e, rd_wr_same]

/-- A call of `pd_build_reply` that does not return -1: the switch did not
fail and left `len` at 1 or more, and the result is its PD record, its buffer
after the secure-channel step, and `len`. -/
theorem pd_build_reply_ok (K : Consts) (ops : ScOps) (pd : osdp_pd) (reply : osdp_cmd)
    (buf : List Nat) (max_len : Int) (d : Nat) (smb : Option Nat)
    (h : 0 ≤ (pd_build_reply K ops pd reply buf max_len d smb).ret) :
    0 ≤ max_len - ((d : Int) + 1) ∧
    (build_switch K ops pd reply (wr buf d reply.id) (max_len - (d + 1)) d smb).fail = false ∧
    1 ≤ (build_switch K ops pd reply (wr buf d reply.id) (max_len - (d + 1)) d smb).len ∧
    pd_build_reply K ops pd reply buf max_len d smb
      = ⟨(build_switch K ops pd reply (wr buf d reply.id) (max_len - (d + 1)) d smb).pd,
         build_scb_fix K
           (build_switch K ops pd reply (wr buf d reply.id) (max_len - (d + 1)) d smb).pd
           (build_switch K ops pd reply (wr buf d reply.id) (max_len - (d + 1)) d smb).buf
           (build_switch K ops pd reply (wr buf d reply.id) (max_len - (d + 1)) d smb).len
           smb,
         (build_switch K ops pd reply (wr buf d reply.id) (max_len - (d + 1)) d smb).len⟩ := by
  rcases pd_build_reply_cases K ops pd reply buf max_len d smb with
    ⟨h1, _⟩ | ⟨hf, he, hr, h1, h2, _⟩
  · omega
  · have hl : 1 ≤ (build_switch K ops pd reply (wr buf d reply.id)
        (max_len - (d + 1)) d smb).len := by
      rw [hr] at h1
      omega
    exact ⟨by omega, hf, hl, by rw [he, build_finish_ret K _ d smb hf hl]⟩

/-- C34: the secure-channel step of `pd_build_reply`, for a packet whose
secure-channel block is at `m`. The step itself: if the type byte is greater
than SCS_14 and secure-active is set, it writes the length 2 and the type
SCS_18 when `len > 1` and SCS_16 otherwise, and nothing else; in every other
case, and without a block, it leaves the buffer as it is. In the function: for
a reply other than CCRYPT and RMAC_I (block in front of the data) the test is
made on the type byte and the flag the function was given, and the block is
rewritten to {2, SCS_18} if the returned length exceeds 1 and to {2, SCS_16}
if it is 1, the third byte kept, or else left untouched; for CCRYPT and RMAC_I
the block keeps the length 3 and the type SCS_12 or SCS_14 that the case has
written. -/
theorem scb_type_selection (K : Consts) (hK : K.WF) (ops : ScOps) (pd : osdp_pd)
    (reply : osdp_cmd) (buf : List Nat) (max_len : Int) (d m : Nat) :
    (∀ (p : osdp_pd) (b : List Nat) (n : Nat),
      (rd b (m + 1) > K.SCS_14 ∧ ISSET_FLAG p.flags K.PD_FLAG_SC_ACTIVE = true →
        rd (build_scb_fix K p b n (some m)) m = 2 ∧
        rd (build_scb_fix K p b n (some m)) (m + 1) = (if n > 1 then K.SCS_18 else K.SCS_16) ∧
        ∀ j, j ≠ m → j ≠ m + 1 → rd (build_scb_fix K p b n (some m)) j = rd b j) ∧
      (¬ (rd b (m + 1) > K.SCS_14 ∧ ISSET_FLAG p.flags K.PD_FLAG_SC_ACTIVE = true) →
        build_scb_fix K p b n (some m) = b) ∧
      build_scb_fix K p b n none = b) ∧
    (0 ≤ (pd_build_reply K ops pd reply buf max_len d (some m)).ret → m + 3 ≤ d →
      reply.id ≠ K.REPLY_CCRYPT → reply.id ≠ K.REPLY_RMAC_I →
      (rd buf (m + 1) > K.SCS_14 ∧ ISSET_FLAG pd.flags K.PD_FLAG_SC_ACTIVE = true →
        rd (pd_build_reply K ops pd reply buf max_len d (some m)).buf m = 2 ∧
        rd (pd_build_reply K ops pd reply buf max_len d (some m)).buf (m + 1)
          = (if (pd_build_reply K ops pd reply buf max_len d (some m)).ret > 1 then K.SCS_18
              else K.SCS_16) ∧
        rd (pd_build_reply K ops pd reply buf max_len d (some m)).buf (m + 2)
          = rd buf (m + 2)) ∧
      (¬ (rd buf (m + 1) > K.SCS_14 ∧ ISSET_FLAG pd.flags K.PD_FLAG_SC_ACTIVE = true) →
        rd (pd_build_reply K ops pd reply buf max_len d (some m)).buf m = rd buf m ∧
        rd (pd_build_reply K ops pd reply buf max_len d (some m)).buf (m + 1)
          = rd buf (m + 1) ∧
        rd (pd_build_reply K ops pd reply buf max_len d (some m)).buf (m + 2)
          = rd buf (m + 2))) ∧
    (0 ≤ (pd_build_reply K ops pd reply buf max_len d (some m)).ret →
      (reply.id = K.REPLY_CCRYPT →
        rd (pd_build_reply K ops pd reply buf max_len d (some m)).buf m = 3 ∧
        rd (pd_build_reply K ops pd reply buf max_len d (some m)).buf (m + 1) = K.SCS_12) ∧
      (reply.id = K.REPLY_RMAC_I →
        rd (pd_build_reply K ops pd reply buf max_len d (some m)).buf m = 3 ∧
        rd (pd_build_reply K ops pd reply buf max_len d (some m)).buf (m + 1) = K.SCS_14)) := by
  have e12 : m ≠ m + 1 := by omega
  have e21 : m + 1 ≠ m + 2 := by omega
  have e02 : m ≠ m + 2 := by omega
  refine ⟨fun p b n => ⟨fun h => ?_, (build_scb_fix_spec K p b n m).2, rfl⟩, ?_, ?_⟩
  · rw [(build_scb_fix_spec K p b n m).1 h]
    refine ⟨by rw [rd_wr_other _ _ _ _ e12, rd_wr_same], rd_wr_same _ _ _, fun j h1 h2 => ?_⟩
    rw [rd_wr_other _ _ _ _ h2, rd_wr_other _ _ _ _ h1]
  · intro hret hm hc hr
    obtain ⟨h0, hf, hl, he⟩ := pd_build_reply_ok K ops pd reply buf max_len d (some m) hret
    have hplain := build_switch_plain K ops pd reply (wr buf d reply.id)
      (max_len - (d + 1)) d (some m) hc hr
    rw [hplain] at hf hl he
    have hpd := build_switch_none_pd K ops pd reply (wr buf d reply.id) (max_len - (d + 1)) d
    obtain ⟨_, _, hw⟩ := (build_switch_in_bounds K ops pd reply (wr buf d reply.id)
      (max_len - (d + 1)) d none h0).2 hf
    have hframe : ∀ j, j < d →
        rd (build_switch K ops pd reply (wr buf d reply.id) (max_len - (d + 1)) d none).buf j
          = rd buf j := by
      intro j hj
      have hjd : j ≠ d := by omega
      rw [hw j (fun hcon => by omega) (fun k e => Option.noConfusion e),
        rd_wr_other _ _ _ _ hjd]
    rw [he, hpd]
    simp only []
    constructor
    · intro hcond
      have hcond2 : rd (build_switch K ops pd reply (wr buf d reply.id)
          (max_len - (d + 1)) d none).buf (m + 1) > K.SCS_14 ∧
          ISSET_FLAG pd.flags K.PD_FLAG_SC_ACTIVE = true := by
        rw [hframe (m + 1) (by omega)]
        exact hcond
      rw [(build_scb_fix_spec K pd _ _ m).1 hcond2]
      refine ⟨by rw [rd_wr_other _ _ _ _ e12, rd_wr_same], ?_, ?_⟩
      · rw [rd_wr_same]
        by_cases hn : (build_switch K ops pd reply (wr buf d reply.id)
            (max_len - (d + 1)) d none).len > 1
        · rw [if_pos hn, if_pos (by omega)]
        · rw [if_neg hn, if_neg (by omega)]
      · rw [rd_wr_other _ _ _ _ e21.symm, rd_wr_other _ _ _ _ e02.symm,
          hframe (m + 2) (by omega)]
    · intro hcond
      have hcond2 : ¬ (rd (build_switch K ops pd reply (wr buf d reply.id)
          (max_len - (d + 1)) d none).buf (m + 1) > K.SCS_14 ∧
          ISSET_FLAG pd.flags K.PD_FLAG_SC_ACTIVE = true) := by
        rw [hframe (m + 1) (by omega)]
        exact hcond
      rw [(build_scb_fix_spec K pd _ _ m).2 hcond2]
      exact ⟨hframe m (by omega), hframe (m + 1) (by omega), hframe (m + 2) (by omega)⟩
  · intro hret
    obtain ⟨h0, hf, hl, he⟩ := pd_build_reply_ok K ops pd reply buf max_len d (some m) hret
    constructor
    · intro hid
      rw [build_switch_ccrypt K hK ops pd reply _ _ d (some m) hid] at hf he
      have ht := build_ccrypt_type K ops pd (wr buf d reply.id) (max_len - (d + 1)) d m hf
      rw [he]
      simp only []
      rw [(build_scb_fix_spec K _ _ _ m).2 (fun hcon => by
        have := hcon.1
        rw [ht] at this
        have := hK.scs_order.1
        omega)]
      refine ⟨?_, ht⟩
      revert hf
      unfold build_ccrypt
      by_cases h : max_len - ((d : Int) + 1) < 32
      · simp only [if_pos h]
        exact fun hf => Bool.noConfusion hf
      · simp only [if_neg h]
        intro _
        rw [rd_wr_other _ _ _ _ e02, rd_wr_other _ _ _ _ e12, rd_wr_same]
    · intro hid
      rw [build_switch_rmac_i K hK ops pd reply _ _ d (some m) hid] at hf he
      have ht := build_rmac_i_type K ops pd (wr buf d reply.id) (max_len - (d + 1)) d m hf
      rw [he]
      simp only []
      rw [(build_scb_fix_spec K _ _ _ m).2 (fun hcon => by
        have := hcon.1
        rw [ht] at this
        omega)]
      refine ⟨?_, ht⟩
      revert hf
      unfold build_rmac_i
      by_cases h : max_len - ((d : Int) + 1) < 16
      · simp only [if_pos h]
        exact fun hf => Bool.noConfusion hf
      · simp only [if_neg h]
        intro _
        rw [rd_wr_other _ _ _ _ e02, rd_wr_other _ _ _ _ e12, rd_wr_same]

/-- The sample PD with secure-active set, the block of the sample packet
having the type 0x15: an ACK gets the block {2, SCS_16}, an LSTATR reply of
three bytes the block {2, SCS_18}. -/
theorem scb_type_selection_witness :
    ((List.range 3).map (fun i =>
        rd (pd_build_reply std ops_accept pd_secure (reply_with 0x40) pkt_secure 32 8
          (some 5)).buf (5 + i)),
     (List.range 3).map (fun i =>
        rd (pd_build_reply std ops_accept pd_secure (reply_with 0x48) pkt_secure 32 8
          (some 5)).buf (5 + i)))
      = ([2, 0x16, 0], [2, 0x18, 0]) ∧
    rd (pd_build_reply std ops_accept pd_secure (reply_with 0x40) pkt_secure 32 8
      (some 5)).buf 5 = 2 :=
  ⟨by decide,
   (((scb_type_selection std std_wf ops_accept pd_secure (reply_with 0x40) pkt_secure 32 8
      5).2.1 (by decide) (by decide) (by decide) (by decide)).1 ⟨by decide, by decide⟩).1⟩

/-! ## The state between calls -/

theorem receve_state (phy : PhyOps) (host : Host) (pd : osdp_pd)
    (hphy : ∀ p len, (phy.phy_decode_packet p len).2.state = p.state) :
    (pd_receve_packet phy host pd).2.1.state = pd.state := by
  by_cases h : (host.recv pd.channel.data (host.RX_BUF_SIZE - pd.rx_buf_len)).1 ≤ 0
  · rw [receve_nothing phy host pd h]
  · have hd := hphy (received host pd) (received host pd).rx_buf_len
    have hr : (received host pd).state = pd.state := rfl
    rw [receve_bytes phy host pd (by omega)]
    split_ifs
    · exact hd.trans hr
    · exact hd.trans hr
    · exact hd.trans hr
    · exact hd.trans hr
    · exact hd.trans hr

theorem send_reply_case_state (K : Consts) (ops : ScOps) (phy : PhyOps) (host : Host)
    (pd : osdp_pd) (slab : osdp_slab) (reply : osdp_cmd) (evs : List chan_event) :
    (send_reply_case K ops phy host pd slab reply evs).1.state = pd_state.PD_STATE_IDLE ∨
    (send_reply_case K ops phy host pd slab reply evs).1.state = pd_state.PD_STATE_ERR := by
  obtain ⟨_, _, c3, c4⟩ := send_reply_case_spec K ops phy host pd slab reply evs
  rcases (send_summary K ops phy host pd reply).1 with h | h
  · rw [c4 h]
    exact Or.inl rfl
  · rw [c3 h]
    exact Or.inr rfl

/-- A call that starts in the idle or the error state does not end in state
PD_STATE_SEND_REPLY, if `phy_decode_packet` leaves `pd->state` alone. -/
theorem state_after_call (K : Consts) (ops : ScOps) (phy : PhyOps) (host : Host)
    (pd : osdp_pd) (slab : osdp_slab) (reply0 : osdp_cmd)
    (r : osdp_pd × osdp_slab × List chan_event)
    (hphy : ∀ p len, (phy.phy_decode_packet p len).2.state = p.state)
    (hs : pd.state = pd_state.PD_STATE_IDLE ∨ pd.state = pd_state.PD_STATE_ERR)
    (hr : pd_state_update K ops phy host pd slab reply0 = some r) :
    r.1.state = pd_state.PD_STATE_IDLE ∨ r.1.state = pd_state.PD_STATE_ERR := by
  rcases hs with hs | hs
  · rw [state_update_idle K ops phy host pd slab reply0 hs] at hr
    split_ifs at hr
    · cases hr
      exact Or.inr rfl
    · cases hr
      exact Or.inl ((receve_state phy host pd hphy).trans hs)
    · obtain ⟨st, _, rfl⟩ := Option.map_eq_some'.mp hr
      exact send_reply_case_state K ops phy host _ st.slab st.reply _
  · rw [state_update_err K ops phy host pd slab reply0 hs] at hr
    cases hr
    exact Or.inl rfl

theorem state_after_calls (K : Consts) (ops : ScOps) (phy : PhyOps)
    (hphy : ∀ p len, (phy.phy_decode_packet p len).2.state = p.state)
    (calls : List (Host × osdp_cmd)) (st st1 : osdp_pd × osdp_slab)
    (hs : st.1.state = pd_state.PD_STATE_IDLE ∨ st.1.state = pd_state.PD_STATE_ERR)
    (hr : run_calls K ops phy calls st = some st1) :
    st1.1.state = pd_state.PD_STATE_IDLE ∨ st1.1.state = pd_state.PD_STATE_ERR := by
  induction calls generalizing st with
  | nil =>
    simp only [run_calls, Option.some.injEq] at hr
    rw [← hr]
    exact hs
  | cons c rest ih =>
    rw [run_calls] at hr
    cases hc : pd_state_update K ops phy c.1 st.1 st.2 c.2 with
    | none =>
      rw [hc] at hr
      cases hr
    | some r =>
      rw [hc] at hr
      exact ih (r.1, r.2.1) (state_after_call K ops phy c.1 st.1 st.2 c.2 r hphy hs hc) hr

/-- C31: if `phy_decode_packet` leaves `pd->state` alone, then starting from
PD_STATE_IDLE the state after every call of `pd_state_update`, and after every
sequence of calls, is PD_STATE_IDLE or PD_STATE_ERR, never
PD_STATE_SEND_REPLY. So every call of such a sequence starts in the idle or
the error state, and `pd_send_reply` runs only in a call that started idle,
received a packet and decoded it: the reply record it is given is the one
`pd_decode_command` returned in that call, whose id `pd_decode_command` has
written (`pd->reply_id` is that id, and the call does not depend on the id
the local `reply` held before). -/
theorem never_left_sending (K : Consts) (ops : ScOps) (phy : PhyOps)
    (hphy : ∀ p len, (phy.phy_decode_packet p len).2.state = p.state) :
    (∀ (host : Host) (pd : osdp_pd) (slab : osdp_slab) (reply0 : osdp_cmd)
        (r : osdp_pd × osdp_slab × List chan_event),
      pd.state = pd_state.PD_STATE_IDLE ∨ pd.state = pd_state.PD_STATE_ERR →
      pd_state_update K ops phy host pd slab reply0 = some r →
      r.1.state = pd_state.PD_STATE_IDLE ∨ r.1.state = pd_state.PD_STATE_ERR) ∧
    (∀ (calls : List (Host × osdp_cmd)) (pd : osdp_pd) (slab : osdp_slab)
        (st1 : osdp_pd × osdp_slab),
      pd.state = pd_state.PD_STATE_IDLE →
      run_calls K ops phy calls (pd, slab) = some st1 →
      (st1.1.state = pd_state.PD_STATE_IDLE ∨ st1.1.state = pd_state.PD_STATE_ERR) ∧
      st1.1.state ≠ pd_state.PD_STATE_SEND_REPLY) ∧
    (∀ (host : Host) (pd : osdp_pd) (slab : osdp_slab) (reply0 : osdp_cmd)
        (r : osdp_pd × osdp_slab × List chan_event),
      pd.state = pd_state.PD_STATE_IDLE ∨ pd.state = pd_state.PD_STATE_ERR →
      pd_state_update K ops phy host pd slab reply0 = some r →
      0 < count_send r.2.2 →
      pd.state = pd_state.PD_STATE_IDLE ∧ (pd_receve_packet phy host pd).1 = 0 ∧
      ∃ st, pd_decode_command K ops (pd_receve_packet phy host pd).2.1 slab reply0
            (pd_receve_packet phy host pd).2.1.rx_buf
            (pd_receve_packet phy host pd).2.1.rx_buf_len = some st ∧
        r = send_reply_case K ops phy host
              { st.pd with state := pd_state.PD_STATE_SEND_REPLY } st.slab st.reply
              (pd_receve_packet phy host pd).2.2 ∧
        st.pd.reply_id = st.reply.id) ∧
    (∀ (host : Host) (pd : osdp_pd) (slab : osdp_slab) (reply0 : osdp_cmd) (x : Nat),
      pd.state = pd_state.PD_STATE_IDLE ∨ pd.state = pd_state.PD_STATE_ERR →
      pd_state_update K ops phy host pd slab { reply0 with id := x }
        = pd_state_update K ops phy host pd slab reply0) := by
  refine ⟨fun host pd slab reply0 r hs hr =>
      state_after_call K ops phy host pd slab reply0 r hphy hs hr,
    fun calls pd slab st1 hs hr => ?_, fun host pd slab reply0 r hs hr hsend => ?_,
    fun host pd slab reply0 x hs => ?_⟩
  · have h := state_after_calls K ops phy hphy calls (pd, slab) st1 (Or.inl hs) hr
    refine ⟨h, fun e => ?_⟩
    rw [e] at h
    rcases h with h | h <;> cases h
  · obtain ⟨v1, v2, v3, v4⟩ := receve_summary phy host pd
    rcases hs with hs | hs
    · refine ⟨hs, ?_⟩
      rw [state_update_idle K ops phy host pd slab reply0 hs] at hr
      split_ifs at hr with h1 h2
      · cases hr
        simp only [] at hsend
        omega
      · cases hr
        simp only [] at hsend
        omega
      · have hzero : (pd_receve_packet phy host pd).1 = 0 := by
          rcases v3 with e | e | e
          · exact e
          · exact absurd e h2
          · exact absurd (Or.inl (by omega)) h1
        obtain ⟨st, hd, rfl⟩ := Option.map_eq_some'.mp hr
        refine ⟨hzero, st, hd, rfl, ?_⟩
        unfold pd_decode_command at hd
        obtain ⟨s0, _, e⟩ := Option.map_eq_some'.mp hd
        rw [← e]
        rfl
    · rw [state_update_err K ops phy host pd slab reply0 hs] at hr
      cases hr
      simp [count_send] at hsend
  · rcases hs with hs | hs
    · rw [state_update_idle K ops phy host pd slab _ hs,
        state_update_idle K ops phy host pd slab reply0 hs]
      rfl
    · rw [state_update_err K ops phy host pd slab _ hs,
        state_update_err K ops phy host pd slab reply0 hs]

/-- The sample PD through the three sample calls: idle after the first two,
in the error state after the third, in which the channel sends short. -/
theorem never_left_sending_witness :
    (run_calls std ops_accept phy_sample (calls_sample.take 2) (pd_sample, slab_sample)).map
        (fun st => st.1.state) = some pd_state.PD_STATE_IDLE ∧
    (run_calls std ops_accept phy_sample calls_sample (pd_sample, slab_sample)).map
        (fun st => st.1.state) = some pd_state.PD_STATE_ERR ∧
    ∃ st1, run_calls std ops_accept phy_sample calls_sample (pd_sample, slab_sample) = some st1 ∧
      st1.1.state ≠ pd_state.PD_STATE_SEND_REPLY :=
  ⟨by decide, by decide,
   match h : run_calls std ops_accept phy_sample calls_sample (pd_sample, slab_sample) with
   | some st1 =>
     ⟨st1, rfl, ((never_left_sending std ops_accept phy_sample (fun _ _ => rfl)).2.1
       calls_sample pd_sample slab_sample st1 rfl h).2⟩
   | none => absurd h (by decide)⟩

/-! ## The receive buffer bound -/

theorem enqueue_reply_rx_len (st st1 : decode_state) (cmd id : Nat)
    (h : enqueue_reply st cmd id = some st1) : st1.pd.rx_buf_len = st.pd.rx_buf_len := by
  unfold enqueue_reply at h
  cases he : pd_enqueue_command st.pd st.slab cmd with
  | none =>
    rw [he] at h
    cases h
  | some r =>
    rw [he] at h
    simp only [Option.some.injEq] at h
    rw [← h]
    unfold pd_enqueue_command at he
    cases hf : st.pd.queue.front with
    | none =>
      rw [hf] at he
      simp only [Option.some.injEq] at he
      rw [← he]
      rfl
    | some f =>
      rw [hf] at he
      cases hb : st.pd.queue.back with
      | none =>
        rw [hb] at he
        cases he
      | some b =>
        rw [hb] at he
        simp only [Option.some.injEq] at he
        rw [← he]
        rfl

theorem decode_out_rx_len (K : Consts) (st st1 : decode_state) (buf : List Nat) (len : Int)
    (h : decode_out K st buf len = some st1) : st1.pd.rx_buf_len = st.pd.rx_buf_len := by
  unfold decode_out at h
  split_ifs at h
  · cases h
    rfl
  · cases ha : osdp_slab_alloc st.slab with
    | none =>
      rw [ha] at h
      cases h
      rfl
    | some a =>
      rw [ha] at h
      have e := enqueue_reply_rx_len _ st1 _ _ h
      exact e

theorem decode_led_rx_len (K : Consts) (st st1 : decode_state) (buf : List Nat) (len : Int)
    (h : decode_led K st buf len = some st1) : st1.pd.rx_buf_len = st.pd.rx_buf_len := by
  unfold decode_led at h
  split_ifs at h
  · cases h
    rfl
  · cases ha : osdp_slab_alloc st.slab with
    | none =>
      rw [ha] at h
      cases h
      rfl
    | some a =>
      rw [ha] at h
      have e := enqueue_reply_rx_len _ st1 _ _ h
      exact e

theorem decode_buz_rx_len (K : Consts) (st st1 : decode_state) (buf : List Nat) (len : Int)
    (h : decode_buz K st buf len = some st1) : st1.pd.rx_buf_len = st.pd.rx_buf_len := by
  unfold decode_buz at h
  split_ifs at h
  · cases h
    rfl
  · cases ha : osdp_slab_alloc st.slab with
    | none =>
      rw [ha] at h
      cases h
      rfl
    | some a =>
      rw [ha] at h
      have e := enqueue_reply_rx_len _ st1 _ _ h
      exact e

theorem decode_comset_rx_len (K : Consts) (st st1 : decode_state) (buf : List Nat) (len : Int)
    (h : decode_comset K st buf len = some st1) : st1.pd.rx_buf_len = st.pd.rx_buf_len := by
  unfold decode_comset at h
  split_ifs at h
  · cases h
    rfl
  · cases ha : osdp_slab_alloc st.slab with
    | none =>
      rw [ha] at h
      cases h
      rfl
    | some a =>
      rw [ha] at h
      have e := enqueue_reply_rx_len _ st1 _ _ h
      exact e

theorem decode_text_rx_len (K : Consts) (st st1 : decode_state) (buf : List Nat) (len : Int)
    (h : decode_text K st buf len = some st1) : st1.pd.rx_buf_len = st.pd.rx_buf_len := by
  unfold decode_text at h
  split_ifs at h
  · cases h
    rfl
  · cases ha : osdp_slab_alloc st.slab with
    | none =>
      rw [ha] at h
      cases h
      rfl
    | some a =>
      rw [ha] at h
      cases h
      rfl
  · cases ha : osdp_slab_alloc st.slab with
    | none =>
      rw [ha] at h
      cases h
      rfl
    | some a =>
      rw [ha] at h
      have e := enqueue_reply_rx_len _ st1 _ _ h
      exact e

theorem decode_keyset_rx_len (K : Consts) (st st1 : decode_state) (buf : List Nat) (len : Int)
    (h : decode_keyset K st buf len = some st1) : st1.pd.rx_buf_len = st.pd.rx_buf_len := by
  unfold decode_keyset at h
  split_ifs at h
  · cases h
    rfl
  · cases h
    rfl
  · cases h
    rfl
  · cases ha : osdp_slab_alloc st.slab with
    | none =>
      rw [ha] at h
      cases h
      rfl
    | some a =>
      rw [ha] at h
      simp only [] at h
      cases he : pd_enqueue_command (store_scbk st.pd buf st.pos)
          (slab_update a.2 a.1 (fill_keyset buf st.pos)) a.1 with
      | none =>
        rw [he] at h
        cases h
      | some r =>
        rw [he] at h
        simp only [Option.some.injEq] at h
        rw [← h]
        have e := enqueue_reply_rx_len
          { st with pd := store_scbk st.pd buf st.pos,
                    slab := slab_update a.2 a.1 (fill_keyset buf st.pos) }
          (reply_ok { st with pd := r.1, slab := r.2 } 0) a.1 0
          (by unfold enqueue_reply; simp only [he])
        exact e

theorem decode_chlng_rx_len (K : Consts) (ops : ScOps) (st : decode_state) (buf : List Nat)
    (len : Int) (hops : ∀ p, (ops.osdp_sc_init p).rx_buf_len = p.rx_buf_len) :
    (decode_chlng K ops st buf len).pd.rx_buf_len = st.pd.rx_buf_len := by
  unfold decode_chlng
  split_ifs
  · rfl
  · rfl
  · exact hops st.pd

theorem decode_scrypt_rx_len (K : Consts) (st : decode_state) (buf : List Nat) (len : Int) :
    (decode_scrypt K st buf len).pd.rx_buf_len = st.pd.rx_buf_len := by
  unfold decode_scrypt
  split_ifs
  · rfl
  · rfl

theorem decode_switch_rx_len (K : Consts) (ops : ScOps) (st st1 : decode_state)
    (buf : List Nat) (len : Int)
    (hops : ∀ p, (ops.osdp_sc_init p).rx_buf_len = p.rx_buf_len)
    (h : decode_switch K ops st buf len = some st1) :
    st1.pd.rx_buf_len = st.pd.rx_buf_len := by
  unfold decode_switch at h
  simp only [] at h
  by_cases e0 : st.pd.cmd_id = K.CMD_POLL
  · rw [if_pos e0] at h
    cases h
    rfl
  rw [if_neg e0] at h
  by_cases e1 : st.pd.cmd_id = K.CMD_LSTAT
  · rw [if_pos e1] at h
    cases h
    rfl
  rw [if_neg e1] at h
  by_cases e2 : st.pd.cmd_id = K.CMD_ISTAT
  · rw [if_pos e2] at h
    cases h
    rfl
  rw [if_neg e2] at h
  by_cases e3 : st.pd.cmd_id = K.CMD_OSTAT
  · rw [if_pos e3] at h
    cases h
    rfl
  rw [if_neg e3] at h
  by_cases e4 : st.pd.cmd_id = K.CMD_RSTAT
  · rw [if_pos e4] at h
    cases h
    rfl
  rw [if_neg e4] at h
  by_cases e5 : st.pd.cmd_id = K.CMD_ID
  · rw [if_pos e5] at h
    cases h
    rfl
  rw [if_neg e5] at h
  by_cases e6 : st.pd.cmd_id = K.CMD_CAP
  · rw [if_pos e6] at h
    cases h
    rfl
  rw [if_neg e6] at h
  by_cases e7 : st.pd.cmd_id = K.CMD_OUT
  · rw [if_pos e7] at h
    exact decode_out_rx_len K st st1 buf len h
  rw [if_neg e7] at h
  by_cases e8 : st.pd.cmd_id = K.CMD_LED
  · rw [if_pos e8] at h
    exact decode_led_rx_len K st st1 buf len h
  rw [if_neg e8] at h
  by_cases e9 : st.pd.cmd_id = K.CMD_BUZ
  · rw [if_pos e9] at h
    exact decode_buz_rx_len K st st1 buf len h
  rw [if_neg e9] at h
  by_cases e10 : st.pd.cmd_id = K.CMD_TEXT
  · rw [if_pos e10] at h
    exact decode_text_rx_len K st st1 buf len h
  rw [if_neg e10] at h
  by_cases e11 : st.pd.cmd_id = K.CMD_COMSET
  · rw [if_pos e11] at h
    exact decode_comset_rx_len K st st1 buf len h
  rw [if_neg e11] at h
  by_cases e12 : st.pd.cmd_id = K.CMD_KEYSET
  · rw [if_pos e12] at h
    exact decode_keyset_rx_len K st st1 buf len h
  rw [if_neg e12] at h
  by_cases e13 : st.pd.cmd_id = K.CMD_CHLNG
  · rw [if_pos e13] at h
    cases h
    exact decode_chlng_rx_len K ops st buf len hops
  rw [if_neg e13] at h
  by_cases e14 : st.pd.cmd_id = K.CMD_SCRYPT
  · rw [if_pos e14] at h
    cases h
    exact decode_scrypt_rx_len K st buf len
  rw [if_neg e14] at h
  cases h
  rfl

/-- `pd_decode_command` does not write `pd->rx_buf_len`, if `osdp_sc_init`
does not. -/
theorem decode_rx_len (K : Consts) (ops : ScOps) (pd : osdp_pd) (slab : osdp_slab)
    (reply : osdp_cmd) (buf : List Nat) (len : Int) (st : decode_state)
    (hops : ∀ p, (ops.osdp_sc_init p).rx_buf_len = p.rx_buf_len)
    (h : pd_decode_command K ops pd slab reply buf len = some st) :
    st.pd.rx_buf_len = pd.rx_buf_len := by
  unfold pd_decode_command at h
  obtain ⟨s0, hs, e⟩ := Option.map_eq_some'.mp h
  have h0 := decode_switch_rx_len K ops _ s0 buf (len - 1) hops hs
  rw [← e]
  exact h0

theorem build_switch_rx_len (K : Consts) (ops : ScOps) (pd : osdp_pd) (reply : osdp_cmd)
    (b0 : List Nat) (m1 : Int) (d : Nat) (smb : Option Nat) (hops : ops.keeps_rx_len) :
    (build_switch K ops pd reply b0 m1 d smb).pd.rx_buf_len = pd.rx_buf_len := by
  obtain ⟨_, h2, h3, h4⟩ := hops
  refine build_switch_each (fun x => x.pd.rx_buf_len = pd.rx_buf_len) K ops pd reply b0 m1 d smb
    rfl ?_ rfl ?_ ?_ ?_ ?_ ?_ ?_
  · unfold build_pdid
    split_ifs
    · rfl
    · rfl
  · unfold build_lstatr
    split_ifs
    · rfl
    · rfl
  · unfold build_rstatr
    split_ifs
    · rfl
    · rfl
  · unfold build_com
    split_ifs
    · rfl
    · rfl
  · unfold build_nak
    split_ifs
    · rfl
    · rfl
  · cases smb with
    | none => rfl
    | some m =>
      unfold build_ccrypt
      by_cases h : m1 < 32
      · simp only [if_pos h]
      · simp only [if_neg h]
        exact (h3 _).trans ((h2 _).trans rfl)
  · cases smb with
    | none => rfl
    | some m =>
      unfold build_rmac_i
      by_cases h : m1 < 16
      · simp only [if_pos h]
      · simp only [if_neg h]
        exact h4 pd

/-- `pd_build_reply` does not write `pd->rx_buf_len`, if the secure-channel
routines do not. -/
theorem build_reply_rx_len (K : Consts) (ops : ScOps) (pd : osdp_pd) (reply : osdp_cmd)
    (buf : List Nat) (max_len : Int) (d : Nat) (smb : Option Nat) (hops : ops.keeps_rx_len) :
    (pd_build_reply K ops pd reply buf max_len d smb).pd.rx_buf_len = pd.rx_buf_len := by
  have hs := build_switch_rx_len K ops pd reply (wr buf d reply.id) (max_len - (d + 1)) d smb hops
  unfold pd_build_reply
  split_ifs
  · rfl
  · unfold build_finish
    split_ifs
    · exact hs
    · exact hs
    · exact hs

/-- `pd_send_reply` does not write `pd->rx_buf_len`, if the packet layer and
the secure-channel routines do not. -/
theorem send_reply_rx_len (K : Consts) (ops : ScOps) (phy : PhyOps) (host : Host)
    (pd : osdp_pd) (reply : osdp_cmd) (hphy : phy.keeps_rx_len) (hops : ops.keeps_rx_len) :
    (pd_send_reply K ops phy host pd reply).2.1.rx_buf_len = pd.rx_buf_len := by
  obtain ⟨p1, p2, _⟩ := hphy
  have hh : (send_head phy host pd reply).2.rx_buf_len = pd.rx_buf_len := p1 pd _ _
  have hb : (send_body K ops phy host pd reply).pd.rx_buf_len = pd.rx_buf_len :=
    (build_reply_rx_len K ops _ reply _ _ _ _ hops).trans hh
  have ht : (send_tail K ops phy host pd reply).2.rx_buf_len = pd.rx_buf_len :=
    (p2 _ _ _).trans hb
  rw [pd_send_reply_eq]
  split_ifs
  · exact hh
  · exact hb
  · exact ht
  · exact ht
  · exact ht

theorem send_reply_case_rx_len (K : Consts) (ops : ScOps) (phy : PhyOps) (host : Host)
    (pd : osdp_pd) (slab : osdp_slab) (reply : osdp_cmd) (evs : List chan_event) (size : Int)
    (hphy : phy.keeps_rx_len) (hops : ops.keeps_rx_len) (h : rx_len_ok size pd) :
    rx_len_ok size (send_reply_case K ops phy host pd slab reply evs).1 := by
  have hs := send_reply_rx_len K ops phy host pd reply hphy hops
  obtain ⟨h1, h2⟩ := h
  unfold send_reply_case
  simp only []
  split_ifs
  · exact ⟨hs ▸ h1, hs ▸ h2⟩
  · exact ⟨le_refl 0, h1.trans h2⟩

/-- The bytes `recv` delivers are stored inside `rx_buf`, if `recv` returns at
most the `maxlen` it is given. -/
theorem received_in_bounds (host : Host) (pd : osdp_pd) (j : Nat)
    (h : rx_len_ok host.RX_BUF_SIZE pd)
    (hrecv : (host.recv pd.channel.data (host.RX_BUF_SIZE - pd.rx_buf_len)).1
      ≤ host.RX_BUF_SIZE - pd.rx_buf_len)
    (hj : host.RX_BUF_SIZE ≤ j) :
    rd (received host pd).rx_buf j = rd pd.rx_buf j := by
  obtain ⟨h1, h2⟩ := h
  show rd (copy_bytes pd.rx_buf pd.rx_buf_len.toNat _ 0 _) j = _
  rw [rd_copy_bytes, if_neg]
  omega

theorem receve_rx_len (phy : PhyOps) (host : Host) (pd : osdp_pd)
    (hphy : phy.keeps_rx_len)
    (hdec : ∀ p len, 0 ≤ len → (phy.phy_decode_packet p len).1 ≤ len)
    (hrecv : (host.recv pd.channel.data (host.RX_BUF_SIZE - pd.rx_buf_len)).1
      ≤ host.RX_BUF_SIZE - pd.rx_buf_len)
    (h : rx_len_ok host.RX_BUF_SIZE pd) :
    rx_len_ok host.RX_BUF_SIZE (pd_receve_packet phy host pd).2.1 := by
  obtain ⟨h1, h2⟩ := h
  by_cases hn : (host.recv pd.channel.data (host.RX_BUF_SIZE - pd.rx_buf_len)).1 ≤ 0
  · rw [receve_nothing phy host pd hn]
    exact ⟨h1, h2⟩
  · have hl : (received host pd).rx_buf_len = pd.rx_buf_len
        + (host.recv pd.channel.data (host.RX_BUF_SIZE - pd.rx_buf_len)).1 := rfl
    have hk := hphy.2.2 (received host pd) (received host pd).rx_buf_len
    have hd := hdec (received host pd) (received host pd).rx_buf_len (by omega)
    rw [receve_bytes phy host pd (by omega)]
    split_ifs with c1 c2 c3 c4
    · exact ⟨le_refl 0, h1.trans h2⟩
    · show 0 ≤ _ ∧ _ ≤ _
      rw [hk]
      omega
    · exact ⟨le_refl 0, h1.trans h2⟩
    · show 0 ≤ _ ∧ _ ≤ _
      rw [hk]
      omega
    · show 0 ≤ _ ∧ _ ≤ _
      constructor
      · show (0 : Int) ≤ (phy.phy_decode_packet (received host pd) (received host pd).rx_buf_len).1
        omega
      · show (phy.phy_decode_packet (received host pd) (received host pd).rx_buf_len).1 ≤ _
        omega

theorem flush_events_recv (pd : osdp_pd) (m : Int) : chan_event.recv m ∉ flush_events pd := by
  unfold flush_events
  split_ifs
  · simp
  · simp

theorem receve_recv_events (phy : PhyOps) (host : Host) (pd : osdp_pd) (m : Int)
    (h : chan_event.recv m ∈ (pd_receve_packet phy host pd).2.2) :
    m = host.RX_BUF_SIZE - pd.rx_buf_len := by
  have hf := flush_events_recv
    (phy.phy_decode_packet (received host pd) (received host pd).rx_buf_len).2 m
  by_cases hn : (host.recv pd.channel.data (host.RX_BUF_SIZE - pd.rx_buf_len)).1 ≤ 0
  · rw [receve_nothing phy host pd hn] at h
    simpa using h
  · rw [receve_bytes phy host pd (by omega)] at h
    split_ifs at h
    · rcases List.mem_cons.mp h with e | e
      · simpa using e
      · exact absurd e hf
    · simpa using h
    · rcases List.mem_cons.mp h with e | e
      · simpa using e
      · exact absurd e hf
    · simpa using h
    · simpa using h

theorem send_recv_events (K : Consts) (ops : ScOps) (phy : PhyOps) (host : Host)
    (pd : osdp_pd) (reply : osdp_cmd) (m : Int) :
    chan_event.recv m ∉ (pd_send_reply K ops phy host pd reply).2.2 := by
  rw [pd_send_reply_eq]
  split_ifs
  · simp
  · simp
  · simp
  · simp
  · simp

/-- One call of `pd_state_update` keeps `rx_buf_len` between 0 and the size of
`rx_buf`, and every `recv` it makes is given the room left in `rx_buf`. -/
theorem state_update_rx_len (K : Consts) (ops : ScOps) (phy : PhyOps) (host : Host)
    (pd : osdp_pd) (slab : osdp_slab) (reply0 : osdp_cmd)
    (r : osdp_pd × osdp_slab × List chan_event)
    (hphy : phy.keeps_rx_len) (hops : ops.keeps_rx_len)
    (hdec : ∀ p len, 0 ≤ len → (phy.phy_decode_packet p len).1 ≤ len)
    (hrecv : ∀ data m, 0 ≤ m → (host.recv data m).1 ≤ m)
    (h : rx_len_ok host.RX_BUF_SIZE pd)
    (hr : pd_state_update K ops phy host pd slab reply0 = some r) :
    rx_len_ok host.RX_BUF_SIZE r.1 ∧
    ∀ m, chan_event.recv m ∈ r.2.2 → m = host.RX_BUF_SIZE - pd.rx_buf_len := by
  have hrc := receve_rx_len phy host pd hphy hdec (hrecv _ _ (by have := h.2; omega)) h
  cases hs : pd.state with
  | PD_STATE_IDLE =>
    rw [state_update_idle K ops phy host pd slab reply0 hs] at hr
    split_ifs at hr
    · cases hr
      exact ⟨hrc, fun m hm => receve_recv_events phy host pd m hm⟩
    · cases hr
      exact ⟨hrc, fun m hm => receve_recv_events phy host pd m hm⟩
    · obtain ⟨st, hst, rfl⟩ := Option.map_eq_some'.mp hr
      have hd := decode_rx_len K ops _ slab reply0 _ _ st hops.1 hst
      have hok : rx_len_ok host.RX_BUF_SIZE
          { st.pd with state := pd_state.PD_STATE_SEND_REPLY } := by
        show 0 ≤ st.pd.rx_buf_len ∧ st.pd.rx_buf_len ≤ _
        rw [hd]
        exact hrc
      refine ⟨send_reply_case_rx_len K ops phy host _ st.slab st.reply _ _ hphy hops hok, ?_⟩
      intro m hm
      rw [(send_reply_case_spec K ops phy host _ st.slab st.reply _).2.1] at hm
      rcases List.mem_append.mp hm with e | e
      · exact receve_recv_events phy host pd m e
      · exact absurd e (send_recv_events K ops phy host _ st.reply m)
  | PD_STATE_SEND_REPLY =>
    rw [state_update_send K ops phy host pd slab reply0 hs] at hr
    cases hr
    refine ⟨send_reply_case_rx_len K ops phy host pd slab reply0 [] _ hphy hops h, ?_⟩
    intro m hm
    rw [(send_reply_case_spec K ops phy host pd slab reply0 []).2.1] at hm
    rcases List.mem_append.mp hm with e | e
    · simp at e
    · exact absurd e (send_recv_events K ops phy host pd reply0 m)
  | PD_STATE_ERR =>
    rw [state_update_err K ops phy host pd slab reply0 hs] at hr
    cases hr
    refine ⟨⟨le_refl 0, h.1.trans h.2⟩, ?_⟩
    intro m hm
    simp at hm

theorem run_calls_rx_len (K : Consts) (ops : ScOps) (phy : PhyOps) (size : Int)
    (hphy : phy.keeps_rx_len) (hops : ops.keeps_rx_len)
    (hdec : ∀ p len, 0 ≤ len → (phy.phy_decode_packet p len).1 ≤ len)
    (calls : List (Host × osdp_cmd)) (st st1 : osdp_pd × osdp_slab)
    (hc : ∀ c ∈ calls, c.1.RX_BUF_SIZE = size ∧ ∀ data m, 0 ≤ m → (c.1.recv data m).1 ≤ m)
    (h : rx_len_ok size st.1)
    (hr : run_calls K ops phy calls st = some st1) :
    rx_len_ok size st1.1 := by
  induction calls generalizing st with
  | nil =>
    simp only [run_calls, Option.some.injEq] at hr
    rw [← hr]
    exact h
  | cons c rest ih =>
    rw [run_calls] at hr
    obtain ⟨hsz, hrecv⟩ := hc c (List.mem_cons_self c rest)
    cases hu : pd_state_update K ops phy c.1 st.1 st.2 c.2 with
    | none =>
      rw [hu] at hr
      cases hr
    | some r =>
      rw [hu] at hr
      have h0 : rx_len_ok c.1.RX_BUF_SIZE st.1 := hsz.symm ▸ h
      have h1 := (state_update_rx_len K ops phy c.1 st.1 st.2 c.2 r hphy hops hdec hrecv h0
        hu).1
      exact ih (r.1, r.2.1) (fun c2 hc2 => hc c2 (List.mem_cons_of_mem c hc2)) (hsz ▸ h1) hr

theorem host_fit_recv (data : Nat) (m : Int) (_h : 0 ≤ m) : (host_fit.recv data m).1 ≤ m := by
  show (if 1 ≤ m then ((1 : Int), [0x60]) else (0, [])).1 ≤ m
  split_ifs
  · show (1 : Int) ≤ m
    omega
  · exact _h

theorem calls_fit_hosts (c : Host × osdp_cmd) (h : c ∈ calls_fit) :
    c.1.RX_BUF_SIZE = 256 ∧ ∀ data m, 0 ≤ m → (c.1.recv data m).1 ≤ m := by
  simp only [calls_fit, List.mem_cons, List.mem_singleton, List.not_mem_nil, or_false] at h
  rcases h with rfl | rfl | rfl
  · exact ⟨rfl, host_fit_recv⟩
  · exact ⟨rfl, fun _ _ hm => hm⟩
  · exact ⟨rfl, host_fit_recv⟩

/-- C35: let the packet layer and the secure-channel routines leave
`pd->rx_buf_len` alone, and let `phy_decode_packet` return at most the length
it is given. For every host whose `recv` returns at most the `maxlen` it is
given and every PD record with 0 ≤ rx_buf_len ≤ sizeof(rx_buf): the `maxlen`
of every `recv` call of `pd_receve_packet` and of `pd_state_update` is the
room left, which is not negative and ends at the end of `rx_buf`; there is
one such call in `pd_receve_packet`; the bytes delivered are stored inside
`rx_buf`; 0 ≤ rx_buf_len ≤ sizeof(rx_buf) holds after `pd_receve_packet`,
after `pd_state_update` (which returns whenever its queue is well formed) and
after every sequence of calls of `pd_state_update`. For every host and PD
record, when `recv` returns 0 or less `pd_receve_packet` returns 1 and leaves
the PD record, `rx_buf_len` and `tstamp` included, as it was. -/
theorem rx_buf_bound (K : Consts) (hK : K.WF) (ops : ScOps) (phy : PhyOps) (size : Int)
    (hphy : phy.keeps_rx_len) (hops : ops.keeps_rx_len)
    (hdec : ∀ p len, 0 ≤ len → (phy.phy_decode_packet p len).1 ≤ len) :
    (∀ (host : Host) (pd : osdp_pd), host.RX_BUF_SIZE = size →
      (∀ data m, 0 ≤ m → (host.recv data m).1 ≤ m) → rx_len_ok size pd →
      (∀ m, chan_event.recv m ∈ (pd_receve_packet phy host pd).2.2 →
        m = size - pd.rx_buf_len ∧ 0 ≤ m ∧ pd.rx_buf_len + m ≤ size) ∧
      count_recv (pd_receve_packet phy host pd).2.2 = 1 ∧
      (∀ j : Nat, size ≤ j → rd (received host pd).rx_buf j = rd pd.rx_buf j) ∧
      rx_len_ok size (pd_receve_packet phy host pd).2.1 ∧
      (∀ slab reply0 r, pd_state_update K ops phy host pd slab reply0 = some r →
        rx_len_ok size r.1 ∧
        ∀ m, chan_event.recv m ∈ r.2.2 →
          m = size - pd.rx_buf_len ∧ 0 ≤ m ∧ pd.rx_buf_len + m ≤ size) ∧
      (∀ slab reply0, (pd.state ≠ pd_state.PD_STATE_IDLE ∨
          ∃ l, is_queue slab (pd_receve_packet phy host pd).2.1.queue l) →
        ∃ r, pd_state_update K ops phy host pd slab reply0 = some r ∧ rx_len_ok size r.1)) ∧
    (∀ (calls : List (Host × osdp_cmd)) (st st1 : osdp_pd × osdp_slab),
      (∀ c ∈ calls, c.1.RX_BUF_SIZE = size ∧ ∀ data m, 0 ≤ m → (c.1.recv data m).1 ≤ m) →
      rx_len_ok size st.1 → run_calls K ops phy calls st = some st1 → rx_len_ok size st1.1) ∧
    (∀ (host : Host) (pd : osdp_pd),
      (host.recv pd.channel.data (host.RX_BUF_SIZE - pd.rx_buf_len)).1 ≤ 0 →
      pd_receve_packet phy host pd
        = (1, pd, [chan_event.recv (host.RX_BUF_SIZE - pd.rx_buf_len)]) ∧
      (pd_receve_packet phy host pd).2.1.rx_buf_len = pd.rx_buf_len ∧
      (pd_receve_packet phy host pd).2.1.tstamp = pd.tstamp) := by
  refine ⟨?_, ?_, ?_⟩
  · intro host pd hsz hrecv h
    subst hsz
    have hroom : 0 ≤ host.RX_BUF_SIZE - pd.rx_buf_len := by
      have := h.2
      omega
    have hev : ∀ m, m = host.RX_BUF_SIZE - pd.rx_buf_len →
        m = host.RX_BUF_SIZE - pd.rx_buf_len ∧ 0 ≤ m ∧ pd.rx_buf_len + m ≤ host.RX_BUF_SIZE := by
      intro m e
      refine ⟨e, ?_, ?_⟩
      · omega
      · omega
    refine ⟨fun m hm => hev m (receve_recv_events phy host pd m hm),
      (receve_summary phy host pd).1,
      fun j hj => received_in_bounds host pd j h (hrecv _ _ hroom) hj,
      receve_rx_len phy host pd hphy hdec (hrecv _ _ hroom) h, ?_, ?_⟩
    · intro slab reply0 r hr
      have hu := state_update_rx_len K ops phy host pd slab reply0 r hphy hops hdec hrecv h hr
      exact ⟨hu.1, fun m hm => hev m (hu.2 m hm)⟩
    · intro slab reply0 hq
      obtain ⟨r, hr⟩ := state_update_returns K hK ops phy host pd slab reply0 hq
      exact ⟨r, hr,
        (state_update_rx_len K ops phy host pd slab reply0 r hphy hops hdec hrecv h hr).1⟩
  · intro calls st st1 hc h hr
    exact run_calls_rx_len K ops phy size hphy hops hdec calls st st1 hc h hr
  · intro host pd hn
    have e := receve_nothing phy host pd hn
    refine ⟨e, ?_, ?_⟩
    · rw [e]
    · rw [e]

/-- The sample PD with two bytes held takes a third one; with its buffer full
it asks `recv` for 0 bytes; through the three sample calls its `rx_buf_len`
stays within the 256 bytes; and when nothing arrives it is left as it was. -/
theorem rx_buf_bound_witness :
    rx_len_ok 256 (pd_receve_packet phy_sample host_fit pd_part).2.1 ∧
    (pd_receve_packet phy_sample host_fit pd_part).2.1.rx_buf_len = 3 ∧
    (pd_receve_packet phy_sample host_fit pd_filled).2.2 = [chan_event.recv 0] ∧
    rx_len_ok 256 (pd_receve_packet phy_sample host_fit pd_filled).2.1 ∧
    (∃ st1, run_calls std ops_accept phy_sample calls_fit (pd_sample, slab_sample) = some st1 ∧
      rx_len_ok 256 st1.1) ∧
    pd_receve_packet phy_sample host_sample pd_part = (1, pd_part, [chan_event.recv 254]) :=
  ⟨((rx_buf_bound std std_wf ops_accept phy_sample 256
      ⟨fun _ _ _ => rfl, fun _ _ _ => rfl, fun _ _ => rfl⟩
      ⟨fun _ => rfl, fun _ => rfl, fun _ => rfl, fun _ => rfl⟩
      (fun _ len _ => le_refl len)).1 host_fit pd_part rfl host_fit_recv (by decide)).2.2.2.1,
   by decide, by decide,
   ((rx_buf_bound std std_wf ops_accept phy_sample 256
      ⟨fun _ _ _ => rfl, fun _ _ _ => rfl, fun _ _ => rfl⟩
      ⟨fun _ => rfl, fun _ => rfl, fun _ => rfl, fun _ => rfl⟩
      (fun _ len _ => le_refl len)).1 host_fit pd_filled rfl host_fit_recv (by decide)).2.2.2.1,
   match h : run_calls std ops_accept phy_sample calls_fit (pd_sample, slab_sample) with
   | some st1 =>
     ⟨st1, rfl, (rx_buf_bound std std_wf ops_accept phy_sample 256
        ⟨fun _ _ _ => rfl, fun _ _ _ => rfl, fun _ _ => rfl⟩
        ⟨fun _ => rfl, fun _ => rfl, fun _ => rfl, fun _ => rfl⟩
        (fun _ len _ => le_refl len)).2.1 calls_fit (pd_sample, slab_sample) st1
        calls_fit_hosts (by decide) h⟩
   | none => absurd h (by decide),
   ((rx_buf_bound std std_wf ops_accept phy_sample 256
      ⟨fun _ _ _ => rfl, fun _ _ _ => rfl, fun _ _ => rfl⟩
      ⟨fun _ => rfl, fun _ => rfl, fun _ => rfl, fun _ => rfl⟩
      (fun _ len _ => le_refl len)).2.2 host_sample pd_part (by decide)).1⟩

/-! ## The crypto backend -/

/-- The CCRYPT reply built into a packet with a secure-channel block at `m`
and room for its 33 bytes. -/
theorem build_ccrypt_built (K : Consts) (hK : K.WF) (ops : ScOps) (pd : osdp_pd)
    (reply : osdp_cmd) (buf : List Nat) (max_len : Int) (d m : Nat)
    (hid : reply.id = K.REPLY_CCRYPT) (hsp : (d : Int) + 33 ≤ max_len) :
    pd_build_reply K ops pd reply buf max_len d (some m)
      = ⟨ops.osdp_compute_pd_cryptogram (ops.osdp_compute_session_keys pd),
          wr (wr (wr
            (put_bytes (put_bytes (put_bytes (wr buf d reply.id) d 1
              (ops.osdp_compute_pd_cryptogram
                (ops.osdp_compute_session_keys pd)).sc.pd_client_uid 8)
              d 9
              (ops.osdp_compute_pd_cryptogram (ops.osdp_compute_session_keys pd)).sc.pd_random 8)
              d 17
              (ops.osdp_compute_pd_cryptogram
                (ops.osdp_compute_session_keys pd)).sc.pd_cryptogram 16)
            m 3) (m + 1) K.SCS_12) (m + 2)
            (if ISSET_FLAG (ops.osdp_compute_pd_cryptogram
                (ops.osdp_compute_session_keys pd)).flags
                K.PD_FLAG_SC_USE_SCBKD = true then 0 else 1),
          33⟩ := by
  have h1 : ¬ (max_len - ((d : Int) + 1) < 0) := by omega
  have h2 : ¬ (max_len - ((d : Int) + 1) < 32) := by omega
  unfold pd_build_reply
  rw [if_neg h1, build_switch_ccrypt K hK ops pd reply _ _ d (some m) hid]
  unfold build_ccrypt
  simp only [if_neg h2]
  rw [build_finish_ok K _ _ 32 d (some m), build_scb_fix_keep]
  · rfl
  · rw [rd_wr_other _ _ _ _ (by omega), rd_wr_same]
    exact hK.scs_order.1

/-- C36: for every key, IV (`none` for NULL), buffer and length,
`osdp_encrypt` and `osdp_decrypt` return the data buffer as it was, so that
decrypting after encrypting gives the data back and neither result depends on
the key or the IV; `osdp_fill_random` returns its buffer as it was. So the PD
record that `pd_build_reply` leaves for REPLY_CCRYPT (secure-channel block at
`m` in front of the data, room for 33 bytes) is the one the two
secure-channel routines make of the unchanged record, the reply bytes 9 to 16
are its `pd_random`, and they are the `pd_random` the PD held before the
reply whenever the two routines keep that field. -/
theorem crypto_inert (K : Consts) (hK : K.WF) (ops : ScOps) (pd : osdp_pd)
    (reply : osdp_cmd) (buf : List Nat) (max_len : Int) (d m : Nat)
    (key key2 : List Nat) (iv iv2 : Option (List Nat)) (data : List Nat) (n : Int)
    (hid : reply.id = K.REPLY_CCRYPT) (hsp : (d : Int) + 33 ≤ max_len) (hm : m + 3 ≤ d) :
    osdp_encrypt key iv data n = data ∧
    osdp_decrypt key iv data n = data ∧
    osdp_decrypt key iv (osdp_encrypt key iv data n) n = data ∧
    osdp_encrypt key iv data n = osdp_encrypt key2 iv2 data n ∧
    osdp_decrypt key iv data n = osdp_decrypt key2 iv2 data n ∧
    osdp_fill_random data n = data ∧
    (pd_build_reply K ops pd reply buf max_len d (some m)).pd
      = ops.osdp_compute_pd_cryptogram (ops.osdp_compute_session_keys pd) ∧
    (∀ i, i < 8 → rd (pd_build_reply K ops pd reply buf max_len d (some m)).buf (d + 9 + i)
      = rd (ops.osdp_compute_pd_cryptogram
          (ops.osdp_compute_session_keys pd)).sc.pd_random i) ∧
    ((∀ p, (ops.osdp_compute_session_keys p).sc.pd_random = p.sc.pd_random) →
      (∀ p, (ops.osdp_compute_pd_cryptogram p).sc.pd_random = p.sc.pd_random) →
      (pd_build_reply K ops pd reply buf max_len d (some m)).pd.sc.pd_random
        = pd.sc.pd_random ∧
      ∀ i, i < 8 → rd (pd_build_reply K ops pd reply buf max_len d (some m)).buf (d + 9 + i)
        = rd pd.sc.pd_random i) := by
  have hb := build_ccrypt_built K hK ops pd reply buf max_len d m hid hsp
  have hr : ∀ i, i < 8 → rd (pd_build_reply K ops pd reply buf max_len d (some m)).buf
      (d + 9 + i)
      = rd (ops.osdp_compute_pd_cryptogram (ops.osdp_compute_session_keys pd)).sc.pd_random
        i := by
    intro i hi
    have f1 : d + 9 + i ≠ m + 2 := by omega
    have f2 : d + 9 + i ≠ m + 1 := by omega
    have f3 : d + 9 + i ≠ m := by omega
    rw [hb]
    simp only []
    rw [rd_wr_other _ _ _ _ f1, rd_wr_other _ _ _ _ f2, rd_wr_other _ _ _ _ f3,
      rd_put_bytes, if_neg (by omega), rd_put_bytes, if_pos (by omega)]
    exact congrArg (rd _) (by omega)
  refine ⟨rfl, rfl, rfl, rfl, rfl, rfl, ?_, hr, ?_⟩
  · rw [hb]
  · intro k1 k2
    have e : (ops.osdp_compute_pd_cryptogram (ops.osdp_compute_session_keys pd)).sc.pd_random
        = pd.sc.pd_random := (k2 _).trans (k1 pd)
    constructor
    · rw [hb]
      exact e
    · intro i hi
      rw [hr i hi, e]

/-- The sample PD, whose `pd_random` is `sc_sample.pd_random`, answers with
those eight bytes; a sample buffer goes through `osdp_encrypt` unchanged. -/
theorem crypto_inert_witness :
    osdp_encrypt key_sample none [1, 2, 3] 3 = [1, 2, 3] ∧
    (pd_build_reply std ops_accept pd_secure (reply_with 0x76) pkt_secure 256 8 (some 5)).pd
      = pd_secure ∧
    ∀ i, i < 8 →
      rd (pd_build_reply std ops_accept pd_secure (reply_with 0x76) pkt_secure 256 8
        (some 5)).buf (8 + 9 + i) = rd pd_secure.sc.pd_random i :=
  ⟨(crypto_inert std std_wf ops_accept pd_secure (reply_with 0x76) pkt_secure 256 8 5
      key_sample [] none none [1, 2, 3] 3 rfl (by decide) (by decide)).1,
   (crypto_inert std std_wf ops_accept pd_secure (reply_with 0x76) pkt_secure 256 8 5
      key_sample [] none none [1, 2, 3] 3 rfl (by decide) (by decide)).2.2.2.2.2.2.1,
   ((crypto_inert std std_wf ops_accept pd_secure (reply_with 0x76) pkt_secure 256 8 5
      key_sample [] none none [1, 2, 3] 3 rfl (by decide) (by decide)).2.2.2.2.2.2.2.2
      (fun _ => rfl) (fun _ => rfl)).2⟩

/-! ## The channel calls of a tick -/

theorem setup_state (K : Consts) (mem : setup_mem) (info : osdp_pd_info_t)
    (scbk : Option (List Nat)) (pd : osdp_pd) (slab : osdp_slab)
    (h : osdp_pd_setup K mem info scbk = some (some (pd, slab))) :
    pd.state = pd_state.PD_STATE_IDLE := by
  obtain ⟨_, _, _, _, p, hp, e⟩ := osdp_pd_setup_ok K mem info scbk pd slab h
  have hf := set_attributes_frame _ p _ _ hp
  have hs : (setup_fields K info scbk).state = pd_state.PD_STATE_IDLE := by
    cases scbk with
    | none => rfl
    | some key => rfl
  rw [e]
  show p.state = _
  rw [hf]
  exact hs

/-- C22: for every PD state and every behaviour of the channel, one call of
`pd_state_update` calls `recv` at most once and `send` at most once, and in
state PD_STATE_ERR it calls neither. The state is PD_STATE_IDLE after
`osdp_pd_setup`, and PD_STATE_IDLE or PD_STATE_ERR after every call that
started in one of these two (`phy_decode_packet` leaving `pd->state` alone),
hence after every sequence of calls from the idle state. In each of these
states, and so in every call of such a sequence, the call returns (from the
idle state: given a well-formed queue), and it calls `send` only if in that
same call the state was idle, `recv` was called once and delivered bytes,
`phy_decode_packet` accepted the buffer (returned 0 or more) and
`pd_receve_packet` returned 0. -/
theorem tick_channel_calls (K : Consts) (hK : K.WF) (ops : ScOps) (phy : PhyOps)
    (hphy : ∀ p len, (phy.phy_decode_packet p len).2.state = p.state) :
    (∀ (host : Host) (pd : osdp_pd) (slab : osdp_slab) (reply0 : osdp_cmd)
        (r : osdp_pd × osdp_slab × List chan_event),
      pd_state_update K ops phy host pd slab reply0 = some r →
      count_recv r.2.2 ≤ 1 ∧ count_send r.2.2 ≤ 1 ∧
      (pd.state = pd_state.PD_STATE_ERR → r.2.2 = [])) ∧
    (∀ (mem : setup_mem) (info : osdp_pd_info_t) (scbk : Option (List Nat)) (pd : osdp_pd)
        (slab : osdp_slab),
      osdp_pd_setup K mem info scbk = some (some (pd, slab)) →
      pd.state = pd_state.PD_STATE_IDLE) ∧
    (∀ (host : Host) (pd : osdp_pd) (slab : osdp_slab) (reply0 : osdp_cmd),
      pd.state = pd_state.PD_STATE_IDLE ∨ pd.state = pd_state.PD_STATE_ERR →
      ((pd.state = pd_state.PD_STATE_ERR ∨
          ∃ l, is_queue slab (pd_receve_packet phy host pd).2.1.queue l) →
        ∃ r, pd_state_update K ops phy host pd slab reply0 = some r) ∧
      ∀ r, pd_state_update K ops phy host pd slab reply0 = some r →
        (r.1.state = pd_state.PD_STATE_IDLE ∨ r.1.state = pd_state.PD_STATE_ERR) ∧
        (0 < count_send r.2.2 →
          pd.state = pd_state.PD_STATE_IDLE ∧ count_recv r.2.2 = 1 ∧
          0 < (host.recv pd.channel.data (host.RX_BUF_SIZE - pd.rx_buf_len)).1 ∧
          0 ≤ (phy.phy_decode_packet (received host pd) (received host pd).rx_buf_len).1 ∧
          (pd_receve_packet phy host pd).1 = 0)) ∧
    (∀ (calls : List (Host × osdp_cmd)) (st st1 : osdp_pd × osdp_slab),
      st.1.state = pd_state.PD_STATE_IDLE → run_calls K ops phy calls st = some st1 →
      (st1.1.state = pd_state.PD_STATE_IDLE ∨ st1.1.state = pd_state.PD_STATE_ERR) ∧
      ∀ (host : Host) (reply0 : osdp_cmd) (r : osdp_pd × osdp_slab × List chan_event),
        pd_state_update K ops phy host st1.1 st1.2 reply0 = some r →
        count_recv r.2.2 ≤ 1 ∧ count_send r.2.2 ≤ 1 ∧
        (0 < count_send r.2.2 →
          count_recv r.2.2 = 1 ∧
          0 < (host.recv st1.1.channel.data (host.RX_BUF_SIZE - st1.1.rx_buf_len)).1 ∧
          0 ≤ (phy.phy_decode_packet (received host st1.1)
                (received host st1.1).rx_buf_len).1)) := by
  have one : ∀ (host : Host) (pd : osdp_pd) (slab : osdp_slab) (reply0 : osdp_cmd)
      (r : osdp_pd × osdp_slab × List chan_event),
      pd.state = pd_state.PD_STATE_IDLE ∨ pd.state = pd_state.PD_STATE_ERR →
      pd_state_update K ops phy host pd slab reply0 = some r →
      0 < count_send r.2.2 →
        pd.state = pd_state.PD_STATE_IDLE ∧ count_recv r.2.2 = 1 ∧
        0 < (host.recv pd.channel.data (host.RX_BUF_SIZE - pd.rx_buf_len)).1 ∧
        0 ≤ (phy.phy_decode_packet (received host pd) (received host pd).rx_buf_len).1 ∧
        (pd_receve_packet phy host pd).1 = 0 := by
    intro host pd slab reply0 r hs hr hsend
    obtain ⟨_, c2, c3, c4, _⟩ := (calls_by_state K hK ops phy host pd slab reply0).2 r hr
    rcases hs with hs | hs
    · obtain ⟨d1, d2⟩ := c4 hs
      have d3 := d2 (by omega)
      exact ⟨hs, d1, d3.1, d3.2, ((receve_summary phy host pd).2.2.2).mpr d3⟩
    · rw [c3 hs] at hsend
      simp [count_send] at hsend
  refine ⟨?_, ?_, ?_, ?_⟩
  · intro host pd slab reply0 r hr
    obtain ⟨c1, c2, c3, _⟩ := (calls_by_state K hK ops phy host pd slab reply0).2 r hr
    exact ⟨c1, c2, c3⟩
  · intro mem info scbk pd slab h
    exact setup_state K mem info scbk pd slab h
  · intro host pd slab reply0 hs
    refine ⟨fun hq => ?_, fun r hr => ?_⟩
    · refine (calls_by_state K hK ops phy host pd slab reply0).1 ?_
      rcases hq with e | e
      · left
        rw [e]
        exact fun h => pd_state.noConfusion h
      · exact Or.inr e
    · exact ⟨state_after_call K ops phy host pd slab reply0 r hphy hs hr,
        one host pd slab reply0 r hs hr⟩
  · intro calls st st1 hs hr
    have h1 := state_after_calls K ops phy hphy calls st st1 (Or.inl hs) hr
    refine ⟨h1, fun host reply0 r hu => ?_⟩
    obtain ⟨c1, c2, _⟩ := (calls_by_state K hK ops phy host st1.1 st1.2 reply0).2 r hu
    refine ⟨c1, c2, fun hsend => ?_⟩
    obtain ⟨_, e1, e2, e3, _⟩ := one host st1.1 st1.2 reply0 r h1 hu hsend
    exact ⟨e1, e2, e3⟩

/-- The sample PD in the idle state on a channel that delivers a POLL: the
call receives once, sends the ACK once, and is idle again; the three sample
calls leave the idle or the error state, and the call that follows them
receives and sends at most once. -/
theorem tick_channel_calls_witness :
    (pd_state_update std ops_accept phy_sample host_poll pd_sample slab_sample cmd_zero).map
        (fun r => (r.1.state, r.2.2))
      = some (pd_state.PD_STATE_IDLE,
          [chan_event.recv 256, chan_event.send [0x60, 0, 0, 0, 0, 0x40] 8]) ∧
    (∃ r, pd_state_update std ops_accept phy_sample host_poll pd_sample slab_sample cmd_zero
        = some r ∧ count_recv r.2.2 ≤ 1 ∧ count_send r.2.2 ≤ 1) ∧
    ∃ st1, run_calls std ops_accept phy_sample calls_sample (pd_sample, slab_sample) = some st1 ∧
      (st1.1.state = pd_state.PD_STATE_IDLE ∨ st1.1.state = pd_state.PD_STATE_ERR) ∧
      ∀ r, pd_state_update std ops_accept phy_sample host_poll st1.1 st1.2 cmd_zero = some r →
        count_recv r.2.2 ≤ 1 ∧ count_send r.2.2 ≤ 1 :=
  ⟨by decide,
   match ((tick_channel_calls std std_wf ops_accept phy_sample (fun _ _ => rfl)).2.2.1
     host_poll pd_sample slab_sample cmd_zero (Or.inl rfl)).1
       (Or.inr ⟨[], rfl, fun h => absurd rfl h⟩) with
   | ⟨r, hr⟩ =>
     ⟨r, hr,
      ((tick_channel_calls std std_wf ops_accept phy_sample (fun _ _ => rfl)).1
        host_poll pd_sample slab_sample cmd_zero r hr).1,
      ((tick_channel_calls std std_wf ops_accept phy_sample (fun _ _ => rfl)).1
        host_poll pd_sample slab_sample cmd_zero r hr).2.1⟩,
   match h : run_calls std ops_accept phy_sample calls_sample (pd_sample, slab_sample) with
   | some st1 =>
     ⟨st1, rfl,
      ((tick_channel_calls std std_wf ops_accept phy_sample (fun _ _ => rfl)).2.2.2
        calls_sample (pd_sample, slab_sample) st1 rfl h).1,
      fun r hr =>
        ⟨(((tick_channel_calls std std_wf ops_accept phy_sample (fun _ _ => rfl)).2.2.2
            calls_sample (pd_sample, slab_sample) st1 rfl h).2 host_poll cmd_zero r hr).1,
         (((tick_channel_calls std std_wf ops_accept phy_sample (fun _ _ => rfl)).2.2.2
            calls_sample (pd_sample, slab_sample) st1 rfl h).2 host_poll cmd_zero r hr).2.1⟩⟩
   | none => absurd h (by decide)⟩

/-! ## The record handed to the application -/

theorem untouched_reply_id (K : Consts) (pd : osdp_pd) (slab : osdp_slab) (reply : osdp_cmd)
    (buf : List Nat) :
    (decode_finish K (decode_init pd slab reply buf)).reply.id = K.REPLY_NAK := by
  rw [decode_untouched]
  rfl

theorem leak_reply_id (K : Consts) (pd : osdp_pd) (slab s : osdp_slab) (reply : osdp_cmd)
    (buf : List Nat) (p : Nat) :
    (decode_finish K { decode_init pd slab reply buf with slab := s, pos := p }).reply.id
      = K.REPLY_NAK := by
  simp [decode_init, decode_finish, reply_nak]

theorem nak_reply_id (K : Consts) (hK : K.WF) (pd : osdp_pd) (slab : osdp_slab)
    (reply : osdp_cmd) (buf : List Nat) (code : Nat) :
    (decode_finish K
      { decode_init pd slab reply buf with
        reply := reply_nak K (decode_init pd slab reply buf).reply code }).reply.id
      = K.REPLY_NAK := by
  have hnak := reply_pos K hK K.REPLY_NAK (by simp [Consts.reply_ids])
  simp [decode_init, decode_finish, reply_nak, hnak]

/-- The six commands that enqueue have six different codes. -/
theorem six_ne (K : Consts) (hK : K.WF) :
    K.CMD_OUT ≠ K.CMD_LED ∧
    K.CMD_OUT ≠ K.CMD_BUZ ∧
    K.CMD_OUT ≠ K.CMD_TEXT ∧
    K.CMD_OUT ≠ K.CMD_COMSET ∧
    K.CMD_OUT ≠ K.CMD_KEYSET ∧
    K.CMD_LED ≠ K.CMD_BUZ ∧
    K.CMD_LED ≠ K.CMD_TEXT ∧
    K.CMD_LED ≠ K.CMD_COMSET ∧
    K.CMD_LED ≠ K.CMD_KEYSET ∧
    K.CMD_BUZ ≠ K.CMD_TEXT ∧
    K.CMD_BUZ ≠ K.CMD_COMSET ∧
    K.CMD_BUZ ≠ K.CMD_KEYSET ∧
    K.CMD_TEXT ≠ K.CMD_COMSET ∧
    K.CMD_TEXT ≠ K.CMD_KEYSET ∧
    K.CMD_COMSET ≠ K.CMD_KEYSET := by
  have hn := hK.cmds_nodup
  simp only [Consts.cmd_labels, List.nodup_cons, List.mem_cons, List.mem_singleton,
    not_or] at hn
  refine ⟨?_, ?_, ?_, ?_, ?_, ?_, ?_, ?_, ?_, ?_, ?_, ?_, ?_, ?_, ?_⟩
  all_goals
    intro e
    simp [e] at hn

theorem record_out (K : Consts) (hK : K.WF) (ops : ScOps) (pd : osdp_pd)
    (slab : osdp_slab) (reply : osdp_cmd) (buf : List Nat) (len : Int) (l : List Nat)
    (hq : is_queue slab pd.queue l) (hc : rd buf 0 = K.CMD_OUT) :
    ∃ st, pd_decode_command K ops pd slab reply buf len = some st ∧
      (st.reply.id ≠ K.REPLY_NAK →
        len - 1 = 4 ∧
        ∃ j b, blk slab j = some ⟨false, b⟩ ∧ is_queue st.slab st.pd.queue (l ++ [j]) ∧
          queue_cmds st.slab (l ++ [j]) = queue_cmds slab l ++ [payload (fill_out buf 1 b)]) := by
  have hr0 := reply_pos K hK K.REPLY_OSTATR (by simp [Consts.reply_ids])
  unfold pd_decode_command
  rw [switch_out K hK ops _ buf _ hc]
  unfold decode_out
  by_cases hl : len - 1 ≠ 4
  · rw [if_pos hl]
    exact ⟨_, rfl, fun hne => absurd (untouched_reply_id K pd slab reply buf) hne⟩
  · rw [if_neg hl]
    cases halloc : osdp_slab_alloc slab with
    | none =>
      simp only [decode_init_slab, halloc]
      exact ⟨_, rfl, fun hne => absurd (untouched_reply_id K pd slab reply buf) hne⟩
    | some a =>
      obtain ⟨j, s1⟩ := a
      simp only [decode_init_slab, halloc]
      obtain ⟨st, b, q, he, _, hpd, hq3, hcm, hb⟩ :=
        enqueue_exact K pd slab s1 reply buf l j ((decode_init pd slab reply buf).pos + 4)
          K.REPLY_OSTATR (fill_out buf (decode_init pd slab reply buf).pos) hq halloc hr0
      refine ⟨st, he, fun _ => ⟨by omega, j, b, hb, ?_, hcm⟩⟩
      rw [hpd]
      exact hq3

theorem record_led (K : Consts) (hK : K.WF) (ops : ScOps) (pd : osdp_pd)
    (slab : osdp_slab) (reply : osdp_cmd) (buf : List Nat) (len : Int) (l : List Nat)
    (hq : is_queue slab pd.queue l) (hc : rd buf 0 = K.CMD_LED) :
    ∃ st, pd_decode_command K ops pd slab reply buf len = some st ∧
      (st.reply.id ≠ K.REPLY_NAK →
        len - 1 = 14 ∧
        ∃ j b, blk slab j = some ⟨false, b⟩ ∧ is_queue st.slab st.pd.queue (l ++ [j]) ∧
          queue_cmds st.slab (l ++ [j]) = queue_cmds slab l ++ [payload (fill_led buf 1 b)]) := by
  have hr0 := reply_pos K hK K.REPLY_ACK (by simp [Consts.reply_ids])
  unfold pd_decode_command
  rw [switch_led K hK ops _ buf _ hc]
  unfold decode_led
  by_cases hl : len - 1 ≠ 14
  · rw [if_pos hl]
    exact ⟨_, rfl, fun hne => absurd (untouched_reply_id K pd slab reply buf) hne⟩
  · rw [if_neg hl]
    cases halloc : osdp_slab_alloc slab with
    | none =>
      simp only [decode_init_slab, halloc]
      exact ⟨_, rfl, fun hne => absurd (untouched_reply_id K pd slab reply buf) hne⟩
    | some a =>
      obtain ⟨j, s1⟩ := a
      simp only [decode_init_slab, halloc]
      obtain ⟨st, b, q, he, _, hpd, hq3, hcm, hb⟩ :=
        enqueue_exact K pd slab s1 reply buf l j ((decode_init pd slab reply buf).pos + 14)
          K.REPLY_ACK (fill_led buf (decode_init pd slab reply buf).pos) hq halloc hr0
      refine ⟨st, he, fun _ => ⟨by omega, j, b, hb, ?_, hcm⟩⟩
      rw [hpd]
      exact hq3

theorem record_buz (K : Consts) (hK : K.WF) (ops : ScOps) (pd : osdp_pd)
    (slab : osdp_slab) (reply : osdp_cmd) (buf : List Nat) (len : Int) (l : List Nat)
    (hq : is_queue slab pd.queue l) (hc : rd buf 0 = K.CMD_BUZ) :
    ∃ st, pd_decode_command K ops pd slab reply buf len = some st ∧
      (st.reply.id ≠ K.REPLY_NAK →
        len - 1 = 5 ∧
        ∃ j b, blk slab j = some ⟨false, b⟩ ∧ is_queue st.slab st.pd.queue (l ++ [j]) ∧
          queue_cmds st.slab (l ++ [j]) = queue_cmds slab l ++ [payload (fill_buz buf 1 b)]) := by
  have hr0 := reply_pos K hK K.REPLY_ACK (by simp [Consts.reply_ids])
  unfold pd_decode_command
  rw [switch_buz K hK ops _ buf _ hc]
  unfold decode_buz
  by_cases hl : len - 1 ≠ 5
  · rw [if_pos hl]
    exact ⟨_, rfl, fun hne => absurd (untouched_reply_id K pd slab reply buf) hne⟩
  · rw [if_neg hl]
    cases halloc : osdp_slab_alloc slab with
    | none =>
      simp only [decode_init_slab, halloc]
      exact ⟨_, rfl, fun hne => absurd (untouched_reply_id K pd slab reply buf) hne⟩
    | some a =>
      obtain ⟨j, s1⟩ := a
      simp only [decode_init_slab, halloc]
      obtain ⟨st, b, q, he, _, hpd, hq3, hcm, hb⟩ :=
        enqueue_exact K pd slab s1 reply buf l j ((decode_init pd slab reply buf).pos + 5)
          K.REPLY_ACK (fill_buz buf (decode_init pd slab reply buf).pos) hq halloc hr0
      refine ⟨st, he, fun _ => ⟨by omega, j, b, hb, ?_, hcm⟩⟩
      rw [hpd]
      exact hq3

theorem record_comset (K : Consts) (hK : K.WF) (ops : ScOps) (pd : osdp_pd)
    (slab : osdp_slab) (reply : osdp_cmd) (buf : List Nat) (len : Int) (l : List Nat)
    (hq : is_queue slab pd.queue l) (hc : rd buf 0 = K.CMD_COMSET) :
    ∃ st, pd_decode_command K ops pd slab reply buf len = some st ∧
      (st.reply.id ≠ K.REPLY_NAK →
        len - 1 = 5 ∧
        ∃ j b, blk slab j = some ⟨false, b⟩ ∧ is_queue st.slab st.pd.queue (l ++ [j]) ∧
          queue_cmds st.slab (l ++ [j]) = queue_cmds slab l ++ [payload (fill_comset buf 1 b)]) := by
  have hr0 := reply_pos K hK K.REPLY_COM (by simp [Consts.reply_ids])
  unfold pd_decode_command
  rw [switch_comset K hK ops _ buf _ hc]
  unfold decode_comset
  by_cases hl : len - 1 ≠ 5
  · rw [if_pos hl]
    exact ⟨_, rfl, fun hne => absurd (untouched_reply_id K pd slab reply buf) hne⟩
  · rw [if_neg hl]
    cases halloc : osdp_slab_alloc slab with
    | none =>
      simp only [decode_init_slab, halloc]
      exact ⟨_, rfl, fun hne => absurd (untouched_reply_id K pd slab reply buf) hne⟩
    | some a =>
      obtain ⟨j, s1⟩ := a
      simp only [decode_init_slab, halloc]
      obtain ⟨st, b, q, he, _, hpd, hq3, hcm, hb⟩ :=
        enqueue_exact K pd slab s1 reply buf l j ((decode_init pd slab reply buf).pos + 5)
          K.REPLY_COM (fill_comset buf (decode_init pd slab reply buf).pos) hq halloc hr0
      refine ⟨st, he, fun _ => ⟨by omega, j, b, hb, ?_, hcm⟩⟩
      rw [hpd]
      exact hq3

theorem record_text (K : Consts) (hK : K.WF) (ops : ScOps) (pd : osdp_pd)
    (slab : osdp_slab) (reply : osdp_cmd) (buf : List Nat) (len : Int) (l : List Nat)
    (hq : is_queue slab pd.queue l) (hc : rd buf 0 = K.CMD_TEXT) :
    ∃ st, pd_decode_command K ops pd slab reply buf len = some st ∧
      (st.reply.id ≠ K.REPLY_NAK →
        7 ≤ len - 1 ∧ rd buf 6 ≤ 32 ∧
        ∃ j b, blk slab j = some ⟨false, b⟩ ∧ is_queue st.slab st.pd.queue (l ++ [j]) ∧
          queue_cmds st.slab (l ++ [j])
            = queue_cmds slab l ++ [payload (fill_text_data buf 1 (fill_text_head buf 1 b))]) := by
  have hr0 := reply_pos K hK K.REPLY_ACK (by simp [Consts.reply_ids])
  unfold pd_decode_command
  rw [switch_text K hK ops _ buf _ hc]
  unfold decode_text
  by_cases hl : len - 1 < 7
  · rw [if_pos hl]
    exact ⟨_, rfl, fun hne => absurd (untouched_reply_id K pd slab reply buf) hne⟩
  · rw [if_neg hl]
    cases halloc : osdp_slab_alloc slab with
    | none =>
      simp only [decode_init_slab, halloc]
      exact ⟨_, rfl, fun hne => absurd (untouched_reply_id K pd slab reply buf) hne⟩
    | some a =>
      obtain ⟨j, s1⟩ := a
      simp only [decode_init_slab, halloc]
      by_cases hL : rd buf ((decode_init pd slab reply buf).pos + 5) > 32
      · rw [if_pos hL]
        exact ⟨_, rfl, fun hne => absurd (leak_reply_id K pd slab _ reply buf _) hne⟩
      · rw [if_neg hL, slab_update_twice]
        obtain ⟨st, b, q, he, _, hpd, hq3, hcm, hb⟩ :=
          enqueue_exact K pd slab s1 reply buf l j
            ((decode_init pd slab reply buf).pos + 6
              + rd buf ((decode_init pd slab reply buf).pos + 5))
            K.REPLY_ACK
            (fun c => fill_text_data buf (decode_init pd slab reply buf).pos
              (fill_text_head buf (decode_init pd slab reply buf).pos c)) hq halloc hr0
        refine ⟨st, he, fun _ => ⟨by omega, Nat.le_of_not_lt hL, j, b, hb, ?_, hcm⟩⟩
        rw [hpd]
        exact hq3

theorem record_keyset (K : Consts) (hK : K.WF) (ops : ScOps) (pd : osdp_pd)
    (slab : osdp_slab) (reply : osdp_cmd) (buf : List Nat) (len : Int) (l : List Nat)
    (hq : is_queue slab pd.queue l) (hc : rd buf 0 = K.CMD_KEYSET) :
    ∃ st, pd_decode_command K ops pd slab reply buf len = some st ∧
      (st.reply.id ≠ K.REPLY_NAK →
        len - 1 = 18 ∧ rd buf 1 = 1 ∧ rd buf 2 = 16 ∧
        ∃ j b, blk slab j = some ⟨false, b⟩ ∧ is_queue st.slab st.pd.queue (l ++ [j]) ∧
          queue_cmds st.slab (l ++ [j]) = queue_cmds slab l ++ [payload (fill_keyset buf 1 b)]) := by
  have hr0 := reply_pos K hK K.REPLY_ACK (by simp [Consts.reply_ids])
  unfold pd_decode_command
  rw [switch_keyset K hK ops _ buf _ hc]
  unfold decode_keyset
  by_cases hl : len - 1 ≠ 18
  · rw [if_pos hl]
    exact ⟨_, rfl, fun hne => absurd (untouched_reply_id K pd slab reply buf) hne⟩
  · rw [if_neg hl]
    by_cases hsc : ISSET_FLAG (decode_init pd slab reply buf).pd.flags K.PD_FLAG_SC_ACTIVE = false
    · rw [if_pos hsc]
      exact ⟨_, rfl, fun hne => absurd (nak_reply_id K hK pd slab reply buf _) hne⟩
    · rw [if_neg hsc]
      by_cases hk : rd buf (decode_init pd slab reply buf).pos ≠ 1 ∨
          rd buf ((decode_init pd slab reply buf).pos + 1) ≠ 16
      · rw [if_pos hk]
        exact ⟨_, rfl, fun hne => absurd (untouched_reply_id K pd slab reply buf) hne⟩
      · rw [if_neg hk]
        have hk1 : rd buf 1 = 1 := not_not.mp (fun h => hk (Or.inl h))
        have hk2 : rd buf 2 = 16 := not_not.mp (fun h => hk (Or.inr h))
        cases halloc : osdp_slab_alloc slab with
        | none =>
          simp only [decode_init_slab, halloc]
          exact ⟨_, rfl, fun hne => absurd (untouched_reply_id K pd slab reply buf) hne⟩
        | some a =>
          obtain ⟨j, s1⟩ := a
          obtain ⟨hjl, ⟨b, hbj2, hb0⟩, hq2, hc2⟩ :=
            alloc_fresh slab s1 j pd.queue l
              (fill_keyset buf (decode_init pd slab reply buf).pos) halloc hq
          obtain ⟨q, s3, henq, hq3, hpay, -⟩ :=
            pd_enqueue_command_spec
              (store_scbk (decode_init pd slab reply buf).pd buf
                (decode_init pd slab reply buf).pos)
              (slab_update s1 j (fill_keyset buf (decode_init pd slab reply buf).pos)) l j _
              hq2 hjl hbj2 rfl
          simp only [decode_init_slab, halloc, henq, Option.map_some']
          rw [decode_finish_ok K _ _ hr0]
          refine ⟨_, rfl, fun _ => ⟨by omega, hk1, hk2, j, b, hb0, hq3, ?_⟩⟩
          exact enqueue_cmds slab _ s3 l j _ hbj2 hc2 hpay

/-- C12: on a PD whose queue holds the blocks `l`, `pd_decode_command`
returns, and no partial record reaches the application. If the reply is
REPLY_NAK, the PD record is as before except for `cmd_id` and `reply_id`
(secure-channel block with SCBK, `cp_random` and `cp_cryptogram`, flags and
queue record unchanged) and the queue holds the same commands in the same
blocks. If the reply to OUT, LED, BUZ, TEXT, COMSET or KEYSET is not
REPLY_NAK, the queue holds the former commands followed by exactly one new
command `c`, in a block `j` that was free, and `c` is the complete record of
the command: the length is the one the record needs (OUT 4, LED 14, BUZ 5,
COMSET 5, KEYSET 18 payload bytes, TEXT at least 7), `c.id` is the command id,
and every field of the record has been written from the buffer cell of its
place (two cells for the timers, four for the baud rate, `text.length` cells
for the text, 16 for the key; the permanent LED timer, which the command does
not carry, is as the block held it). The text cells lie within the received
bytes when 6 + `text.length` does not exceed the payload length, which the
code does not check. -/
theorem no_partial_record (K : Consts) (hK : K.WF) (ops : ScOps) (pd : osdp_pd)
    (slab : osdp_slab) (reply : osdp_cmd) (buf : List Nat) (len : Int) (l : List Nat)
    (hq : is_queue slab pd.queue l) :
    ∃ st, pd_decode_command K ops pd slab reply buf len = some st ∧
      (st.reply.id = K.REPLY_NAK →
        st.pd = { pd with cmd_id := rd buf 0, reply_id := K.REPLY_NAK } ∧
        st.pd.sc = pd.sc ∧ st.pd.flags = pd.flags ∧ st.pd.queue = pd.queue ∧
        is_queue st.slab st.pd.queue l ∧ queue_cmds st.slab l = queue_cmds slab l) ∧
      (st.reply.id ≠ K.REPLY_NAK →
        rd buf 0 ∈ [K.CMD_OUT, K.CMD_LED, K.CMD_BUZ, K.CMD_TEXT, K.CMD_COMSET,
          K.CMD_KEYSET] →
        ∃ j b c, blk slab j = some ⟨false, b⟩ ∧
        is_queue st.slab st.pd.queue (l ++ [j]) ∧
        queue_cmds st.slab (l ++ [j]) = queue_cmds slab l ++ [c] ∧
        (rd buf 0 = K.CMD_OUT →
          len = 5 ∧ c.id = OSDP_CMD_OUTPUT ∧
          c.output = ⟨rd buf 1, rd buf 2, (rd buf 3 ||| (rd buf 4 <<< 8)) % 2 ^ 16⟩) ∧
        (rd buf 0 = K.CMD_LED →
          len = 15 ∧ c.id = OSDP_CMD_LED ∧
          c.led.reader = rd buf 1 ∧ c.led.led_number = rd buf 2 ∧
          c.led.temporary = ⟨rd buf 3, rd buf 4, rd buf 5, rd buf 6, rd buf 7,
            (rd buf 8 ||| (rd buf 9 <<< 8)) % 2 ^ 16⟩ ∧
          c.led.permanent = ⟨rd buf 10, rd buf 11, rd buf 12, rd buf 13, rd buf 14,
            b.led.permanent.timer⟩) ∧
        (rd buf 0 = K.CMD_BUZ →
          len = 6 ∧ c.id = OSDP_CMD_BUZZER ∧
          c.buzzer = ⟨rd buf 1, rd buf 2, rd buf 3, rd buf 4, rd buf 5⟩) ∧
        (rd buf 0 = K.CMD_TEXT →
          8 ≤ len ∧ c.id = OSDP_CMD_TEXT ∧
          c.text.reader = rd buf 1 ∧ c.text.cmd = rd buf 2 ∧ c.text.temp_time = rd buf 3 ∧
          c.text.offset_row = rd buf 4 ∧ c.text.offset_col = rd buf 5 ∧
          c.text.length = rd buf 6 ∧ c.text.length ≤ 32 ∧
          (∀ i, i < c.text.length → rd c.text.data i = rd buf (7 + i)) ∧
          (6 + (c.text.length : Int) ≤ len - 1 →
            ∀ i, i < c.text.length → ((7 + i : Nat) : Int) < len)) ∧
        (rd buf 0 = K.CMD_COMSET →
          len = 6 ∧ c.id = OSDP_CMD_COMSET ∧
          c.comset = ⟨rd buf 1, (rd buf 2 ||| (rd buf 3 <<< 8) ||| (rd buf 4 <<< 16)
            ||| (rd buf 5 <<< 24)) % 2 ^ 32⟩) ∧
        (rd buf 0 = K.CMD_KEYSET →
          len = 19 ∧ c.id = OSDP_CMD_KEYSET ∧
          c.keyset.key_type = 1 ∧ c.keyset.len = 16 ∧ rd buf 1 = 1 ∧ rd buf 2 = 16 ∧
          ∀ i, i < 16 → rd c.keyset.data i = rd buf (3 + i))) := by
  obtain ⟨st, hd, -, -, hcase⟩ := decode_outcome K hK ops pd slab reply buf len l hq
  obtain ⟨d01, d02, d03, d04, d05, d12, d13, d14, d15, d23, d24, d25, d34, d35, d45⟩ := six_ne K hK
  refine ⟨st, hd, ?_, ?_⟩
  · intro hnak
    rcases hcase with ⟨-, hpd, hq2, hc2⟩ | ⟨hmem, -⟩ | ⟨hmem, -⟩
    · rw [hpd]
      exact ⟨rfl, rfl, rfl, rfl, hq2, hc2⟩
    · exact absurd hnak (enqueuing_ne_nak K hK _ _ hmem)
    · exact absurd hnak (answering_ne_nak K hK _ _ hmem)
  · intro hne hc
    simp only [List.mem_cons, List.mem_singleton, List.not_mem_nil, or_false] at hc
    rcases hc with h | h | h | h | h | h
    · obtain ⟨st2, hd2, hrec⟩ := record_out K hK ops pd slab reply buf len l hq h
      have e : st2 = st := Option.some.inj (hd2.symm.trans hd)
      rw [e] at hrec
      obtain ⟨hlen, j, b, hb, hq3, hcm⟩ := hrec hne
      refine ⟨j, b, payload (fill_out buf 1 b), hb, hq3, hcm, ?_,
        fun h2 => absurd (h.symm.trans h2) d01,
        fun h2 => absurd (h.symm.trans h2) d02,
        fun h2 => absurd (h.symm.trans h2) d03,
        fun h2 => absurd (h.symm.trans h2) d04,
        fun h2 => absurd (h.symm.trans h2) d05⟩
      intro _
      exact ⟨by omega, rfl, rfl⟩
    · obtain ⟨st2, hd2, hrec⟩ := record_led K hK ops pd slab reply buf len l hq h
      have e : st2 = st := Option.some.inj (hd2.symm.trans hd)
      rw [e] at hrec
      obtain ⟨hlen, j, b, hb, hq3, hcm⟩ := hrec hne
      refine ⟨j, b, payload (fill_led buf 1 b), hb, hq3, hcm,
        fun h2 => absurd (h2.symm.trans h) d01, ?_,
        fun h2 => absurd (h.symm.trans h2) d12,
        fun h2 => absurd (h.symm.trans h2) d13,
        fun h2 => absurd (h.symm.trans h2) d14,
        fun h2 => absurd (h.symm.trans h2) d15⟩
      intro _
      exact ⟨by omega, rfl, rfl, rfl, rfl, rfl⟩
    · obtain ⟨st2, hd2, hrec⟩ := record_buz K hK ops pd slab reply buf len l hq h
      have e : st2 = st := Option.some.inj (hd2.symm.trans hd)
      rw [e] at hrec
      obtain ⟨hlen, j, b, hb, hq3, hcm⟩ := hrec hne
      refine ⟨j, b, payload (fill_buz buf 1 b), hb, hq3, hcm,
        fun h2 => absurd (h2.symm.trans h) d02,
        fun h2 => absurd (h2.symm.trans h) d12, ?_,
        fun h2 => absurd (h.symm.trans h2) d23,
        fun h2 => absurd (h.symm.trans h2) d24,
        fun h2 => absurd (h.symm.trans h2) d25⟩
      intro _
      exact ⟨by omega, rfl, rfl⟩
    · obtain ⟨st2, hd2, hrec⟩ := record_text K hK ops pd slab reply buf len l hq h
      have e : st2 = st := Option.some.inj (hd2.symm.trans hd)
      rw [e] at hrec
      obtain ⟨hlen, hL, j, b, hb, hq3, hcm⟩ := hrec hne
      refine ⟨j, b, payload (fill_text_data buf 1 (fill_text_head buf 1 b)), hb, hq3, hcm,
        fun h2 => absurd (h2.symm.trans h) d03,
        fun h2 => absurd (h2.symm.trans h) d13,
        fun h2 => absurd (h2.symm.trans h) d23, ?_,
        fun h2 => absurd (h.symm.trans h2) d34,
        fun h2 => absurd (h.symm.trans h2) d35⟩
      intro _
      refine ⟨by omega, rfl, rfl, rfl, rfl, rfl, rfl, rfl, hL, ?_, ?_⟩
      · intro i hi
        show rd (copy_bytes _ 0 buf (1 + 6) (rd buf (1 + 5))) i = _
        rw [rd_copy_bytes, if_pos ⟨Nat.zero_le i, by simpa using hi⟩]
        rfl
      · intro hfit i hi
        have hi2 : i < rd buf 6 := hi
        have hfit2 : 6 + (rd buf 6 : Int) ≤ len - 1 := hfit
        push_cast
        omega
    · obtain ⟨st2, hd2, hrec⟩ := record_comset K hK ops pd slab reply buf len l hq h
      have e : st2 = st := Option.some.inj (hd2.symm.trans hd)
      rw [e] at hrec
      obtain ⟨hlen, j, b, hb, hq3, hcm⟩ := hrec hne
      refine ⟨j, b, payload (fill_comset buf 1 b), hb, hq3, hcm,
        fun h2 => absurd (h2.symm.trans h) d04,
        fun h2 => absurd (h2.symm.trans h) d14,
        fun h2 => absurd (h2.symm.trans h) d24,
        fun h2 => absurd (h2.symm.trans h) d34, ?_,
        fun h2 => absurd (h.symm.trans h2) d45⟩
      intro _
      exact ⟨by omega, rfl, rfl⟩
    · obtain ⟨st2, hd2, hrec⟩ := record_keyset K hK ops pd slab reply buf len l hq h
      have e : st2 = st := Option.some.inj (hd2.symm.trans hd)
      rw [e] at hrec
      obtain ⟨hlen, hk1, hk2, j, b, hb, hq3, hcm⟩ := hrec hne
      refine ⟨j, b, payload (fill_keyset buf 1 b), hb, hq3, hcm,
        fun h2 => absurd (h2.symm.trans h) d05,
        fun h2 => absurd (h2.symm.trans h) d15,
        fun h2 => absurd (h2.symm.trans h) d25,
        fun h2 => absurd (h2.symm.trans h) d35,
        fun h2 => absurd (h2.symm.trans h) d45, ?_⟩
      intro _
      refine ⟨by omega, rfl, hk1, hk2, hk1, hk2, ?_⟩
      intro i hi
      simp only [payload, fill_keyset, rd_copy_bytes]
      rw [if_pos (by omega)]
      exact congrArg (rd buf) (by omega)

/-- C12 at the sample PD with an empty queue, for the sample OUT command. -/
theorem no_partial_record_witness :
    is_queue slab_sample pd_sample.queue [] ∧
    ∃ st, pd_decode_command std ops_accept pd_sample slab_sample cmd_zero out_cmd 5 = some st ∧
      (st.reply.id = std.REPLY_NAK →
        st.pd = { pd_sample with cmd_id := rd out_cmd 0, reply_id := std.REPLY_NAK } ∧
        st.pd.sc = pd_sample.sc ∧ st.pd.flags = pd_sample.flags ∧
        st.pd.queue = pd_sample.queue ∧
        is_queue st.slab st.pd.queue [] ∧
        queue_cmds st.slab [] = queue_cmds slab_sample []) ∧
      (st.reply.id ≠ std.REPLY_NAK →
        rd out_cmd 0 ∈ [std.CMD_OUT, std.CMD_LED, std.CMD_BUZ, std.CMD_TEXT, std.CMD_COMSET,
          std.CMD_KEYSET] →
        ∃ j b c, blk slab_sample j = some ⟨false, b⟩ ∧
        is_queue st.slab st.pd.queue ([] ++ [j]) ∧
        queue_cmds st.slab ([] ++ [j]) = queue_cmds slab_sample [] ++ [c] ∧
        (rd out_cmd 0 = std.CMD_OUT →
          (5 : Int) = 5 ∧ c.id = OSDP_CMD_OUTPUT ∧
          c.output = ⟨rd out_cmd 1, rd out_cmd 2,
            (rd out_cmd 3 ||| (rd out_cmd 4 <<< 8)) % 2 ^ 16⟩) ∧
        (rd out_cmd 0 = std.CMD_LED →
          (5 : Int) = 15 ∧ c.id = OSDP_CMD_LED ∧
          c.led.reader = rd out_cmd 1 ∧ c.led.led_number = rd out_cmd 2 ∧
          c.led.temporary = ⟨rd out_cmd 3, rd out_cmd 4, rd out_cmd 5, rd out_cmd 6,
            rd out_cmd 7,
            (rd out_cmd 8 ||| (rd out_cmd 9 <<< 8)) % 2 ^ 16⟩ ∧
          c.led.permanent = ⟨rd out_cmd 10, rd out_cmd 11, rd out_cmd 12, rd out_cmd 13,
            rd out_cmd 14,
            b.led.permanent.timer⟩) ∧
        (rd out_cmd 0 = std.CMD_BUZ →
          (5 : Int) = 6 ∧ c.id = OSDP_CMD_BUZZER ∧
          c.buzzer = ⟨rd out_cmd 1, rd out_cmd 2, rd out_cmd 3, rd out_cmd 4, rd out_cmd 5⟩) ∧
        (rd out_cmd 0 = std.CMD_TEXT →
          8 ≤ (5 : Int) ∧ c.id = OSDP_CMD_TEXT ∧
          c.text.reader = rd out_cmd 1 ∧ c.text.cmd = rd out_cmd 2 ∧
          c.text.temp_time = rd out_cmd 3 ∧
          c.text.offset_row = rd out_cmd 4 ∧ c.text.offset_col = rd out_cmd 5 ∧
          c.text.length = rd out_cmd 6 ∧ c.text.length ≤ 32 ∧
          (∀ i, i < c.text.length → rd c.text.data i = rd out_cmd (7 + i)) ∧
          (6 + (c.text.length : Int) ≤ (5 : Int) - 1 →
            ∀ i, i < c.text.length → ((7 + i : Nat) : Int) < (5 : Int))) ∧
        (rd out_cmd 0 = std.CMD_COMSET →
          (5 : Int) = 6 ∧ c.id = OSDP_CMD_COMSET ∧
          c.comset = ⟨rd out_cmd 1,
            (rd out_cmd 2 ||| (rd out_cmd 3 <<< 8) ||| (rd out_cmd 4 <<< 16)
            ||| (rd out_cmd 5 <<< 24)) % 2 ^ 32⟩) ∧
        (rd out_cmd 0 = std.CMD_KEYSET →
          (5 : Int) = 19 ∧ c.id = OSDP_CMD_KEYSET ∧
          c.keyset.key_type = 1 ∧ c.keyset.len = 16 ∧ rd out_cmd 1 = 1 ∧
          rd out_cmd 2 = 16 ∧
          ∀ i, i < 16 → rd c.keyset.data i = rd out_cmd (3 + i))) :=
  ⟨⟨rfl, fun h => absurd rfl h⟩,
   no_partial_record std std_wf ops_accept pd_sample slab_sample cmd_zero out_cmd 5 []
     ⟨rfl, fun h => absurd rfl h⟩⟩

end Osdp
